import Mathlib

/-!
lkm: the PublishSource subsystem and the code around it

A shallow embedding of `stream/source.go` (the per-publication actor), of the
RTMP transmuxer `rtmp/rtmp_stream.go` and of the collaborators they call, of the
factory registry `stream/stream_factory.go`, of the HLS playlist and transmuxer
(`hls/m3u8.go`, `hls/hls_stream.go`), of the WebRTC transmuxer
`rtc/rtc_stream.go` and of `readRunArgs` in `main.go`, with the properties of
the specification stated and settled over it.

Conventions of the embedding

* Go `int`/`int64` values are `Int` (the counters modelled here stay far from
  the 64-bit bounds); byte slices are `List Nat`.
* A Go map is `GoMap`: `none` is the nil map, `some l` a map whose entries are
  the association list `l` with pairwise distinct keys.  `range` visits the
  entries in list order; results are stated for every list, hence for every
  iteration order.
* Objects shared by reference (sinks) live in a heap indexed by a pointer; the
  maps and queues hold pointers.
* A function that can panic returns `Except String`; `Except.error` is the panic.
* A `float32` duration is a rational number; a Go string is a `String`, or the
  list of its characters where it is taken apart.
* A blocking channel send that cannot complete is the outcome `blocked`.
-/

namespace Lkm

/-! ## Basic data -/

/-- A byte slice. -/
abbrev Bytes := List Nat

abbrev SinkID := Nat

abbrev TransStreamID := Nat

/-- A reference to a sink object (the value of a Go `Sink` interface). -/
abbrev SinkPtr := Nat

abbrev AVCodecID := Nat

/-- The codec id `utils.AVCodecIdNONE`. -/
def AVCodecIdNONE : AVCodecID := 0

inductive AVMediaType where
  | Audio
  | Video
  | Other
deriving DecidableEq, Repr

/-- The output protocols named in the sources (`TransStreamRtmp`, `TransStreamFlv`,
`TransStreamHls`) and the remaining tags. -/
inductive TransStreamProtocol where
  | Rtmp
  | Flv
  | Hls
  | Other (tag : Nat)
deriving DecidableEq, Repr

/-- Modelled from the spec: the `SessionState` type declaration is not among the
sources; the states are the ones the spec lists for a sink. -/
inductive SessionState where
  | Created
  | HandshakeDone
  | Wait
  | Transferring
  | Closed
deriving DecidableEq, Repr

/-- An elementary track (`utils.AVStream`). -/
structure AVStream where
  Index : Int
  Type_ : AVMediaType
  CodecId : AVCodecID
  Extra : Bytes
deriving DecidableEq, Repr

/-- A demuxed frame (`utils.AVPacket`). -/
structure AVPacket where
  Index : Int
  MediaType : AVMediaType
  KeyFrame : Bool
  Dts : Int
  Pts : Int
  Timebase : Int
  Data : Bytes
deriving DecidableEq, Repr

/-! ## Go channels -/

/-- A buffered Go channel: the pending items, oldest first, and the capacity. -/
structure Chan (α : Type) where
  buf : List α
  cap : Nat
deriving DecidableEq, Repr

/-- The statement `ch <- x`.  `some ch1` is the channel after the send completed;
`none` means the send cannot complete now: the channel is nil, or it already
holds `cap` items (a send on a full or unbuffered channel waits for a receiver). -/
def chanSend {α : Type} (ch : Option (Chan α)) (x : α) : Option (Chan α) :=
  match ch with
  | none => none
  | some c => if c.buf.length < c.cap then some { c with buf := c.buf ++ [x] } else none

/-- How a call that performs a blocking send ends. -/
inductive SendOutcome (σ : Type) where
  | returned (s : σ) (err : Option String)
  | blocked
deriving DecidableEq, Repr

/-! ## Go maps -/

/-- A Go map; `none` is the nil map. -/
abbrev GoMap (κ ν : Type) := Option (List (κ × ν))

namespace GoMap

variable {κ ν : Type} [DecidableEq κ]

/-- The entries, in iteration order (a nil map has none). -/
def toList (m : GoMap κ ν) : List (κ × ν) := m.getD []

/-- The read `m[k]` with the comma-ok flag folded into the option. -/
def get? (m : GoMap κ ν) (k : κ) : Option ν :=
  (m.toList.find? (fun e => e.1 == k)).map Prod.snd

/-- Replace the value under `k`, or append a new entry. -/
def insertList (l : List (κ × ν)) (k : κ) (v : ν) : List (κ × ν) :=
  if l.any (fun e => e.1 == k) then l.map (fun e => if e.1 == k then (k, v) else e)
  else l ++ [(k, v)]

/-- The assignment `m[k] = v`; it panics on a nil map. -/
def set (m : GoMap κ ν) (k : κ) (v : ν) : Except String (GoMap κ ν) :=
  match m with
  | none => .error "assignment to entry in nil map"
  | some l => .ok (some (insertList l k v))

/-- The builtin `delete(m, k)`; a no-op on a nil map. -/
def delete (m : GoMap κ ν) (k : κ) : GoMap κ ν :=
  m.map (fun l => l.filter (fun e => !(e.1 == k)))

/-- The keys, in iteration order. -/
def keys (m : GoMap κ ν) : List κ := m.toList.map Prod.fst

end GoMap

/-! ## Collaborators of the source -/

/-- Modelled from the spec: the packet pool (`collections.MemoryPool`) is not among
the sources.  The model keeps its size and counts the calls the source makes. -/
structure MemoryPool where
  capacity : Int
  resets : Nat
  freeHeads : Nat
  freeTails : Nat
deriving DecidableEq, Repr

/-- Modelled from the spec: the GOP cache (`GOPBuffer`) is not among the sources.
It is an ordered sequence of packets. -/
structure GOPBuffer where
  packets : List AVPacket
  hasDiscardHandler : Bool
  closed : Bool
deriving DecidableEq, Repr

/-- A `time.Timer`. -/
structure Timer where
  duration : Int
  stopped : Bool
deriving DecidableEq, Repr

/-- One call of `Sink.Write`. -/
structure SinkWrite where
  index : Int
  data : List Bytes
  timestamp : Int
deriving DecidableEq, Repr

/-- Modelled from the spec: the sink implementation (`BaseSink`) is not among the
sources.  The fields are the ones the spec and `rtmp.NewSink` name; `written`,
`startCalls`, `stopCalls` and `closeCalls` record the calls of `Write`,
`StartStreaming`, `StopStreaming` and `Close` made on the sink. -/
structure Sink where
  ID : SinkID
  SourceID : String
  Protocol : TransStreamProtocol
  State : SessionState
  TransStreamID : TransStreamID
  DesiredAudioCodecId_ : AVCodecID
  DesiredVideoCodecId_ : AVCodecID
  TCPStreaming : Bool
  SentPacketCount : Int
  enableVideo : Bool
  Ready : Bool
  transportConn : Bool
  asyncWrite : Option Int
  written : List SinkWrite
  startCalls : Nat
  stopCalls : Nat
  closeCalls : Nat
deriving DecidableEq, Repr

/-- Modelled from the spec: the merge-writing buffer (`MergeWritingBuffer`) is not
among the sources.  It accumulates the frames of the segment in progress; a
segment is emitted by `FlushSegment`, or by `PeekCompletedSegment` once the
accumulated duration reaches the latency. `sinceKey` holds the segments emitted
since the last video keyframe. -/
structure MergeWritingBuffer where
  existVideo : Bool
  latency : Int
  pending : Bytes
  startTs : Int
  lastTs : Int
  hasKey : Bool
  sinceKey : List Bytes
deriving DecidableEq, Repr

/-- An RTMP chunk header state (`librtmp.Chunk`): the fields `Input` assigns. -/
structure Chunk where
  Length : Int
  Timestamp : Int
deriving DecidableEq, Repr

/-- The fields of `rtmp.transStream` (rtmp/rtmp_stream.go) and of the embedded
`TCPTransStream` that its methods use. -/
structure RtmpStream where
  chunkSize : Int
  header : Bytes
  headerSize : Int
  muxerReady : Bool
  audioChunk : Chunk
  videoChunk : Chunk
  MWBuffer : Option MergeWritingBuffer
  OutBuffer : List Bytes
deriving DecidableEq, Repr

/-- A call made on a transmuxer whose implementation is not modelled. -/
inductive TSCall where
  | input (p : AVPacket)
  | readKeyFrameBuffer
  | close
deriving DecidableEq, Repr

/-- The concrete type behind a `TransStream` interface value: the RTMP
transmuxer of rtmp/rtmp_stream.go, or another implementation, which is
represented by the calls made on it so far. -/
inductive TSImpl where
  | rtmp (t : RtmpStream)
  | other (calls : List TSCall)
deriving DecidableEq, Repr

/-- A transmuxer object: the `BaseTransStream` fields and the implementation. -/
structure TransStream where
  ID : TransStreamID
  Protocol : TransStreamProtocol
  Tracks : List AVStream
  ExistVideo : Bool
  Completed : Bool
  impl : TSImpl
deriving DecidableEq, Repr

/-- A reference to a transmuxer object (the value of a `TransStream` interface). -/
abbrev TSPtr := Nat

/-- What `TransStream.Input` returns. -/
structure TSOutput where
  data : List Bytes
  timestamp : Int
  videoKey : Bool
  err : Bool
deriving DecidableEq, Repr

/-- The closures posted on `mainContextEvents`. -/
inductive Event where
  | AddSink (sink : SinkPtr)
  | RemoveSink (sink : SinkPtr)
  | RemoveSinkWithID (id : SinkID)
  | FindSink (id : SinkID)
  | Close
  | ProbeTimeout
  | Sinks
deriving DecidableEq, Repr

/-- The outbound notifications. -/
inductive HookEvent where
  | PlayDone (sink : SinkPtr)
  | PublishDone (source : String)
  | Record (source : String) (path : String)
deriving DecidableEq, Repr

/-- The struct `PublishSource` of stream/source.go.  `hlsStream` refers to the
transmuxer object by pointer, as the maps do; the two transcoder slices, which
no function of the file reads or writes, are left out. -/
structure PublishSource where
  ID : String
  Type_ : Nat
  state : SessionState
  Conn : Option Nat
  TransDeMuxer : Option Nat
  recordSink : Option SinkPtr
  recordFilePath : String
  hlsStream : Option TSPtr
  originStreams : List AVStream
  allStreams : List AVStream
  pktBuffers : Mathlib.Vector (Option MemoryPool) 8
  gopBuffer : Option GOPBuffer
  closed : Bool
  completed : Bool
  existVideo : Bool
  probeTimer : Option Timer
  receiveDataTimer : Option Timer
  idleTimer : Option Timer
  TransStreams : GoMap TransStreamID TSPtr
  sinks : GoMap SinkID SinkPtr
  TransStreamSinks : GoMap TransStreamID (GoMap SinkID SinkPtr)
  streamPipe : Option (Chan Bytes)
  mainContextEvents : Option (Chan Event)
  lastPacketTime : Int
  lastStreamEndTime : Int
  sinkCount : Int
  urlValues : List (String × String)
  timeoutTracks : List Int
  createTime : Int
deriving DecidableEq

/-- The source together with the process state its functions reach: the sink and
transmuxer objects, the waiting-sink registry and the observable calls made on
the global managers, the connections and the hook bus.  `doAddSinkCalls` is a
trace: the arguments of the calls of `doAddSink`, in order. -/
structure World where
  s : PublishSource
  sinkObj : SinkPtr → Sink
  tsObj : TSPtr → TransStream
  nextTS : TSPtr
  WaitingSinks : List (String × List SinkPtr)
  hooks : List HookEvent
  sourceManagerRemoved : List String
  sinkManagerRemoved : List SinkID
  closedConns : List Nat
  closedDeMuxers : List Nat
  doAddSinkCalls : List SinkPtr

/-! ## The environment: configuration and external code -/

/-- The functions of the avformat library that the RTMP transmuxer calls
(`utils.AVPacket`, `libflv.Muxer`, `librtmp.Chunk`).  They are outside the
repository and are taken as parameters; a function that fills a buffer is
represented by the bytes it writes. -/
structure RtmpLib where
  ConvertDts : AVPacket → Int → Int
  ConvertPts : AVPacket → Int → Int
  AVCCPacketData : AVPacket → Bytes
  MP4ExtraData : AVStream → Bytes
  ComputeVideoDataSize : Int → Int
  WriteVideoData : Int → Bool → Bool → Bytes
  WriteAudioData : Bool → Bytes
  ChunkToBytes : Bool → Chunk → Bytes
  ChunkWriteData : Bool → Bytes → Int → Int → Bytes
  ChunkSize : Int

/-- The global configuration `AppConfig`, the registries that the source only
reads, and the behaviour of the code outside the repository. -/
structure Env where
  GOPCache : Bool
  GOPBufferSize : Int
  ProbeTimeout : Int
  MergeWriteLatency : Int
  RecordEnable : Bool
  HlsEnable : Bool
  GenerateTransStreamID : TransStreamProtocol → List AVStream → TransStreamID
  transStreamFactories : TransStreamProtocol → Option (List AVStream → Option TransStream)
  recordStreamFactory : Option (String → Option (SinkPtr × String))
  sinkWriteErr : Sink → Int → List Bytes → Int → Bool
  sinkStartErr : Sink → TransStream → Bool
  otherInput : TransStream → AVPacket → TSOutput
  otherExtraData : TransStream → Int → List Bytes
  otherKeyFrameBuffer : TransStream → List Bytes × Int
  otherClose : TransStream → List Bytes × Int
  OutStreamBufferCapacity : TransStream → Int
  lib : RtmpLib

/-- The helper `utils.Assert`: it panics when the condition is false. -/
def Assert (c : Bool) : Except String Unit :=
  if c then .ok () else .error "assert"

/-! ## Sinks -/

namespace Sink

/-- Modelled from the spec: `Write(trackIdx, segments, ts) -> err`.  The call is
recorded; whether it fails is decided by the environment. -/
def Write (env : Env) (k : Sink) (index : Int) (data : List Bytes) (timestamp : Int) :
    Sink × Bool :=
  ({ k with written := k.written ++ [⟨index, data, timestamp⟩] },
    env.sinkWriteErr k index data timestamp)

/-- Modelled from the spec: `IncreaseSentPacketCount` adds one to the per-sink
send counter. -/
def IncreaseSentPacketCount (k : Sink) : Sink :=
  { k with SentPacketCount := k.SentPacketCount + 1 }

/-- Modelled from the spec: `StartStreaming(ts)`; the error is the environment's. -/
def StartStreaming (env : Env) (k : Sink) (ts : TransStream) : Sink × Bool :=
  ({ k with startCalls := k.startCalls + 1 }, env.sinkStartErr k ts)

/-- Modelled from the spec: `StopStreaming(ts)`. -/
def StopStreaming (k : Sink) : Sink :=
  { k with stopCalls := k.stopCalls + 1 }

/-- Modelled from the spec: `Close()` ends the session of the sink. -/
def Close (k : Sink) : Sink :=
  { k with closeCalls := k.closeCalls + 1, State := SessionState.Closed }

end Sink

/-! ## The waiting-sink registry -/

/-- Modelled from the spec: `AddSinkToWaitingQueue(id, sink)` appends the sink to
the list registered under `id` (the registry is not among the sources). -/
def AddSinkToWaitingQueue (q : List (String × List SinkPtr)) (id : String) (sink : SinkPtr) :
    List (String × List SinkPtr) :=
  if q.any (fun e => e.1 == id) then
    q.map (fun e => if e.1 == id then (e.1, e.2 ++ [sink]) else e)
  else q ++ [(id, [sink])]

/-- The list waiting under `id`. -/
def waitingOf (q : List (String × List SinkPtr)) (id : String) : List SinkPtr :=
  ((q.find? (fun e => e.1 == id)).map Prod.snd).getD []

/-- Modelled from the spec: `PopWaitingSinks(id)` removes the list registered
under `id` and returns it. -/
def PopWaitingSinks (q : List (String × List SinkPtr)) (id : String) :
    List SinkPtr × List (String × List SinkPtr) :=
  (waitingOf q id, q.filter (fun e => !(e.1 == id)))

/-! ## The merge-writing buffer -/

namespace MergeWritingBuffer

/-- Modelled from the spec: `NewMergeWritingBuffer(existVideo)`. -/
def new (existVideo : Bool) (latency : Int) : MergeWritingBuffer :=
  { existVideo := existVideo, latency := latency, pending := [], startTs := 0, lastTs := 0,
    hasKey := false, sinceKey := [] }

/-- Modelled from the spec: `FlushSegment()` emits the segment in progress, if any. -/
def FlushSegment (b : MergeWritingBuffer) : MergeWritingBuffer × Bytes :=
  if b.pending.isEmpty then (b, [])
  else ({ b with pending := [], sinceKey := if b.hasKey then b.sinceKey ++ [b.pending] else [] },
    b.pending)

/-- Modelled from the spec: `Allocate(n, dts, isVideoKey)` reserves a slot in the
segment in progress; `bytes` is what the caller then writes into the slot.  A
video keyframe starts the key-frame range anew. -/
def Allocate (b : MergeWritingBuffer) (bytes : Bytes) (dts : Int) (videoKey : Bool) :
    MergeWritingBuffer :=
  { b with
    pending := b.pending ++ bytes
    startTs := if b.pending.isEmpty then dts else b.startTs
    lastTs := dts
    hasKey := b.hasKey || videoKey
    sinceKey := if videoKey then [] else b.sinceKey }

/-- Modelled from the spec: `PeekCompletedSegment()` returns the segment in
progress once its accumulated duration has reached the latency. -/
def PeekCompletedSegment (b : MergeWritingBuffer) : MergeWritingBuffer × Bytes :=
  if b.latency ≤ b.lastTs - b.startTs then b.FlushSegment else (b, [])

/-- Modelled from the spec: `ReadSegmentsFromKeyFrameIndex` visits what the buffer
holds from the last keyframe onwards. -/
def ReadSegmentsFromKeyFrameIndex (b : MergeWritingBuffer) : List Bytes :=
  if b.hasKey then b.sinceKey ++ (if b.pending.isEmpty then [] else [b.pending]) else []

end MergeWritingBuffer

/-! ## The RTMP transmuxer (rtmp/rtmp_stream.go) -/

namespace Rtmp

/-- The conversion `uint32(x)`. -/
def uint32 (x : Int) : Int := x % 4294967296

/-- Lines 24-93 of the method `transStream.Input`: everything before its `return`.
The local `chunk` is nil for a packet that is neither audio nor video, and
`MWBuffer` is nil before `WriteHeader`; using either panics.  The three library
writes fill the allocated slot from its start, and the assertion
`len(allocate) == n` compares the slot with the bytes written. -/
def mux (env : Env) (t : RtmpStream) (packet : AVPacket) : Except String RtmpStream :=
  let lib := env.lib
  let dts := lib.ConvertDts packet 1000
  let pts := lib.ConvertPts packet 1000
  let ct := pts - dts
  let isAudio : Bool := packet.MediaType == AVMediaType.Audio
  let videoPkt : Bool := !isAudio && packet.MediaType == AVMediaType.Video
  let videoKey : Bool := videoPkt && packet.KeyFrame
  let data : Bytes :=
    if isAudio then packet.Data else if videoPkt then lib.AVCCPacketData packet else []
  let chunkPayloadOffset : Int :=
    if isAudio then 2 else if videoPkt then lib.ComputeVideoDataSize (uint32 ct) else 0
  let payloadSize : Int :=
    if isAudio || videoPkt then chunkPayloadOffset + data.length else 0
  match t.MWBuffer with
  | none => .error "nil MWBuffer"
  | some mw0 =>
    let flushed := if videoKey then mw0.FlushSegment else (mw0, [])
    let out1 : List Bytes := if flushed.2.length > 0 then [flushed.2] else []
    if t.chunkSize = 0 then .error "integer divide by zero"
    else
      let numChunks := (payloadSize - 1).tdiv t.chunkSize
      let rtmpMsgSize := 12 + payloadSize + numChunks +
        (if 0xFFFFFF ≤ dts ∧ dts ≤ 0xFFFFFFFF then (1 + numChunks) * 4 else 0)
      if rtmpMsgSize < 0 then .error "negative allocation"
      else if !(isAudio || videoPkt) then .error "nil chunk"
      else
        let chunk : Chunk := { Length := payloadSize, Timestamp := uint32 dts }
        let written : Bytes :=
          lib.ChunkToBytes videoPkt chunk ++
          (if videoPkt then lib.WriteVideoData (uint32 ct) packet.KeyFrame false
            else lib.WriteAudioData false) ++
          lib.ChunkWriteData videoPkt data t.chunkSize chunkPayloadOffset
        if (written.length : Int) ≠ rtmpMsgSize then .error "assert"
        else
          let mw1 := flushed.1.Allocate written dts videoKey
          let peeked := mw1.PeekCompletedSegment
          let out2 : List Bytes := if peeked.2.length > 0 then out1 ++ [peeked.2] else out1
          .ok { t with
                  audioChunk := if videoPkt then t.audioChunk else chunk
                  videoChunk := if videoPkt then chunk else t.videoChunk
                  MWBuffer := some peeked.1
                  OutBuffer := out2 }

/-- The method `transStream.Input`: the body, then line 95,
`return t.OutBuffer[:t.OutBufferSize], 0, true, nil`. -/
def Input (env : Env) (t : RtmpStream) (packet : AVPacket) :
    Except String (RtmpStream × TSOutput) :=
  match mux env t packet with
  | .error e => .error e
  | .ok t1 => .ok (t1, { data := t1.OutBuffer, timestamp := 0, videoKey := true, err := false })

/-- The method `transStream.ReadExtraData`: the sequence header. -/
def ReadExtraData (t : RtmpStream) (_timestamp : Int) : Except String (List Bytes) :=
  if t.headerSize > 0 then
    if t.headerSize ≤ 1024 then .ok [t.header.take t.headerSize.toNat]
    else .error "slice bounds out of range"
  else .error "assert"

/-- The method `transStream.ReadKeyFrameBuffer`. -/
def ReadKeyFrameBuffer (t : RtmpStream) : Except String (RtmpStream × List Bytes × Int) :=
  match t.MWBuffer with
  | none => .error "nil MWBuffer"
  | some mw =>
    let out := mw.ReadSegmentsFromKeyFrameIndex
    .ok ({ t with OutBuffer := out }, out, 0)

/-- The method `transStream.Close`: the rest of the segment in progress. -/
def Close (t : RtmpStream) : Except String (RtmpStream × List Bytes × Int) :=
  match t.MWBuffer with
  | none => .error "nil MWBuffer"
  | some mw =>
    let flushed := mw.FlushSegment
    let out : List Bytes := if flushed.2.length > 0 then [flushed.2] else []
    .ok ({ t with MWBuffer := some flushed.1, OutBuffer := out }, out, 0)

/-- The last track of the given type, as the loop of `WriteHeader` keeps it. -/
def lastOfType (tracks : List AVStream) (ty : AVMediaType) : Option AVStream :=
  (tracks.filter (fun tr => tr.Type_ == ty)).getLast?

/-- The sequence header that `WriteHeader` assembles: for the audio track a chunk
header, the FLV audio tag and the extradata, then the same for the video track. -/
def buildHeader (lib : RtmpLib) (audioStream videoStream : Option AVStream) : Bytes :=
  let audioPart : Bytes :=
    match audioStream with
    | none => []
    | some a =>
      let body := lib.WriteAudioData true ++ a.Extra
      lib.ChunkToBytes false { Length := body.length, Timestamp := 0 } ++ body
  let videoPart : Bytes :=
    match videoStream with
    | none => []
    | some v =>
      let extra := lib.MP4ExtraData v
      lib.ChunkToBytes true { Length := 5 + extra.length, Timestamp := 0 } ++
        lib.WriteVideoData 0 false true ++ extra
  audioPart ++ videoPart

/-- The method `transStream.WriteHeader`, on the base fields `b` and the RTMP
fields `t`.  The header buffer has 1024 bytes; a header that does not fit makes
the slicing panic. -/
def WriteHeader (env : Env) (b : TransStream) (t : RtmpStream) : Except String TransStream :=
  if b.Tracks.isEmpty then .error "assert"
  else if b.Completed then .error "assert"
  else
    let audioStream := lastOfType b.Tracks AVMediaType.Audio
    let videoStream := lastOfType b.Tracks AVMediaType.Video
    if audioStream.isNone && videoStream.isNone then .error "assert"
    else
      let header := buildHeader env.lib audioStream videoStream
      if 1024 < header.length then .error "slice bounds out of range"
      else
        .ok { b with
          Completed := true
          impl := TSImpl.rtmp { t with
            header := header
            headerSize := header.length
            muxerReady := true
            audioChunk :=
              match audioStream with
              | some a => { t.audioChunk with Length := (env.lib.WriteAudioData true ++ a.Extra).length }
              | none => t.audioChunk
            videoChunk :=
              match videoStream with
              | some v => { t.videoChunk with Length := 5 + (env.lib.MP4ExtraData v).length }
              | none => t.videoChunk
            MWBuffer := some (MergeWritingBuffer.new b.ExistVideo env.MergeWriteLatency) } }

/-- The constructor `NewTransStream(chunkSize)` behind `TransStreamFactory`. -/
def NewTransStream (protocol : TransStreamProtocol) (chunkSize : Int) : TransStream :=
  { ID := 0, Protocol := protocol, Tracks := [], ExistVideo := false, Completed := false,
    impl := TSImpl.rtmp
      { chunkSize := chunkSize, header := [], headerSize := 0, muxerReady := false,
        audioChunk := ⟨0, 0⟩, videoChunk := ⟨0, 0⟩, MWBuffer := none, OutBuffer := [] } }

end Rtmp

/-! ## The `TransStream` interface -/

namespace TransStream

/-- Modelled from the spec: `AddTrack(AVStream)` of the base transmuxer, which is
not among the sources: the track joins the track list, and a video track marks
the transmuxer as carrying video. -/
def AddTrack (t : TransStream) (stream : AVStream) : TransStream :=
  { t with Tracks := t.Tracks ++ [stream],
           ExistVideo := t.ExistVideo || stream.Type_ == AVMediaType.Video }

def WriteHeader (env : Env) (t : TransStream) : Except String TransStream :=
  match t.impl with
  | TSImpl.rtmp r => Rtmp.WriteHeader env t r
  | TSImpl.other _ => .ok { t with Completed := true }

def Input (env : Env) (t : TransStream) (packet : AVPacket) :
    Except String (TransStream × TSOutput) :=
  match t.impl with
  | TSImpl.rtmp r =>
    (Rtmp.Input env r packet).map (fun x => ({ t with impl := TSImpl.rtmp x.1 }, x.2))
  | TSImpl.other calls =>
    .ok ({ t with impl := TSImpl.other (calls ++ [TSCall.input packet]) }, env.otherInput t packet)

def ReadExtraData (env : Env) (t : TransStream) (timestamp : Int) : Except String (List Bytes) :=
  match t.impl with
  | TSImpl.rtmp r => Rtmp.ReadExtraData r timestamp
  | TSImpl.other _ => .ok (env.otherExtraData t timestamp)

def ReadKeyFrameBuffer (env : Env) (t : TransStream) :
    Except String (TransStream × List Bytes × Int) :=
  match t.impl with
  | TSImpl.rtmp r =>
    (Rtmp.ReadKeyFrameBuffer r).map (fun x => ({ t with impl := TSImpl.rtmp x.1 }, x.2))
  | TSImpl.other calls =>
    .ok ({ t with impl := TSImpl.other (calls ++ [TSCall.readKeyFrameBuffer]) },
      env.otherKeyFrameBuffer t)

def Close (env : Env) (t : TransStream) : Except String (TransStream × List Bytes × Int) :=
  match t.impl with
  | TSImpl.rtmp r =>
    (Rtmp.Close r).map (fun x => ({ t with impl := TSImpl.rtmp x.1 }, x.2))
  | TSImpl.other calls =>
    .ok ({ t with impl := TSImpl.other (calls ++ [TSCall.close]) }, env.otherClose t)

end TransStream

/-! ## PublishSource (stream/source.go) -/

/-- Replace the sink object behind a pointer. -/
def World.setSink (w : World) (sink : SinkPtr) (k : Sink) : World :=
  { w with sinkObj := Function.update w.sinkObj sink k }

/-- Replace the transmuxer object behind a pointer. -/
def World.setTS (w : World) (ts : TSPtr) (t : TransStream) : World :=
  { w with tsObj := Function.update w.tsObj ts t }

/-- Modelled from the spec: `StreamManager.FindStreamWithType` (the stream manager
is not among the sources): the first announced track of the type. -/
def FindStreamWithType (streams : List AVStream) (ty : AVMediaType) : Option AVStream :=
  streams.find? (fun st => st.Type_ == ty)

/-- The method `Init`. -/
def Init (s : PublishSource) (receiveQueueSize : Int) : Except String PublishSource :=
  if receiveQueueSize - 2 < 0 then .error "makechan: size out of range"
  else
    .ok { s with
      state := SessionState.HandshakeDone
      streamPipe := some { buf := [], cap := (receiveQueueSize - 2).toNat }
      mainContextEvents := some { buf := [], cap := 128 }
      TransStreams := some []
      sinks := some []
      TransStreamSinks := some [] }

/-- The method `Input`: `s.streamPipe <- data` followed by `return nil`. -/
def Input (s : PublishSource) (data : Bytes) : SendOutcome PublishSource :=
  match chanSend s.streamPipe data with
  | some ch => SendOutcome.returned { s with streamPipe := some ch } none
  | none => SendOutcome.blocked

/-- The method `PostEvent`: `s.mainContextEvents <- cb`. -/
def PostEvent (s : PublishSource) (cb : Event) : SendOutcome PublishSource :=
  match chanSend s.mainContextEvents cb with
  | some ch => SendOutcome.returned { s with mainContextEvents := some ch } none
  | none => SendOutcome.blocked

/-- The function `IsSupportMux`. -/
def IsSupportMux (_protocol : TransStreamProtocol) (_audioCodecId _videoCodecId : AVCodecID) :
    Bool :=
  true

/-- The effect of the method `write` on the sink object: `sink.Write`, and one
more sent packet when it returns no error. -/
def Sink.afterWrite (env : Env) (k : Sink) (index : Int) (data : List Bytes)
    (timestamp : Int) : Sink :=
  let r := k.Write env index data timestamp
  if r.2 then r.1 else r.1.IncreaseSentPacketCount

/-- The method `write`. -/
def write (env : Env) (w : World) (sink : SinkPtr) (index : Int) (data : List Bytes)
    (timestamp : Int) : World :=
  w.setSink sink ((w.sinkObj sink).afterWrite env index data timestamp)

/-- The body of the loop of `DispatchBuffer`, for one sink. -/
def dispatchToSink (env : Env) (transStream : TransStream) (exist : Bool) (index : Int)
    (data : List Bytes) (timestamp : Int) (videoKey : Bool) (w : World) (sink : SinkPtr) :
    Except String World :=
  if exist && decide ((w.sinkObj sink).SentPacketCount < 1) then
    if !videoKey then .ok w
    else
      match transStream.ReadExtraData env timestamp with
      | .error e => .error e
      | .ok extraData =>
        let w1 := if extraData.length > 0 then write env w sink index extraData timestamp else w
        .ok (write env w1 sink index data timestamp)
  else .ok (write env w sink index data timestamp)

/-- The loop `for _, sink := range sinks` of `DispatchBuffer`. -/
def dispatchLoop (env : Env) (transStream : TransStream) (exist : Bool) (index : Int)
    (data : List Bytes) (timestamp : Int) (videoKey : Bool) :
    List (SinkID × SinkPtr) → World → Except String World
  | [], w => .ok w
  | e :: rest, w =>
    match dispatchToSink env transStream exist index data timestamp videoKey w e.2 with
    | .error err => .error err
    | .ok w1 => dispatchLoop env transStream exist index data timestamp videoKey rest w1

/-- The sinks subscribed to a transmuxer: `s.TransStreamSinks[id]`. -/
def subscribers (s : PublishSource) (id : TransStreamID) : GoMap SinkID SinkPtr :=
  (s.TransStreamSinks.get? id).getD none

/-- The method `DispatchBuffer`. -/
def DispatchBuffer (env : Env) (w : World) (transStream : TSPtr) (index : Int)
    (data : List Bytes) (timestamp : Int) (videoKey : Bool) : Except String World :=
  let ts := w.tsObj transStream
  dispatchLoop env ts ts.ExistVideo index data timestamp videoKey
    (subscribers w.s ts.ID).toList w

/-- The method `DispatchPacket`. -/
def DispatchPacket (env : Env) (w : World) (transStream : TSPtr) (packet : AVPacket) :
    Except String World :=
  match (w.tsObj transStream).Input env packet with
  | .error e => .error e
  | .ok (ts, out) =>
    let w1 := w.setTS transStream ts
    if out.err || decide (out.data.length < 1) then .ok w1
    else DispatchBuffer env w1 transStream packet.Index out.data out.timestamp out.videoKey

/-- The callback loop of `gopBuffer.PeekAll`. -/
def dispatchPackets (env : Env) (transStream : TSPtr) : List AVPacket → World → Except String World
  | [], w => .ok w
  | p :: rest, w =>
    match DispatchPacket env w transStream p with
    | .error e => .error e
    | .ok w1 => dispatchPackets env transStream rest w1

/-- The method `DispatchGOPBuffer`; `s.gopBuffer` is a nil interface until a GOP
buffer has been allocated, and the call on it panics. -/
def DispatchGOPBuffer (env : Env) (w : World) (transStream : TSPtr) : Except String World :=
  match w.s.gopBuffer with
  | none => .error "nil pointer dereference"
  | some g => dispatchPackets env transStream g.packets w

/-- The method `CreateTransStream`.  The second component is `none` when the
package function `CreateTransStream` returns an error. -/
def CreateTransStream (env : Env) (w : World) (id : TransStreamID)
    (protocol : TransStreamProtocol) (streams : List AVStream) :
    Except String (World × Option TSPtr) :=
  match env.transStreamFactories protocol with
  | none => .ok (w, none)
  | some factory =>
    match factory streams with
    | none => .ok (w, none)
    | some ts0 =>
      let ts1 := { streams.foldl TransStream.AddTrack ts0 with ID := id }
      match w.s.TransStreamSinks.set id (some []) with
      | .error e => .error e
      | .ok tss =>
        match ts1.WriteHeader env with
        | .error e => .error e
        | .ok ts2 =>
          .ok ({ w with
                  s := { w.s with TransStreamSinks := tss }
                  tsObj := Function.update w.tsObj w.nextTS ts2
                  nextTS := w.nextTS + 1 },
               some w.nextTS)

/-- The tracks that `doAddSink` collects in its array `streams`: every origin
stream, in order, without the video streams when video is disabled. -/
def sinkTracks (origin : List AVStream) (disableVideo : Bool) : List AVStream :=
  origin.filter (fun st => !(disableVideo && st.Type_ == AVMediaType.Video))

/-- Lines 420-430 of `doAddSink`: look the transmuxer up, or create and store it.
The result is `none` when the creation fails, else the transmuxer and the flag
`exist`. -/
def findOrCreate (env : Env) (w : World) (id : TransStreamID) (protocol : TransStreamProtocol)
    (streams : List AVStream) : Except String (World × Option (TSPtr × Bool)) :=
  match w.s.TransStreams.get? id with
  | some p => .ok (w, some (p, true))
  | none =>
    match CreateTransStream env w id protocol streams with
    | .error e => .error e
    | .ok (w1, none) => .ok (w1, none)
    | .ok (w1, some p) =>
      match w1.s.TransStreams.set id p with
      | .error e => .error e
      | .ok m => .ok ({ w1 with s := { w1.s with TransStreams := m } }, some (p, false))

/-- The assignment `s.TransStreamSinks[tsid][id] = sink`: the inner map is nil
when the outer map is nil or has no entry for `tsid`, and the assignment panics. -/
def addSubscriber (m : GoMap TransStreamID (GoMap SinkID SinkPtr)) (tsid : TransStreamID)
    (id : SinkID) (sink : SinkPtr) : Except String (GoMap TransStreamID (GoMap SinkID SinkPtr)) :=
  match (m.get? tsid).getD none with
  | none => .error "assignment to entry in nil map"
  | some _ =>
    .ok (m.map (fun entries => entries.map (fun e =>
      if e.1 == tsid then (e.1, e.2.map (fun l => GoMap.insertList l id sink)) else e)))

/-- The statements `transStreamSinks := s.TransStreamSinks[tsid]` and
`delete(transStreamSinks, id)`. -/
def removeSubscriber (m : GoMap TransStreamID (GoMap SinkID SinkPtr)) (tsid : TransStreamID)
    (id : SinkID) : GoMap TransStreamID (GoMap SinkID SinkPtr) :=
  m.map (fun entries => entries.map (fun e =>
    if e.1 == tsid then (e.1, GoMap.delete e.2 id) else e))

/-- Lines 464-471 of `doAddSink`: send the sink what the transmuxer has cached. -/
def primeSink (env : Env) (w : World) (sink : SinkPtr) (transStream : TSPtr) :
    Except String World :=
  match (w.tsObj transStream).ReadKeyFrameBuffer env with
  | .error e => .error e
  | .ok (ts, data, timestamp) =>
    let w1 := w.setTS transStream ts
    if data.length > 0 then
      match ts.ReadExtraData env timestamp with
      | .error e => .error e
      | .ok extraData =>
        let w2 := if extraData.length > 0 then write env w1 sink 0 extraData timestamp else w1
        .ok (write env w2 sink 0 data timestamp)
    else .ok w1

/-- Lines 473-487 of `doAddSink`: count the sink, record it in both maps and
replay the GOP cache through a transmuxer that was just created. -/
def registerSink (env : Env) (w : World) (sink : SinkPtr) (transStreamId : TransStreamID)
    (transStream : TSPtr) (exist : Bool) : Except String (World × Bool) :=
  let id := (w.sinkObj sink).ID
  let count := if w.s.recordSink ≠ some sink then w.s.sinkCount + 1 else w.s.sinkCount
  match w.s.sinks.set id sink with
  | .error e => .error e
  | .ok sinks1 =>
    match addSubscriber w.s.TransStreamSinks transStreamId id sink with
    | .error e => .error e
    | .ok tss =>
      let w1 := { w with s := { w.s with sinkCount := count, sinks := sinks1,
                                         TransStreamSinks := tss } }
      if !exist && env.GOPCache && w1.s.existVideo then
        match DispatchGOPBuffer env w1 transStream with
        | .error e => .error e
        | .ok w2 => .ok (w2, true)
      else .ok (w1, true)

/-- Lines 432-445 of `doAddSink` on the sink object: set the transmuxer id, move
the state to Transferring unless the sink is Closed, and call `StartStreaming`. -/
def Sink.startSession (env : Env) (k : Sink) (transStreamId : Lkm.TransStreamID)
    (ts : TransStream) : Sink × Bool :=
  let k0 := { k with TransStreamID := transStreamId }
  let k1 := if k0.State = SessionState.Closed then k0
            else { k0 with State := SessionState.Transferring }
  k1.StartStreaming env ts

/-- Lines 457-460 of `doAddSink` on the sink object: a TCP sink on a
`transport.Conn` gets async write mode when the transmuxer's capacity is above 2. -/
def Sink.enableAsync (k : Sink) (capacity : Int) : Sink :=
  if k.transportConn && k.TCPStreaming && decide (capacity > 2)
  then { k with asyncWrite := some (capacity - 2) } else k

/-- Lines 432-487 of `doAddSink`, once the transmuxer is known. -/
def attachSink (env : Env) (w : World) (sink : SinkPtr) (transStreamId : TransStreamID)
    (transStream : TSPtr) (exist : Bool) : Except String (World × Bool) :=
  let r := (w.sinkObj sink).startSession env transStreamId (w.tsObj transStream)
  if r.2 then .ok (w.setSink sink r.1, false)
  else if !r.1.Ready then .ok (w.setSink sink r.1, true)
  else
    match primeSink env
        (w.setSink sink (r.1.enableAsync (env.OutStreamBufferCapacity (w.tsObj transStream))))
        sink transStream with
    | .error e => .error e
    | .ok w3 => registerSink env w3 sink transStreamId transStream exist

/-- Line 379 of `doAddSink`: video is disabled for a sink when the source has no
video track or the sink does not want video. -/
def disableVideoFor (s : PublishSource) (k : Sink) : Bool :=
  (FindStreamWithType s.originStreams AVMediaType.Video).isNone || !k.enableVideo

/-- Lines 374-405 of `doAddSink`: pick the codecs (the desired ones, degraded to
none when the protocol cannot mux them, else the ones of the origin tracks); the
assertions fail when a transcoder would be needed. -/
def negotiateCodecs (s : PublishSource) (k : Sink) : Except String Unit :=
  let audioStream := FindStreamWithType s.originStreams AVMediaType.Audio
  let videoStream := FindStreamWithType s.originStreams AVMediaType.Video
  let disableAudio := audioStream.isNone
  let disableVideo := disableVideoFor s k
  let degrade := (AVCodecIdNONE != k.DesiredAudioCodecId_ ||
      AVCodecIdNONE != k.DesiredVideoCodecId_) &&
    !IsSupportMux k.Protocol k.DesiredAudioCodecId_ k.DesiredVideoCodecId_
  let audioCodecId0 := if degrade then AVCodecIdNONE else k.DesiredAudioCodecId_
  let videoCodecId0 := if degrade then AVCodecIdNONE else k.DesiredVideoCodecId_
  let originAudio := (audioStream.map (fun a => a.CodecId)).getD AVCodecIdNONE
  let originVideo := (videoStream.map (fun v => v.CodecId)).getD AVCodecIdNONE
  let audioCodecId :=
    if !disableAudio && AVCodecIdNONE == audioCodecId0 then originAudio else audioCodecId0
  let videoCodecId :=
    if !disableVideo && AVCodecIdNONE == videoCodecId0 then originVideo else videoCodecId0
  if !disableAudio && audioCodecId != originAudio then .error "assert"
  else if !disableVideo && videoCodecId != originVideo then .error "assert"
  else .ok ()

/-- The id of the transmuxer that `doAddSink` picks for a sink (line 419): the
generated id of the sink's protocol and of the tracks selected for it. -/
def pickedID (env : Env) (s : PublishSource) (k : Sink) : TransStreamID :=
  env.GenerateTransStreamID k.Protocol (sinkTracks s.originStreams (disableVideoFor s k))

/-- The method `doAddSink`; the call is first noted in the trace.  The array
`streams` has 5 slots, and a sixth selected track is written out of range. -/
def doAddSink (env : Env) (w0 : World) (sink : SinkPtr) : Except String (World × Bool) :=
  let w : World := { w0 with doAddSinkCalls := w0.doAddSinkCalls ++ [sink] }
  let k := w0.sinkObj sink
  if (FindStreamWithType w0.s.originStreams AVMediaType.Audio).isNone && disableVideoFor w0.s k
  then .ok (w, false)
  else
    match negotiateCodecs w0.s k with
    | .error e => .error e
    | .ok _ =>
      if 5 < (sinkTracks w0.s.originStreams (disableVideoFor w0.s k)).length
      then .error "index out of range"
      else
        match findOrCreate env w (pickedID env w0.s k) k.Protocol
            (sinkTracks w0.s.originStreams (disableVideoFor w0.s k)) with
        | .error e => .error e
        | .ok (w1, none) => .ok (w1, false)
        | .ok (w1, some (transStream, exist)) =>
          attachSink env w1 sink (pickedID env w0.s k) transStream exist

/-- The method `doRemoveSink`; `now` is the value of `time.Now()`. -/
def doRemoveSink (w : World) (sink : SinkPtr) (now : Int) : World × Bool :=
  let k := w.sinkObj sink
  ({ w with
      s := { w.s with
        sinks := w.s.sinks.delete k.ID
        TransStreamSinks := removeSubscriber w.s.TransStreamSinks k.TransStreamID k.ID
        sinkCount := w.s.sinkCount - 1
        lastStreamEndTime := now }
      sinkManagerRemoved :=
        if k.Protocol = TransStreamProtocol.Hls then w.sinkManagerRemoved ++ [k.ID]
        else w.sinkManagerRemoved
      sinkObj := Function.update w.sinkObj sink k.StopStreaming
      hooks := w.hooks ++ [HookEvent.PlayDone sink] },
   true)

/-- The loop `for _, transStream := range s.TransStreams` of `DoClose`: close each
transmuxer and dispatch what it still held. -/
def closeTransStreams (env : Env) : List (TransStreamID × TSPtr) → World → Except String World
  | [], w => .ok w
  | e :: rest, w =>
    match (w.tsObj e.2).Close env with
    | .error err => .error err
    | .ok (ts, data, timestamp) =>
      let w1 := w.setTS e.2 ts
      if data.length > 0 then
        match DispatchBuffer env w1 e.2 (-1) data timestamp true with
        | .error err => .error err
        | .ok w2 => closeTransStreams env rest w2
      else closeTransStreams env rest w1

/-- Lines 630-645 of `DoClose`, for one sink: unless it is Closed, move it to
Wait, put it on the waiting queue of the source and call `StopStreaming`. -/
def requeueOne (w : World) (sink : SinkPtr) : World :=
  let w2 :=
    if (w.sinkObj sink).State = SessionState.Closed then w
    else
      { w.setSink sink { w.sinkObj sink with State := SessionState.Wait } with
        WaitingSinks := AddSinkToWaitingQueue w.WaitingSinks w.s.ID sink }
  if (w2.sinkObj sink).State ≠ SessionState.Closed
  then w2.setSink sink (w2.sinkObj sink).StopStreaming else w2

/-- The loop `for _, sink := range s.sinks` of `DoClose`.  The flag of the result
is true when the loop left the function through the `return` of line 627. -/
def requeueSinks : List (SinkID × SinkPtr) → World → World × Bool
  | [], w => (w, false)
  | e :: rest, w =>
    let w1 := w.setSink e.2 { w.sinkObj e.2 with TransStreamID := 0 }
    if w1.s.recordSink = some e.2 then (w1, true)
    else requeueSinks rest (requeueOne w1 e.2)

/-- Lines 564-611 of `DoClose`: mark the source closed, release the demuxer, the
packet pools, the GOP cache and the timers, close the record sink and leave the
source manager. -/
def releaseResources (w : World) : World :=
  let s := w.s
  let stop : Option Timer → Option Timer := Option.map (fun tm => { tm with stopped := true })
  let w1 : World :=
    { w with
      s := { s with
        closed := true
        TransDeMuxer := none
        pktBuffers := s.pktBuffers.map (Option.map (fun b => { b with resets := b.resets + 1 }))
        gopBuffer := none
        probeTimer := stop s.probeTimer
        receiveDataTimer := stop s.receiveDataTimer
        idleTimer := stop s.idleTimer }
      closedDeMuxers := w.closedDeMuxers ++ s.TransDeMuxer.toList
      sourceManagerRemoved := w.sourceManagerRemoved ++ [s.ID] }
  match s.recordSink with
  | some r => w1.setSink r (w1.sinkObj r).Close
  | none => w1

/-- Lines 648-664 of `DoClose`: drop the maps, then the detached task that closes
the connection and fires the hooks (its effects are taken in sequence). -/
def finishClose (w : World) : World :=
  { w with
    s := { w.s with TransStreams := none, sinks := none, TransStreamSinks := none, Conn := none }
    closedConns := w.closedConns ++ w.s.Conn.toList
    hooks := w.hooks ++ [HookEvent.PublishDone w.s.ID] ++
      (if w.s.recordSink.isSome then [HookEvent.Record w.s.ID w.s.recordFilePath] else []) }

/-- The method `DoClose`. -/
def DoClose (env : Env) (w : World) : Except String World :=
  if w.s.closed then .ok w
  else
    let w1 := releaseResources w
    match closeTransStreams env w1.s.TransStreams.toList w1 with
    | .error e => .error e
    | .ok w2 =>
      let r := requeueSinks w2.s.sinks.toList w2
      if r.2 then .ok r.1 else .ok (finishClose r.1)

/-- The method `FindOrCreatePacketBuffer`, with the slot of the pool it returns. -/
def FindOrCreatePacketBuffer (env : Env) (s : PublishSource) (index : Int)
    (mediaType : AVMediaType) : Except String (PublishSource × Fin 8) :=
  if h : 0 ≤ index ∧ index < 8 then
    let i : Fin 8 := ⟨index.toNat, by omega⟩
    match s.pktBuffers.get i with
    | some _ => .ok (s, i)
    | none =>
      let size : Int :=
        if mediaType = AVMediaType.Audio then 48000 * 12
        else if env.GOPCache then env.GOPBufferSize
        else 1024 * 1000
      .ok ({ s with pktBuffers := s.pktBuffers.set i (some ⟨size, 0, 0, 0⟩) }, i)
  else .error "too many tracks"

/-- Apply a pool operation to the pool of a slot. -/
def updatePool (s : PublishSource) (i : Fin 8) (f : MemoryPool → MemoryPool) : PublishSource :=
  { s with pktBuffers := s.pktBuffers.set i ((s.pktBuffers.get i).map f) }

/-- The method `OnDiscardPacket`. -/
def OnDiscardPacket (env : Env) (s : PublishSource) (packet : AVPacket) :
    Except String PublishSource :=
  match FindOrCreatePacketBuffer env s packet.Index packet.MediaType with
  | .error e => .error e
  | .ok (s1, i) => .ok (updatePool s1 i (fun b => { b with freeHeads := b.freeHeads + 1 }))

/-- Modelled from the spec: `GOPBuffer.AddPacket`.  When the packet is a video
keyframe and the buffer already holds one, the packets before it are evicted;
the second component lists them in the order the discard handler sees them. -/
def GOPBuffer.AddPacket (g : GOPBuffer) (p : AVPacket) : GOPBuffer × List AVPacket :=
  let isKey : AVPacket → Bool := fun q => q.MediaType == AVMediaType.Video && q.KeyFrame
  if isKey p && g.packets.any isKey then ({ g with packets := [p] }, g.packets)
  else ({ g with packets := g.packets ++ [p] }, [])

/-- The discard handler applied to the evicted packets, in order. -/
def discardAll (env : Env) : List AVPacket → PublishSource → Except String PublishSource
  | [], s => .ok s
  | p :: rest, s =>
    match OnDiscardPacket env s p with
    | .error e => .error e
    | .ok s1 => discardAll env rest s1

/-- The loop `for _, transStream := range s.TransStreams` of `OnDeMuxPacket`. -/
def dispatchToAll (env : Env) (packet : AVPacket) :
    List (TransStreamID × TSPtr) → World → Except String World
  | [], w => .ok w
  | e :: rest, w =>
    match DispatchPacket env w e.2 packet with
    | .error err => .error err
    | .ok w1 => dispatchToAll env packet rest w1

/-- The first statement of `OnDeMuxPacket`: cache the packet in the GOP buffer. -/
def cachePacket (env : Env) (w : World) (packet : AVPacket) : Except String World :=
  if env.GOPCache && w.s.existVideo then
    match w.s.gopBuffer with
    | none => .error "nil pointer dereference"
    | some g =>
      let r := g.AddPacket packet
      match discardAll env r.2 { w.s with gopBuffer := some r.1 } with
      | .error e => .error e
      | .ok s1 => .ok { w with s := s1 }
  else .ok w

/-- The last statement of `OnDeMuxPacket`: release the packet at once. -/
def releasePacket (env : Env) (w : World) (packet : AVPacket) : Except String World :=
  if !env.GOPCache || !w.s.existVideo then
    match FindOrCreatePacketBuffer env w.s packet.Index packet.MediaType with
    | .error e => .error e
    | .ok (s1, i) =>
      .ok { w with s := updatePool s1 i (fun b => { b with freeTails := b.freeTails + 1 }) }
  else .ok w

/-- The method `OnDeMuxPacket`. -/
def OnDeMuxPacket (env : Env) (w : World) (packet : AVPacket) : Except String World :=
  match cachePacket env w packet with
  | .error e => .error e
  | .ok w1 =>
    match dispatchToAll env packet w1.s.TransStreams.toList w1 with
    | .error e => .error e
    | .ok w2 => releasePacket env w2 packet

/-- The method `OnDeMuxStream`. -/
def OnDeMuxStream (env : Env) (s : PublishSource) (stream : AVStream) : PublishSource :=
  if s.completed then s
  else
    let origin := s.originStreams ++ [stream]
    let existVideo := s.existVideo || stream.Type_ == AVMediaType.Video
    { s with
      originStreams := origin
      allStreams := s.allStreams ++ [stream]
      probeTimer := if origin.length = 1 then some ⟨env.ProbeTimeout, false⟩ else s.probeTimer
      existVideo := existVideo
      gopBuffer :=
        if env.GOPCache && existVideo && s.gopBuffer.isNone then some ⟨[], true, false⟩
        else s.gopBuffer }

/-- Lines 228-236 of `CreateDefaultOutStreams`: create the record sink.  The
record factory is a nil function until one has been set, and calling it panics. -/
def createRecord (env : Env) (w : World) : Except String World :=
  if env.RecordEnable then
    match env.recordStreamFactory with
    | none => .error "nil pointer dereference"
    | some factory =>
      match factory w.s.ID with
      | none => .ok w
      | some (sink, path) =>
        .ok { w with s := { w.s with recordSink := some sink, recordFilePath := path } }
  else .ok w

/-- Lines 239-252 of `CreateDefaultOutStreams`: create the HLS transmuxer. -/
def createHls (env : Env) (w : World) : Except String World :=
  if env.HlsEnable then
    let streams := w.s.originStreams
    if streams.length = 0 then .error "assert"
    else
      let id := env.GenerateTransStreamID TransStreamProtocol.Hls streams
      match CreateTransStream env w id TransStreamProtocol.Hls streams with
      | .error e => .error e
      | .ok (_, none) => .error "panic(err)"
      | .ok (w1, some hlsStream) =>
        match DispatchGOPBuffer env w1 hlsStream with
        | .error e => .error e
        | .ok w2 =>
          match w2.s.TransStreams.set id hlsStream with
          | .error e => .error e
          | .ok m => .ok { w2 with s := { w2.s with hlsStream := some hlsStream, TransStreams := m } }
  else .ok w

/-- The method `CreateDefaultOutStreams`. -/
def CreateDefaultOutStreams (env : Env) (w : World) : Except String World :=
  let w0 : World :=
    if w.s.TransStreams.isNone then { w with s := { w.s with TransStreams := some [] } } else w
  match createRecord env w0 with
  | .error e => .error e
  | .ok w1 => createHls env w1

/-- The loop of `writeHeader`: `doAddSink` on each sink, closing the ones it
refuses. -/
def addSinks (env : Env) : List SinkPtr → World → Except String World
  | [], w => .ok w
  | sink :: rest, w =>
    match doAddSink env w sink with
    | .error e => .error e
    | .ok (w1, ok) =>
      addSinks env rest (if ok then w1 else w1.setSink sink (w1.sinkObj sink).Close)

/-- The method `writeHeader`. -/
def writeHeader (env : Env) (w : World) : Except String World :=
  if w.s.completed then .ok w
  else
    let w1 : World :=
      { w with s := { w.s with
          completed := true
          probeTimer := w.s.probeTimer.map (fun tm => { tm with stopped := true }) } }
    if w1.s.originStreams.length = 0 then DoClose env w1
    else
      match CreateDefaultOutStreams env w1 with
      | .error e => .error e
      | .ok w2 =>
        let popped := PopWaitingSinks w2.WaitingSinks w2.s.ID
        addSinks env (popped.1 ++ w2.s.recordSink.toList) { w2 with WaitingSinks := popped.2 }

/-- The closure that `AddSink` posts. -/
def addSinkEvent (env : Env) (w : World) (sink : SinkPtr) : Except String World :=
  if !w.s.completed then
    .ok { w with
      WaitingSinks := AddSinkToWaitingQueue w.WaitingSinks (w.sinkObj sink).SourceID sink }
  else
    match doAddSink env w sink with
    | .error e => .error e
    | .ok (w1, ok) => .ok (if ok then w1 else w1.setSink sink (w1.sinkObj sink).Close)

/-- The closure that `RemoveSinkWithID` posts. -/
def removeSinkWithIDEvent (w : World) (id : SinkID) (now : Int) : World :=
  match w.s.sinks.get? id with
  | some sink => (doRemoveSink w sink now).1
  | none => w

/-- The main loop running one closure taken from `mainContextEvents`; `now` is
the time of the run. -/
def runEvent (env : Env) (w : World) (ev : Event) (now : Int) : Except String World :=
  match ev with
  | Event.AddSink sink => addSinkEvent env w sink
  | Event.RemoveSink sink => .ok (doRemoveSink w sink now).1
  | Event.RemoveSinkWithID id => .ok (removeSinkWithIDEvent w id now)
  | Event.FindSink _ => .ok w
  | Event.Close => DoClose env w
  | Event.ProbeTimeout => writeHeader env w
  | Event.Sinks => .ok w

/-! ## The operations of PublishSource as one step function -/

/-- The methods of `PublishSource` that write to the source or to what it owns
(the pure getters are left out), with their arguments. -/
inductive Op where
  | SetLastPacketTime (time2 : Int)
  | SetReceiveDataTimer (timer : Option Timer)
  | SetIdleTimer (timer : Option Timer)
  | SetID (id : String)
  | SetType (sourceType : Nat)
  | SetState (state : SessionState)
  | SetUrlValues (values : List (String × String))
  | SetCreateTime (time : Int)
  | SetTimeoutTrack (index : Int)
  | Init (receiveQueueSize : Int)
  | CreateDefaultOutStreams
  | FindOrCreatePacketBuffer (index : Int) (mediaType : AVMediaType)
  | Input (data : Bytes)
  | CreateTransStream (id : TransStreamID) (protocol : TransStreamProtocol)
      (streams : List AVStream)
  | DispatchGOPBuffer (transStream : TSPtr)
  | DispatchPacket (transStream : TSPtr) (packet : AVPacket)
  | DispatchBuffer (transStream : TSPtr) (index : Int) (data : List Bytes) (timestamp : Int)
      (videoKey : Bool)
  | write (sink : SinkPtr) (index : Int) (data : List Bytes) (timestamp : Int)
  | doAddSink (sink : SinkPtr)
  | doRemoveSink (sink : SinkPtr) (now : Int)
  | AddSink (sink : SinkPtr)
  | RemoveSink (sink : SinkPtr)
  | RemoveSinkWithID (id : SinkID)
  | FindSink (id : SinkID)
  | Sinks
  | Close
  | PostEvent (cb : Event)
  | DoClose
  | OnDiscardPacket (packet : AVPacket)
  | OnDeMuxStream (stream : AVStream)
  | OnDeMuxStreamDone
  | OnDeMuxPacket (packet : AVPacket)
  | OnDeMuxDone
  | writeHeader
  | runEvent (ev : Event) (now : Int)

/-- The world after a call that returned: `none` for a panic. -/
def returned? (r : Except String World) : Option World :=
  match r with
  | .ok w => some w
  | .error _ => none

/-- The world after a blocking send on a channel of the source: `none` while the
send is blocked. -/
def sent? (w : World) (r : SendOutcome PublishSource) : Option World :=
  match r with
  | SendOutcome.returned s _ => some { w with s := s }
  | SendOutcome.blocked => none

/-- One operation on the source: `some w1` when the call returns in world `w1`,
`none` when it panics or blocks. -/
def applyOp (env : Env) (w : World) : Op → Option World
  | Op.SetLastPacketTime time2 => some { w with s := { w.s with lastPacketTime := time2 } }
  | Op.SetReceiveDataTimer timer => some { w with s := { w.s with receiveDataTimer := timer } }
  | Op.SetIdleTimer timer => some { w with s := { w.s with idleTimer := timer } }
  | Op.SetID id => some { w with s := { w.s with ID := id } }
  | Op.SetType sourceType => some { w with s := { w.s with Type_ := sourceType } }
  | Op.SetState state => some { w with s := { w.s with state := state } }
  | Op.SetUrlValues values => some { w with s := { w.s with urlValues := values } }
  | Op.SetCreateTime time => some { w with s := { w.s with createTime := time } }
  | Op.SetTimeoutTrack index =>
    some { w with s := { w.s with timeoutTracks := w.s.timeoutTracks ++ [index] } }
  | Op.Init receiveQueueSize =>
    returned? ((Init w.s receiveQueueSize).map (fun s => { w with s := s }))
  | Op.CreateDefaultOutStreams => returned? (CreateDefaultOutStreams env w)
  | Op.FindOrCreatePacketBuffer index mediaType =>
    returned? ((FindOrCreatePacketBuffer env w.s index mediaType).map
      (fun r => { w with s := r.1 }))
  | Op.Input data => sent? w (Input w.s data)
  | Op.CreateTransStream id protocol streams =>
    returned? ((CreateTransStream env w id protocol streams).map Prod.fst)
  | Op.DispatchGOPBuffer transStream => returned? (DispatchGOPBuffer env w transStream)
  | Op.DispatchPacket transStream packet => returned? (DispatchPacket env w transStream packet)
  | Op.DispatchBuffer transStream index data timestamp videoKey =>
    returned? (DispatchBuffer env w transStream index data timestamp videoKey)
  | Op.write sink index data timestamp => some (write env w sink index data timestamp)
  | Op.doAddSink sink => returned? ((doAddSink env w sink).map Prod.fst)
  | Op.doRemoveSink sink now => some (doRemoveSink w sink now).1
  | Op.AddSink sink => sent? w (PostEvent w.s (Event.AddSink sink))
  | Op.RemoveSink sink => sent? w (PostEvent w.s (Event.RemoveSink sink))
  | Op.RemoveSinkWithID id => sent? w (PostEvent w.s (Event.RemoveSinkWithID id))
  | Op.FindSink id => sent? w (PostEvent w.s (Event.FindSink id))
  | Op.Sinks => sent? w (PostEvent w.s Event.Sinks)
  | Op.Close => sent? w (PostEvent w.s Event.Close)
  | Op.PostEvent cb => sent? w (PostEvent w.s cb)
  | Op.DoClose => returned? (DoClose env w)
  | Op.OnDiscardPacket packet =>
    returned? ((OnDiscardPacket env w.s packet).map (fun s => { w with s := s }))
  | Op.OnDeMuxStream stream => some { w with s := OnDeMuxStream env w.s stream }
  | Op.OnDeMuxStreamDone => returned? (writeHeader env w)
  | Op.OnDeMuxPacket packet => returned? (OnDeMuxPacket env w packet)
  | Op.OnDeMuxDone => some w
  | Op.writeHeader => returned? (writeHeader env w)
  | Op.runEvent ev now => returned? (runEvent env w ev now)

/-- A sequence of operations, each started in the world the previous one left. -/
def applyOps (env : Env) : List Op → World → Option World
  | [], w => some w
  | op :: rest, w =>
    match applyOp env w op with
    | none => none
    | some w1 => applyOps env rest w1

/-! ## Notions used in the statements -/

/-- The sink object that the loop body of `DispatchBuffer` leaves, given the
sequence header `extra` that `ReadExtraData` returns. -/
def Sink.afterDispatch (env : Env) (exist videoKey : Bool) (extra : List Bytes) (index : Int)
    (data : List Bytes) (timestamp : Int) (k : Sink) : Sink :=
  if exist && decide (k.SentPacketCount < 1) then
    if !videoKey then k
    else
      (if extra.length > 0 then k.afterWrite env index extra timestamp else k).afterWrite
        env index data timestamp
  else k.afterWrite env index data timestamp

/-- Two sink objects that differ at most in the write log and the send counter. -/
def Sink.sameButWrites (k k1 : Sink) : Prop :=
  { k1 with written := k.written, SentPacketCount := k.SentPacketCount } = k

/-- Two transmuxer objects with the same base fields. -/
def TransStream.sameBase (t t1 : TransStream) : Prop :=
  { t1 with impl := t.impl } = t

/-! ## Concrete states -/

/-- The zero value of `PublishSource`. -/
def PublishSource.zero : PublishSource :=
  { ID := "", Type_ := 0, state := SessionState.Created, Conn := none, TransDeMuxer := none,
    recordSink := none, recordFilePath := "", hlsStream := none, originStreams := [],
    allStreams := [], pktBuffers := Mathlib.Vector.replicate 8 none, gopBuffer := none,
    closed := false, completed := false, existVideo := false, probeTimer := none,
    receiveDataTimer := none, idleTimer := none, TransStreams := none, sinks := none,
    TransStreamSinks := none, streamPipe := none, mainContextEvents := none,
    lastPacketTime := 0, lastStreamEndTime := 0, sinkCount := 0, urlValues := [],
    timeoutTracks := [], createTime := 0 }

/-- A source whose stream pipe, of capacity 2, holds one buffer. -/
def roomySource : PublishSource :=
  { PublishSource.zero with streamPipe := some { buf := [[1, 2]], cap := 2 } }

/-- A source whose stream pipe, of capacity 2, holds two buffers. -/
def fullSource : PublishSource :=
  { PublishSource.zero with streamPipe := some { buf := [[1, 2], [3]], cap := 2 } }

/-- The zero value of a sink object. -/
def Sink.zero : Sink :=
  { ID := 0, SourceID := "", Protocol := TransStreamProtocol.Rtmp,
    State := SessionState.Created, TransStreamID := 0, DesiredAudioCodecId_ := AVCodecIdNONE,
    DesiredVideoCodecId_ := AVCodecIdNONE, TCPStreaming := false, SentPacketCount := 0,
    enableVideo := true, Ready := true, transportConn := false, asyncWrite := none,
    written := [], startCalls := 0, stopCalls := 0, closeCalls := 0 }

/-- A transmuxer of an implementation that is not modelled, before any call. -/
def TransStream.blank (protocol : TransStreamProtocol) : TransStream :=
  { ID := 0, Protocol := protocol, Tracks := [], ExistVideo := false, Completed := false,
    impl := TSImpl.other [] }

/-- A small instance of the avformat functions: millisecond timestamps, an FLV
video tag of 5 bytes and an audio tag of 2 bytes, a chunk header of 12 bytes, and
payloads short enough to need no type-3 header. -/
def demoLib : RtmpLib :=
  { ConvertDts := fun p _ => p.Dts
    ConvertPts := fun p _ => p.Pts
    AVCCPacketData := fun p => p.Data
    MP4ExtraData := fun st => st.Extra
    ComputeVideoDataSize := fun _ => 5
    WriteVideoData := fun _ key _ => [if key then 23 else 39, 1, 0, 0, 0]
    WriteAudioData := fun _ => [175, 1]
    ChunkToBytes := fun video _ => (if video then 6 else 4) :: List.replicate 11 0
    ChunkWriteData := fun _ data _ _ => data
    ChunkSize := 60000 }

/-- The numeric tag of a protocol. -/
def protocolTag : TransStreamProtocol → Nat
  | TransStreamProtocol.Rtmp => 1
  | TransStreamProtocol.Flv => 2
  | TransStreamProtocol.Hls => 3
  | TransStreamProtocol.Other tag => 4 + tag

/-- A configuration with every option off, a transmuxer factory for each
protocol (the RTMP one of rtmp/rtmp_stream.go, a blank one otherwise), sinks
whose calls succeed, and a deterministic id over the protocol and the tracks. -/
def demoEnv : Env :=
  { GOPCache := false, GOPBufferSize := 0, ProbeTimeout := 2000, MergeWriteLatency := 350,
    RecordEnable := false, HlsEnable := false
    GenerateTransStreamID := fun protocol streams =>
      protocolTag protocol +
        10 * streams.foldl (fun acc st => 7 * acc + st.Index.toNat + st.CodecId + 1) 0
    transStreamFactories := fun protocol =>
      some (fun _ =>
        some (if protocol = TransStreamProtocol.Rtmp
          then Rtmp.NewTransStream protocol demoLib.ChunkSize
          else TransStream.blank protocol))
    recordStreamFactory := none
    sinkWriteErr := fun _ _ _ _ => false
    sinkStartErr := fun _ _ => false
    otherInput := fun _ p =>
      { data := [p.Data], timestamp := p.Dts,
        videoKey := p.MediaType == AVMediaType.Video && p.KeyFrame, err := false }
    otherExtraData := fun _ _ => [[0]]
    otherKeyFrameBuffer := fun _ => ([], 0)
    otherClose := fun _ => ([], 0)
    OutStreamBufferCapacity := fun _ => 0
    lib := demoLib }

/-- A world around a source: sink `p` is the zero sink with `ID = p`, every
transmuxer object is blank, the registries and traces are empty. -/
def World.around (s : PublishSource) : World :=
  { s := s
    sinkObj := fun p => { Sink.zero with ID := p }
    tsObj := fun _ => TransStream.blank TransStreamProtocol.Rtmp
    nextTS := 0
    WaitingSinks := []
    hooks := []
    sourceManagerRemoved := []
    sinkManagerRemoved := []
    closedConns := []
    closedDeMuxers := []
    doAddSinkCalls := [] }

/-- A transmuxer with video, of id 5, to which sinks 1 and 2 are subscribed; sink 1
has been sent nothing yet, sink 2 three packets. -/
def gateWorld : World :=
  let w := World.around
    { PublishSource.zero with
      TransStreams := some [(5, 0)]
      sinks := some [(1, 1), (2, 2)]
      TransStreamSinks := some [(5, some [(1, 1), (2, 2)])] }
  { w with
    sinkObj := fun p =>
      if p = 2 then { Sink.zero with ID := 2, SentPacketCount := 3 } else { Sink.zero with ID := p }
    tsObj := fun _ =>
      { TransStream.blank TransStreamProtocol.Flv with ID := 5, ExistVideo := true }
    nextTS := 1 }

/-- A completed source that announced an H.264 video track and an AAC audio
track, with no sink and no transmuxer yet. -/
def liveWorld : World :=
  World.around
    { PublishSource.zero with
      ID := "live/a"
      completed := true
      existVideo := true
      originStreams := [⟨0, AVMediaType.Video, 27, [1, 100]⟩, ⟨1, AVMediaType.Audio, 10, [18, 16]⟩]
      allStreams := [⟨0, AVMediaType.Video, 27, [1, 100]⟩, ⟨1, AVMediaType.Audio, 10, [18, 16]⟩]
      TransStreams := some []
      sinks := some []
      TransStreamSinks := some [] }

/-- The world of an `Except` result, or the given world after a panic. -/
def worldOr (w : World) (r : Except String World) : World :=
  match r with
  | .ok w1 => w1
  | .error _ => w

/-- The world and flag of a `doAddSink` result, or the given world after a panic. -/
def addedOr (w : World) (r : Except String (World × Bool)) : World × Bool :=
  match r with
  | .ok x => x
  | .error _ => (w, false)

/-- The source of `liveWorld` after RTMP sink 1 has been attached by `doAddSink`. -/
def rtmpWorld : World := (addedOr liveWorld (doAddSink demoEnv liveWorld 1)).1

/-- A video frame that is not a keyframe, at 0 ms. -/
def interFrame : AVPacket :=
  { Index := 0, MediaType := AVMediaType.Video, KeyFrame := false, Dts := 0, Pts := 0,
    Timebase := 1000, Data := [65, 1, 2] }

/-- An audio frame at 400 ms. -/
def audioFrame : AVPacket :=
  { Index := 1, MediaType := AVMediaType.Audio, KeyFrame := false, Dts := 400, Pts := 400,
    Timebase := 1000, Data := [33, 7] }

/-- Two worlds that differ at most in the write logs and send counters of the
sinks and in the implementation state of the transmuxers: what dispatching
packets can change. -/
def World.dispatched (w w1 : World) : Prop :=
  { w1 with sinkObj := w.sinkObj, tsObj := w.tsObj } = w ∧
    (∀ p, Sink.sameButWrites (w.sinkObj p) (w1.sinkObj p)) ∧
    (∀ q, TransStream.sameBase (w.tsObj q) (w1.tsObj q))

/-- Two sink objects that differ at most in what attaching and dispatching
change: the write log, the send counter, the session state, the chosen
transmuxer, the async-write mode and the count of `StartStreaming` calls. -/
def Sink.sameButSession (k k1 : Sink) : Prop :=
  { k1 with
    written := k.written, SentPacketCount := k.SentPacketCount, State := k.State,
    TransStreamID := k.TransStreamID, asyncWrite := k.asyncWrite,
    startCalls := k.startCalls } = k


/-- Two sources that differ at most in the transmuxer map, the two sink maps and
the sink count: what attaching a sink can change in the source. -/
def PublishSource.sameButSinks (s s1 : PublishSource) : Prop :=
  { s1 with
    TransStreams := s.TransStreams, TransStreamSinks := s.TransStreamSinks,
    sinks := s.sinks, sinkCount := s.sinkCount } = s

/-- Two worlds that differ at most in what `doAddSink` can change: the maps and
the sink count of the source, the session fields of the sinks, the transmuxer
objects and the trace of calls. -/
def World.attached (w w1 : World) : Prop :=
  { w1 with
    s := w.s, sinkObj := w.sinkObj, tsObj := w.tsObj, nextTS := w.nextTS,
    doAddSinkCalls := w.doAddSinkCalls } = w ∧
    PublishSource.sameButSinks w.s w1.s ∧
    (∀ r, Sink.sameButSession (w.sinkObj r) (w1.sinkObj r))

/-- The configuration of `demoEnv` with HLS and the GOP cache switched on. -/
def hlsEnv : Env := { demoEnv with HlsEnable := true, GOPCache := true }

/-- A source in its probe phase: a video and an audio track announced, the GOP
buffer allocated, and HLS sinks around it. -/
def probingWorld : World :=
  { World.around
      { PublishSource.zero with
        ID := "live/a"
        existVideo := true
        originStreams :=
          [⟨0, AVMediaType.Video, 27, [1, 100]⟩, ⟨1, AVMediaType.Audio, 10, [18, 16]⟩]
        allStreams :=
          [⟨0, AVMediaType.Video, 27, [1, 100]⟩, ⟨1, AVMediaType.Audio, 10, [18, 16]⟩]
        gopBuffer := some ⟨[], true, false⟩
        probeTimer := some ⟨2000, false⟩
        TransStreams := some []
        sinks := some []
        TransStreamSinks := some [] } with
    sinkObj := fun p => { Sink.zero with ID := p, Protocol := TransStreamProtocol.Hls } }

/-- The source of `probingWorld` once `writeHeader` has completed it: the HLS
transmuxer has been created and stored. -/
def hlsWorld : World := worldOr probingWorld (writeHeader hlsEnv probingWorld)

/-- A source in its probe phase (not completed), with sink 3 already waiting for
the source id "live/a" that sink 4 asks for. -/
def waitingWorld : World :=
  { World.around { PublishSource.zero with ID := "live/a" } with
    sinkObj := fun p => { Sink.zero with ID := p, SourceID := "live/a" }
    WaitingSinks := [("live/a", [3])] }

/-- A completed source without any track. -/
def emptyWorld : World :=
  { World.around
      { PublishSource.zero with
        ID := "live/a", completed := true, TransStreams := some [], sinks := some [],
        TransStreamSinks := some [] } with
    sinkObj := fun p => { Sink.zero with ID := p, SourceID := "live/a" } }

/-- A completed source with one video track that goes on receiving calls. -/
def completedWorld : World :=
  World.around
    { PublishSource.zero with
      ID := "live/a"
      completed := true
      existVideo := true
      originStreams := [⟨0, AVMediaType.Video, 27, [1, 100]⟩]
      allStreams := [⟨0, AVMediaType.Video, 27, [1, 100]⟩]
      TransStreams := some []
      sinks := some []
      TransStreamSinks := some []
      streamPipe := some { buf := [], cap := 4 }
      mainContextEvents := some { buf := [], cap := 128 } }

/-- The configuration of `demoEnv` with recording switched on; the record factory
hands out sink 9 and a file path. -/
def recEnv : Env :=
  { demoEnv with
    RecordEnable := true
    recordStreamFactory := some (fun id => some (9, "record/" ++ id ++ ".flv")) }

/-- A source in its probe phase with a connection, a video and an audio track, and
FLV sink 3 waiting for it. -/
def recProbingWorld : World :=
  { World.around
      { PublishSource.zero with
        ID := "live/a"
        Conn := some 1
        existVideo := true
        originStreams :=
          [⟨0, AVMediaType.Video, 27, [1, 100]⟩, ⟨1, AVMediaType.Audio, 10, [18, 16]⟩]
        allStreams :=
          [⟨0, AVMediaType.Video, 27, [1, 100]⟩, ⟨1, AVMediaType.Audio, 10, [18, 16]⟩]
        probeTimer := some ⟨2000, false⟩
        TransStreams := some []
        sinks := some []
        TransStreamSinks := some [] } with
    sinkObj := fun p =>
      { Sink.zero with ID := p, SourceID := "live/a", Protocol := TransStreamProtocol.Flv }
    WaitingSinks := [("live/a", [3])] }

/-- The source of `recProbingWorld` once `writeHeader` has completed it: the
record sink 9 has been created, and sinks 3 and 9 have been attached. -/
def recWorld : World := worldOr recProbingWorld (writeHeader recEnv recProbingWorld)

/-- The configuration of `demoEnv` with HLS switched on and the GOP cache off. -/
def hlsOnlyEnv : Env := { demoEnv with HlsEnable := true }

/-- The source of `rtmpWorld` after `DoClose` has run to its end: the three maps
are nil, sink 1 is back on the waiting queue. -/
def closedWorld : World := worldOr rtmpWorld (DoClose demoEnv rtmpWorld)

/-- A source in its probe phase that announced one AAC audio track: it has no
video, and no GOP buffer has been allocated. -/
def audioProbingWorld : World :=
  World.around
    { PublishSource.zero with
      ID := "live/a"
      originStreams := [⟨0, AVMediaType.Audio, 10, [18, 16]⟩]
      allStreams := [⟨0, AVMediaType.Audio, 10, [18, 16]⟩]
      probeTimer := some ⟨2000, false⟩
      TransStreams := some []
      sinks := some []
      TransStreamSinks := some [] }

/-! ## The transmuxer factory registry (stream/stream_factory.go) -/

namespace StreamFactory

/-- The type `TransStreamFactory`: a constructor called with the source, the
protocol and the tracks; it returns a transmuxer and an error. -/
abbrev TransStreamFactory (σ τ : Type) :=
  σ → TransStreamProtocol → List AVStream → Option τ × Option String

/-- The package variable `transStreamFactories`. -/
abbrev Registry (σ τ : Type) := GoMap TransStreamProtocol (TransStreamFactory σ τ)

/-- The function `init`: `transStreamFactories = make(map[...]..., 8)`. -/
def init (σ τ : Type) : Registry σ τ := some []

/-- The function `RegisterTransStreamFactory`.  The first component is the package
variable after the call, the second the value of the panic when the call panics. -/
def RegisterTransStreamFactory {σ τ : Type} (reg : Registry σ τ)
    (protocol : TransStreamProtocol) (streamFunc : TransStreamFactory σ τ) :
    Registry σ τ × Option String :=
  match reg.get? protocol with
  | some _ => (reg, some "has been registered")
  | none =>
    match reg.set protocol streamFunc with
    | .error e => (reg, some e)
    | .ok m => (m, none)

/-- The function `FindTransStreamFactory`: the factory with a nil error, or a nil
factory with the error `unknown protocol`. -/
def FindTransStreamFactory {σ τ : Type} (reg : Registry σ τ)
    (protocol : TransStreamProtocol) : Except String (TransStreamFactory σ τ) :=
  match reg.get? protocol with
  | none => .error "unknown protocol"
  | some f => .ok f

/-- The package function `CreateTransStream`. -/
def CreateTransStream {σ τ : Type} (reg : Registry σ τ) (source : σ)
    (protocol : TransStreamProtocol) (streams : List AVStream) : Option τ × Option String :=
  match FindTransStreamFactory reg protocol with
  | .error err => (none, some err)
  | .ok factory => factory source protocol streams

/-- A run of `RegisterTransStreamFactory` calls, in order, up to the first one
that panics. -/
def registerAll {σ τ : Type} :
    List (TransStreamProtocol × TransStreamFactory σ τ) → Registry σ τ →
      Registry σ τ × Option String
  | [], reg => (reg, none)
  | c :: rest, reg =>
    match RegisterTransStreamFactory reg c.1 c.2 with
    | (reg1, none) => registerAll rest reg1
    | (reg1, some e) => (reg1, some e)

/-- A factory that returns neither a transmuxer nor an error. -/
def idleFactory : TransStreamFactory Unit Unit := fun _ _ _ => (none, none)

/-- A factory that returns a transmuxer. -/
def unitFactory : TransStreamFactory Unit Unit := fun _ _ _ => (some (), none)

end StreamFactory

/-! ## The HLS playlist (hls/m3u8.go) -/

/-- Modelled from the spec: `collections.Queue` is not among the sources.  The
spec calls the playlist a FIFO of a fixed capacity; the writer reads it through
`Data`, which hands out the stored items as a head part and a tail part, both nil
when the queue is empty.  The model is a ring of `cap` slots (a slot is nil or
holds an item): `head` is the slot of the oldest item, `tail` the slot the next
item goes to, `size` the number of items.  A capacity of 0 is not modelled. -/
structure Queue (α : Type) where
  data : Nat → Option α
  cap : Nat
  head : Nat
  tail : Nat
  size : Nat

namespace Queue

variable {α : Type}

/-- The Go slice `data[a:b]`. -/
def slice (q : Queue α) (a b : Nat) : List (Option α) := (List.range' a (b - a)).map q.data

/-- The method `IsFull`. -/
def IsFull (q : Queue α) : Bool := q.size == q.cap

/-- The method `Pop`: the oldest item, nil when there is none, and the queue
after the call. -/
def Pop (q : Queue α) : Option α × Queue α :=
  if q.size = 0 then (none, q)
  else
    (q.data q.head,
     { q with
       data := Function.update q.data q.head none
       head := (q.head + 1) % q.cap
       size := q.size - 1 })

/-- The method `Push`: a full queue first drops its oldest item. -/
def Push (q : Queue α) (value : α) : Queue α :=
  let q1 := if q.IsFull then q.Pop.2 else q
  { q1 with
    data := Function.update q1.data q1.tail (some value)
    tail := (q1.tail + 1) % q1.cap
    size := q1.size + 1 }

/-- The method `Data`: the items from `head` to the end of the ring and the
items from the start of the ring to `tail`. -/
def Data (q : Queue α) : Option (List (Option α)) × Option (List (Option α)) :=
  if q.size = 0 then (none, none)
  else if q.tail ≤ q.head then (some (q.slice q.head q.cap), some (q.slice 0 q.tail))
  else (some (q.slice q.head q.tail), none)

end Queue

/-- Modelled from the spec: the constructor `collections.NewQueue`, a ring of
`capacity` nil slots. -/
def NewQueue {α : Type} (capacity : Nat) : Queue α :=
  { data := fun _ => none, cap := capacity, head := 0, tail := 0, size := 0 }

namespace Hls

/-- The struct `Segment`.  A `float32` duration that is a number is a rational;
NaN and the infinities are left out. -/
structure Segment where
  duration : ℚ
  url : String
  sequence : Int
  path : String
deriving DecidableEq

/-- The zero value `Segment{}`. -/
def Segment.zero : Segment := { duration := 0, url := "", sequence := 0, path := "" }

/-- The struct `m3u8Writer`; its string buffer is reset by every `ToString` and
is a local of that function here. -/
structure m3u8Writer where
  playlist : Queue Segment

/-- The function `NewM3U8Writer`. -/
def NewM3U8Writer (len : Nat) : m3u8Writer := { playlist := NewQueue len }

/-- The type assertion `segment.(Segment)`; it panics on a nil interface. -/
def asSegment (x : Option Segment) : Except String Segment :=
  match x with
  | some s => .ok s
  | none => .error "interface conversion: interface is nil, not hls.Segment"

/-- The function `strconv.Itoa`. -/
def Itoa (n : Int) : String := toString n

namespace m3u8Writer

/-- The method `AddSegment`. -/
def AddSegment (m : m3u8Writer) (duration : ℚ) (url : String) (sequence : Int)
    (path : String) : m3u8Writer :=
  let p := if m.playlist.IsFull then m.playlist.Pop.2 else m.playlist
  { playlist := p.Push { duration := duration, url := url, sequence := sequence, path := path } }

/-- The closure `compute` of `targetDuration`, with the variable it updates. -/
def compute : List (Option Segment) → Int → Except String Int
  | [], targetDuration => .ok targetDuration
  | x :: rest, targetDuration =>
    match asSegment x with
    | .error e => .error e
    | .ok segment =>
      let round : Int := ⌈segment.duration⌉
      compute rest (if round > targetDuration then round else targetDuration)

/-- The method `targetDuration`. -/
def targetDuration (m : m3u8Writer) : Except String Int :=
  match (match m.playlist.Data.1 with
         | some head => compute head 0
         | none => .ok 0) with
  | .error e => .error e
  | .ok targetDuration =>
    match m.playlist.Data.2 with
    | some tail => compute tail targetDuration
    | none => .ok targetDuration

/-- What the closure `appendSegments` of `ToString` writes for one segment;
`fmt d` stands for `strconv.FormatFloat(float64(d), 'f', -1, 32)`. -/
def segmentText (fmt : ℚ → String) (segment : Segment) : String :=
  "#EXTINF:" ++ fmt segment.duration ++ ",\r\n" ++ (segment.url ++ "%s") ++ "\r\n"

/-- The closure `appendSegments` of `ToString`, with the buffer it writes to. -/
def appendSegments (fmt : ℚ → String) : List (Option Segment) → String → Except String String
  | [], buf => .ok buf
  | x :: rest, buf =>
    match asSegment x with
    | .error e => .error e
    | .ok segment => appendSegments fmt rest (buf ++ segmentText fmt segment)

/-- What `ToString` writes before the segments. -/
def headerText (targetDuration sequence : Int) : String :=
  "#EXTM3U\r\n" ++ "#EXT-X-VERSION:3\r\n" ++ "#EXT-X-TARGETDURATION:" ++ Itoa targetDuration ++
    "\r\n" ++ "#EXT-X-MEDIA-SEQUENCE:" ++ Itoa sequence ++ "\r\n"

/-- The method `ToString`. -/
def ToString (fmt : ℚ → String) (m : m3u8Writer) : Except String String :=
  match m.playlist.Data.1 with
  | none => .ok ""
  | some head =>
    match m.targetDuration with
    | .error e => .error e
    | .ok targetDuration =>
      match head with
      | [] => .error "index out of range"
      | first :: _ =>
        match asSegment first with
        | .error e => .error e
        | .ok oldest =>
          match appendSegments fmt head (headerText targetDuration oldest.sequence) with
          | .error e => .error e
          | .ok buf =>
            match m.playlist.Data.2 with
            | some tail => appendSegments fmt tail buf
            | none => .ok buf

/-- The method `Size`. -/
def Size (m : m3u8Writer) : Int :=
  (match m.playlist.Data.1 with
   | some head => (head.length : Int)
   | none => 0) +
  (match m.playlist.Data.2 with
   | some tail => (tail.length : Int)
   | none => 0)

/-- The method `Head`. -/
def Head (m : m3u8Writer) : Except String Segment :=
  match m.playlist.Data.1 with
  | some head =>
    match head with
    | [] => .error "index out of range"
    | first :: _ => asSegment first
  | none => .ok Segment.zero

end m3u8Writer

end Hls

/-! ## Notions used in the statements about the playlist -/

/-- The ring holds exactly the items `l`, oldest first: `l[i]` is in the slot
`(head + i) % cap`, and `tail` is the slot after the last one. -/
def Queue.Holds {α : Type} (q : Queue α) (l : List α) : Prop :=
  0 < q.cap ∧ q.head < q.cap ∧ q.size = l.length ∧ q.size ≤ q.cap ∧
    q.tail = (q.head + q.size) % q.cap ∧
    ∀ i, i < l.length → q.data ((q.head + i) % q.cap) = l[i]?

/-- The items that `Data` hands out, head part first. -/
def Queue.exposed {α : Type} (q : Queue α) : List (Option α) :=
  q.Data.1.getD [] ++ q.Data.2.getD []

/-- A run of `AddSegment` calls, one for each segment of the list, in order. -/
def Hls.m3u8Writer.addAll (m : Hls.m3u8Writer) : List Hls.Segment → Hls.m3u8Writer
  | [] => m
  | s :: rest => (m.AddSegment s.duration s.url s.sequence s.path).addAll rest

/-- The update of `compute` for one segment. -/
def Hls.m3u8Writer.raise (targetDuration : Int) (segment : Hls.Segment) : Int :=
  if ⌈segment.duration⌉ > targetDuration then ⌈segment.duration⌉ else targetDuration

/-- The text made of the given lines, each followed by CR LF. -/
def Hls.crlfLines (lines : List String) : String :=
  lines.foldl (fun buf line => buf ++ line ++ "\r\n") ""

/-- An instance of `strconv.FormatFloat(d, 'f', -1, 32)` for the examples, which
use whole numbers of seconds only: the decimal digits of the number. -/
def Hls.secondsText (d : ℚ) : String := Hls.Itoa d.num

/-- A writer of capacity 3 that holds one segment of 2 s. -/
def Hls.oneSegmentWriter : Hls.m3u8Writer :=
  (Hls.NewM3U8Writer 3).addAll [⟨2, "0.ts", 0, "/hls/0.ts"⟩]

/-! ## The HLS transmuxer (hls/hls_stream.go) -/

namespace Hls

/-- A sink as the transmuxer sees it: its id and whether it is an `*m3u8Sink`
(the type switch of `AddSink`). -/
structure ISink where
  Id : SinkID
  isM3u8 : Bool
deriving DecidableEq

/-- The part of an `*os.File` that the transmuxer uses: the content and the
offset of the next write. -/
structure File where
  content : String
  offset : Nat
deriving DecidableEq

namespace File

/-- The call `Seek(0, 0)` when it succeeds. -/
def Seek0 (f : File) : File := { f with offset := 0 }

/-- The call `Truncate(0)` when it succeeds; the offset stays. -/
def Truncate0 (f : File) : File := { f with content := "" }

/-- The call `Write(b)` when it succeeds: `b` goes to the offset, over what was
there, after a gap of zero bytes when the offset is past the end. -/
def Write (f : File) (b : String) : File :=
  { content := String.mk
      (f.content.data.take f.offset ++
        List.replicate (f.offset - f.content.data.length) (Char.ofNat 0) ++
        b.data ++ f.content.data.drop (f.offset + b.data.length))
    offset := f.offset + b.data.length }

end File

/-- The struct `tsContext`; of the segment file it keeps the number of bytes
written to it (nil when there is no file), of the write buffer its fill. -/
structure tsContext where
  segmentSeq : Int
  writeBufferSize : Int
  url : String
  path : String
  file : Option Int
deriving DecidableEq

/-- What the transmuxer takes from outside: `fmt` is `strconv.FormatFloat`,
`seconds d` is `float32(d) / 90000`, the errors are those of the calls on the
files, of `sink.Input` and of `TransStreamImpl.AddSink` (nil when the call
succeeds). -/
structure HlsEnv where
  fmt : ℚ → String
  seconds : Int → ℚ
  closeErr : Option String
  seekErr : Option String
  truncateErr : Option String
  writeErr : Option String
  inputErr : ISink → String → Option String
  implAddSink : ISink → Option String

/-- The struct `transStream`.  `muxerDuration` is what `t.muxer.Duration()`
returns.  The map `m3u8Sinks` is never nil (`NewTransStream` and `flushSegment`
make it), so it is the list of its entries.  Three traces are added: the paths
given to `os.Remove`, the calls of `sink.Input`, and the sinks handed on to
`TransStreamImpl.AddSink`. -/
structure transStream where
  context : tsContext
  m3u8 : m3u8Writer
  url : String
  m3u8Name : String
  tsFormat : String
  dir : String
  duration : Int
  m3u8File : File
  playlistLength : Int
  m3u8Sinks : List (SinkID × ISink)
  muxerDuration : Int
  removed : List String
  inputs : List (ISink × String)
  implSinks : List ISink

namespace transStream

/-- The method `AddSink`: the state after the call and the error it returns. -/
def AddSink (env : HlsEnv) (t : transStream) (sink : ISink) :
    Except String (transStream × Option String) :=
  if sink.isM3u8 then
    if t.m3u8.Size > 0 then
      match t.m3u8.ToString env.fmt with
      | .error e => .error e
      | .ok txt => .ok ({ t with inputs := t.inputs ++ [(sink, txt)] }, env.inputErr sink txt)
    else .ok ({ t with m3u8Sinks := GoMap.insertList t.m3u8Sinks sink.Id sink }, none)
  else .ok ({ t with implSinks := t.implSinks ++ [sink] }, env.implAddSink sink)

/-- Lines 162-165 of `flushSegment`: write the rest of the buffer to the
segment file. -/
def writeBack (t : transStream) : transStream :=
  if t.context.writeBufferSize > 0 then
    { t with
      context := { t.context with
        file := t.context.file.map (fun n => n + t.context.writeBufferSize)
        writeBufferSize := 0 } }
  else t

/-- Lines 172-174 of `flushSegment`: remove the file of the oldest segment when
the playlist is full. -/
def evictHead (t : transStream) : Except String transStream :=
  if t.m3u8.Size ≥ t.playlistLength then
    match t.m3u8.Head with
    | .error e => .error e
    | .ok head => .ok { t with removed := t.removed ++ [head.path] }
  else .ok t

/-- Lines 193-198 of `flushSegment`: send the text to the sinks that wait for
the playlist, in the order of the map, and make the map anew. -/
def notifySinks (t : transStream) (m3u8Txt : String) : transStream :=
  if t.m3u8Sinks.length > 0 then
    { t with
      inputs := t.inputs ++ t.m3u8Sinks.map (fun e => (e.2, m3u8Txt))
      m3u8Sinks := [] }
  else t

/-- Lines 180-190 of `flushSegment`: rewind and empty the playlist file, and
write the text of the playlist to it. -/
def rewrite (env : HlsEnv) (t : transStream) :
    Except String (transStream × String × Option String) :=
  match env.seekErr with
  | some err => .ok (t, "", some err)
  | none =>
    match env.truncateErr with
    | some err => .ok ({ t with m3u8File := t.m3u8File.Seek0 }, "", some err)
    | none =>
      match t.m3u8.ToString env.fmt with
      | .error e => .error e
      | .ok m3u8Txt =>
        match env.writeErr with
        | some err =>
          .ok ({ t with m3u8File := t.m3u8File.Seek0.Truncate0 }, m3u8Txt, some err)
        | none =>
          .ok ({ t with m3u8File := (t.m3u8File.Seek0.Truncate0).Write m3u8Txt }, m3u8Txt, none)

/-- The method `flushSegment`: the state after the call and the error it
returns. -/
def flushSegment (env : HlsEnv) (t : transStream) :
    Except String (transStream × Option String) :=
  match env.closeErr with
  | some err => .ok (t.writeBack, some err)
  | none =>
    match t.writeBack.evictHead with
    | .error e => .error e
    | .ok t1 =>
      match rewrite env
          { t1 with
            m3u8 := t1.m3u8.AddSegment (env.seconds t1.muxerDuration) t1.context.url
              t1.context.segmentSeq t1.context.path } with
      | .error e => .error e
      | .ok (t2, _, some err) => .ok (t2, some err)
      | .ok (t2, m3u8Txt, none) => .ok (t2.notifySinks m3u8Txt, none)

end transStream

/-- An environment in which every call succeeds. -/
def calmEnv : HlsEnv :=
  { fmt := secondsText, seconds := fun d => (d / 90000 : Int), closeErr := none,
    seekErr := none, truncateErr := none, writeErr := none,
    inputErr := fun _ _ => none, implAddSink := fun _ => none }

/-- A transmuxer with a playlist of 3 segments that holds none yet, writing its
first segment `0.ts`, which has 2 s (180000 ticks) of media; the playlist file
still holds an older text; sinks 7 and 8 wait for the playlist. -/
def freshStream : transStream :=
  { context := { segmentSeq := 0, writeBufferSize := 100, url := "0.ts", path := "/hls/0.ts",
                 file := some 0 }
    m3u8 := NewM3U8Writer 3
    url := "", m3u8Name := "a.m3u8", tsFormat := "%d.ts", dir := "/hls", duration := 2
    m3u8File := { content := "stale text", offset := 10 }
    playlistLength := 3
    m3u8Sinks := [(7, ⟨7, true⟩), (8, ⟨8, true⟩)]
    muxerDuration := 180000
    removed := [], inputs := [], implSinks := [] }

end Hls

/-! ## The WebRTC transmuxer (rtc/rtc_stream.go) -/

namespace Rtc

/-- The constants of the type `webrtc.ICEConnectionState` (an `int`) that the code
and the spec name.  The library is not among the sources: the numbers are a
parameter. -/
structure ICEStates where
  New : Int
  Checking : Int
  Connected : Int
  Completed : Int
  Disconnected : Int
  Failed : Int
  Closed : Int

/-- The numbers that pion/webrtc v3 declares, in the order of its `const` block:
`ICEConnectionStateNew = iota + 1`, then Checking, Connected, Completed,
Disconnected, Failed and Closed. -/
def pionStates : ICEStates :=
  { New := 1, Checking := 2, Connected := 3, Completed := 4, Disconnected := 5, Failed := 6,
    Closed := 7 }

/-- The avformat functions that `Input` calls: `extra tr` is
`tr.CodecParameters().DecoderConfRecord().ToAnnexB()`, `annexB p tr` is
`p.AnnexBPacketData(tr)` and `duration p` is `uint32(p.Duration(1000))`. -/
structure RtcLib where
  extra : AVStream → Bytes
  annexB : AVPacket → AVStream → Bytes
  duration : AVPacket → Int

/-- One call `input(index, data, ts)` of a sink. -/
structure Sample where
  index : Int
  data : Bytes
  ts : Int
deriving DecidableEq

/-- The struct `sink` of the package: its ICE connection state, and the trace of
the calls of its method `input`. -/
structure sink where
  state : Int
  inputs : List Sample
deriving DecidableEq

/-- The method `input` of a sink, as a call recorded in the trace. -/
def sink.input (s : sink) (index : Int) (data : Bytes) (ts : Int) : sink :=
  { s with inputs := s.inputs ++ [⟨index, data, ts⟩] }

/-- The struct `transStream`: the tracks and the sinks of its `BaseTransStream`,
the sinks in the order of the `range` loop. -/
structure transStream where
  Tracks : List AVStream
  Sinks : List sink
deriving DecidableEq

/-- The index expression `t.BaseTransStream.Tracks[index]`. -/
def transStream.track (t : transStream) (index : Int) : Except String AVStream :=
  if 0 ≤ index then
    match t.Tracks[index.toNat]? with
    | some tr => .ok tr
    | none => .error "index out of range"
  else .error "index out of range"

/-- The body of the loop of `Input` for one sink. -/
def transStream.deliver (ice : ICEStates) (lib : RtcLib) (t : transStream) (packet : AVPacket)
    (sink_ : sink) : Except String sink :=
  if sink_.state < ice.Connected then .ok sink_
  else
    let first : Except String sink :=
      if packet.KeyFrame then
        match t.track packet.Index with
        | .error e => .error e
        | .ok tr => .ok (sink_.input packet.Index (lib.extra tr) 0)
      else .ok sink_
    match first with
    | .error e => .error e
    | .ok s1 =>
      match t.track packet.Index with
      | .error e => .error e
      | .ok tr => .ok (s1.input packet.Index (lib.annexB packet tr) (lib.duration packet))

/-- The loop `for _, iSink := range t.Sinks` of `Input`. -/
def transStream.deliverAll (ice : ICEStates) (lib : RtcLib) (t : transStream)
    (packet : AVPacket) : List sink → Except String (List sink)
  | [] => .ok []
  | s :: rest =>
    match t.deliver ice lib packet s with
    | .error e => .error e
    | .ok s1 =>
      match transStream.deliverAll ice lib t packet rest with
      | .error e => .error e
      | .ok rest1 => .ok (s1 :: rest1)

/-- The method `Input`: the transmuxer after the call and the error it returns. -/
def transStream.Input (ice : ICEStates) (lib : RtcLib) (t : transStream) (packet : AVPacket) :
    Except String (transStream × Option String) :=
  if packet.MediaType = AVMediaType.Audio then .ok (t, none)
  else if packet.MediaType = AVMediaType.Video then
    match t.deliverAll ice lib packet t.Sinks with
    | .error e => .error e
    | .ok sinks => .ok ({ t with Sinks := sinks }, none)
  else .ok (t, none)

/-- An instance of the library functions: the extradata of the track, the
payload of the packet, and a duration of 40 ms. -/
def demoRtcLib : RtcLib :=
  { extra := fun tr => tr.Extra, annexB := fun p _ => p.Data, duration := fun _ => 40 }

/-- A transmuxer with one H.264 track and three sinks, in the states checking,
connected and disconnected, none of which has been sent anything. -/
def threeSinks : transStream :=
  { Tracks := [⟨0, AVMediaType.Video, 27, [1, 100]⟩]
    Sinks := [⟨pionStates.Checking, []⟩, ⟨pionStates.Connected, []⟩,
      ⟨pionStates.Disconnected, []⟩] }

/-- A video frame that is not a keyframe, and a video keyframe. -/
def deltaFrame : AVPacket :=
  { Index := 0, MediaType := AVMediaType.Video, KeyFrame := false, Dts := 40, Pts := 40,
    Timebase := 1000, Data := [9, 9] }

/-- A video keyframe. -/
def keyFrame : AVPacket :=
  { Index := 0, MediaType := AVMediaType.Video, KeyFrame := true, Dts := 0, Pts := 0,
    Timebase := 1000, Data := [5, 5] }

end Rtc

/-- What `Input` does to one sink for a video packet of the track `tr`: nothing
below `Connected`; otherwise the extradata sample for a keyframe, and then the
frame sample. -/
def Rtc.served (ice : Rtc.ICEStates) (lib : Rtc.RtcLib) (packet : AVPacket) (tr : AVStream)
    (s : Rtc.sink) : Rtc.sink :=
  if s.state < ice.Connected then s
  else
    { s with
      inputs := s.inputs ++
        (if packet.KeyFrame then [⟨packet.Index, lib.extra tr, 0⟩] else []) ++
        [⟨packet.Index, lib.annexB packet tr, lib.duration packet⟩] }

/-! ## The run arguments (main.go) -/

namespace Main

/-- The function `strings.HasPrefix`; a Go string is the list of its characters. -/
def HasPrefix (s pre : List Char) : Bool := pre.isPrefixOf s

/-- The call `strings.Split(s, "=")`. -/
def Split (s : List Char) : List (List Char) := s.splitOn '='

/-- Lines 44-62 of `readRunArgs`, the loop body up to the write to a map: `none`
for `continue`, else the flag `enable`, the key `pair[0]` and the value.
`ToLower` is `strings.ToLower`. -/
def parseArg (ToLower : List Char → List Char) (arg : List Char) :
    Option (Bool × List Char × List Char) :=
  let arg := ToLower arg
  let found : Option (List Char × Bool) :=
    if HasPrefix arg "--disable-".toList then some (arg.drop "--disable-".length, false)
    else if HasPrefix arg "--enable-".toList then some (arg.drop "--enable-".length, true)
    else none
  match found with
  | none => none
  | some (option, enable) =>
    let pair := Split option
    let value := if pair.length > 1 then pair.getD 1 [] else []
    some (enable, pair.headD [], value)

/-- The two maps of `readRunArgs`, `disableOptions` first; they are made by map
literals and are never nil, so each is the list of its entries. -/
abbrev Options := List (List Char × List Char) × List (List Char × List Char)

/-- The body of the first loop of `readRunArgs` for one argument. -/
def readArg (ToLower : List Char → List Char) (maps : Options) (arg : List Char) : Options :=
  match parseArg ToLower arg with
  | none => maps
  | some (true, key, value) => (maps.1, GoMap.insertList maps.2 key value)
  | some (false, key, value) => (GoMap.insertList maps.1 key value, maps.2)

/-- The second loop of `readRunArgs`, over the keys of `enableOptions`: a key
that `disableOptions` holds is deleted from it. -/
def dropOverlap (enableKeys : List (List Char)) (disableOptions : List (List Char × List Char)) :
    List (List Char × List Char) :=
  enableKeys.foldl
    (fun d k => if (GoMap.get? (some d) k).isSome then (GoMap.delete (some d) k).toList else d)
    disableOptions

/-- The function `readRunArgs`, of the argument list `os.Args`: the disable map
and the enable map. -/
def readRunArgs (ToLower : List Char → List Char) (args : List (List Char)) : Options :=
  let maps := args.foldl (readArg ToLower) ([], [])
  (dropOverlap (maps.2.map Prod.fst) maps.1, maps.2)

/-- The function `strings.ToLower` on strings of ASCII characters. -/
def asciiLower (s : List Char) : List Char := s.map Char.toLower

end Main

/-- The number of `FreeTail` calls made so far on the pool of a slot (0 while the
slot has no pool). -/
def freeTailsAt (s : PublishSource) (i : Fin 8) : Nat :=
  ((s.pktBuffers.get i).map MemoryPool.freeTails).getD 0

/-- The transmuxer object after `Input(packet)` has been called on it `n` times
in a row; `none` when one of the calls panics. -/
def TransStream.inputTimes (env : Env) (packet : AVPacket) : Nat → TransStream → Option TransStream
  | 0, t => some t
  | n + 1, t =>
    match t.Input env packet with
    | .error _ => none
    | .ok (t1, _) => TransStream.inputTimes env packet n t1

/-! ## `Input` of the HLS transmuxer (hls/hls_stream.go) -/

namespace Hls

/-- What `Input` and `createSegment` take from outside, besides `HlsEnv`:
`ExistVideo` is the field of the embedded `TransStreamImpl`, `TrackCount` is
`t.muxer.TrackCount()`, `toFloat n` is `float32(n)`, `tsName f n` is
`fmt.Sprintf(f, n)`, `muxed d p` is what `t.muxer.Duration()` returns after
`t.muxer.Input` of packet `p` at duration `d`, and the errors are those of
`os.OpenFile`, `t.muxer.WriteHeader` and `t.muxer.Input` (nil when the call
succeeds). -/
structure InputEnv where
  ExistVideo : Bool
  TrackCount : Int
  toFloat : Int → ℚ
  tsName : String → Int → String
  muxed : Int → AVPacket → Int
  openErr : Option String
  headerErr : Option String
  muxErr : Option String

/-- The calls of `Input` that the statements follow. -/
inductive InputStep where
  | createSegment
  | mux (index : Int)
deriving DecidableEq

namespace transStream

/-- Lines 205-211 of `createSegment`: flush the segment being written, if there
is one, and count it. -/
def closeCurrent (env : HlsEnv) (t : transStream) : Except String (transStream × Option String) :=
  if t.context.file.isSome then
    match t.flushSegment env with
    | .error e => .error e
    | .ok (t1, err) =>
      .ok ({ t1 with context := { t1.context with segmentSeq := t1.context.segmentSeq + 1 } }, err)
  else .ok (t, none)

/-- The method `createSegment`: the state after the call and the error it
returns.  `t.muxer.Reset()` starts the elapsed duration of the muxer at 0. -/
def createSegment (env : HlsEnv) (io : InputEnv) (t : transStream) :
    Except String (transStream × Option String) :=
  match closeCurrent env t with
  | .error e => .error e
  | .ok (t1, some err) => .ok (t1, some err)
  | .ok (t1, none) =>
    let tsName := io.tsName t1.tsFormat t1.context.segmentSeq
    let t2 : transStream :=
      { t1 with context := { t1.context with path := t1.dir ++ "/" ++ tsName,
                                              url := t1.url ++ tsName } }
    match io.openErr with
    | some err => .ok (t2, some err)
    | none =>
      .ok ({ t2 with context := { t2.context with file := some 0 }, muxerDuration := 0 },
        io.headerErr)

/-- Lines 99-105 of `Input`: hand the packet to the muxer. -/
def muxPacket (io : InputEnv) (t : transStream) (packet : AVPacket) (steps : List InputStep) :
    transStream × List InputStep × Option String :=
  ({ t with muxerDuration := io.muxed t.muxerDuration packet },
    steps ++ [InputStep.mux packet.Index], io.muxErr)

/-- The condition of line 93 of `Input` under which a segment is cut. -/
def cutsSegment (env : HlsEnv) (io : InputEnv) (t : transStream) (packet : AVPacket) : Bool :=
  (!io.ExistVideo || (packet.MediaType == AVMediaType.Video && packet.KeyFrame)) &&
    decide (env.seconds t.muxerDuration ≥ io.toFloat t.duration)

/-- The method `Input`: the state after the call, the calls of `createSegment`
and of `t.muxer.Input` it made, in order, and the error it returns. -/
def Input (env : HlsEnv) (io : InputEnv) (t : transStream) (packet : AVPacket) :
    Except String (transStream × List InputStep × Option String) :=
  if packet.Index ≥ io.TrackCount then .ok (t, [], some "track not available")
  else if cutsSegment env io t packet then
    match createSegment env io t with
    | .error e => .error e
    | .ok (t1, some err) => .ok (t1, [InputStep.createSegment], some err)
    | .ok (t1, none) => .ok (muxPacket io t1 packet [InputStep.createSegment])
  else .ok (muxPacket io t packet [])

end transStream

/-- An audio-only stream with one track; files open, the muxer accepts every
packet and each packet adds 1800 ticks. -/
def audioOnly : InputEnv :=
  { ExistVideo := false, TrackCount := 1, toFloat := fun n => (n : ℚ),
    tsName := fun _ n => Itoa n ++ ".ts", muxed := fun d _ => d + 1800,
    openErr := none, headerErr := none, muxErr := none }

/-- A stream with a video track and an audio track. -/
def withVideo : InputEnv := { audioOnly with ExistVideo := true, TrackCount := 2 }

/-- An audio packet of track 1, which `audioOnly` does not have. -/
def strayPacket : AVPacket :=
  { Index := 1, MediaType := AVMediaType.Audio, KeyFrame := false, Dts := 0, Pts := 0,
    Timebase := 1000, Data := [1] }

end Hls

/-! ## The size of an RTMP message (rtmp/rtmp_stream.go) -/

/-- Lines 40-53 of `transStream.Input`: the size of the message body, the FLV tag
prefix and the payload, for an audio or a video packet. -/
def Rtmp.payloadSize (lib : RtmpLib) (packet : AVPacket) : Int :=
  if packet.MediaType = AVMediaType.Audio then 2 + packet.Data.length
  else if packet.MediaType = AVMediaType.Video then
    lib.ComputeVideoDataSize
        (Rtmp.uint32 (lib.ConvertPts packet 1000 - lib.ConvertDts packet 1000)) +
      (lib.AVCCPacketData packet).length
  else 0

/-- Lines 62-69 of `transStream.Input`: the size given to `Allocate`.  The
division is Go's, which truncates. -/
def Rtmp.rtmpMsgSize (payloadSize chunkSize dts : Int) : Int :=
  let chunkHeaderSize : Int := 12
  let numChunks := (payloadSize - 1).tdiv chunkSize
  let rtmpMsgSize := chunkHeaderSize + payloadSize + numChunks
  if dts ≥ 0xFFFFFF ∧ dts ≤ 0xFFFFFFFF then rtmpMsgSize + (1 + numChunks) * 4 else rtmpMsgSize

/-- A completed source that announced an H.264 video track and five AAC audio
tracks: six origin streams, within the limit of 8 tracks of a source. -/
def sixTrackWorld : World :=
  World.around
    { PublishSource.zero with
      ID := "live/a"
      completed := true
      existVideo := true
      originStreams :=
        [⟨0, AVMediaType.Video, 27, [1, 100]⟩, ⟨1, AVMediaType.Audio, 10, [18, 16]⟩,
          ⟨2, AVMediaType.Audio, 10, [18, 16]⟩, ⟨3, AVMediaType.Audio, 10, [18, 16]⟩,
          ⟨4, AVMediaType.Audio, 10, [18, 16]⟩, ⟨5, AVMediaType.Audio, 10, [18, 16]⟩]
      allStreams :=
        [⟨0, AVMediaType.Video, 27, [1, 100]⟩, ⟨1, AVMediaType.Audio, 10, [18, 16]⟩,
          ⟨2, AVMediaType.Audio, 10, [18, 16]⟩, ⟨3, AVMediaType.Audio, 10, [18, 16]⟩,
          ⟨4, AVMediaType.Audio, 10, [18, 16]⟩, ⟨5, AVMediaType.Audio, 10, [18, 16]⟩]
      TransStreams := some []
      sinks := some []
      TransStreamSinks := some [] }

/-! ## The GB28181 TCP server -/

namespace Gb28181

/-- A source of the GB28181 server as a session sees it: its SSRC and the number
of calls of its method `Close`. -/
structure GBSource where
  SSRC : Nat
  closeCalls : Nat
deriving DecidableEq, Repr

/-- Modelled from the spec: the filter of the server is a mapping from RTP SSRC
to the expected source; the sources live in a heap and are named by pointers. -/
abbrev Filter := List (Nat × Nat)

/-- Modelled from the spec: `FindSource` looks the SSRC up in the mapping. -/
def Filter.FindSource (f : Filter) (ssrc : Nat) : Option Nat :=
  (f.find? (fun e => e.1 == ssrc)).map (fun e => e.2)

/-- Modelled from the spec: `RemoveSource` deletes the SSRC from the mapping. -/
def Filter.RemoveSource (f : Filter) (ssrc : Nat) : Filter :=
  f.filter (fun e => e.1 != ssrc)

/-- The struct `TCPSession`: the connection, the bound source and the decoder,
each `none` for a nil field (the receive buffer plays no part in closing). -/
structure TCPSession where
  conn : Option Nat
  source : Option Nat
  decoder : Option Nat
deriving DecidableEq, Repr

/-- The struct `TCPServer` with the heap of the sources and of the sessions, and
the traces of the calls made on the collaborators. -/
structure Server where
  filter : Filter
  tcpOpen : Bool
  Handler : Bool
  sources : Nat → GBSource
  sessions : Nat → TCPSession
  removeSourceCalls : List Nat
  decoderCloseCalls : List Nat

/-- The call `t.source.Close()` on the interface `GBSource`, whose implementations
lie outside `tcp_server.go` and `tcp_session.go`: the call is counted on the
source, and what it does to the filter of the server is the parameter
`sourceClose`. -/
def Server.closeSource (sourceClose : GBSource → Filter → Filter) (w : Server) (src : Nat) :
    Server :=
  { w with
    filter := sourceClose (w.sources src) w.filter
    sources := Function.update w.sources src
      { w.sources src with closeCalls := (w.sources src).closeCalls + 1 } }

/-- The call `T.filter.RemoveSource(ssrc)`, noted in the trace. -/
def Server.RemoveSource (w : Server) (ssrc : Nat) : Server :=
  { w with
    filter := w.filter.RemoveSource ssrc
    removeSourceCalls := w.removeSourceCalls ++ [ssrc] }

/-- The method `TCPSession.Close`: clear the connection, close and clear the
source when one is bound, close and clear the decoder when there is one. -/
def TCPSession.Close (sourceClose : GBSource → Filter → Filter) (w : Server) (t : Nat) :
    Server :=
  let w1 : Server :=
    { w with sessions := Function.update w.sessions t { w.sessions t with conn := none } }
  let w2 : Server :=
    match (w1.sessions t).source with
    | some src =>
      let w' := w1.closeSource sourceClose src
      { w' with sessions := Function.update w'.sessions t { w'.sessions t with source := none } }
    | none => w1
  match (w2.sessions t).decoder with
  | some d =>
    { w2 with
      decoderCloseCalls := w2.decoderCloseCalls ++ [d]
      sessions := Function.update w2.sessions t { w2.sessions t with decoder := none } }
  | none => w2

/-- The method `TCPServer.OnCloseSession`; `multiPort` is the value of
`stream.AppConfig.GB28181.IsMultiPort()`. -/
def TCPServer.OnCloseSession (sourceClose : GBSource → Filter → Filter) (multiPort : Bool)
    (w : Server) (session : Nat) : Server :=
  let w1 := TCPSession.Close sourceClose w session
  let w2 :=
    match (w1.sessions session).source with
    | some src => w1.RemoveSource (w1.sources src).SSRC
    | none => w1
  if multiPort then { w2 with tcpOpen := false, Handler := false } else w2

/-- A `Close` of the source that leaves the filter of the server alone. -/
def plainClose : GBSource → Filter → Filter := fun _ f => f

/-- A single-port server whose filter expects the SSRC 0xAAAA for source 0, and
whose session 0 is bound to that source. -/
def boundServer : Server where
  filter := [(0xAAAA, 0)]
  tcpOpen := true
  Handler := true
  sources := fun _ => ⟨0xAAAA, 0⟩
  sessions := fun _ => ⟨some 1, some 0, some 1⟩
  removeSourceCalls := []
  decoderCloseCalls := []

end Gb28181

/-! ## The jitter buffer -/

/-- The struct `JitterBuffer`. The sequence numbers are `uint16` values, kept as
naturals below 65536. A slot of `queue` is `none` when it holds nil; the packets
are the values of `α`, the nil value of the interface type, which reads as an
empty slot, is not one of them. Three traces are added: `delivered` lists the
arguments of the calls of `onPacket`, `accepted` the packets that `Push` stored,
and `emitCalls` counts the calls of `emit`. -/
structure JitterBuffer (α : Type) where
  maxSeqNum : Nat
  minSeqNum : Nat
  nextSeqNum : Nat
  count : Int
  minStartCount : Int
  queue : Nat → Option α
  first : Bool
  delivered : List α
  accepted : List α
  emitCalls : Nat

/-- The function `NewJitterBuffer`: 0xFFFF+1 empty slots, `minStartCount` 50. -/
def NewJitterBuffer {α : Type} : JitterBuffer α where
  maxSeqNum := 0
  minSeqNum := 0
  nextSeqNum := 0
  count := 0
  minStartCount := 50
  queue := fun _ => none
  first := true
  delivered := []
  accepted := []
  emitCalls := 0

/-- The loop `for j.queue[j.nextSeqNum] == nil \x7b j.nextSeqNum++ \x7d` of `emit`:
the index and the content of the first slot found, the increment wrapping at
65536. The fuel counts the slots still to be tried: once 65536 slots in a row
were empty the whole queue is, and the loop of the source never ends (`none`). -/
def JitterBuffer.scan {α : Type} (queue : Nat → Option α) : Nat → Nat → Option (Nat × α)
  | 0, _ => none
  | fuel + 1, next =>
    match queue next with
    | some packet => some (next, packet)
    | none => JitterBuffer.scan queue fuel ((next + 1) % 65536)

/-- The method `emit`; `none` when its loop never ends. -/
def JitterBuffer.emit {α : Type} (j : JitterBuffer α) : Option (JitterBuffer α) :=
  let next0 := if j.first then j.minSeqNum else j.nextSeqNum
  let next1 := if next0 > j.maxSeqNum then j.minSeqNum else next0
  match JitterBuffer.scan j.queue 65536 next1 with
  | none => none
  | some (n, packet) =>
    some { j with
      first := false
      delivered := j.delivered ++ [packet]
      queue := Function.update j.queue n none
      nextSeqNum := (n + 1) % 65536
      minSeqNum := min ((n + 1) % 65536) j.maxSeqNum
      count := j.count - 1
      emitCalls := j.emitCalls + 1 }

/-- Lines 39-50 of `Push`: restart the range on an empty buffer, store the packet
when its slot is empty, widen the range to the sequence number. -/
def JitterBuffer.store {α : Type} (j : JitterBuffer α) (seq : Nat) (packet : α) :
    JitterBuffer α :=
  let j1 : JitterBuffer α :=
    if j.count = 0 then { j with minSeqNum := seq, maxSeqNum := seq } else j
  let j2 : JitterBuffer α :=
    if (j1.queue seq).isNone then
      { j1 with
        queue := Function.update j1.queue seq (some packet)
        count := j1.count + 1
        accepted := j1.accepted ++ [packet] }
    else j1
  { j2 with minSeqNum := min j2.minSeqNum seq, maxSeqNum := max j2.maxSeqNum seq }

/-- The method `Push`; `none` when the `emit` it calls never returns. -/
def JitterBuffer.Push {α : Type} (j : JitterBuffer α) (seq : Nat) (packet : α) :
    Option (JitterBuffer α) :=
  let j3 := j.store seq packet
  if j3.count > j3.minStartCount then j3.emit else some j3

/-- The method `Flush`, its loop `for j.count > 0` bounded by a number of rounds;
`none` when the rounds do not suffice or an `emit` never returns. -/
def JitterBuffer.Flush {α : Type} : Nat → JitterBuffer α → Option (JitterBuffer α)
  | 0, j => if j.count > 0 then none else some j
  | fuel + 1, j => if j.count > 0 then j.emit.bind (JitterBuffer.Flush fuel) else some j

/-- A sequence of calls of `Push`, each with its sequence number and packet. -/
def JitterBuffer.pushAll {α : Type} : List (Nat × α) → JitterBuffer α → Option (JitterBuffer α)
  | [], j => some j
  | x :: rest, j => (j.Push x.1 x.2).bind (JitterBuffer.pushAll rest)

/-- The number of occupied slots of the queue. -/
def JitterBuffer.occupied {α : Type} (j : JitterBuffer α) : Nat :=
  ((Finset.range 65536).filter (fun i => (j.queue i).isSome)).card

/-- The packets held in the slots of the queue, as a multiset. -/
def JitterBuffer.stored {α : Type} (queue : Nat → Option α) : Multiset α :=
  ∑ i in Finset.range 65536, ((queue i).toList : Multiset α)

/-- The invariant of the buffer between two calls: `count` is the number of
occupied slots, and the accepted packets are the delivered and the stored ones. -/
def JitterBuffer.Inv {α : Type} (j : JitterBuffer α) : Prop :=
  j.count = (j.occupied : Int) ∧ j.minStartCount = 50 ∧
    (j.accepted : Multiset α) = (j.delivered : Multiset α) + JitterBuffer.stored j.queue ∧
    (∀ i, 65536 ≤ i → j.queue i = none) ∧ j.minSeqNum < 65536 ∧ j.nextSeqNum < 65536

/-- The buffer while its packets `l`, sorted by sequence number, are drained:
the queue holds exactly `l`, and the scan of the next `emit` starts at or below
the first of them. -/
def JitterBuffer.Draining {α : Type} (j : JitterBuffer α) (l : List (Nat × α)) : Prop :=
  l.Pairwise (fun a b => a.1 < b.1) ∧ (∀ s p, j.queue s = some p ↔ (s, p) ∈ l) ∧
    j.count = (l.length : Int) ∧ (∀ x ∈ l, x.1 ≤ j.maxSeqNum ∧ x.1 < 65536) ∧
    (∀ x ∈ l, j.minSeqNum ≤ x.1) ∧
    (j.first = false → ∀ x ∈ l, j.nextSeqNum ≤ x.1 ∨ j.nextSeqNum > j.maxSeqNum)

/-- The buffer after the pushes `acc` when none of them made `Push` call `emit`:
the queue holds exactly `acc`, whose sequence numbers lie between `minSeqNum`
and `maxSeqNum`. -/
def JitterBuffer.Filled {α : Type} (j : JitterBuffer α) (acc : List (Nat × α)) : Prop :=
  j.first = true ∧ j.count = (acc.length : Int) ∧ j.minStartCount = 50 ∧ j.delivered = [] ∧
    j.emitCalls = 0 ∧ (∀ s p, j.queue s = some p ↔ (s, p) ∈ acc) ∧
    (∀ x ∈ acc, j.minSeqNum ≤ x.1 ∧ x.1 ≤ j.maxSeqNum)

/-! ## The legacy RTMP transmuxer -/

/-- Lines 38-49 of the legacy `TransStream.Input`: the size of the chunk payload,
which is the FLV tag prefix, of 2 bytes for an audio packet and of 5 bytes for a
video packet, followed by the `length` bytes of the data. -/
def Rtmp.TransStream.payloadSize (videoPkt : Bool) (length : Int) : Int :=
  if videoPkt then 5 + length else 2 + length

/-- Line 61 of the legacy `TransStream.Input`: the size passed to `Allocate`. -/
def Rtmp.TransStream.allocateSize (chunkSize payloadSize : Int) : Int :=
  12 + payloadSize + payloadSize.tdiv chunkSize

/-- Lines 77-102 of the legacy `TransStream.Input`: the loop that copies the data
chunk by chunk, with a byte of chunk type 3 before every further chunk; the
result is the final value of `n`. The fuel bounds the number of rounds, `none`
when they do not suffice. -/
def Rtmp.TransStream.writeChunks (chunkSize : Int) : Nat → Bool → Int → Int → Option Int
  | 0, _, length, n => if length > 0 then none else some n
  | fuel + 1, first, length, n =>
    if length > 0 then
      let min := if first then Min.min length (chunkSize - 5) else Min.min length chunkSize
      let n1 := n + min
      let length1 := length - min
      Rtmp.TransStream.writeChunks chunkSize fuel false length1
        (if length1 > 0 then n1 + 1 else n1)
    else some n

/-- Lines 63-102 of the legacy `TransStream.Input`: the value of `n` once the
chunk header (12 bytes, asserted at line 67), the FLV tag prefix and the data
are written. -/
def Rtmp.TransStream.written (chunkSize : Int) (videoPkt : Bool) (length : Int) (fuel : Nat) :
    Option Int :=
  let n : Int := 12
  let n := if videoPkt then n + 5 else n + 2
  Rtmp.TransStream.writeChunks chunkSize fuel true length n

/-! # Theorems -/

/-! ## Backpressure of `Input` -/

/-- C1 (as the spec states it, refuted): with `streamPipe` holding as many buffers
as its capacity, `Input` does not return an error, it stays blocked on the send. -/
theorem Input_full_pipe_blocks :
    (∃ ch, fullSource.streamPipe = some ch ∧ ch.buf.length = ch.cap) ∧
      Input fullSource [9] = SendOutcome.blocked ∧
      ¬ ∃ s1 e, Input fullSource [9] = SendOutcome.returned s1 (some e) := by
  refine ⟨⟨_, rfl, rfl⟩, rfl, ?_⟩
  rintro ⟨s1, e, h⟩
  have hb : Input fullSource [9] = SendOutcome.blocked := rfl
  rw [hb] at h
  cases h

/-- C1 (amended): `Input` is a blocking send.  With free room in `streamPipe` it
appends the data at the tail and returns nil; with `streamPipe` full it does not
return, and the pipe is as it was; it never returns a non-nil error. -/
theorem Input_blocking_send (s : PublishSource) (ch : Chan Bytes) (data : Bytes)
    (hpipe : s.streamPipe = some ch) :
    (ch.buf.length < ch.cap →
      Input s data =
        SendOutcome.returned { s with streamPipe := some { ch with buf := ch.buf ++ [data] } }
          none) ∧
    (ch.cap ≤ ch.buf.length → Input s data = SendOutcome.blocked) ∧
    (∀ s1 e, Input s data ≠ SendOutcome.returned s1 (some e)) := by
  refine ⟨?_, ?_, ?_⟩
  · intro h
    simp [Input, chanSend, hpipe, h]
  · intro h
    simp [Input, chanSend, hpipe, Nat.not_lt.mpr h]
  · intro s1 e
    unfold Input
    cases hsend : chanSend s.streamPipe data <;> simp

/-- C1 witness: one send into a pipe with room, one into a full pipe. -/
theorem Input_blocking_send_witness :
    Input roomySource [9] =
        SendOutcome.returned
          { roomySource with streamPipe := some { buf := [[1, 2], [9]], cap := 2 } } none ∧
      Input fullSource [9] = SendOutcome.blocked :=
  ⟨(Input_blocking_send roomySource ⟨[[1, 2]], 2⟩ [9] rfl).1 (by decide),
   (Input_blocking_send fullSource ⟨[[1, 2], [3]], 2⟩ [9] rfl).2.1 (by decide)⟩

/-! ## The heap updates -/

@[simp] theorem World.setSink_sinkObj_same (w : World) (p : SinkPtr) (k : Sink) :
    (w.setSink p k).sinkObj p = k := by
  simp [World.setSink]

theorem World.setSink_sinkObj_other (w : World) (p q : SinkPtr) (k : Sink) (h : q ≠ p) :
    (w.setSink p k).sinkObj q = w.sinkObj q := by
  simp [World.setSink, Function.update_noteq h]

@[simp] theorem World.setSink_s (w : World) (p : SinkPtr) (k : Sink) :
    (w.setSink p k).s = w.s := rfl

@[simp] theorem World.setSink_tsObj (w : World) (p : SinkPtr) (k : Sink) :
    (w.setSink p k).tsObj = w.tsObj := rfl

@[simp] theorem World.setSink_WaitingSinks (w : World) (p : SinkPtr) (k : Sink) :
    (w.setSink p k).WaitingSinks = w.WaitingSinks := rfl

@[simp] theorem World.setSink_hooks (w : World) (p : SinkPtr) (k : Sink) :
    (w.setSink p k).hooks = w.hooks := rfl

@[simp] theorem World.setSink_nextTS (w : World) (p : SinkPtr) (k : Sink) :
    (w.setSink p k).nextTS = w.nextTS := rfl

@[simp] theorem World.setSink_doAddSinkCalls (w : World) (p : SinkPtr) (k : Sink) :
    (w.setSink p k).doAddSinkCalls = w.doAddSinkCalls := rfl

theorem World.setSink_self (w : World) (p : SinkPtr) : w.setSink p (w.sinkObj p) = w := by
  simp [World.setSink]

@[simp] theorem World.setSink_setSink (w : World) (p : SinkPtr) (k k1 : Sink) :
    (w.setSink p k).setSink p k1 = w.setSink p k1 := by
  simp [World.setSink]

@[simp] theorem World.setTS_s (w : World) (p : TSPtr) (t : TransStream) :
    (w.setTS p t).s = w.s := rfl

@[simp] theorem World.setTS_sinkObj (w : World) (p : TSPtr) (t : TransStream) :
    (w.setTS p t).sinkObj = w.sinkObj := rfl

@[simp] theorem World.setTS_WaitingSinks (w : World) (p : TSPtr) (t : TransStream) :
    (w.setTS p t).WaitingSinks = w.WaitingSinks := rfl

@[simp] theorem World.setTS_hooks (w : World) (p : TSPtr) (t : TransStream) :
    (w.setTS p t).hooks = w.hooks := rfl

@[simp] theorem World.setTS_nextTS (w : World) (p : TSPtr) (t : TransStream) :
    (w.setTS p t).nextTS = w.nextTS := rfl

@[simp] theorem World.setTS_doAddSinkCalls (w : World) (p : TSPtr) (t : TransStream) :
    (w.setTS p t).doAddSinkCalls = w.doAddSinkCalls := rfl

@[simp] theorem World.setTS_tsObj_same (w : World) (p : TSPtr) (t : TransStream) :
    (w.setTS p t).tsObj p = t := by
  simp [World.setTS]

/-! ## `DispatchBuffer` -/

theorem dispatchToSink_eq (env : Env) (ts : TransStream) (exist : Bool) (index : Int)
    (data : List Bytes) (timestamp : Int) (videoKey : Bool) (extra : List Bytes) (w : World)
    (p : SinkPtr) (hextra : ts.ReadExtraData env timestamp = .ok extra) :
    dispatchToSink env ts exist index data timestamp videoKey w p =
      .ok (w.setSink p
        (Sink.afterDispatch env exist videoKey extra index data timestamp (w.sinkObj p))) := by
  unfold dispatchToSink Sink.afterDispatch
  by_cases h1 : (exist && decide ((w.sinkObj p).SentPacketCount < 1)) = true
  · rw [if_pos h1, if_pos h1]
    by_cases h2 : (!videoKey) = true
    · rw [if_pos h2, if_pos h2, World.setSink_self]
    · rw [if_neg h2, if_neg h2, hextra]
      by_cases h3 : extra.length > 0
      · simp [h3, write]
      · simp [h3, write]
  · rw [if_neg h1, if_neg h1]
    rfl

theorem dispatchLoop_spec (env : Env) (ts : TransStream) (exist : Bool) (index : Int)
    (data : List Bytes) (timestamp : Int) (videoKey : Bool) (extra : List Bytes)
    (hextra : ts.ReadExtraData env timestamp = .ok extra) :
    ∀ (l : List (SinkID × SinkPtr)) (w : World), (l.map Prod.snd).Nodup →
      ∃ w1, dispatchLoop env ts exist index data timestamp videoKey l w = .ok w1 ∧
        w1 = { w with sinkObj := w1.sinkObj } ∧
        (∀ p ∈ l.map Prod.snd, w1.sinkObj p =
          Sink.afterDispatch env exist videoKey extra index data timestamp (w.sinkObj p)) ∧
        (∀ p, p ∉ l.map Prod.snd → w1.sinkObj p = w.sinkObj p) := by
  intro l
  induction l with
  | nil =>
    intro w _
    exact ⟨w, rfl, rfl, by simp, by simp⟩
  | cons e rest ih =>
    intro w hnd
    rw [List.map_cons, List.nodup_cons] at hnd
    obtain ⟨w1, hrun, hframe, hin, hout⟩ :=
      ih (w.setSink e.2
        (Sink.afterDispatch env exist videoKey extra index data timestamp (w.sinkObj e.2))) hnd.2
    refine ⟨w1, ?_, ?_, ?_, ?_⟩
    · simp only [dispatchLoop]
      rw [dispatchToSink_eq env ts exist index data timestamp videoKey extra w e.2 hextra]
      exact hrun
    · rw [hframe]
      simp [World.setSink]
    · intro p hp
      rw [List.map_cons, List.mem_cons] at hp
      rcases hp with hp | hp
      · subst hp
        rw [hout _ hnd.1, World.setSink_sinkObj_same]
      · have hne : p ≠ e.2 := fun h => hnd.1 (h ▸ hp)
        rw [hin p hp, World.setSink_sinkObj_other _ _ _ _ hne]
    · intro p hp
      rw [List.map_cons, List.mem_cons, not_or] at hp
      rw [hout p hp.2, World.setSink_sinkObj_other _ _ _ _ hp.1]

theorem Sink.afterWrite_written (env : Env) (k : Sink) (index : Int) (data : List Bytes)
    (timestamp : Int) :
    (k.afterWrite env index data timestamp).written = k.written ++ [⟨index, data, timestamp⟩] := by
  unfold Sink.afterWrite Sink.Write Sink.IncreaseSentPacketCount
  by_cases h : env.sinkWriteErr k index data timestamp = true <;> simp [h]

/-- C2: `DispatchBuffer`, once `ReadExtraData(timestamp)` has returned `extra`,
returns, and for every sink subscribed to the transmuxer: on a transmuxer with
video a sink with sent-packet count 0 is left untouched when `videoKey` is false,
and is written `extra` (when non-empty) and then `data` when `videoKey` is true;
a sink with a count above 0, and every sink of a transmuxer without video, is
written `data` only. -/
theorem DispatchBuffer_keyframe_gate (env : Env) (w : World) (transStream : TSPtr)
    (index : Int) (data : List Bytes) (timestamp : Int) (videoKey : Bool) (extra : List Bytes)
    (hextra : (w.tsObj transStream).ReadExtraData env timestamp = .ok extra)
    (hdistinct : ((subscribers w.s (w.tsObj transStream).ID).toList.map Prod.snd).Nodup) :
    ∃ w1, DispatchBuffer env w transStream index data timestamp videoKey = .ok w1 ∧
      ∀ e ∈ (subscribers w.s (w.tsObj transStream).ID).toList,
        ((w.tsObj transStream).ExistVideo = true → (w.sinkObj e.2).SentPacketCount = 0 →
          (videoKey = false → w1.sinkObj e.2 = w.sinkObj e.2) ∧
          (videoKey = true → (w1.sinkObj e.2).written =
            (w.sinkObj e.2).written ++
              (if extra = [] then [] else [⟨index, extra, timestamp⟩]) ++
              [⟨index, data, timestamp⟩])) ∧
        ((0 < (w.sinkObj e.2).SentPacketCount ∨ (w.tsObj transStream).ExistVideo = false) →
          (w1.sinkObj e.2).written = (w.sinkObj e.2).written ++ [⟨index, data, timestamp⟩]) := by
  obtain ⟨w1, hrun, -, hin, -⟩ :=
    dispatchLoop_spec env (w.tsObj transStream) (w.tsObj transStream).ExistVideo index data
      timestamp videoKey extra hextra _ w hdistinct
  refine ⟨w1, hrun, ?_⟩
  intro e he
  have hobj := hin e.2 (List.mem_map_of_mem Prod.snd he)
  rw [hobj]
  refine ⟨?_, ?_⟩
  · intro hvideo hcount
    refine ⟨?_, ?_⟩
    · intro hkey
      simp [Sink.afterDispatch, hvideo, hcount, hkey]
    · intro hkey
      by_cases hex : extra = []
      · simp [Sink.afterDispatch, hvideo, hcount, hkey, hex, Sink.afterWrite_written]
      · have hlen : extra.length > 0 := List.length_pos.mpr hex
        simp [Sink.afterDispatch, hvideo, hcount, hkey, hex, hlen, Sink.afterWrite_written]
  · intro h
    have hgate : ((w.tsObj transStream).ExistVideo &&
        decide ((w.sinkObj e.2).SentPacketCount < 1)) = false := by
      rcases h with h | h
      · have : ¬ (w.sinkObj e.2).SentPacketCount < 1 := by omega
        simp [this]
      · simp [h]
    simp [Sink.afterDispatch, hgate, Sink.afterWrite_written]

/-- C2 witness: a keyframe segment dispatched to a fresh sink and to a sink that
has already been sent packets. -/
theorem DispatchBuffer_keyframe_gate_witness :
    ∃ w1, DispatchBuffer demoEnv gateWorld 0 0 [[8]] 40 true = .ok w1 ∧
      (w1.sinkObj 1).written = [⟨0, [[0]], 40⟩, ⟨0, [[8]], 40⟩] ∧
      (w1.sinkObj 2).written = [⟨0, [[8]], 40⟩] := by
  obtain ⟨w1, hrun, hall⟩ :=
    DispatchBuffer_keyframe_gate demoEnv gateWorld 0 0 [[8]] 40 true [[0]] rfl (by decide)
  refine ⟨w1, hrun, ?_, ?_⟩
  · have h := ((hall (1, 1) (by decide)).1 rfl rfl).2 rfl
    simpa using h
  · have h := (hall (2, 2) (by decide)).2 (Or.inl (by decide))
    simpa using h

/-! ## Keyframe-first delivery on RTMP -/

/-- Whatever the packet, the third value that the RTMP `Input` returns is `true`. -/
theorem Rtmp.Input_videoKey (env : Env) (t t1 : RtmpStream) (packet : AVPacket) (out : TSOutput)
    (h : Rtmp.Input env t packet = .ok (t1, out)) : out.videoKey = true := by
  unfold Rtmp.Input at h
  cases hm : Rtmp.mux env t packet with
  | error e => rw [hm] at h; cases h
  | ok t2 =>
    rw [hm] at h
    simp only [Except.ok.injEq, Prod.mk.injEq] at h
    rw [← h.2]

/-- C3 (the defect, evaluated): RTMP sink 1 is attached to a transmuxer with video
and has been sent nothing.  The publisher sends a video frame that is not a
keyframe and then an audio frame, 400 ms later.  `Input` returns the completed
segment for the audio frame with the flag `true`, and `DispatchPacket` writes the
sink the sequence header and then that segment, whose first frame is not a
keyframe. -/
theorem rtmp_first_segment_without_keyframe :
    (rtmpWorld.tsObj 0).ExistVideo = true ∧ (rtmpWorld.sinkObj 1).SentPacketCount = 0 ∧
    subscribers rtmpWorld.s (rtmpWorld.tsObj 0).ID = some [(1, 1)] ∧
    interFrame.KeyFrame = false ∧ audioFrame.MediaType = AVMediaType.Audio ∧
    ∃ w1 w2 ts out,
      DispatchPacket demoEnv rtmpWorld 0 interFrame = .ok w1 ∧
      (w1.sinkObj 1).written = [] ∧
      (w1.tsObj 0).Input demoEnv audioFrame = .ok (ts, out) ∧
      out.videoKey = true ∧
      DispatchPacket demoEnv w1 0 audioFrame = .ok w2 ∧
      (w2.sinkObj 1).written =
        [⟨1, [[4, 0, 0, 0, 0, 0, 0, 0, 0, 0, 0, 0, 175, 1, 18, 16,
               6, 0, 0, 0, 0, 0, 0, 0, 0, 0, 0, 0, 39, 1, 0, 0, 0, 1, 100]], 0⟩,
         ⟨1, [[6, 0, 0, 0, 0, 0, 0, 0, 0, 0, 0, 0, 39, 1, 0, 0, 0, 65, 1, 2,
               4, 0, 0, 0, 0, 0, 0, 0, 0, 0, 0, 0, 175, 1, 33, 7]], 0⟩] := by
  refine ⟨by decide, by decide, by decide, rfl, rfl,
    worldOr rtmpWorld (DispatchPacket demoEnv rtmpWorld 0 interFrame),
    worldOr rtmpWorld (DispatchPacket demoEnv
      (worldOr rtmpWorld (DispatchPacket demoEnv rtmpWorld 0 interFrame)) 0 audioFrame),
    _, _, by rfl, by decide, by rfl, by decide, by rfl, by decide⟩

/-! ## What dispatching leaves unchanged -/

theorem Sink.sameButWrites_refl (k : Sink) : Sink.sameButWrites k k := by
  cases k; rfl

theorem Sink.sameButWrites_trans {k k1 k2 : Sink} (h1 : Sink.sameButWrites k k1)
    (h2 : Sink.sameButWrites k1 k2) : Sink.sameButWrites k k2 := by
  cases k; cases k1; cases k2
  simp only [Sink.sameButWrites, Sink.mk.injEq] at *
  simp_all

theorem Sink.sameButWrites_afterWrite (env : Env) (k : Sink) (index : Int) (data : List Bytes)
    (timestamp : Int) : Sink.sameButWrites k (k.afterWrite env index data timestamp) := by
  cases k
  unfold Sink.afterWrite Sink.Write Sink.IncreaseSentPacketCount Sink.sameButWrites
  simp only []
  split <;> rfl

theorem TransStream.sameBase_refl (t : TransStream) : TransStream.sameBase t t := by
  cases t; rfl

theorem TransStream.sameBase_trans {t t1 t2 : TransStream} (h1 : TransStream.sameBase t t1)
    (h2 : TransStream.sameBase t1 t2) : TransStream.sameBase t t2 := by
  cases t; cases t1; cases t2
  simp only [TransStream.sameBase, TransStream.mk.injEq] at *
  simp_all

theorem TransStream.sameBase_impl (t : TransStream) (i : TSImpl) :
    TransStream.sameBase t { t with impl := i } := by
  cases t; rfl

theorem World.dispatched_refl (w : World) : World.dispatched w w :=
  ⟨by cases w; rfl, fun p => Sink.sameButWrites_refl _, fun q => TransStream.sameBase_refl _⟩

theorem World.dispatched_trans {w w1 w2 : World} (h1 : World.dispatched w w1)
    (h2 : World.dispatched w1 w2) : World.dispatched w w2 := by
  refine ⟨?_, fun p => Sink.sameButWrites_trans (h1.2.1 p) (h2.2.1 p),
    fun q => TransStream.sameBase_trans (h1.2.2 q) (h2.2.2 q)⟩
  have e1 := h1.1
  have e2 := h2.1
  cases w; cases w1; cases w2
  simp only [World.mk.injEq] at *
  simp_all

theorem World.dispatched_setSink (w : World) (p : SinkPtr) (k : Sink)
    (h : Sink.sameButWrites (w.sinkObj p) k) : World.dispatched w (w.setSink p k) := by
  refine ⟨by cases w; rfl, ?_, fun q => TransStream.sameBase_refl _⟩
  intro q
  by_cases hq : q = p
  · subst hq
    simpa using h
  · rw [World.setSink_sinkObj_other _ _ _ _ hq]
    exact Sink.sameButWrites_refl _

theorem World.dispatched_setTS (w : World) (q : TSPtr) (t : TransStream)
    (h : TransStream.sameBase (w.tsObj q) t) : World.dispatched w (w.setTS q t) := by
  refine ⟨by cases w; rfl, fun p => Sink.sameButWrites_refl _, ?_⟩
  intro r
  by_cases hr : r = q
  · subst hr
    simpa using h
  · simp only [World.setTS, Function.update_noteq hr]
    exact TransStream.sameBase_refl _

theorem World.dispatched_s {w w1 : World} (h : World.dispatched w w1) : w1.s = w.s := by
  have e := h.1
  cases w; cases w1
  simp only [World.mk.injEq] at e
  exact e.1

theorem write_dispatched (env : Env) (w : World) (p : SinkPtr) (index : Int)
    (data : List Bytes) (timestamp : Int) :
    World.dispatched w (write env w p index data timestamp) :=
  World.dispatched_setSink w p _ (Sink.sameButWrites_afterWrite env _ index data timestamp)

theorem dispatchToSink_dispatched (env : Env) (ts : TransStream) (exist : Bool) (index : Int)
    (data : List Bytes) (timestamp : Int) (videoKey : Bool) (w w1 : World) (p : SinkPtr)
    (h : dispatchToSink env ts exist index data timestamp videoKey w p = .ok w1) :
    World.dispatched w w1 := by
  unfold dispatchToSink at h
  split at h
  · split at h
    · cases h
      exact World.dispatched_refl w
    · split at h
      · cases h
      · simp only [Except.ok.injEq] at h
        subst h
        split
        · exact World.dispatched_trans (write_dispatched env w p index _ timestamp)
            (write_dispatched env _ p index data timestamp)
        · exact write_dispatched env w p index data timestamp
  · simp only [Except.ok.injEq] at h
    subst h
    exact write_dispatched env w p index data timestamp

theorem dispatchLoop_dispatched (env : Env) (ts : TransStream) (exist : Bool) (index : Int)
    (data : List Bytes) (timestamp : Int) (videoKey : Bool) :
    ∀ (l : List (SinkID × SinkPtr)) (w w1 : World),
      dispatchLoop env ts exist index data timestamp videoKey l w = .ok w1 →
      World.dispatched w w1 := by
  intro l
  induction l with
  | nil =>
    intro w w1 h
    simp only [dispatchLoop, Except.ok.injEq] at h
    subst h
    exact World.dispatched_refl w
  | cons e rest ih =>
    intro w w1 h
    simp only [dispatchLoop] at h
    split at h
    · cases h
    · rename_i w2 hw2
      exact World.dispatched_trans (dispatchToSink_dispatched _ _ _ _ _ _ _ _ _ _ hw2)
        (ih _ _ h)

theorem DispatchBuffer_dispatched (env : Env) (w w1 : World) (transStream : TSPtr)
    (index : Int) (data : List Bytes) (timestamp : Int) (videoKey : Bool)
    (h : DispatchBuffer env w transStream index data timestamp videoKey = .ok w1) :
    World.dispatched w w1 :=
  dispatchLoop_dispatched env _ _ index data timestamp videoKey _ w w1 h

theorem TransStream.Input_sameBase (env : Env) (t t1 : TransStream) (packet : AVPacket)
    (out : TSOutput) (h : t.Input env packet = .ok (t1, out)) : TransStream.sameBase t t1 := by
  unfold TransStream.Input at h
  split at h
  · cases hr : Rtmp.Input env _ packet with
    | error e => rw [hr] at h; cases h
    | ok x =>
      rw [hr] at h
      simp only [Except.map, Except.ok.injEq, Prod.mk.injEq] at h
      rw [← h.1]
      exact TransStream.sameBase_impl t _
  · simp only [Except.ok.injEq, Prod.mk.injEq] at h
    rw [← h.1]
    exact TransStream.sameBase_impl t _

theorem TransStream.ReadKeyFrameBuffer_sameBase (env : Env) (t t1 : TransStream)
    (x : List Bytes × Int) (h : t.ReadKeyFrameBuffer env = .ok (t1, x)) :
    TransStream.sameBase t t1 := by
  unfold TransStream.ReadKeyFrameBuffer at h
  split at h
  · cases hr : Rtmp.ReadKeyFrameBuffer _ with
    | error e => rw [hr] at h; cases h
    | ok y =>
      rw [hr] at h
      simp only [Except.map, Except.ok.injEq, Prod.mk.injEq] at h
      rw [← h.1]
      exact TransStream.sameBase_impl t _
  · simp only [Except.ok.injEq, Prod.mk.injEq] at h
    rw [← h.1]
    exact TransStream.sameBase_impl t _

theorem TransStream.Close_sameBase (env : Env) (t t1 : TransStream)
    (x : List Bytes × Int) (h : t.Close env = .ok (t1, x)) :
    TransStream.sameBase t t1 := by
  unfold TransStream.Close at h
  split at h
  · cases hr : Rtmp.Close _ with
    | error e => rw [hr] at h; cases h
    | ok y =>
      rw [hr] at h
      simp only [Except.map, Except.ok.injEq, Prod.mk.injEq] at h
      rw [← h.1]
      exact TransStream.sameBase_impl t _
  · simp only [Except.ok.injEq, Prod.mk.injEq] at h
    rw [← h.1]
    exact TransStream.sameBase_impl t _

theorem DispatchPacket_dispatched (env : Env) (w w1 : World) (transStream : TSPtr)
    (packet : AVPacket) (h : DispatchPacket env w transStream packet = .ok w1) :
    World.dispatched w w1 := by
  unfold DispatchPacket at h
  split at h
  · cases h
  · rename_i ts out hin
    have hts := World.dispatched_setTS w transStream ts
      (TransStream.Input_sameBase env _ _ _ _ hin)
    simp only [] at h
    split at h
    · simp only [Except.ok.injEq] at h
      subst h
      exact hts
    · exact World.dispatched_trans hts (DispatchBuffer_dispatched _ _ _ _ _ _ _ _ h)

theorem dispatchPackets_dispatched (env : Env) (transStream : TSPtr) :
    ∀ (l : List AVPacket) (w w1 : World),
      dispatchPackets env transStream l w = .ok w1 → World.dispatched w w1 := by
  intro l
  induction l with
  | nil =>
    intro w w1 h
    simp only [dispatchPackets, Except.ok.injEq] at h
    subst h
    exact World.dispatched_refl w
  | cons p rest ih =>
    intro w w1 h
    simp only [dispatchPackets] at h
    split at h
    · cases h
    · rename_i w2 hw2
      exact World.dispatched_trans (DispatchPacket_dispatched _ _ _ _ _ hw2) (ih _ _ h)

theorem DispatchGOPBuffer_dispatched (env : Env) (w w1 : World) (transStream : TSPtr)
    (h : DispatchGOPBuffer env w transStream = .ok w1) : World.dispatched w w1 := by
  unfold DispatchGOPBuffer at h
  split at h
  · cases h
  · exact dispatchPackets_dispatched _ _ _ _ _ h

theorem dispatchToAll_dispatched (env : Env) (packet : AVPacket) :
    ∀ (l : List (TransStreamID × TSPtr)) (w w1 : World),
      dispatchToAll env packet l w = .ok w1 → World.dispatched w w1 := by
  intro l
  induction l with
  | nil =>
    intro w w1 h
    simp only [dispatchToAll, Except.ok.injEq] at h
    subst h
    exact World.dispatched_refl w
  | cons e rest ih =>
    intro w w1 h
    simp only [dispatchToAll] at h
    split at h
    · cases h
    · rename_i w2 hw2
      exact World.dispatched_trans (DispatchPacket_dispatched _ _ _ _ _ hw2) (ih _ _ h)

theorem closeTransStreams_dispatched (env : Env) :
    ∀ (l : List (TransStreamID × TSPtr)) (w w1 : World),
      closeTransStreams env l w = .ok w1 → World.dispatched w w1 := by
  intro l
  induction l with
  | nil =>
    intro w w1 h
    simp only [closeTransStreams, Except.ok.injEq] at h
    subst h
    exact World.dispatched_refl w
  | cons e rest ih =>
    intro w w1 h
    simp only [closeTransStreams] at h
    split at h
    · cases h
    · rename_i ts data timestamp hclose
      have hts := World.dispatched_setTS w e.2 ts
        (TransStream.Close_sameBase env _ _ _ hclose)
      split at h
      · split at h
        · cases h
        · rename_i w2 hw2
          exact World.dispatched_trans hts
            (World.dispatched_trans (DispatchBuffer_dispatched _ _ _ _ _ _ _ _ hw2) (ih _ _ h))
      · exact World.dispatched_trans hts (ih _ _ h)

theorem primeSink_dispatched (env : Env) (w w1 : World) (sink : SinkPtr) (transStream : TSPtr)
    (h : primeSink env w sink transStream = .ok w1) : World.dispatched w w1 := by
  unfold primeSink at h
  split at h
  · cases h
  · rename_i ts data timestamp hread
    have hts := World.dispatched_setTS w transStream ts
      (TransStream.ReadKeyFrameBuffer_sameBase env _ _ _ hread)
    simp only [] at h
    split at h
    · split at h
      · cases h
      · simp only [Except.ok.injEq] at h
        subst h
        refine World.dispatched_trans hts ?_
        split
        · exact World.dispatched_trans (write_dispatched env _ sink 0 _ timestamp)
            (write_dispatched env _ sink 0 data timestamp)
        · exact write_dispatched env _ sink 0 data timestamp
    · simp only [Except.ok.injEq] at h
      subst h
      exact hts

/-! ## Go maps -/

theorem find_cons_pos {α : Type} (p : α → Bool) (a : α) (l : List α) (h : p a = true) :
    (a :: l).find? p = some a := by
  simp [List.find?, h]

theorem find_cons_neg {α : Type} (p : α → Bool) (a : α) (l : List α) (h : p a = false) :
    (a :: l).find? p = l.find? p := by
  simp [List.find?, h]

theorem GoMap.find_replace_same {κ ν : Type} [DecidableEq κ] (k : κ) (v : ν) :
    ∀ l : List (κ × ν), l.any (fun e => e.1 == k) = true →
      (l.map (fun e => if e.1 == k then (k, v) else e)).find? (fun e => e.1 == k) =
        some (k, v) := by
  intro l
  induction l with
  | nil => intro hany; simp at hany
  | cons e rest ih =>
    intro hany
    by_cases he : e.1 = k
    · have hb : (e.1 == k) = true := by simp [he]
      rw [List.map_cons, if_pos hb]
      exact find_cons_pos (fun e => e.1 == k) (k, v) _ (by simp)
    · have hb : (e.1 == k) = false := by simp [he]
      have hrest : rest.any (fun e => e.1 == k) = true := by
        rw [List.any_cons] at hany
        simpa [he] using hany
      rw [List.map_cons, if_neg (by simp [hb]), find_cons_neg (fun e => e.1 == k) e _ hb]
      exact ih hrest

theorem GoMap.find_replace_other {κ ν : Type} [DecidableEq κ] (k k1 : κ) (v : ν)
    (hne : k1 ≠ k) :
    ∀ l : List (κ × ν),
      ((l.map (fun e => if e.1 == k then (k, v) else e)).find? (fun e => e.1 == k1)).map
          Prod.snd =
        (l.find? (fun e => e.1 == k1)).map Prod.snd := by
  intro l
  induction l with
  | nil => rfl
  | cons e rest ih =>
    rw [List.map_cons]
    by_cases he : e.1 = k
    · have hb : (e.1 == k) = true := by simp [he]
      have h1 : ((k, v).1 == k1) = false := by
        simp only [beq_eq_false_iff_ne]
        exact fun h => hne h.symm
      have h2 : (e.1 == k1) = false := by
        simp only [beq_eq_false_iff_ne, he]
        exact fun h => hne h.symm
      rw [if_pos hb, find_cons_neg (fun e => e.1 == k1) (k, v) _ h1,
        find_cons_neg (fun e => e.1 == k1) e _ h2]
      exact ih
    · have hb : (e.1 == k) = false := by simp [he]
      rw [if_neg (by simp [hb])]
      by_cases hk1 : e.1 = k1
      · have h1 : (e.1 == k1) = true := by simp [hk1]
        rw [find_cons_pos (fun e => e.1 == k1) e _ h1, find_cons_pos (fun e => e.1 == k1) e _ h1]
      · have h1 : (e.1 == k1) = false := by simp [hk1]
        rw [find_cons_neg (fun e => e.1 == k1) e _ h1, find_cons_neg (fun e => e.1 == k1) e _ h1]
        exact ih

theorem GoMap.find_insertList_same {κ ν : Type} [DecidableEq κ] (l : List (κ × ν)) (k : κ)
    (v : ν) : (GoMap.insertList l k v).find? (fun e => e.1 == k) = some (k, v) := by
  unfold GoMap.insertList
  split
  · rename_i hany
    exact GoMap.find_replace_same k v l hany
  · rename_i hany
    have hnone : l.find? (fun e => e.1 == k) = none := by
      rw [List.find?_eq_none]
      intro x hx hxk
      exact hany (List.any_eq_true.mpr ⟨x, hx, hxk⟩)
    rw [List.find?_append, hnone]
    simp

theorem GoMap.find_insertList_other {κ ν : Type} [DecidableEq κ] (l : List (κ × ν)) (k k1 : κ)
    (v : ν) (hne : k1 ≠ k) :
    ((GoMap.insertList l k v).find? (fun e => e.1 == k1)).map Prod.snd =
      (l.find? (fun e => e.1 == k1)).map Prod.snd := by
  unfold GoMap.insertList
  split
  · exact GoMap.find_replace_other k k1 v hne l
  · have hk : ((k, v).1 == k1) = false := by
      simp only [beq_eq_false_iff_ne]
      exact fun h => hne h.symm
    rw [List.find?_append]
    cases hf : l.find? (fun e => e.1 == k1) with
    | none =>
      rw [find_cons_neg (fun e => e.1 == k1) (k, v) _ hk]
      rfl
    | some x => rfl

theorem GoMap.get_set_same {κ ν : Type} [DecidableEq κ] (m m1 : GoMap κ ν) (k : κ) (v : ν)
    (h : m.set k v = .ok m1) : m1.get? k = some v := by
  cases m with
  | none => cases h
  | some l =>
    simp only [GoMap.set, Except.ok.injEq] at h
    subst h
    simp [GoMap.get?, GoMap.toList, GoMap.find_insertList_same]

theorem GoMap.get_set_other {κ ν : Type} [DecidableEq κ] (m m1 : GoMap κ ν) (k k1 : κ) (v : ν)
    (hne : k1 ≠ k) (h : m.set k v = .ok m1) : m1.get? k1 = m.get? k1 := by
  cases m with
  | none => cases h
  | some l =>
    simp only [GoMap.set, Except.ok.injEq] at h
    subst h
    simpa [GoMap.get?, GoMap.toList] using GoMap.find_insertList_other l k k1 v hne

/-! ## What attaching a sink leaves unchanged -/

theorem Sink.sameButSession_refl (k : Sink) : Sink.sameButSession k k := by
  cases k; rfl

theorem Sink.sameButSession_trans {k k1 k2 : Sink} (h1 : Sink.sameButSession k k1)
    (h2 : Sink.sameButSession k1 k2) : Sink.sameButSession k k2 := by
  cases k; cases k1; cases k2
  simp only [Sink.sameButSession, Sink.mk.injEq] at *
  simp_all

theorem Sink.sameButSession_of_writes {k k1 : Sink} (h : Sink.sameButWrites k k1) :
    Sink.sameButSession k k1 := by
  cases k; cases k1
  simp only [Sink.sameButWrites, Sink.sameButSession, Sink.mk.injEq] at *
  simp_all

theorem PublishSource.sameButSinks_refl (s : PublishSource) :
    PublishSource.sameButSinks s s := by
  cases s; rfl

theorem PublishSource.sameButSinks_trans {s s1 s2 : PublishSource}
    (h1 : PublishSource.sameButSinks s s1) (h2 : PublishSource.sameButSinks s1 s2) :
    PublishSource.sameButSinks s s2 := by
  cases s; cases s1; cases s2
  simp only [PublishSource.sameButSinks, PublishSource.mk.injEq] at *
  simp_all

theorem World.attached_refl (w : World) : World.attached w w :=
  ⟨by cases w; rfl, PublishSource.sameButSinks_refl _, fun r => Sink.sameButSession_refl _⟩

theorem World.attached_trans {w w1 w2 : World} (h1 : World.attached w w1)
    (h2 : World.attached w1 w2) : World.attached w w2 := by
  refine ⟨?_, PublishSource.sameButSinks_trans h1.2.1 h2.2.1,
    fun r => Sink.sameButSession_trans (h1.2.2 r) (h2.2.2 r)⟩
  have e1 := h1.1
  have e2 := h2.1
  cases w; cases w1; cases w2
  simp only [World.mk.injEq] at *
  simp_all

theorem World.attached_of_dispatched {w w1 : World} (h : World.dispatched w w1) :
    World.attached w w1 := by
  have hs := World.dispatched_s h
  refine ⟨?_, ?_, fun r => Sink.sameButSession_of_writes (h.2.1 r)⟩
  · have e := h.1
    cases w; cases w1
    simp only [World.mk.injEq] at *
    simp_all
  · rw [hs]
    exact PublishSource.sameButSinks_refl _

theorem World.attached_setSink (w : World) (p : SinkPtr) (k : Sink)
    (h : Sink.sameButSession (w.sinkObj p) k) : World.attached w (w.setSink p k) := by
  refine ⟨by cases w; rfl, PublishSource.sameButSinks_refl _, ?_⟩
  intro q
  by_cases hq : q = p
  · subst hq
    simpa using h
  · rw [World.setSink_sinkObj_other _ _ _ _ hq]
    exact Sink.sameButSession_refl _

theorem CreateTransStream_attached (env : Env) (w w1 : World) (id : TransStreamID)
    (protocol : TransStreamProtocol) (streams : List AVStream) (r : Option TSPtr)
    (h : CreateTransStream env w id protocol streams = .ok (w1, r)) :
    World.attached w w1 ∧ w1.sinkObj = w.sinkObj ∧ w1.s.TransStreams = w.s.TransStreams ∧
      w1.s.sinks = w.s.sinks ∧ w1.s.sinkCount = w.s.sinkCount ∧
      w1.doAddSinkCalls = w.doAddSinkCalls ∧ (r = none → w1 = w) ∧
      (r ≠ none → w.s.TransStreamSinks.set id (some []) = .ok w1.s.TransStreamSinks) := by
  unfold CreateTransStream at h
  split at h
  · simp only [Except.ok.injEq, Prod.mk.injEq] at h
    obtain ⟨rfl, rfl⟩ := h
    exact ⟨World.attached_refl _, rfl, rfl, rfl, rfl, rfl, fun _ => rfl, fun hr => absurd rfl hr⟩
  · split at h
    · simp only [Except.ok.injEq, Prod.mk.injEq] at h
      obtain ⟨rfl, rfl⟩ := h
      exact ⟨World.attached_refl _, rfl, rfl, rfl, rfl, rfl, fun _ => rfl, fun hr => absurd rfl hr⟩
    · simp only [] at h
      split at h
      · cases h
      · rename_i tss htss
        split at h
        · cases h
        · simp only [Except.ok.injEq, Prod.mk.injEq] at h
          obtain ⟨rfl, rfl⟩ := h
          refine ⟨⟨?_, ?_, fun r => Sink.sameButSession_refl _⟩, rfl, rfl, rfl, rfl, rfl, ?_,
            fun _ => htss⟩
          · cases w; rfl
          · simp only [PublishSource.sameButSinks]
          · intro hr
            cases hr

theorem findOrCreate_attached (env : Env) (w w1 : World) (id : TransStreamID)
    (protocol : TransStreamProtocol) (streams : List AVStream) (r : Option (TSPtr × Bool))
    (h : findOrCreate env w id protocol streams = .ok (w1, r)) :
    World.attached w w1 ∧ w1.sinkObj = w.sinkObj ∧ w1.s.sinks = w.s.sinks ∧
      w1.s.sinkCount = w.s.sinkCount ∧ w1.doAddSinkCalls = w.doAddSinkCalls ∧
      (r = none → w1 = w) ∧
      (∀ q, r = some (q, true) → w.s.TransStreams.get? id = some q ∧ w1 = w) ∧
      (∀ q, r = some (q, false) → w.s.TransStreams.get? id = none ∧
        w.s.TransStreams.set id q = .ok w1.s.TransStreams ∧
        w.s.TransStreamSinks.set id (some []) = .ok w1.s.TransStreamSinks) := by
  unfold findOrCreate at h
  split at h
  · rename_i p hp
    simp only [Except.ok.injEq, Prod.mk.injEq] at h
    obtain ⟨rfl, rfl⟩ := h
    refine ⟨World.attached_refl _, rfl, rfl, rfl, rfl, ?_, ?_, ?_⟩
    · intro hr; cases hr
    · intro q hq
      simp only [Option.some.injEq, Prod.mk.injEq, and_true] at hq
      subst hq
      exact ⟨hp, rfl⟩
    · intro q hq
      simp at hq
  · rename_i hnone
    split at h
    · cases h
    · rename_i w2 hc
      simp only [Except.ok.injEq, Prod.mk.injEq] at h
      obtain ⟨rfl, rfl⟩ := h
      obtain ⟨hatt, hobj, -, hsinks, hcount, -, hsame, -⟩ :=
        CreateTransStream_attached _ _ _ _ _ _ _ hc
      have hw := hsame rfl
      subst hw
      refine ⟨hatt, hobj, hsinks, hcount, rfl, fun _ => rfl, ?_, ?_⟩
      · intro q hq; cases hq
      · intro q hq; cases hq
    · rename_i w2 p hc
      obtain ⟨hatt, hobj, hts, hsinks, hcount, hcalls, -, htss⟩ :=
        CreateTransStream_attached _ _ _ _ _ _ _ hc
      split at h
      · cases h
      · rename_i m hm
        simp only [Except.ok.injEq, Prod.mk.injEq] at h
        obtain ⟨rfl, rfl⟩ := h
        refine ⟨?_, hobj, hsinks, hcount, hcalls, ?_, ?_, ?_⟩
        · refine World.attached_trans hatt ⟨?_, ?_, fun r => Sink.sameButSession_refl _⟩
          · cases w2; rfl
          · simp only [PublishSource.sameButSinks]
        · intro hr; cases hr
        · intro q hq
          simp at hq
        · intro q hq
          simp only [Option.some.injEq, Prod.mk.injEq, and_true] at hq
          subst hq
          rw [hts] at hm
          exact ⟨hnone, hm, htss (by simp)⟩

theorem registerSink_spec (env : Env) (w w1 : World) (sink : SinkPtr) (id : TransStreamID)
    (transStream : TSPtr) (exist b : Bool)
    (h : registerSink env w sink id transStream exist = .ok (w1, b)) :
    b = true ∧
    ∃ sinks1 tss,
      w.s.sinks.set (w.sinkObj sink).ID sink = .ok sinks1 ∧
      addSubscriber w.s.TransStreamSinks id (w.sinkObj sink).ID sink = .ok tss ∧
      World.dispatched
        { w with s := { w.s with
            sinkCount := if w.s.recordSink ≠ some sink then w.s.sinkCount + 1 else w.s.sinkCount
            sinks := sinks1
            TransStreamSinks := tss } } w1 := by
  unfold registerSink at h
  simp only [] at h
  split at h
  · cases h
  · rename_i sinks1 hs
    split at h
    · cases h
    · rename_i tss ht
      split at h
      · split at h
        · cases h
        · rename_i w2 hw2
          simp only [Except.ok.injEq, Prod.mk.injEq] at h
          obtain ⟨rfl, rfl⟩ := h
          exact ⟨rfl, sinks1, tss, hs, ht, DispatchGOPBuffer_dispatched _ _ _ _ hw2⟩
      · simp only [Except.ok.injEq, Prod.mk.injEq] at h
        obtain ⟨rfl, rfl⟩ := h
        exact ⟨rfl, sinks1, tss, hs, ht, World.dispatched_refl _⟩

theorem World.dispatched_fields {w w1 : World} (h : World.dispatched w w1) :
    w1.s = w.s ∧ w1.WaitingSinks = w.WaitingSinks ∧ w1.hooks = w.hooks ∧
      w1.doAddSinkCalls = w.doAddSinkCalls ∧ w1.nextTS = w.nextTS := by
  have e := h.1
  cases w; cases w1
  simp only [World.mk.injEq] at e
  simp_all

theorem World.attached_fields {w w1 : World} (h : World.attached w w1) :
    w1.WaitingSinks = w.WaitingSinks ∧ w1.hooks = w.hooks ∧
      w1.sourceManagerRemoved = w.sourceManagerRemoved ∧
      w1.sinkManagerRemoved = w.sinkManagerRemoved ∧ w1.closedConns = w.closedConns := by
  have e := h.1
  cases w; cases w1
  simp only [World.mk.injEq] at e
  simp_all

theorem PublishSource.sameButSinks_fields {s s1 : PublishSource}
    (h : PublishSource.sameButSinks s s1) :
    s1.completed = s.completed ∧ s1.closed = s.closed ∧ s1.originStreams = s.originStreams ∧
      s1.recordSink = s.recordSink ∧ s1.existVideo = s.existVideo ∧ s1.ID = s.ID ∧
      s1.gopBuffer = s.gopBuffer ∧ s1.hlsStream = s.hlsStream := by
  cases s; cases s1
  simp only [PublishSource.sameButSinks, PublishSource.mk.injEq] at h
  simp_all

theorem Sink.sameButWrites_fields {k k1 : Sink} (h : Sink.sameButWrites k k1) :
    k1.ID = k.ID ∧ k1.TransStreamID = k.TransStreamID ∧ k1.State = k.State ∧
      k1.stopCalls = k.stopCalls ∧ k1.closeCalls = k.closeCalls ∧ k1.Ready = k.Ready := by
  cases k; cases k1
  simp only [Sink.sameButWrites, Sink.mk.injEq] at h
  simp_all

theorem Sink.sameButSession_fields {k k1 : Sink} (h : Sink.sameButSession k k1) :
    k1.ID = k.ID ∧ k1.Protocol = k.Protocol ∧ k1.enableVideo = k.enableVideo ∧
      k1.Ready = k.Ready ∧ k1.SourceID = k.SourceID ∧ k1.closeCalls = k.closeCalls ∧
      k1.stopCalls = k.stopCalls := by
  cases k; cases k1
  simp only [Sink.sameButSession, Sink.mk.injEq] at h
  simp_all

theorem Sink.startSession_spec (env : Env) (k : Sink) (id : Lkm.TransStreamID)
    (ts : TransStream) :
    Sink.sameButSession k (k.startSession env id ts).1 ∧
      (k.startSession env id ts).1.TransStreamID = id := by
  cases k
  unfold Sink.startSession Sink.StartStreaming Sink.sameButSession
  simp only []
  split <;> exact ⟨rfl, rfl⟩

theorem Sink.enableAsync_spec (k : Sink) (capacity : Int) :
    Sink.sameButSession k (k.enableAsync capacity) ∧
      (k.enableAsync capacity).TransStreamID = k.TransStreamID := by
  cases k
  unfold Sink.enableAsync Sink.sameButSession
  simp only []
  split <;> exact ⟨rfl, rfl⟩

theorem attachSink_spec (env : Env) (w w1 : World) (sink : SinkPtr) (id : TransStreamID)
    (transStream : TSPtr) (exist b : Bool)
    (h : attachSink env w sink id transStream exist = .ok (w1, b)) :
    World.attached w w1 ∧
    (∀ r, r ≠ sink → Sink.sameButWrites (w.sinkObj r) (w1.sinkObj r)) ∧
    (w1.sinkObj sink).TransStreamID = id ∧
    w1.doAddSinkCalls = w.doAddSinkCalls ∧
    w1.s.TransStreams = w.s.TransStreams ∧
    (((w.sinkObj sink).Ready = true ∧ b = true) →
      ∃ sinks1 tss,
        w.s.sinks.set (w.sinkObj sink).ID sink = .ok sinks1 ∧
        addSubscriber w.s.TransStreamSinks id (w.sinkObj sink).ID sink = .ok tss ∧
        w1.s = { w.s with
          sinkCount := if w.s.recordSink ≠ some sink then w.s.sinkCount + 1 else w.s.sinkCount
          sinks := sinks1
          TransStreamSinks := tss }) ∧
    (((w.sinkObj sink).Ready = false ∨ b = false) → w1.s = w.s) := by
  unfold attachSink at h
  simp only [] at h
  have hstart := Sink.startSession_spec env (w.sinkObj sink) id (w.tsObj transStream)
  generalize (w.sinkObj sink).startSession env id (w.tsObj transStream) = r at h hstart
  have hready : r.1.Ready = (w.sinkObj sink).Ready := (Sink.sameButSession_fields hstart.1).2.2.2.1
  have hother : ∀ (k : Sink) (q : SinkPtr), q ≠ sink →
      Sink.sameButWrites (w.sinkObj q) ((w.setSink sink k).sinkObj q) := by
    intro k q hq
    rw [World.setSink_sinkObj_other _ _ _ _ hq]
    exact Sink.sameButWrites_refl _
  split at h
  · simp only [Except.ok.injEq, Prod.mk.injEq] at h
    obtain ⟨rfl, rfl⟩ := h
    refine ⟨World.attached_setSink w sink r.1 hstart.1, hother r.1, ?_, rfl, rfl, ?_, fun _ => rfl⟩
    · simpa using hstart.2
    · intro hb
      simp at hb
  · split at h
    · rename_i hnr
      simp only [Except.ok.injEq, Prod.mk.injEq] at h
      obtain ⟨rfl, rfl⟩ := h
      refine ⟨World.attached_setSink w sink r.1 hstart.1, hother r.1, ?_, rfl, rfl, ?_,
        fun _ => rfl⟩
      · simpa using hstart.2
      · intro hb
        rw [hb.1] at hready
        simp [hready] at hnr
    · rename_i hnr
      have hasync := Sink.enableAsync_spec r.1 (env.OutStreamBufferCapacity (w.tsObj transStream))
      generalize r.1.enableAsync (env.OutStreamBufferCapacity (w.tsObj transStream)) = kA
        at h hasync
      have hkA : Sink.sameButSession (w.sinkObj sink) kA :=
        Sink.sameButSession_trans hstart.1 hasync.1
      have hkAid : kA.TransStreamID = id := by rw [hasync.2, hstart.2]
      split at h
      · cases h
      · rename_i w3 hprime
        have hd3 := primeSink_dispatched _ _ _ _ _ hprime
        obtain ⟨hb, sinks1, tss, hs1, htss, hd⟩ := registerSink_spec _ _ _ _ _ _ _ _ h
        have hf3 := World.dispatched_fields hd3
        have hf := World.dispatched_fields hd
        have hs3 : w3.s = w.s := by rw [hf3.1]; rfl
        have hobj3 : Sink.sameButWrites kA (w3.sinkObj sink) := by
          simpa using hd3.2.1 sink
        have hid3 : (w3.sinkObj sink).ID = (w.sinkObj sink).ID := by
          rw [(Sink.sameButWrites_fields hobj3).1, (Sink.sameButSession_fields hkA).1]
        have hatt3 : World.attached w w3 :=
          World.attached_trans (World.attached_setSink w sink kA hkA)
            (World.attached_of_dispatched hd3)
        have hmid : World.attached w3
            { w3 with s := { w3.s with
                sinkCount :=
                  if w3.s.recordSink ≠ some sink then w3.s.sinkCount + 1 else w3.s.sinkCount
                sinks := sinks1
                TransStreamSinks := tss } } :=
          ⟨by cases w3; rfl, by simp only [PublishSource.sameButSinks],
            fun r => Sink.sameButSession_refl _⟩
        refine ⟨World.attached_trans hatt3
            (World.attached_trans hmid (World.attached_of_dispatched hd)), ?_, ?_, ?_, ?_, ?_, ?_⟩
        · intro q hq
          refine Sink.sameButWrites_trans (hother kA q hq)
            (Sink.sameButWrites_trans (hd3.2.1 q) (hd.2.1 q))
        · have h1 := (Sink.sameButWrites_fields (hd.2.1 sink)).2.1
          rw [h1]
          show (w3.sinkObj sink).TransStreamID = id
          rw [(Sink.sameButWrites_fields hobj3).2.1, hkAid]
        · rw [hf.2.2.2.1]
          show w3.doAddSinkCalls = w.doAddSinkCalls
          rw [hf3.2.2.2.1]
          rfl
        · rw [hf.1]
          show w3.s.TransStreams = w.s.TransStreams
          rw [hs3]
        · intro _
          rw [hs3, hid3] at hs1 htss
          refine ⟨sinks1, tss, hs1, htss, ?_⟩
          rw [hf.1, hs3]
        · intro hor
          rcases hor with hor | hor
          · rw [hor] at hready
            simp [hready] at hnr
          · rw [hb] at hor
            cases hor

/-- What a returning `doAddSink` leaves unchanged, and what it changes when it
registers a ready sink. -/
theorem doAddSink_spec (env : Env) (w w1 : World) (sink : SinkPtr) (b : Bool)
    (h : doAddSink env w sink = .ok (w1, b)) :
    World.attached w w1 ∧
    (∀ r, r ≠ sink → Sink.sameButWrites (w.sinkObj r) (w1.sinkObj r)) ∧
    w1.doAddSinkCalls = w.doAddSinkCalls ++ [sink] ∧
    (((w.sinkObj sink).Ready = false ∨ b = false) →
      w1.s.sinks = w.s.sinks ∧ w1.s.sinkCount = w.s.sinkCount) ∧
    (((w.sinkObj sink).Ready = true ∧ b = true) →
      (w1.sinkObj sink).TransStreamID = pickedID env w.s (w.sinkObj sink) ∧
      w.s.sinks.set (w.sinkObj sink).ID sink = .ok w1.s.sinks ∧
      w1.s.sinkCount =
        (if w.s.recordSink ≠ some sink then w.s.sinkCount + 1 else w.s.sinkCount) ∧
      ∃ tss0,
        addSubscriber tss0 (pickedID env w.s (w.sinkObj sink)) (w.sinkObj sink).ID sink =
          .ok w1.s.TransStreamSinks ∧
        (((∃ q, w.s.TransStreams.get? (pickedID env w.s (w.sinkObj sink)) = some q) ∧
            w1.s.TransStreams = w.s.TransStreams ∧ tss0 = w.s.TransStreamSinks) ∨
          (w.s.TransStreams.get? (pickedID env w.s (w.sinkObj sink)) = none ∧
            (∃ q, w.s.TransStreams.set (pickedID env w.s (w.sinkObj sink)) q =
              .ok w1.s.TransStreams) ∧
            w.s.TransStreamSinks.set (pickedID env w.s (w.sinkObj sink)) (some []) =
              .ok tss0))) := by
  have hlog : World.attached w { w with doAddSinkCalls := w.doAddSinkCalls ++ [sink] } :=
    ⟨by cases w; rfl, PublishSource.sameButSinks_refl _, fun r => Sink.sameButSession_refl _⟩
  unfold doAddSink at h
  simp only [] at h
  split at h
  · simp only [Except.ok.injEq, Prod.mk.injEq] at h
    obtain ⟨rfl, rfl⟩ := h
    refine ⟨hlog, fun r _ => Sink.sameButWrites_refl _, rfl, fun _ => ⟨rfl, rfl⟩, ?_⟩
    intro hb
    simp at hb
  · split at h
    · cases h
    · split at h
      · cases h
      · split at h
        · cases h
        · rename_i w2 hfc
          simp only [Except.ok.injEq, Prod.mk.injEq] at h
          obtain ⟨rfl, rfl⟩ := h
          obtain ⟨hatt, hobj, hsinks, hcount, hcalls, hsame, -, -⟩ :=
            findOrCreate_attached _ _ _ _ _ _ _ hfc
          have hw := hsame rfl
          subst hw
          refine ⟨hlog, fun r _ => Sink.sameButWrites_refl _, rfl, fun _ => ⟨rfl, rfl⟩, ?_⟩
          intro hb
          simp at hb
        · rename_i w2 transStream exist hfc
          obtain ⟨hatt, hobj, hsinks, hcount, hcalls, -, hex, hnew⟩ :=
            findOrCreate_attached _ _ _ _ _ _ _ hfc
          obtain ⟨hatt2, hoth, htsid, hcalls2, hts2, hreg, hnot⟩ :=
            attachSink_spec _ _ _ _ _ _ _ _ h
          have hobj2 : w2.sinkObj sink = w.sinkObj sink := by rw [hobj]
          refine ⟨World.attached_trans hlog (World.attached_trans hatt hatt2), ?_, ?_, ?_, ?_⟩
          · intro r hr
            have := hoth r hr
            rw [hobj] at this
            exact this
          · rw [hcalls2, hcalls]
          · intro hor
            rw [hobj2] at hnot
            rw [hnot hor]
            exact ⟨hsinks, hcount⟩
          · intro hb
            rw [hobj2] at hreg
            obtain ⟨sinks1, tss, hs1, htss, hs⟩ := hreg hb
            have hrec : w2.s.recordSink = w.s.recordSink :=
              (PublishSource.sameButSinks_fields hatt.2.1).2.2.2.1
            refine ⟨htsid, ?_, ?_, w2.s.TransStreamSinks, ?_, ?_⟩
            · rw [hs]
              rw [hsinks] at hs1
              exact hs1
            · rw [hs]
              show (if w2.s.recordSink ≠ some sink then w2.s.sinkCount + 1
                else w2.s.sinkCount) = _
              rw [hrec, hcount]
            · rw [hs]
              exact htss
            · cases exist with
              | true =>
                obtain ⟨hget, hw⟩ := hex transStream rfl
                left
                refine ⟨⟨transStream, hget⟩, ?_, ?_⟩
                · rw [hts2, hw]
                · rw [hw]
              | false =>
                obtain ⟨hget, hset, hsub⟩ := hnew transStream rfl
                right
                refine ⟨hget, ⟨transStream, ?_⟩, hsub⟩
                rw [hts2]
                exact hset

theorem GoMap.find_map_keep {κ ν : Type} [DecidableEq κ] (f : κ × ν → κ × ν)
    (hf : ∀ e, (f e).1 = e.1) (k : κ) :
    ∀ l : List (κ × ν),
      (l.map f).find? (fun e => e.1 == k) = (l.find? (fun e => e.1 == k)).map f := by
  intro l
  induction l with
  | nil => rfl
  | cons e rest ih =>
    rw [List.map_cons]
    by_cases he : e.1 = k
    · have h1 : (e.1 == k) = true := by simp [he]
      have h2 : ((f e).1 == k) = true := by rw [hf]; exact h1
      rw [find_cons_pos (fun e => e.1 == k) (f e) _ h2, find_cons_pos (fun e => e.1 == k) e _ h1]
      rfl
    · have h1 : (e.1 == k) = false := by simp [he]
      have h2 : ((f e).1 == k) = false := by rw [hf]; exact h1
      rw [find_cons_neg (fun e => e.1 == k) (f e) _ h2, find_cons_neg (fun e => e.1 == k) e _ h1]
      exact ih

theorem GoMap.find_key {κ ν : Type} [DecidableEq κ] (k : κ) (l : List (κ × ν)) (e : κ × ν)
    (h : l.find? (fun e => e.1 == k) = some e) : e.1 = k := by
  have := List.find?_some h
  simpa using this

/-- The sinks subscribed to a transmuxer after `s.TransStreamSinks[tsid][id] = sink`. -/
theorem addSubscriber_spec (m m1 : GoMap TransStreamID (GoMap SinkID SinkPtr))
    (tsid : TransStreamID) (id : SinkID) (sink : SinkPtr)
    (h : addSubscriber m tsid id sink = .ok m1) :
    GoMap.get? ((m1.get? tsid).getD none) id = some sink ∧
    (∀ id1, id1 ≠ id →
      GoMap.get? ((m1.get? tsid).getD none) id1 = GoMap.get? ((m.get? tsid).getD none) id1) ∧
    (∀ t1, t1 ≠ tsid → m1.get? t1 = m.get? t1) := by
  unfold addSubscriber at h
  split at h
  · cases h
  · rename_i l hl
    simp only [Except.ok.injEq] at h
    cases m with
    | none => simp [GoMap.get?, GoMap.toList] at hl
    | some entries =>
      subst h
      have hkeep : ∀ e : TransStreamID × GoMap SinkID SinkPtr,
          (if e.1 == tsid then (e.1, e.2.map (fun l => GoMap.insertList l id sink)) else e).1 =
            e.1 := by
        intro e
        split <;> rfl
      have hfind : ∀ t1, GoMap.get? (Option.map (fun entries => entries.map (fun e =>
          if e.1 == tsid then (e.1, e.2.map (fun l => GoMap.insertList l id sink)) else e))
            (some entries)) t1 =
          ((entries.find? (fun e => e.1 == t1)).map (fun e =>
            if e.1 == tsid then (e.1, e.2.map (fun l => GoMap.insertList l id sink))
            else e)).map Prod.snd := by
        intro t1
        simp only [GoMap.get?, GoMap.toList, Option.map_some', Option.getD_some]
        rw [GoMap.find_map_keep _ hkeep t1 entries]
      cases hfe : entries.find? (fun e => e.1 == tsid) with
      | none => simp [GoMap.get?, GoMap.toList, hfe] at hl
      | some e =>
        have hek : e.1 = tsid := GoMap.find_key tsid entries e hfe
        have he2 : e.2 = some l := by
          simpa [GoMap.get?, GoMap.toList, hfe] using hl
        have hold : (GoMap.get? (some entries) tsid).getD none = some l := by
          simp [GoMap.get?, GoMap.toList, hfe, he2]
        refine ⟨?_, ?_, ?_⟩
        · rw [hfind tsid, hfe]
          simp only [Option.map_some', hek, beq_self_eq_true, if_true, he2, Option.getD_some]
          simp [GoMap.get?, GoMap.toList, GoMap.find_insertList_same]
        · intro id1 hne
          rw [hfind tsid, hfe, hold]
          simp only [Option.map_some', hek, beq_self_eq_true, if_true, he2, Option.getD_some]
          simpa [GoMap.get?, GoMap.toList] using GoMap.find_insertList_other l id id1 sink hne
        · intro t1 hne
          rw [hfind t1]
          cases hf1 : entries.find? (fun e => e.1 == t1) with
          | none => simp [GoMap.get?, GoMap.toList, hf1]
          | some e1 =>
            have hk1 : e1.1 = t1 := GoMap.find_key t1 entries e1 hf1
            have hne1 : ¬ e1.1 = tsid := by
              rw [hk1]
              exact hne
            simp [GoMap.get?, GoMap.toList, hf1, hne1]

theorem GoMap.keys_set_new {κ ν : Type} [DecidableEq κ] (m m1 : GoMap κ ν) (k : κ) (v : ν)
    (hnone : m.get? k = none) (h : m.set k v = .ok m1) : m1.keys = m.keys ++ [k] := by
  cases m with
  | none => cases h
  | some l =>
    simp only [GoMap.set, Except.ok.injEq] at h
    subst h
    have hany : ¬ l.any (fun e => e.1 == k) = true := by
      intro hany
      obtain ⟨x, hx, hxk⟩ := List.any_eq_true.mp hany
      have hfind : l.find? (fun e => e.1 == k) = none := by
        simpa [GoMap.get?, GoMap.toList] using hnone
      rw [List.find?_eq_none] at hfind
      exact hfind x hx hxk
    simp [GoMap.keys, GoMap.toList, GoMap.insertList, hany]

/-! ## TransStream deduplication -/

/-- C4 (as the spec states it, refuted): on the completed source of `hlsWorld`,
whose HLS transmuxer `writeHeader` has already created, the first `doAddSink` of
a ready HLS sink succeeds and adds no entry to `TransStreams`. -/
theorem doAddSink_first_call_adds_no_entry :
    hlsWorld.s.completed = true ∧
    (hlsWorld.sinkObj 1).Ready = true ∧ (hlsWorld.sinkObj 2).Ready = true ∧
    (hlsWorld.sinkObj 1).Protocol = (hlsWorld.sinkObj 2).Protocol ∧
    (hlsWorld.sinkObj 1).enableVideo = (hlsWorld.sinkObj 2).enableVideo ∧
    ∃ w1 w2,
      doAddSink hlsEnv hlsWorld 1 = .ok (w1, true) ∧
      doAddSink hlsEnv w1 2 = .ok (w2, true) ∧
      hlsWorld.s.TransStreams = some [(2083, 0)] ∧
      w1.s.TransStreams = some [(2083, 0)] ∧
      ¬ (w1.s.TransStreams.keys.length = hlsWorld.s.TransStreams.keys.length + 1) := by
  refine ⟨by decide, by decide, by decide, by decide, by decide,
    (addedOr hlsWorld (doAddSink hlsEnv hlsWorld 1)).1,
    (addedOr hlsWorld (doAddSink hlsEnv
      (addedOr hlsWorld (doAddSink hlsEnv hlsWorld 1)).1 2)).1,
    by rfl, by rfl, by decide, by decide, by decide⟩

/-- C4 (amended): when two successive `doAddSink` calls succeed for two ready
sinks with distinct ids, the same protocol and the same `EnableVideo` setting,
both sinks get the same `TransStreamID`, the id generated for the protocol and the
selected tracks; the first call adds exactly one entry to `TransStreams`, under
that id, when the source had no transmuxer of that id, and leaves `TransStreams`
as it was otherwise; the second call leaves `TransStreams` unchanged; and both
sinks are in the `TransStreamSinks` entry of that id. -/
theorem doAddSink_deduplicates (env : Env) (w w1 w2 : World) (p1 p2 : SinkPtr)
    (hp : p1 ≠ p2) (hid : (w.sinkObj p1).ID ≠ (w.sinkObj p2).ID)
    (hproto : (w.sinkObj p1).Protocol = (w.sinkObj p2).Protocol)
    (hvideo : (w.sinkObj p1).enableVideo = (w.sinkObj p2).enableVideo)
    (hr1 : (w.sinkObj p1).Ready = true) (hr2 : (w.sinkObj p2).Ready = true)
    (h1 : doAddSink env w p1 = .ok (w1, true)) (h2 : doAddSink env w1 p2 = .ok (w2, true)) :
    (w2.sinkObj p1).TransStreamID = pickedID env w.s (w.sinkObj p1) ∧
    (w2.sinkObj p2).TransStreamID = pickedID env w.s (w.sinkObj p1) ∧
    (w.s.TransStreams.get? (pickedID env w.s (w.sinkObj p1)) = none →
      w1.s.TransStreams.keys = w.s.TransStreams.keys ++ [pickedID env w.s (w.sinkObj p1)]) ∧
    (w.s.TransStreams.get? (pickedID env w.s (w.sinkObj p1)) ≠ none →
      w1.s.TransStreams = w.s.TransStreams) ∧
    w2.s.TransStreams = w1.s.TransStreams ∧
    GoMap.get? (subscribers w2.s (pickedID env w.s (w.sinkObj p1))) (w.sinkObj p1).ID =
      some p1 ∧
    GoMap.get? (subscribers w2.s (pickedID env w.s (w.sinkObj p1))) (w.sinkObj p2).ID =
      some p2 := by
  obtain ⟨hatt1, -, -, -, hreg1⟩ := doAddSink_spec env w w1 p1 true h1
  obtain ⟨hid1, -, -, tssA, hsubA, hcaseA⟩ := hreg1 ⟨hr1, rfl⟩
  obtain ⟨hatt2, hoth2, -, -, hreg2⟩ := doAddSink_spec env w1 w2 p2 true h2
  have hf2 := Sink.sameButSession_fields (hatt1.2.2 p2)
  have hsrc := PublishSource.sameButSinks_fields hatt1.2.1
  have hpick : pickedID env w1.s (w1.sinkObj p2) = pickedID env w.s (w.sinkObj p1) := by
    unfold pickedID disableVideoFor
    rw [hsrc.2.2.1, hf2.2.1, hf2.2.2.1, ← hproto, ← hvideo]
  have hready2 : (w1.sinkObj p2).Ready = true := by rw [hf2.2.2.2.1]; exact hr2
  obtain ⟨hid2, -, -, tssB, hsubB, hcaseB⟩ := hreg2 ⟨hready2, rfl⟩
  rw [hpick] at hid2 hsubB hcaseB
  rw [hf2.1] at hsubB
  have hsome : ∃ q, w1.s.TransStreams.get? (pickedID env w.s (w.sinkObj p1)) = some q := by
    rcases hcaseA with ⟨⟨q, hq⟩, hsame, -⟩ | ⟨-, ⟨q, hq⟩, -⟩
    · exact ⟨q, by rw [hsame]; exact hq⟩
    · exact ⟨q, GoMap.get_set_same _ _ _ _ hq⟩
  have hB : w2.s.TransStreams = w1.s.TransStreams ∧ tssB = w1.s.TransStreamSinks := by
    rcases hcaseB with ⟨-, hsame, htss⟩ | ⟨hnone, -, -⟩
    · exact ⟨hsame, htss⟩
    · obtain ⟨q, hq⟩ := hsome
      rw [hq] at hnone
      cases hnone
  have hspecA := addSubscriber_spec _ _ _ _ _ hsubA
  have hspecB := addSubscriber_spec _ _ _ _ _ hsubB
  rw [hB.2] at hspecB
  refine ⟨?_, hid2, ?_, ?_, hB.1, ?_, ?_⟩
  · rw [(Sink.sameButWrites_fields (hoth2 p1 hp)).2.1, hid1]
  · intro hnone
    rcases hcaseA with ⟨⟨q, hq⟩, -, -⟩ | ⟨-, ⟨q, hq⟩, -⟩
    · rw [hq] at hnone
      cases hnone
    · exact GoMap.keys_set_new _ _ _ _ hnone hq
  · intro hne
    rcases hcaseA with ⟨-, hsame, -⟩ | ⟨hnone, -, -⟩
    · exact hsame
    · exact absurd hnone hne
  · show GoMap.get? ((w2.s.TransStreamSinks.get? _).getD none) _ = some p1
    rw [hspecB.2.1 _ hid]
    exact hspecA.1
  · exact hspecB.1

/-- C4 witness: two ready RTMP sinks attached one after the other to the source
of `liveWorld`, which has no transmuxer yet. -/
theorem doAddSink_deduplicates_witness :
    ((addedOr liveWorld (doAddSink demoEnv
        (addedOr liveWorld (doAddSink demoEnv liveWorld 1)).1 2)).1.sinkObj 1).TransStreamID =
        2081 ∧
    ((addedOr liveWorld (doAddSink demoEnv
        (addedOr liveWorld (doAddSink demoEnv liveWorld 1)).1 2)).1.sinkObj 2).TransStreamID =
        2081 ∧
    (addedOr liveWorld (doAddSink demoEnv liveWorld 1)).1.s.TransStreams.keys = [2081] ∧
    (addedOr liveWorld (doAddSink demoEnv
        (addedOr liveWorld (doAddSink demoEnv liveWorld 1)).1 2)).1.s.TransStreams =
      (addedOr liveWorld (doAddSink demoEnv liveWorld 1)).1.s.TransStreams := by
  have h := doAddSink_deduplicates demoEnv liveWorld
    (addedOr liveWorld (doAddSink demoEnv liveWorld 1)).1
    (addedOr liveWorld (doAddSink demoEnv
      (addedOr liveWorld (doAddSink demoEnv liveWorld 1)).1 2)).1
    1 2 (by decide) (by decide) (by decide) (by decide) (by decide) (by decide)
    (by rfl) (by rfl)
  have hpick : pickedID demoEnv liveWorld.s (liveWorld.sinkObj 1) = 2081 := by decide
  have hnone : liveWorld.s.TransStreams.get? 2081 = none := by decide
  rw [hpick] at h
  exact ⟨h.1, h.2.1, h.2.2.1 hnone, h.2.2.2.2.1⟩

/-! ## The sink count -/

theorem GoMap.get_delete_same {κ ν : Type} [DecidableEq κ] (m : GoMap κ ν) (k : κ) :
    (m.delete k).get? k = none := by
  cases m with
  | none => rfl
  | some l =>
    simp only [GoMap.delete, GoMap.get?, GoMap.toList, Option.map_some', Option.getD_some,
      Option.map_eq_none', List.find?_eq_none]
    intro x hx
    have := (List.mem_filter.mp hx).2
    simpa using this

theorem filter_cons_pos {α : Type} (p : α → Bool) (a : α) (l : List α) (h : p a = true) :
    (a :: l).filter p = a :: l.filter p := by
  simp [List.filter, h]

theorem filter_cons_neg {α : Type} (p : α → Bool) (a : α) (l : List α) (h : p a = false) :
    (a :: l).filter p = l.filter p := by
  simp [List.filter, h]

theorem GoMap.find_filter_other {κ ν : Type} [DecidableEq κ] (k k1 : κ) (hne : k1 ≠ k) :
    ∀ l : List (κ × ν),
      (l.filter (fun e => !(e.1 == k))).find? (fun e => e.1 == k1) =
        l.find? (fun e => e.1 == k1) := by
  intro l
  induction l with
  | nil => rfl
  | cons e rest ih =>
    by_cases hk : e.1 = k
    · have h1 : (e.1 == k1) = false := by
        simp only [beq_eq_false_iff_ne, hk]
        exact fun h => hne h.symm
      have hdrop : (!(e.1 == k)) = false := by simp [hk]
      rw [find_cons_neg (fun e => e.1 == k1) e _ h1,
        filter_cons_neg (fun e => !(e.1 == k)) e _ hdrop]
      exact ih
    · have hkeep : (!(e.1 == k)) = true := by simp [hk]
      rw [filter_cons_pos (fun e => !(e.1 == k)) e _ hkeep]
      by_cases hk1 : e.1 = k1
      · have h1 : (e.1 == k1) = true := by simp [hk1]
        rw [find_cons_pos (fun e => e.1 == k1) e _ h1, find_cons_pos (fun e => e.1 == k1) e _ h1]
      · have h1 : (e.1 == k1) = false := by simp [hk1]
        rw [find_cons_neg (fun e => e.1 == k1) e _ h1, find_cons_neg (fun e => e.1 == k1) e _ h1]
        exact ih

theorem GoMap.get_delete_other {κ ν : Type} [DecidableEq κ] (m : GoMap κ ν) (k k1 : κ)
    (hne : k1 ≠ k) : (m.delete k).get? k1 = m.get? k1 := by
  cases m with
  | none => rfl
  | some l =>
    simp only [GoMap.delete, GoMap.get?, GoMap.toList, Option.map_some', Option.getD_some]
    rw [GoMap.find_filter_other k k1 hne l]

/-- The sinks subscribed to a transmuxer after `delete(s.TransStreamSinks[tsid], id)`. -/
theorem removeSubscriber_spec (m : GoMap TransStreamID (GoMap SinkID SinkPtr))
    (tsid : TransStreamID) (id : SinkID) :
    ((removeSubscriber m tsid id).get? tsid).getD none =
        GoMap.delete ((m.get? tsid).getD none) id ∧
      (∀ t1, t1 ≠ tsid → (removeSubscriber m tsid id).get? t1 = m.get? t1) := by
  cases m with
  | none => exact ⟨rfl, fun _ _ => rfl⟩
  | some entries =>
    have hkeep : ∀ e : TransStreamID × GoMap SinkID SinkPtr,
        (if e.1 == tsid then (e.1, GoMap.delete e.2 id) else e).1 = e.1 := by
      intro e
      split <;> rfl
    have hfind : ∀ t1, (removeSubscriber (some entries) tsid id).get? t1 =
        ((entries.find? (fun e => e.1 == t1)).map (fun e =>
          if e.1 == tsid then (e.1, GoMap.delete e.2 id) else e)).map Prod.snd := by
      intro t1
      simp only [removeSubscriber, GoMap.get?, GoMap.toList, Option.map_some',
        Option.getD_some]
      rw [GoMap.find_map_keep _ hkeep t1 entries]
    refine ⟨?_, ?_⟩
    · rw [hfind tsid]
      cases hfe : entries.find? (fun e => e.1 == tsid) with
      | none => simp [GoMap.get?, GoMap.toList, hfe, GoMap.delete]
      | some e =>
        have hek : e.1 = tsid := GoMap.find_key tsid entries e hfe
        simp [GoMap.get?, GoMap.toList, hfe, hek]
    · intro t1 hne
      rw [hfind t1]
      cases hf1 : entries.find? (fun e => e.1 == t1) with
      | none => simp [GoMap.get?, GoMap.toList, hf1]
      | some e1 =>
        have hk1 : e1.1 = t1 := GoMap.find_key t1 entries e1 hf1
        have hne1 : ¬ e1.1 = tsid := by
          rw [hk1]
          exact hne
        simp [GoMap.get?, GoMap.toList, hf1, hne1]

/-- C10: a `doAddSink` call that registers a ready sink (it returns true) adds
exactly 1 to `sinkCount` when the sink is not the record sink and leaves
`sinkCount` unchanged when it is; `doRemoveSink`, in any world, removes the sink's
id from `sinks` and from `TransStreamSinks[sink's TransStreamID]`, leaves every
other entry of both maps unchanged, and subtracts exactly 1 from `sinkCount`. -/
theorem sinkCount_add_remove (env : Env) (w w1 : World) (sink : SinkPtr)
    (hready : (w.sinkObj sink).Ready = true)
    (hadd : doAddSink env w sink = .ok (w1, true)) :
    (w.s.recordSink ≠ some sink → w1.s.sinkCount = w.s.sinkCount + 1) ∧
    (w.s.recordSink = some sink → w1.s.sinkCount = w.s.sinkCount) ∧
    ∀ (v : World) (p : SinkPtr) (now : Int),
      (doRemoveSink v p now).1.s.sinks.get? (v.sinkObj p).ID = none ∧
      GoMap.get? (subscribers (doRemoveSink v p now).1.s (v.sinkObj p).TransStreamID)
        (v.sinkObj p).ID = none ∧
      (∀ id, id ≠ (v.sinkObj p).ID →
        (doRemoveSink v p now).1.s.sinks.get? id = v.s.sinks.get? id) ∧
      (∀ id, id ≠ (v.sinkObj p).ID →
        GoMap.get? (subscribers (doRemoveSink v p now).1.s (v.sinkObj p).TransStreamID) id =
          GoMap.get? (subscribers v.s (v.sinkObj p).TransStreamID) id) ∧
      (∀ t, t ≠ (v.sinkObj p).TransStreamID →
        subscribers (doRemoveSink v p now).1.s t = subscribers v.s t) ∧
      (doRemoveSink v p now).1.s.sinkCount = v.s.sinkCount - 1 := by
  obtain ⟨-, -, -, -, hreg⟩ := doAddSink_spec env w w1 sink true hadd
  obtain ⟨-, -, hcount, -⟩ := hreg ⟨hready, rfl⟩
  refine ⟨?_, ?_, ?_⟩
  · intro hrec
    rw [hcount, if_pos hrec]
  · intro hrec
    rw [hcount, if_neg (not_not.mpr hrec)]
  · intro v p now
    have hrem := removeSubscriber_spec v.s.TransStreamSinks (v.sinkObj p).TransStreamID
      (v.sinkObj p).ID
    refine ⟨?_, ?_, ?_, ?_, ?_, rfl⟩
    · exact GoMap.get_delete_same _ _
    · show GoMap.get? ((GoMap.get? (removeSubscriber _ _ _) _).getD none) _ = none
      rw [hrem.1]
      exact GoMap.get_delete_same _ _
    · intro id hne
      exact GoMap.get_delete_other _ _ _ hne
    · intro id hne
      show GoMap.get? ((GoMap.get? (removeSubscriber _ _ _) _).getD none) _ = _
      rw [hrem.1]
      exact GoMap.get_delete_other _ _ _ hne
    · intro t hne
      show (GoMap.get? (removeSubscriber _ _ _) _).getD none = _
      rw [hrem.2 t hne]
      rfl

/-- C10 witness: RTMP sink 1 attached to the source of `liveWorld` and removed
again. -/
theorem sinkCount_add_remove_witness :
    rtmpWorld.s.sinkCount = liveWorld.s.sinkCount + 1 ∧
      (doRemoveSink rtmpWorld 1 77).1.s.sinks.get? (rtmpWorld.sinkObj 1).ID = none ∧
      (doRemoveSink rtmpWorld 1 77).1.s.sinkCount = rtmpWorld.s.sinkCount - 1 := by
  have h := sinkCount_add_remove demoEnv liveWorld rtmpWorld 1 (by decide) (by rfl)
  have hr := h.2.2 rtmpWorld 1 77
  exact ⟨h.1 (by decide), hr.1, hr.2.2.2.2.2⟩

/-! ## Properties of the waiting-sink registry -/

theorem waitingOf_add_same (q : List (String × List SinkPtr)) (id : String) (sink : SinkPtr) :
    waitingOf (AddSinkToWaitingQueue q id sink) id = waitingOf q id ++ [sink] := by
  unfold AddSinkToWaitingQueue waitingOf
  split
  · rename_i hany
    have hkeep : ∀ e : String × List SinkPtr,
        (if e.1 == id then (e.1, e.2 ++ [sink]) else e).1 = e.1 := by
      intro e
      split <;> rfl
    rw [GoMap.find_map_keep _ hkeep id q]
    obtain ⟨x, hx, hxk⟩ := List.any_eq_true.mp hany
    cases hf : q.find? (fun e => e.1 == id) with
    | none =>
      rw [List.find?_eq_none] at hf
      exact absurd hxk (hf x hx)
    | some e =>
      have hek : e.1 = id := GoMap.find_key id q e hf
      simp [hek]
  · rename_i hany
    have hnone : q.find? (fun e => e.1 == id) = none := by
      rw [List.find?_eq_none]
      intro x hx hxk
      exact hany (List.any_eq_true.mpr ⟨x, hx, hxk⟩)
    rw [List.find?_append, hnone]
    simp

theorem waitingOf_add_other (q : List (String × List SinkPtr)) (id id1 : String)
    (sink : SinkPtr) (hne : id1 ≠ id) :
    waitingOf (AddSinkToWaitingQueue q id sink) id1 = waitingOf q id1 := by
  unfold AddSinkToWaitingQueue waitingOf
  split
  · have hkeep : ∀ e : String × List SinkPtr,
        (if e.1 == id then (e.1, e.2 ++ [sink]) else e).1 = e.1 := by
      intro e
      split <;> rfl
    rw [GoMap.find_map_keep _ hkeep id1 q]
    cases hf : q.find? (fun e => e.1 == id1) with
    | none => rfl
    | some e =>
      have hek : e.1 = id1 := GoMap.find_key id1 q e hf
      have hne1 : ¬ e.1 = id := by
        rw [hek]
        exact hne
      simp [hne1]
  · have hk : (((id, [sink]) : String × List SinkPtr).1 == id1) = false := by
      simp only [beq_eq_false_iff_ne]
      exact fun h => hne h.symm
    rw [List.find?_append]
    cases hf : q.find? (fun e => e.1 == id1) with
    | none =>
      rw [find_cons_neg (fun e => e.1 == id1) (id, [sink]) _ hk]
      rfl
    | some x => rfl

/-! ## The AddSink event -/

/-- C7: on a source that is not completed the AddSink event appends the sink to
the waiting queue of its SourceID and changes neither the source (so neither
`sinks`, `TransStreams`, `TransStreamSinks` nor `sinkCount`) nor any other queue;
on a completed source it runs `doAddSink` once, and it calls `Close` on the sink
exactly when `doAddSink` returns false. -/
theorem addSinkEvent_spec (env : Env) (w : World) (sink : SinkPtr) :
    (w.s.completed = false →
      ∃ w1, addSinkEvent env w sink = .ok w1 ∧
        waitingOf w1.WaitingSinks (w.sinkObj sink).SourceID =
          waitingOf w.WaitingSinks (w.sinkObj sink).SourceID ++ [sink] ∧
        (∀ id, id ≠ (w.sinkObj sink).SourceID →
          waitingOf w1.WaitingSinks id = waitingOf w.WaitingSinks id) ∧
        w1.s = w.s ∧ w1.sinkObj = w.sinkObj ∧ w1.doAddSinkCalls = w.doAddSinkCalls) ∧
    (w.s.completed = true →
      ∀ w1 b, doAddSink env w sink = .ok (w1, b) →
        ∃ w2, addSinkEvent env w sink = .ok w2 ∧
          w2.doAddSinkCalls = w.doAddSinkCalls ++ [sink] ∧
          w2.s = w1.s ∧
          (b = true → w2 = w1) ∧
          (w2.sinkObj sink).closeCalls =
            (w.sinkObj sink).closeCalls + (if b = false then 1 else 0)) := by
  refine ⟨?_, ?_⟩
  · intro hc
    refine ⟨{ w with WaitingSinks :=
        AddSinkToWaitingQueue w.WaitingSinks (w.sinkObj sink).SourceID sink }, ?_,
      waitingOf_add_same _ _ _, fun id hne => waitingOf_add_other _ _ _ _ hne, rfl, rfl, rfl⟩
    simp [addSinkEvent, hc]
  · intro hc w1 b hadd
    obtain ⟨hatt, -, hcalls, -, -⟩ := doAddSink_spec env w w1 sink b hadd
    have hclose := (Sink.sameButSession_fields (hatt.2.2 sink)).2.2.2.2.2.1
    cases b with
    | true =>
      refine ⟨w1, ?_, hcalls, rfl, fun _ => rfl, ?_⟩
      · simp [addSinkEvent, hc, hadd]
      · simpa using hclose
    | false =>
      refine ⟨w1.setSink sink (w1.sinkObj sink).Close, ?_, hcalls, rfl, ?_, ?_⟩
      · simp [addSinkEvent, hc, hadd]
      · intro hb
        cases hb
      · simp [Sink.Close, hclose]

/-- C7 witness: sink 4 arriving at the source of `waitingWorld`, which is not
completed, and at the completed source of `emptyWorld`, where `doAddSink` refuses
it for want of a track. -/
theorem addSinkEvent_spec_witness :
    (∃ w1, addSinkEvent demoEnv waitingWorld 4 = .ok w1 ∧
      waitingOf w1.WaitingSinks "live/a" = [3, 4] ∧ w1.s = waitingWorld.s) ∧
    (∃ w2, addSinkEvent demoEnv emptyWorld 4 = .ok w2 ∧
      w2.doAddSinkCalls = [4] ∧ (w2.sinkObj 4).closeCalls = 1) := by
  refine ⟨?_, ?_⟩
  · obtain ⟨w1, hrun, hq, -, hs, -, -⟩ := (addSinkEvent_spec demoEnv waitingWorld 4).1 rfl
    exact ⟨w1, hrun, hq, hs⟩
  · obtain ⟨w2, hrun, hcalls, -, -, hclose⟩ :=
      (addSinkEvent_spec demoEnv emptyWorld 4).2 rfl
        (addedOr emptyWorld (doAddSink demoEnv emptyWorld 4)).1 false (by rfl)
    exact ⟨w2, hrun, hcalls, hclose⟩

/-! ## Completion is permanent -/

theorem requeueOne_fields (w : World) (sink : SinkPtr) :
    (requeueOne w sink).s = w.s ∧ (requeueOne w sink).hooks = w.hooks ∧
      (requeueOne w sink).closedConns = w.closedConns ∧
      (requeueOne w sink).tsObj = w.tsObj ∧
      (∀ q, q ≠ sink → (requeueOne w sink).sinkObj q = w.sinkObj q) := by
  unfold requeueOne
  simp only []
  split <;> split <;>
    refine ⟨rfl, rfl, rfl, rfl, fun q hq => ?_⟩ <;>
    simp [World.setSink, Function.update_noteq hq]

theorem requeueSinks_s : ∀ (l : List (SinkID × SinkPtr)) (w : World),
    (requeueSinks l w).1.s = w.s ∧ (requeueSinks l w).1.hooks = w.hooks ∧
      (requeueSinks l w).1.closedConns = w.closedConns := by
  intro l
  induction l with
  | nil => intro w; exact ⟨rfl, rfl, rfl⟩
  | cons e rest ih =>
    intro w
    simp only [requeueSinks]
    split
    · exact ⟨rfl, rfl, rfl⟩
    · have hone := requeueOne_fields (w.setSink e.2 { w.sinkObj e.2 with TransStreamID := 0 }) e.2
      refine ⟨?_, ?_, ?_⟩
      · rw [(ih _).1, hone.1]
        rfl
      · rw [(ih _).2.1, hone.2.1]
        rfl
      · rw [(ih _).2.2, hone.2.2.1]
        rfl

theorem releaseResources_fields (w : World) :
    (releaseResources w).s.completed = w.s.completed ∧
      (releaseResources w).s.closed = true ∧
      (releaseResources w).s.TransStreams = w.s.TransStreams ∧
      (releaseResources w).s.sinks = w.s.sinks ∧
      (releaseResources w).s.TransStreamSinks = w.s.TransStreamSinks ∧
      (releaseResources w).s.recordSink = w.s.recordSink ∧
      (releaseResources w).s.ID = w.s.ID ∧
      (releaseResources w).hooks = w.hooks ∧
      (releaseResources w).WaitingSinks = w.WaitingSinks := by
  unfold releaseResources
  simp only []
  split <;> exact ⟨rfl, rfl, rfl, rfl, rfl, rfl, rfl, rfl, rfl⟩

theorem DoClose_completed (env : Env) (w w1 : World) (h : DoClose env w = .ok w1) :
    w1.s.completed = w.s.completed := by
  unfold DoClose at h
  split at h
  · simp only [Except.ok.injEq] at h
    rw [← h]
  · simp only [] at h
    split at h
    · cases h
    · rename_i w2 hw2
      have hs2 := World.dispatched_s (closeTransStreams_dispatched _ _ _ _ hw2)
      have hrq := (requeueSinks_s w2.s.sinks.toList w2).1
      split at h
      · simp only [Except.ok.injEq] at h
        rw [← h, hrq, hs2, (releaseResources_fields w).1]
      · simp only [Except.ok.injEq] at h
        rw [← h]
        show (requeueSinks w2.s.sinks.toList w2).1.s.completed = _
        rw [hrq, hs2, (releaseResources_fields w).1]

theorem createRecord_completed (env : Env) (w w1 : World) (h : createRecord env w = .ok w1) :
    w1.s.completed = w.s.completed := by
  unfold createRecord at h
  split at h
  · split at h
    · cases h
    · split at h
      · simp only [Except.ok.injEq] at h
        rw [← h]
      · simp only [Except.ok.injEq] at h
        rw [← h]
  · simp only [Except.ok.injEq] at h
    rw [← h]

theorem createHls_completed (env : Env) (w w1 : World) (h : createHls env w = .ok w1) :
    w1.s.completed = w.s.completed := by
  unfold createHls at h
  split at h
  · simp only [] at h
    split at h
    · cases h
    · split at h
      · cases h
      · cases h
      · rename_i w2 hls hc
        have hatt := (CreateTransStream_attached _ _ _ _ _ _ _ hc).1
        have hc2 := (PublishSource.sameButSinks_fields hatt.2.1).1
        split at h
        · cases h
        · rename_i w3 hw3
          have hs3 := World.dispatched_s (DispatchGOPBuffer_dispatched _ _ _ _ hw3)
          split at h
          · cases h
          · simp only [Except.ok.injEq] at h
            rw [← h]
            show w3.s.completed = _
            rw [hs3, hc2]
  · simp only [Except.ok.injEq] at h
    rw [← h]

theorem CreateDefaultOutStreams_completed (env : Env) (w w1 : World)
    (h : CreateDefaultOutStreams env w = .ok w1) : w1.s.completed = w.s.completed := by
  unfold CreateDefaultOutStreams at h
  simp only [] at h
  split at h
  · cases h
  · rename_i w2 hw2
    rw [createHls_completed _ _ _ h, createRecord_completed _ _ _ hw2]
    split <;> rfl

theorem doAddSink_completed (env : Env) (w w1 : World) (sink : SinkPtr) (b : Bool)
    (h : doAddSink env w sink = .ok (w1, b)) : w1.s.completed = w.s.completed :=
  (PublishSource.sameButSinks_fields (doAddSink_spec env w w1 sink b h).1.2.1).1

theorem addSinks_completed (env : Env) : ∀ (l : List SinkPtr) (w w1 : World),
    addSinks env l w = .ok w1 → w1.s.completed = w.s.completed := by
  intro l
  induction l with
  | nil =>
    intro w w1 h
    simp only [addSinks, Except.ok.injEq] at h
    rw [← h]
  | cons p rest ih =>
    intro w w1 h
    simp only [addSinks] at h
    split at h
    · cases h
    · rename_i w2 ok hadd
      rw [ih _ _ h, ← doAddSink_completed _ _ _ _ _ hadd]
      split <;> rfl

theorem writeHeader_completed (env : Env) (w w1 : World) (h : writeHeader env w = .ok w1) :
    w1.s.completed = true ∧ (w.s.completed = true → w1 = w) := by
  unfold writeHeader at h
  split at h
  · rename_i hc
    simp only [Except.ok.injEq] at h
    subst h
    exact ⟨hc, fun _ => rfl⟩
  · rename_i hc
    refine ⟨?_, fun hc1 => absurd hc1 hc⟩
    simp only [] at h
    split at h
    · rw [DoClose_completed _ _ _ h]
    · split at h
      · cases h
      · rename_i w2 hw2
        rw [addSinks_completed _ _ _ _ h]
        show w2.s.completed = true
        rw [CreateDefaultOutStreams_completed _ _ _ hw2]

theorem FindOrCreatePacketBuffer_completed (env : Env) (s s1 : PublishSource) (index : Int)
    (mediaType : AVMediaType) (i : Fin 8)
    (h : FindOrCreatePacketBuffer env s index mediaType = .ok (s1, i)) :
    s1.completed = s.completed := by
  unfold FindOrCreatePacketBuffer at h
  split at h
  · simp only [] at h
    split at h
    · simp only [Except.ok.injEq, Prod.mk.injEq] at h
      rw [← h.1]
    · simp only [Except.ok.injEq, Prod.mk.injEq] at h
      rw [← h.1]
  · cases h

theorem OnDiscardPacket_completed (env : Env) (s s1 : PublishSource) (packet : AVPacket)
    (h : OnDiscardPacket env s packet = .ok s1) : s1.completed = s.completed := by
  unfold OnDiscardPacket at h
  split at h
  · cases h
  · rename_i s2 i hf
    simp only [Except.ok.injEq] at h
    rw [← h]
    show s2.completed = _
    exact FindOrCreatePacketBuffer_completed _ _ _ _ _ _ hf

theorem discardAll_completed (env : Env) : ∀ (l : List AVPacket) (s s1 : PublishSource),
    discardAll env l s = .ok s1 → s1.completed = s.completed := by
  intro l
  induction l with
  | nil =>
    intro s s1 h
    simp only [discardAll, Except.ok.injEq] at h
    rw [← h]
  | cons p rest ih =>
    intro s s1 h
    simp only [discardAll] at h
    split at h
    · cases h
    · rename_i s2 hs2
      rw [ih _ _ h, OnDiscardPacket_completed _ _ _ _ hs2]

theorem OnDeMuxPacket_completed (env : Env) (w w1 : World) (packet : AVPacket)
    (h : OnDeMuxPacket env w packet = .ok w1) : w1.s.completed = w.s.completed := by
  unfold OnDeMuxPacket at h
  split at h
  · cases h
  · rename_i w2 hcache
    have h2 : w2.s.completed = w.s.completed := by
      unfold cachePacket at hcache
      split at hcache
      · split at hcache
        · cases hcache
        · simp only [] at hcache
          split at hcache
          · cases hcache
          · rename_i s1 hs1
            simp only [Except.ok.injEq] at hcache
            rw [← hcache]
            have hd := discardAll_completed env _ _ _ hs1
            exact hd
      · simp only [Except.ok.injEq] at hcache
        rw [← hcache]
    split at h
    · cases h
    · rename_i w3 hall
      have h3 := World.dispatched_s (dispatchToAll_dispatched _ _ _ _ _ hall)
      unfold releasePacket at h
      split at h
      · split at h
        · cases h
        · rename_i s1 i hf
          simp only [Except.ok.injEq] at h
          rw [← h]
          show s1.completed = _
          rw [FindOrCreatePacketBuffer_completed _ _ _ _ _ _ hf, h3, h2]
      · simp only [Except.ok.injEq] at h
        rw [← h, h3, h2]

theorem runEvent_completed (env : Env) (w w1 : World) (ev : Event) (now : Int)
    (hc : w.s.completed = true) (h : runEvent env w ev now = .ok w1) :
    w1.s.completed = true := by
  cases ev with
  | AddSink sink =>
    simp only [runEvent, addSinkEvent, hc, Bool.not_true, Bool.false_eq_true, if_false] at h
    split at h
    · cases h
    · rename_i w2 ok hadd
      simp only [Except.ok.injEq] at h
      rw [← h, ← hc, ← doAddSink_completed _ _ _ _ _ hadd]
      split <;> rfl
  | RemoveSink sink =>
    simp only [runEvent, Except.ok.injEq] at h
    rw [← h]
    exact hc
  | RemoveSinkWithID id =>
    simp only [runEvent, Except.ok.injEq] at h
    rw [← h]
    unfold removeSinkWithIDEvent
    split
    · exact hc
    · exact hc
  | FindSink id =>
    simp only [runEvent, Except.ok.injEq] at h
    rw [← h]
    exact hc
  | Close =>
    simp only [runEvent] at h
    rw [DoClose_completed _ _ _ h]
    exact hc
  | ProbeTimeout =>
    simp only [runEvent] at h
    exact (writeHeader_completed _ _ _ h).1
  | Sinks =>
    simp only [runEvent, Except.ok.injEq] at h
    rw [← h]
    exact hc

theorem returned_some (r : Except String World) (w1 : World) (h : returned? r = some w1) :
    r = .ok w1 := by
  cases r with
  | error e => cases h
  | ok w2 =>
    simp only [returned?, Option.some.injEq] at h
    rw [h]

theorem returned_map_some {α : Type} (r : Except String α) (f : α → World) (w1 : World)
    (h : returned? (r.map f) = some w1) : ∃ a, r = .ok a ∧ f a = w1 := by
  cases r with
  | error e => cases h
  | ok a =>
    simp only [Except.map, returned?, Option.some.injEq] at h
    exact ⟨a, rfl, h⟩

theorem sent_completed (w w1 : World) (r : SendOutcome PublishSource)
    (hr : ∀ s e, r = SendOutcome.returned s e → s.completed = w.s.completed)
    (h : sent? w r = some w1) : w1.s.completed = w.s.completed := by
  cases r with
  | blocked => cases h
  | returned s e =>
    simp only [sent?, Option.some.injEq] at h
    rw [← h]
    exact hr s e rfl

theorem Input_completed (s s1 : PublishSource) (data : Bytes) (e : Option String)
    (h : Input s data = SendOutcome.returned s1 e) : s1.completed = s.completed := by
  unfold Input at h
  split at h
  · simp only [SendOutcome.returned.injEq] at h
    rw [← h.1]
  · cases h

theorem PostEvent_completed (s s1 : PublishSource) (cb : Event) (e : Option String)
    (h : PostEvent s cb = SendOutcome.returned s1 e) : s1.completed = s.completed := by
  unfold PostEvent at h
  split at h
  · simp only [SendOutcome.returned.injEq] at h
    rw [← h.1]
  · cases h

theorem Init_completed (s s1 : PublishSource) (n : Int) (h : Init s n = .ok s1) :
    s1.completed = s.completed := by
  unfold Init at h
  split at h
  · cases h
  · simp only [Except.ok.injEq] at h
    rw [← h]

theorem OnDeMuxStream_completed (env : Env) (s : PublishSource) (stream : AVStream) :
    (OnDeMuxStream env s stream).completed = s.completed := by
  unfold OnDeMuxStream
  split <;> rfl

/-- One operation of the source never resets `completed`. -/
theorem applyOp_completed (env : Env) (w w1 : World) (op : Op) (hc : w.s.completed = true)
    (h : applyOp env w op = some w1) : w1.s.completed = true := by
  have hpost : ∀ cb, sent? w (PostEvent w.s cb) = some w1 → w1.s.completed = true := by
    intro cb hs
    rw [sent_completed w w1 _ (fun s e hr => PostEvent_completed _ _ _ _ hr) hs]
    exact hc
  cases op with
  | SetLastPacketTime _ => simp only [applyOp, Option.some.injEq] at h; rw [← h]; exact hc
  | SetReceiveDataTimer _ => simp only [applyOp, Option.some.injEq] at h; rw [← h]; exact hc
  | SetIdleTimer _ => simp only [applyOp, Option.some.injEq] at h; rw [← h]; exact hc
  | SetID _ => simp only [applyOp, Option.some.injEq] at h; rw [← h]; exact hc
  | SetType _ => simp only [applyOp, Option.some.injEq] at h; rw [← h]; exact hc
  | SetState _ => simp only [applyOp, Option.some.injEq] at h; rw [← h]; exact hc
  | SetUrlValues _ => simp only [applyOp, Option.some.injEq] at h; rw [← h]; exact hc
  | SetCreateTime _ => simp only [applyOp, Option.some.injEq] at h; rw [← h]; exact hc
  | SetTimeoutTrack _ => simp only [applyOp, Option.some.injEq] at h; rw [← h]; exact hc
  | Init n =>
    obtain ⟨s1, hs1, rfl⟩ := returned_map_some _ _ _ h
    show s1.completed = true
    rw [Init_completed _ _ _ hs1]
    exact hc
  | CreateDefaultOutStreams =>
    rw [CreateDefaultOutStreams_completed _ _ _ (returned_some _ _ h)]
    exact hc
  | FindOrCreatePacketBuffer index mediaType =>
    obtain ⟨r, hr, rfl⟩ := returned_map_some _ _ _ h
    show r.1.completed = true
    rw [FindOrCreatePacketBuffer_completed env w.s r.1 index mediaType r.2 hr]
    exact hc
  | Input data =>
    rw [sent_completed w w1 _ (fun s e hr => Input_completed _ _ _ _ hr) h]
    exact hc
  | CreateTransStream id protocol streams =>
    obtain ⟨r, hr, rfl⟩ := returned_map_some _ _ _ h
    rw [(PublishSource.sameButSinks_fields
      (CreateTransStream_attached env w r.1 id protocol streams r.2 hr).1.2.1).1]
    exact hc
  | DispatchGOPBuffer ts =>
    rw [World.dispatched_s (DispatchGOPBuffer_dispatched _ _ _ _ (returned_some _ _ h))]
    exact hc
  | DispatchPacket ts packet =>
    rw [World.dispatched_s (DispatchPacket_dispatched _ _ _ _ _ (returned_some _ _ h))]
    exact hc
  | DispatchBuffer ts index data timestamp videoKey =>
    rw [World.dispatched_s (DispatchBuffer_dispatched _ _ _ _ _ _ _ _ (returned_some _ _ h))]
    exact hc
  | write sink index data timestamp =>
    simp only [applyOp, Option.some.injEq] at h
    rw [← h]
    exact hc
  | doAddSink sink =>
    obtain ⟨r, hr, rfl⟩ := returned_map_some _ _ _ h
    rw [doAddSink_completed env w r.1 sink r.2 hr]
    exact hc
  | doRemoveSink sink now =>
    simp only [applyOp, Option.some.injEq] at h
    rw [← h]
    exact hc
  | AddSink sink => exact hpost _ h
  | RemoveSink sink => exact hpost _ h
  | RemoveSinkWithID id => exact hpost _ h
  | FindSink id => exact hpost _ h
  | Sinks => exact hpost _ h
  | Close => exact hpost _ h
  | PostEvent cb => exact hpost _ h
  | DoClose =>
    rw [DoClose_completed _ _ _ (returned_some _ _ h)]
    exact hc
  | OnDiscardPacket packet =>
    obtain ⟨s1, hs1, rfl⟩ := returned_map_some _ _ _ h
    show s1.completed = true
    rw [OnDiscardPacket_completed _ _ _ _ hs1]
    exact hc
  | OnDeMuxStream stream =>
    simp only [applyOp, Option.some.injEq] at h
    rw [← h]
    show (OnDeMuxStream env w.s stream).completed = true
    rw [OnDeMuxStream_completed]
    exact hc
  | OnDeMuxStreamDone => exact (writeHeader_completed _ _ _ (returned_some _ _ h)).1
  | OnDeMuxPacket packet =>
    rw [OnDeMuxPacket_completed _ _ _ _ (returned_some _ _ h)]
    exact hc
  | OnDeMuxDone =>
    simp only [applyOp, Option.some.injEq] at h
    rw [← h]
    exact hc
  | writeHeader => exact (writeHeader_completed _ _ _ (returned_some _ _ h)).1
  | runEvent ev now => exact runEvent_completed _ _ _ _ _ hc (returned_some _ _ h)

theorem applyOps_completed (env : Env) : ∀ (ops : List Op) (w w1 : World),
    w.s.completed = true → applyOps env ops w = some w1 → w1.s.completed = true := by
  intro ops
  induction ops with
  | nil =>
    intro w w1 hc h
    simp only [applyOps, Option.some.injEq] at h
    rw [← h]
    exact hc
  | cons op rest ih =>
    intro w w1 hc h
    simp only [applyOps] at h
    split at h
    · cases h
    · rename_i w2 hw2
      exact ih w2 w1 (applyOp_completed env w w2 op hc hw2) h

/-- C9: once `completed` is true, no sequence of operations of the source sets it
back to false; on a completed source `OnDeMuxStream` changes nothing (so neither
`originStreams`, `allStreams`, `existVideo`, `gopBuffer` nor `probeTimer`), and
`writeHeader` returns at once, leaving the whole world as it was (it creates no
out-stream and pops no waiting sink). -/
theorem completed_is_permanent (env : Env) (w : World) (hc : w.s.completed = true) :
    (∀ ops w1, applyOps env ops w = some w1 → w1.s.completed = true) ∧
    (∀ stream, OnDeMuxStream env w.s stream = w.s) ∧
    writeHeader env w = .ok w := by
  refine ⟨fun ops w1 h => applyOps_completed env ops w w1 hc h, ?_, ?_⟩
  · intro stream
    simp [OnDeMuxStream, hc]
  · simp [writeHeader, hc]

/-- C9 witness: a completed source receives another track announcement, a packet,
a close and a late probe timeout; it is still completed. -/
theorem completed_is_permanent_witness :
    (∃ w1, applyOps demoEnv
        [Op.OnDeMuxStream ⟨1, AVMediaType.Audio, 10, []⟩, Op.OnDeMuxPacket interFrame,
          Op.DoClose, Op.writeHeader] completedWorld = some w1 ∧ w1.s.completed = true) ∧
    OnDeMuxStream demoEnv completedWorld.s ⟨1, AVMediaType.Audio, 10, []⟩ = completedWorld.s ∧
    writeHeader demoEnv completedWorld = .ok completedWorld := by
  have h := completed_is_permanent demoEnv completedWorld rfl
  refine ⟨?_, h.2.1 _, h.2.2⟩
  cases hrun : applyOps demoEnv
      [Op.OnDeMuxStream ⟨1, AVMediaType.Audio, 10, []⟩, Op.OnDeMuxPacket interFrame,
        Op.DoClose, Op.writeHeader] completedWorld with
  | none =>
    have hsome : (applyOps demoEnv
      [Op.OnDeMuxStream ⟨1, AVMediaType.Audio, 10, []⟩, Op.OnDeMuxPacket interFrame,
        Op.DoClose, Op.writeHeader] completedWorld).isSome = true := by decide
    rw [hrun] at hsome
    cases hsome
  | some w1 => exact ⟨w1, rfl, h.1 _ w1 hrun⟩

/-! ## Closing the source -/

/-- `DoClose` on a source that is already closed changes nothing and fires no hook. -/
theorem DoClose_closed_noop (env : Env) (w : World) (hc : w.s.closed = true) :
    DoClose env w = .ok w := by
  simp [DoClose, hc]

/-- C5 (the defect, evaluated): the source of `recWorld` is open, has fired no
hook, and its record sink 9 is among its sinks.  The first `DoClose` marks the
source closed and leaves through the `return` of line 627: no hook has been fired,
the connection is still open and the maps are still there; the second `DoClose`
changes nothing.  After two calls `on_publish_done` and `on_record` have been fired
zero times. -/
theorem DoClose_twice_with_record_sink_fires_no_hook :
    recWorld.s.closed = false ∧ recWorld.hooks = [] ∧
    recWorld.s.recordSink = some 9 ∧ recWorld.s.sinks = some [(3, 3), (9, 9)] ∧
    ∃ w1 w2,
      DoClose recEnv recWorld = .ok w1 ∧ DoClose recEnv w1 = .ok w2 ∧
      w1.s.closed = true ∧ w1.hooks = [] ∧ w2.hooks = [] ∧
      w1.closedConns = [] ∧ w1.s.Conn = some 1 ∧
      w1.s.sinks = some [(3, 3), (9, 9)] := by
  refine ⟨by decide, by decide, by decide, by decide,
    worldOr recWorld (DoClose recEnv recWorld),
    worldOr recWorld (DoClose recEnv (worldOr recWorld (DoClose recEnv recWorld))),
    by rfl, by rfl, by decide, by decide, by decide, by decide, by decide, by decide⟩

/-- The effect of lines 630-645 of `DoClose` on the sink they handle. -/
theorem requeueOne_spec (w : World) (sink : SinkPtr) :
    ((w.sinkObj sink).State ≠ SessionState.Closed →
      ((requeueOne w sink).sinkObj sink).State = SessionState.Wait ∧
      ((requeueOne w sink).sinkObj sink).stopCalls = (w.sinkObj sink).stopCalls + 1 ∧
      (requeueOne w sink).WaitingSinks = AddSinkToWaitingQueue w.WaitingSinks w.s.ID sink) ∧
    ((w.sinkObj sink).State = SessionState.Closed → requeueOne w sink = w) := by
  refine ⟨?_, ?_⟩
  · intro hs
    simp [requeueOne, hs, World.setSink, Sink.StopStreaming]
  · intro hs
    simp [requeueOne, hs]

/-- The loop over `s.sinks` of `DoClose`, when the record sink is not among the
sinks it visits. -/
theorem requeueSinks_spec : ∀ (l : List (SinkID × SinkPtr)) (w : World),
    (l.map Prod.snd).Nodup → (∀ e ∈ l, w.s.recordSink ≠ some e.2) →
    (requeueSinks l w).2 = false ∧
    ∀ p,
      (p ∈ l.map Prod.snd → (w.sinkObj p).State ≠ SessionState.Closed →
        ((requeueSinks l w).1.sinkObj p).State = SessionState.Wait ∧
        (waitingOf (requeueSinks l w).1.WaitingSinks w.s.ID).count p =
          (waitingOf w.WaitingSinks w.s.ID).count p + 1 ∧
        ((requeueSinks l w).1.sinkObj p).stopCalls = (w.sinkObj p).stopCalls + 1) ∧
      (p ∈ l.map Prod.snd → (w.sinkObj p).State = SessionState.Closed →
        ((requeueSinks l w).1.sinkObj p).State = SessionState.Closed ∧
        (waitingOf (requeueSinks l w).1.WaitingSinks w.s.ID).count p =
          (waitingOf w.WaitingSinks w.s.ID).count p ∧
        ((requeueSinks l w).1.sinkObj p).stopCalls = (w.sinkObj p).stopCalls) ∧
      (p ∉ l.map Prod.snd →
        (requeueSinks l w).1.sinkObj p = w.sinkObj p ∧
        (waitingOf (requeueSinks l w).1.WaitingSinks w.s.ID).count p =
          (waitingOf w.WaitingSinks w.s.ID).count p) := by
  intro l
  induction l with
  | nil =>
    intro w _ _
    refine ⟨rfl, fun p => ⟨?_, ?_, fun _ => ⟨rfl, rfl⟩⟩⟩
    · intro hp; simp at hp
    · intro hp; simp at hp
  | cons e rest ih =>
    intro w hnd hrec
    rw [List.map_cons, List.nodup_cons] at hnd
    have hrece : w.s.recordSink ≠ some e.2 := hrec e (List.mem_cons_self _ _)
    -- the world after the statements of the loop body for `e`
    generalize hw1 : w.setSink e.2 { w.sinkObj e.2 with TransStreamID := 0 } = w1
    have hw1s : w1.s = w.s := by rw [← hw1]; rfl
    have hw1q : w1.WaitingSinks = w.WaitingSinks := by rw [← hw1]; rfl
    have hw1e : w1.sinkObj e.2 = { w.sinkObj e.2 with TransStreamID := 0 } := by
      rw [← hw1]; simp
    have hw1o : ∀ q, q ≠ e.2 → w1.sinkObj q = w.sinkObj q := by
      intro q hq
      rw [← hw1]
      exact World.setSink_sinkObj_other _ _ _ _ hq
    have hstep : requeueSinks (e :: rest) w = requeueSinks rest (requeueOne w1 e.2) := by
      simp only [requeueSinks]
      rw [hw1, if_neg (by rw [hw1s]; exact hrece)]
    have hone := requeueOne_fields w1 e.2
    have hspec := requeueOne_spec w1 e.2
    have hrec2 : ∀ e1 ∈ rest, (requeueOne w1 e.2).s.recordSink ≠ some e1.2 := by
      intro e1 he1
      rw [hone.1, hw1s]
      exact hrec e1 (List.mem_cons_of_mem _ he1)
    obtain ⟨hflag, hall⟩ := ih (requeueOne w1 e.2) hnd.2 hrec2
    have hid2 : (requeueOne w1 e.2).s.ID = w.s.ID := by rw [hone.1, hw1s]
    rw [hid2] at hall
    rw [hstep]
    refine ⟨hflag, fun p => ?_⟩
    obtain ⟨hopen, hclosed, hout⟩ := hall p
    by_cases hpe : p = e.2
    · rw [hpe]
      obtain ⟨hobj, hcount⟩ := (hall e.2).2.2 hnd.1
      refine ⟨?_, ?_, ?_⟩
      · intro _ hst
        have hst1 : (w1.sinkObj e.2).State ≠ SessionState.Closed := by rw [hw1e]; exact hst
        obtain ⟨h1, h2, h3⟩ := hspec.1 hst1
        refine ⟨by rw [hobj]; exact h1, ?_, ?_⟩
        · rw [hcount, h3, hw1q, hw1s, waitingOf_add_same, List.count_append]
          simp
        · rw [hobj, h2, hw1e]
      · intro _ hst
        have hst1 : (w1.sinkObj e.2).State = SessionState.Closed := by rw [hw1e]; exact hst
        have h1 := hspec.2 hst1
        refine ⟨?_, ?_, ?_⟩
        · rw [hobj, h1, hw1e]
          exact hst
        · rw [hcount, h1, hw1q]
        · rw [hobj, h1, hw1e]
      · intro hp
        exact absurd (List.mem_cons_self _ _) hp
    · have hbase : (requeueOne w1 e.2).sinkObj p = w.sinkObj p := by
        rw [hone.2.2.2.2 p hpe, hw1o p hpe]
      have hq : (waitingOf (requeueOne w1 e.2).WaitingSinks w.s.ID).count p =
          (waitingOf w.WaitingSinks w.s.ID).count p := by
        by_cases hst : (w1.sinkObj e.2).State = SessionState.Closed
        · rw [hspec.2 hst, hw1q]
        · rw [(hspec.1 hst).2.2, hw1q, hw1s, waitingOf_add_same, List.count_append]
          simp [List.count_cons, hpe]
      rw [hbase, hq] at hopen hclosed hout
      refine ⟨?_, ?_, ?_⟩
      · intro hp hst
        rw [List.map_cons, List.mem_cons] at hp
        exact hopen (hp.resolve_left hpe) hst
      · intro hp hst
        rw [List.map_cons, List.mem_cons] at hp
        exact hclosed (hp.resolve_left hpe) hst
      · intro hp
        rw [List.map_cons, List.mem_cons, not_or] at hp
        exact hout hp.2

theorem releaseResources_sinkObj (w : World) (p : SinkPtr) (h : w.s.recordSink ≠ some p) :
    (releaseResources w).sinkObj p = w.sinkObj p := by
  unfold releaseResources
  simp only []
  split
  · rename_i r hr
    have hne : p ≠ r := by
      intro hpr
      rw [hr, hpr] at h
      exact h rfl
    rw [World.setSink_sinkObj_other _ _ _ _ hne]
  · rfl

/-- The loop over `s.sinks` of `DoClose` never puts the record sink on the waiting
queue. -/
theorem requeueSinks_record (r : SinkPtr) : ∀ (l : List (SinkID × SinkPtr)) (w : World),
    w.s.recordSink = some r →
    (waitingOf (requeueSinks l w).1.WaitingSinks w.s.ID).count r =
      (waitingOf w.WaitingSinks w.s.ID).count r := by
  intro l
  induction l with
  | nil => intro w _; rfl
  | cons e rest ih =>
    intro w hr
    simp only [requeueSinks]
    split
    · rfl
    · rename_i hne
      have hne1 : w.s.recordSink ≠ some e.2 := hne
      have her : r ≠ e.2 := by
        intro h
        rw [hr, h] at hne1
        exact hne1 rfl
      generalize hw1 : w.setSink e.2 { w.sinkObj e.2 with TransStreamID := 0 } = w1
      have hw1s : w1.s = w.s := by rw [← hw1]; rfl
      have hw1q : w1.WaitingSinks = w.WaitingSinks := by rw [← hw1]; rfl
      have hone := requeueOne_fields w1 e.2
      have hspec := requeueOne_spec w1 e.2
      have hrec2 : (requeueOne w1 e.2).s.recordSink = some r := by rw [hone.1, hw1s, hr]
      have hih := ih (requeueOne w1 e.2) hrec2
      rw [hone.1, hw1s] at hih
      rw [hih]
      by_cases hst : (w1.sinkObj e.2).State = SessionState.Closed
      · rw [hspec.2 hst, hw1q]
      · rw [(hspec.1 hst).2.2, hw1q, hw1s, waitingOf_add_same, List.count_append]
        simp [List.count_cons, her]

/-- C6 (amended): after the first `DoClose` on a source whose sinks are pairwise
distinct objects.  When the record sink is not among `s.sinks`: each sink of
`s.sinks` whose state was not Closed is in state Wait, occurs once more in
`WaitingSinks[s.ID]` and has had `StopStreaming` called once; each sink whose state
was Closed has not been added to the waiting queue; and `TransStreams`, `sinks`
and `TransStreamSinks` are nil.  In every case the record sink has not been added
to the waiting queue. -/
theorem DoClose_requeues_sinks (env : Env) (w w1 : World) (hopen : w.s.closed = false)
    (hdistinct : (w.s.sinks.toList.map Prod.snd).Nodup) (h : DoClose env w = .ok w1) :
    ((∀ e ∈ w.s.sinks.toList, w.s.recordSink ≠ some e.2) →
      (∀ e ∈ w.s.sinks.toList, (w.sinkObj e.2).State ≠ SessionState.Closed →
        (w1.sinkObj e.2).State = SessionState.Wait ∧
        (waitingOf w1.WaitingSinks w.s.ID).count e.2 =
          (waitingOf w.WaitingSinks w.s.ID).count e.2 + 1 ∧
        (w1.sinkObj e.2).stopCalls = (w.sinkObj e.2).stopCalls + 1) ∧
      (∀ e ∈ w.s.sinks.toList, (w.sinkObj e.2).State = SessionState.Closed →
        (waitingOf w1.WaitingSinks w.s.ID).count e.2 =
          (waitingOf w.WaitingSinks w.s.ID).count e.2) ∧
      w1.s.TransStreams = none ∧ w1.s.sinks = none ∧ w1.s.TransStreamSinks = none) ∧
    (∀ r, w.s.recordSink = some r →
      (waitingOf w1.WaitingSinks w.s.ID).count r =
        (waitingOf w.WaitingSinks w.s.ID).count r) := by
  unfold DoClose at h
  rw [if_neg (by rw [hopen]; simp)] at h
  simp only [] at h
  split at h
  · cases h
  · rename_i w2 hw2
    have hrel := releaseResources_fields w
    have hd := closeTransStreams_dispatched _ _ _ _ hw2
    have hf := World.dispatched_fields hd
    have hs2 : w2.s.sinks = w.s.sinks := by rw [hf.1, hrel.2.2.2.1]
    have hrec2 : w2.s.recordSink = w.s.recordSink := by rw [hf.1, hrel.2.2.2.2.2.1]
    have hid2 : w2.s.ID = w.s.ID := by rw [hf.1, hrel.2.2.2.2.2.2.1]
    have hq2 : w2.WaitingSinks = w.WaitingSinks := by rw [hf.2.1, hrel.2.2.2.2.2.2.2.2]
    have hq1 : w1.WaitingSinks = (requeueSinks w2.s.sinks.toList w2).1.WaitingSinks := by
      split at h
      · simp only [Except.ok.injEq] at h
        rw [← h]
      · simp only [Except.ok.injEq] at h
        rw [← h]
        rfl
    refine ⟨?_, ?_⟩
    · intro hrec
      have hnd2 : (w2.s.sinks.toList.map Prod.snd).Nodup := by rw [hs2]; exact hdistinct
      have hrecl : ∀ e ∈ w2.s.sinks.toList, w2.s.recordSink ≠ some e.2 := by
        intro e he
        rw [hrec2]
        rw [hs2] at he
        exact hrec e he
      obtain ⟨hflag, hall⟩ := requeueSinks_spec w2.s.sinks.toList w2 hnd2 hrecl
      rw [hflag] at h
      simp only [Bool.false_eq_true, if_false, Except.ok.injEq] at h
      have hobj1 : w1.sinkObj = (requeueSinks w2.s.sinks.toList w2).1.sinkObj := by
        rw [← h]
        rfl
      have hsame : ∀ e ∈ w.s.sinks.toList,
          (w2.sinkObj e.2).State = (w.sinkObj e.2).State ∧
          (w2.sinkObj e.2).stopCalls = (w.sinkObj e.2).stopCalls := by
        intro e he
        have hw := Sink.sameButWrites_fields (hd.2.1 e.2)
        rw [releaseResources_sinkObj w e.2 (hrec e he)] at hw
        exact ⟨hw.2.2.1, hw.2.2.2.1⟩
      refine ⟨?_, ?_, ?_, ?_, ?_⟩
      · intro e he hst
        have hmem : e.2 ∈ w2.s.sinks.toList.map Prod.snd := by
          rw [hs2]
          exact List.mem_map_of_mem Prod.snd he
        have hst2 : (w2.sinkObj e.2).State ≠ SessionState.Closed := by
          rw [(hsame e he).1]
          exact hst
        obtain ⟨h1, h2, h3⟩ := (hall e.2).1 hmem hst2
        rw [hid2, hq2] at h2
        rw [hobj1, hq1]
        exact ⟨h1, h2, by rw [h3, (hsame e he).2]⟩
      · intro e he hst
        have hmem : e.2 ∈ w2.s.sinks.toList.map Prod.snd := by
          rw [hs2]
          exact List.mem_map_of_mem Prod.snd he
        have hst2 : (w2.sinkObj e.2).State = SessionState.Closed := by
          rw [(hsame e he).1]
          exact hst
        obtain ⟨-, h2, -⟩ := (hall e.2).2.1 hmem hst2
        rw [hid2, hq2] at h2
        rw [hq1]
        exact h2
      · rw [← h]; rfl
      · rw [← h]; rfl
      · rw [← h]; rfl
    · intro r hr
      have hr2 : w2.s.recordSink = some r := by rw [hrec2]; exact hr
      have hkeep := requeueSinks_record r w2.s.sinks.toList w2 hr2
      rw [hid2, hq2] at hkeep
      rw [hq1]
      exact hkeep

/-- C6 witness: the source of `rtmpWorld`, with RTMP sink 1 attached and no record
sink, is closed. -/
theorem DoClose_requeues_sinks_witness :
    ∃ w1, DoClose demoEnv rtmpWorld = .ok w1 ∧
      (w1.sinkObj 1).State = SessionState.Wait ∧
      (waitingOf w1.WaitingSinks "live/a").count 1 = 1 ∧
      (w1.sinkObj 1).stopCalls = 1 ∧
      w1.s.TransStreams = none ∧ w1.s.sinks = none ∧ w1.s.TransStreamSinks = none := by
  have h := DoClose_requeues_sinks demoEnv rtmpWorld
    (worldOr rtmpWorld (DoClose demoEnv rtmpWorld)) (by decide) (by decide) (by rfl)
  obtain ⟨hsinks, hclosed, h1, h2, h3⟩ := h.1 (by decide)
  obtain ⟨hst, hcount, hstop⟩ := hsinks (1, 1) (by decide) (by decide)
  exact ⟨_, rfl, hst, hcount, hstop, h1, h2, h3⟩

/-- C6 (as the spec states it, refuted): the record sink 9 of `recWorld` is among
the sinks of the source and its state is Transferring, not Closed; after `DoClose`
it is not in state Wait, it is not in the waiting queue of the source, and
`StopStreaming` has not been called on it. -/
theorem DoClose_leaves_record_sink_out :
    recWorld.s.sinks = some [(3, 3), (9, 9)] ∧
    (recWorld.sinkObj 9).State = SessionState.Transferring ∧
    ∃ w1, DoClose recEnv recWorld = .ok w1 ∧
      (w1.sinkObj 9).State ≠ SessionState.Wait ∧
      9 ∉ waitingOf w1.WaitingSinks recWorld.s.ID ∧
      (w1.sinkObj 9).stopCalls = (recWorld.sinkObj 9).stopCalls := by
  refine ⟨by decide, by decide, worldOr recWorld (DoClose recEnv recWorld), by rfl,
    by decide, by decide, by decide⟩

/-! ## The waiting queue round trip -/

/-- C8 (the defect, evaluated): with HLS enabled and the GOP cache off, the source
of `recProbingWorld` (not completed, not closed, two origin streams, sink 3
waiting) has no GOP buffer.  `writeHeader` panics in `CreateDefaultOutStreams`, at
the call `s.gopBuffer.PeekAll` of `DispatchGOPBuffer`, before it pops the waiting
queue: `doAddSink` is never called for sink 3. -/
theorem writeHeader_panics_before_draining_queue :
    recProbingWorld.s.completed = false ∧ recProbingWorld.s.closed = false ∧
    recProbingWorld.s.originStreams.length = 2 ∧
    waitingOf recProbingWorld.WaitingSinks recProbingWorld.s.ID = [3] ∧
    hlsOnlyEnv.HlsEnable = true ∧ hlsOnlyEnv.GOPCache = false ∧
    recProbingWorld.s.gopBuffer = none ∧
    writeHeader hlsOnlyEnv recProbingWorld = .error "nil pointer dereference" ∧
    applyOp hlsOnlyEnv recProbingWorld Op.writeHeader = none := by
  refine ⟨by decide, by decide, by decide, by decide, by decide, by decide, by decide,
    by rfl, by rfl⟩

theorem createRecord_frame (env : Env) (w w1 : World) (h : createRecord env w = .ok w1) :
    w1.WaitingSinks = w.WaitingSinks ∧ w1.doAddSinkCalls = w.doAddSinkCalls ∧
      w1.s.ID = w.s.ID := by
  unfold createRecord at h
  split at h
  · split at h
    · cases h
    · split at h
      · simp only [Except.ok.injEq] at h
        rw [← h]
        exact ⟨rfl, rfl, rfl⟩
      · simp only [Except.ok.injEq] at h
        rw [← h]
        exact ⟨rfl, rfl, rfl⟩
  · simp only [Except.ok.injEq] at h
    rw [← h]
    exact ⟨rfl, rfl, rfl⟩

theorem createHls_frame (env : Env) (w w1 : World) (h : createHls env w = .ok w1) :
    w1.WaitingSinks = w.WaitingSinks ∧ w1.doAddSinkCalls = w.doAddSinkCalls ∧
      w1.s.ID = w.s.ID ∧ w1.s.recordSink = w.s.recordSink := by
  unfold createHls at h
  split at h
  · simp only [] at h
    split at h
    · cases h
    · split at h
      · cases h
      · cases h
      · rename_i w2 hls hc
        obtain ⟨hatt, -, -, -, -, hcalls, -, -⟩ := CreateTransStream_attached _ _ _ _ _ _ _ hc
        have hsrc := PublishSource.sameButSinks_fields hatt.2.1
        have hfl := World.attached_fields hatt
        split at h
        · cases h
        · rename_i w3 hw3
          have hf3 := World.dispatched_fields (DispatchGOPBuffer_dispatched _ _ _ _ hw3)
          split at h
          · cases h
          · simp only [Except.ok.injEq] at h
            rw [← h]
            refine ⟨?_, ?_, ?_, ?_⟩
            · show w3.WaitingSinks = _
              rw [hf3.2.1, hfl.1]
            · show w3.doAddSinkCalls = _
              rw [hf3.2.2.2.1, hcalls]
            · show w3.s.ID = _
              rw [hf3.1, hsrc.2.2.2.2.2.1]
            · show w3.s.recordSink = _
              rw [hf3.1, hsrc.2.2.2.1]
  · simp only [Except.ok.injEq] at h
    rw [← h]
    exact ⟨rfl, rfl, rfl, rfl⟩

theorem CreateDefaultOutStreams_frame (env : Env) (w w1 : World)
    (h : CreateDefaultOutStreams env w = .ok w1) :
    w1.WaitingSinks = w.WaitingSinks ∧ w1.doAddSinkCalls = w.doAddSinkCalls ∧
      w1.s.ID = w.s.ID := by
  unfold CreateDefaultOutStreams at h
  simp only [] at h
  split at h
  · cases h
  · rename_i w2 hw2
    obtain ⟨h1, h2, h3⟩ := createRecord_frame _ _ _ hw2
    obtain ⟨h4, h5, h6, -⟩ := createHls_frame _ _ _ h
    refine ⟨?_, ?_, ?_⟩
    · rw [h4, h1]
      split <;> rfl
    · rw [h5, h2]
      split <;> rfl
    · rw [h6, h3]
      split <;> rfl

/-- The loop of `writeHeader` calls `doAddSink` once for each sink of the list, in
order, and touches neither the waiting queue nor the record sink. -/
theorem addSinks_calls (env : Env) : ∀ (l : List SinkPtr) (w w1 : World),
    addSinks env l w = .ok w1 →
    w1.doAddSinkCalls = w.doAddSinkCalls ++ l ∧ w1.WaitingSinks = w.WaitingSinks ∧
      w1.s.recordSink = w.s.recordSink := by
  intro l
  induction l with
  | nil =>
    intro w w1 h
    simp only [addSinks, Except.ok.injEq] at h
    rw [← h]
    exact ⟨by simp, rfl, rfl⟩
  | cons p rest ih =>
    intro w w1 h
    simp only [addSinks] at h
    split at h
    · cases h
    · rename_i w2 ok hadd
      obtain ⟨hatt, -, hcalls, -, -⟩ := doAddSink_spec _ _ _ _ _ hadd
      obtain ⟨h1, h2, h3⟩ := ih _ _ h
      have hq := (World.attached_fields hatt).1
      have hrec := (PublishSource.sameButSinks_fields hatt.2.1).2.2.2.1
      refine ⟨?_, ?_, ?_⟩
      · rw [h1]
        have : (if ok = true then w2 else w2.setSink p (w2.sinkObj p).Close).doAddSinkCalls =
            w2.doAddSinkCalls := by split <;> rfl
        rw [this, hcalls]
        simp
      · rw [h2]
        have : (if ok = true then w2 else w2.setSink p (w2.sinkObj p).Close).WaitingSinks =
            w2.WaitingSinks := by split <;> rfl
        rw [this, hq]
      · rw [h3]
        have : (if ok = true then w2 else w2.setSink p (w2.sinkObj p).Close).s = w2.s := by
          split <;> rfl
        rw [this, hrec]

theorem waitingOf_pop (q : List (String × List SinkPtr)) (id : String) :
    waitingOf (PopWaitingSinks q id).2 id = [] := by
  unfold PopWaitingSinks waitingOf
  have hnone : (q.filter (fun e => !(e.1 == id))).find? (fun e => e.1 == id) = none := by
    rw [List.find?_eq_none]
    intro x hx
    have := (List.mem_filter.mp hx).2
    simpa using this
  simp only [hnone]
  rfl

/-- Outside the defect of C8: when `writeHeader` returns on a source that is not
completed and has a track, it has called `doAddSink` once for each sink that was
waiting for the source, in queue order (and then for the record sink), and the
waiting queue of the source is empty. -/
theorem writeHeader_drains_queue (env : Env) (w w1 : World) (hc : w.s.completed = false)
    (hs : w.s.originStreams ≠ []) (h : writeHeader env w = .ok w1) :
    w1.doAddSinkCalls =
        w.doAddSinkCalls ++ waitingOf w.WaitingSinks w.s.ID ++ w1.s.recordSink.toList ∧
      waitingOf w1.WaitingSinks w.s.ID = [] := by
  unfold writeHeader at h
  rw [if_neg (by rw [hc]; simp)] at h
  simp only [] at h
  rw [if_neg (by simpa using hs)] at h
  split at h
  · cases h
  · rename_i w2 hw2
    obtain ⟨hq, hcalls, hid⟩ := CreateDefaultOutStreams_frame _ _ _ hw2
    obtain ⟨h1, h2, h3⟩ := addSinks_calls _ _ _ _ h
    have hq2 : w2.WaitingSinks = w.WaitingSinks := hq
    have hcalls2 : w2.doAddSinkCalls = w.doAddSinkCalls := hcalls
    have hid2 : w2.s.ID = w.s.ID := hid
    refine ⟨?_, ?_⟩
    · rw [h1, h3]
      show w2.doAddSinkCalls ++ ((PopWaitingSinks w2.WaitingSinks w2.s.ID).1 ++ _) = _
      rw [hcalls2, hq2, hid2, List.append_assoc]
      rfl
    · rw [h2]
      show waitingOf (PopWaitingSinks w2.WaitingSinks w2.s.ID).2 w.s.ID = []
      rw [hid2]
      exact waitingOf_pop _ _

theorem requeueSinks_keeps_waiting (id : String) (p : SinkPtr) :
    ∀ (l : List (SinkID × SinkPtr)) (w : World),
      p ∈ waitingOf w.WaitingSinks id → p ∈ waitingOf (requeueSinks l w).1.WaitingSinks id := by
  intro l
  induction l with
  | nil => intro w hp; exact hp
  | cons e rest ih =>
    intro w hp
    simp only [requeueSinks]
    split
    · exact hp
    · apply ih
      generalize hw1 : w.setSink e.2 { w.sinkObj e.2 with TransStreamID := 0 } = w1
      have hw1q : w1.WaitingSinks = w.WaitingSinks := by rw [← hw1]; rfl
      have hspec := requeueOne_spec w1 e.2
      by_cases hst : (w1.sinkObj e.2).State = SessionState.Closed
      · rw [hspec.2 hst, hw1q]
        exact hp
      · rw [(hspec.1 hst).2.2, hw1q]
        by_cases hid : id = w1.s.ID
        · rw [hid, waitingOf_add_same]
          rw [hid] at hp
          exact List.mem_append_left _ hp
        · rw [waitingOf_add_other _ _ _ _ hid]
          exact hp

/-- The second half of C8: `DoClose` takes no sink off a waiting queue, so a sink
that was added before completion is still waiting after the source has closed. -/
theorem DoClose_keeps_waiting (env : Env) (w w1 : World) (id : String) (p : SinkPtr)
    (h : DoClose env w = .ok w1) (hp : p ∈ waitingOf w.WaitingSinks id) :
    p ∈ waitingOf w1.WaitingSinks id := by
  unfold DoClose at h
  split at h
  · simp only [Except.ok.injEq] at h
    rw [← h]
    exact hp
  · simp only [] at h
    split at h
    · cases h
    · rename_i w2 hw2
      have hf := World.dispatched_fields (closeTransStreams_dispatched _ _ _ _ hw2)
      have hq2 : w2.WaitingSinks = w.WaitingSinks := by
        rw [hf.2.1, (releaseResources_fields w).2.2.2.2.2.2.2.2]
      have hkeep := requeueSinks_keeps_waiting id p w2.s.sinks.toList w2 (by rw [hq2]; exact hp)
      split at h
      · simp only [Except.ok.injEq] at h
        rw [← h]
        exact hkeep
      · simp only [Except.ok.injEq] at h
        rw [← h]
        exact hkeep

/-- Outside the defect of C5: on an open source whose record sink is not among
`s.sinks`, the first `DoClose` fires `on_publish_done` once, and `on_record` once
when there is a record sink; the second `DoClose` changes nothing. -/
theorem DoClose_twice_fires_hooks_once (env : Env) (w w1 : World) (hopen : w.s.closed = false)
    (hdistinct : (w.s.sinks.toList.map Prod.snd).Nodup)
    (hrec : ∀ e ∈ w.s.sinks.toList, w.s.recordSink ≠ some e.2)
    (h : DoClose env w = .ok w1) :
    w1.hooks = w.hooks ++ [HookEvent.PublishDone w.s.ID] ++
        (if w.s.recordSink.isSome then [HookEvent.Record w.s.ID w.s.recordFilePath] else []) ∧
      DoClose env w1 = .ok w1 := by
  unfold DoClose at h
  rw [if_neg (by rw [hopen]; simp)] at h
  simp only [] at h
  split at h
  · cases h
  · rename_i w2 hw2
    have hd := closeTransStreams_dispatched _ _ _ _ hw2
    have hf := World.dispatched_fields hd
    have hs2 : w2.s = (releaseResources w).s := hf.1
    have hrel : (releaseResources w).s.sinks = w.s.sinks ∧
        (releaseResources w).s.recordSink = w.s.recordSink ∧
        (releaseResources w).s.ID = w.s.ID ∧
        (releaseResources w).s.recordFilePath = w.s.recordFilePath ∧
        (releaseResources w).s.closed = true ∧
        (releaseResources w).hooks = w.hooks := by
      unfold releaseResources
      simp only []
      split <;> exact ⟨rfl, rfl, rfl, rfl, rfl, rfl⟩
    have hnd2 : (w2.s.sinks.toList.map Prod.snd).Nodup := by
      rw [hs2, hrel.1]
      exact hdistinct
    have hrecl : ∀ e ∈ w2.s.sinks.toList, w2.s.recordSink ≠ some e.2 := by
      intro e he
      rw [hs2, hrel.2.1]
      rw [hs2, hrel.1] at he
      exact hrec e he
    obtain ⟨hflag, -⟩ := requeueSinks_spec w2.s.sinks.toList w2 hnd2 hrecl
    obtain ⟨hrs, hrh, -⟩ := requeueSinks_s w2.s.sinks.toList w2
    rw [hflag] at h
    simp only [Bool.false_eq_true, if_false, Except.ok.injEq] at h
    subst h
    refine ⟨?_, ?_⟩
    · show (requeueSinks w2.s.sinks.toList w2).1.hooks ++
          [HookEvent.PublishDone (requeueSinks w2.s.sinks.toList w2).1.s.ID] ++
          (if (requeueSinks w2.s.sinks.toList w2).1.s.recordSink.isSome then
            [HookEvent.Record (requeueSinks w2.s.sinks.toList w2).1.s.ID
              (requeueSinks w2.s.sinks.toList w2).1.s.recordFilePath] else []) = _
      rw [hrh, hrs, hs2, hrel.2.1, hrel.2.2.1, hrel.2.2.2.1, hf.2.2.1, hrel.2.2.2.2.2]
    · apply DoClose_closed_noop
      show (requeueSinks w2.s.sinks.toList w2).1.s.closed = true
      rw [hrs, hs2]
      exact hrel.2.2.2.2.1

/-! ## Packet pools -/

/-- The size `FindOrCreatePacketBuffer` gives a new pool. -/
theorem FindOrCreatePacketBuffer_creates (env : Env) (s : PublishSource) (index : Int)
    (mediaType : AVMediaType) (h : 0 ≤ index ∧ index < 8)
    (hfree : s.pktBuffers.get ⟨index.toNat, by omega⟩ = none) :
    FindOrCreatePacketBuffer env s index mediaType =
      .ok ({ s with
              pktBuffers := s.pktBuffers.set ⟨index.toNat, by omega⟩
                (some ⟨if mediaType = AVMediaType.Audio then 48000 * 12
                       else if env.GOPCache then env.GOPBufferSize else 1024 * 1000, 0, 0, 0⟩) },
           ⟨index.toNat, by omega⟩) := by
  unfold FindOrCreatePacketBuffer
  rw [dif_pos h]
  simp only [hfree]

/-- A slot that holds a pool is returned as it is, and the source with it. -/
theorem FindOrCreatePacketBuffer_existing (env : Env) (s : PublishSource) (index : Int)
    (mediaType : AVMediaType) (h : 0 ≤ index ∧ index < 8) (b : MemoryPool)
    (hb : s.pktBuffers.get ⟨index.toNat, by omega⟩ = some b) :
    FindOrCreatePacketBuffer env s index mediaType = .ok (s, ⟨index.toNat, by omega⟩) := by
  unfold FindOrCreatePacketBuffer
  rw [dif_pos h]
  simp only [hb]

/-- An index of 8 or more, and a negative one, panic. -/
theorem FindOrCreatePacketBuffer_out_of_range (env : Env) (s : PublishSource) (index : Int)
    (mediaType : AVMediaType) (h : index < 0 ∨ 8 ≤ index) :
    FindOrCreatePacketBuffer env s index mediaType = .error "too many tracks" := by
  unfold FindOrCreatePacketBuffer
  rw [dif_neg (by omega)]

/-- C11 (defect in the code). With the GOP cache off, the pool created for the
video track of index 0 of a fresh source holds `1024 * 1000 = 1024000` bytes,
which is not the 1 MiB (1048576 bytes) of the claim. -/
theorem FindOrCreatePacketBuffer_video_pool_not_one_MiB :
    (FindOrCreatePacketBuffer demoEnv PublishSource.zero 0 AVMediaType.Video).toOption.bind
        (fun r => (r.1.pktBuffers.get r.2).map MemoryPool.capacity) = some 1024000 ∧
      demoEnv.GOPCache = false ∧ (1024000 : Int) ≠ 1048576 := by
  refine ⟨by rfl, by rfl, by decide⟩

/-! ## The transmuxer factory registry -/

theorem StreamFactory.Register_keeps_absent {σ τ : Type} (reg : StreamFactory.Registry σ τ)
    (p q : TransStreamProtocol) (f : StreamFactory.TransStreamFactory σ τ) (hne : p ≠ q)
    (h : reg.get? p = none) :
    (StreamFactory.RegisterTransStreamFactory reg q f).1.get? p = none := by
  unfold StreamFactory.RegisterTransStreamFactory
  split
  · exact h
  · split
    · exact h
    · next m hm => rw [GoMap.get_set_other reg m q p f hne hm]; exact h

theorem StreamFactory.registerAll_keeps_absent {σ τ : Type} (p : TransStreamProtocol) :
    ∀ (rs : List (TransStreamProtocol × StreamFactory.TransStreamFactory σ τ))
      (reg : StreamFactory.Registry σ τ),
      p ∉ rs.map Prod.fst → reg.get? p = none →
      (StreamFactory.registerAll rs reg).1.get? p = none := by
  intro rs
  induction rs with
  | nil => intro reg _ h; exact h
  | cons c rest ih =>
    intro reg hp h
    have hc : p ≠ c.1 := fun e => hp (by simp [e])
    have hrest : p ∉ rest.map Prod.fst := fun e => hp (by simp at e ⊢; exact Or.inr e)
    have hk := StreamFactory.Register_keeps_absent reg p c.1 c.2 hc h
    unfold StreamFactory.registerAll
    split
    · next reg1 heq => rw [heq] at hk; exact ih reg1 hrest hk
    · next reg1 e heq => rw [heq] at hk; exact hk

/-- C12. On a registry with no entry for `p`, `RegisterTransStreamFactory(p, f)`
returns without a panic, after it `FindTransStreamFactory(p)` returns `f` with a
nil error and the lookup of every other protocol is what it was; before it
`FindTransStreamFactory(p)` and `CreateTransStream` return a non-nil error (and
no factory, no transmuxer), as they do after any run of registrations that does
not name `p`.  On a registry with an entry for `p` the call panics and the
registry is the one before the call. -/
theorem StreamFactory.registry_spec {σ τ : Type}
    (l : List (TransStreamProtocol × StreamFactory.TransStreamFactory σ τ))
    (p : TransStreamProtocol) (f : StreamFactory.TransStreamFactory σ τ) :
    (GoMap.get? (some l) p = none →
      (StreamFactory.RegisterTransStreamFactory (some l) p f).2 = none ∧
      StreamFactory.FindTransStreamFactory
        (StreamFactory.RegisterTransStreamFactory (some l) p f).1 p = .ok f ∧
      (∀ q, q ≠ p →
        StreamFactory.FindTransStreamFactory
            (StreamFactory.RegisterTransStreamFactory (some l) p f).1 q =
          StreamFactory.FindTransStreamFactory (some l) q) ∧
      (∃ e, StreamFactory.FindTransStreamFactory (some l) p = .error e) ∧
      (∀ (source : σ) (streams : List AVStream), ∃ e,
        StreamFactory.CreateTransStream (some l) source p streams = (none, some e))) ∧
    (∀ rs : List (TransStreamProtocol × StreamFactory.TransStreamFactory σ τ),
      p ∉ rs.map Prod.fst →
      (∃ e, StreamFactory.FindTransStreamFactory
          (StreamFactory.registerAll rs (StreamFactory.init σ τ)).1 p = .error e) ∧
      (∀ (source : σ) (streams : List AVStream), ∃ e,
        StreamFactory.CreateTransStream
          (StreamFactory.registerAll rs (StreamFactory.init σ τ)).1 source p streams =
            (none, some e))) ∧
    (∀ g, GoMap.get? (some l) p = some g →
      ∃ e, StreamFactory.RegisterTransStreamFactory (some l) p f = (some l, some e)) := by
  refine ⟨?_, ?_, ?_⟩
  · intro h
    have hreg : StreamFactory.RegisterTransStreamFactory (some l) p f =
        (some (GoMap.insertList l p f), none) := by
      unfold StreamFactory.RegisterTransStreamFactory
      rw [h]
      rfl
    have hset : GoMap.set (some l) p f = .ok (some (GoMap.insertList l p f)) := rfl
    rw [hreg]
    refine ⟨rfl, ?_, ?_, ?_, ?_⟩
    · unfold StreamFactory.FindTransStreamFactory
      rw [GoMap.get_set_same _ _ p f hset]
    · intro q hq
      unfold StreamFactory.FindTransStreamFactory
      rw [GoMap.get_set_other _ _ p q f hq hset]
    · exact ⟨_, by unfold StreamFactory.FindTransStreamFactory; rw [h]⟩
    · intro source streams
      exact ⟨_, by unfold StreamFactory.CreateTransStream StreamFactory.FindTransStreamFactory; rw [h]⟩
  · intro rs hp
    have h := StreamFactory.registerAll_keeps_absent p rs (StreamFactory.init σ τ) hp rfl
    refine ⟨⟨_, by unfold StreamFactory.FindTransStreamFactory; rw [h]⟩, ?_⟩
    intro source streams
    exact ⟨_, by unfold StreamFactory.CreateTransStream StreamFactory.FindTransStreamFactory; rw [h]⟩
  · intro g h
    exact ⟨_, by unfold StreamFactory.RegisterTransStreamFactory; rw [h]⟩

/-- C12 at concrete registries: RTMP registered on the registry that holds FLV,
and RTMP registered a second time. -/
theorem StreamFactory.registry_spec_witness :
    ((StreamFactory.RegisterTransStreamFactory
        (some [(TransStreamProtocol.Flv, StreamFactory.idleFactory)])
        TransStreamProtocol.Rtmp StreamFactory.unitFactory).2 = none ∧
      StreamFactory.FindTransStreamFactory
        (StreamFactory.RegisterTransStreamFactory
          (some [(TransStreamProtocol.Flv, StreamFactory.idleFactory)])
          TransStreamProtocol.Rtmp StreamFactory.unitFactory).1 TransStreamProtocol.Rtmp =
        .ok StreamFactory.unitFactory) ∧
    (∃ e, StreamFactory.RegisterTransStreamFactory
        (some [(TransStreamProtocol.Rtmp, StreamFactory.idleFactory)])
        TransStreamProtocol.Rtmp StreamFactory.unitFactory =
      (some [(TransStreamProtocol.Rtmp, StreamFactory.idleFactory)], some e)) := by
  have h := (StreamFactory.registry_spec
    [(TransStreamProtocol.Flv, StreamFactory.idleFactory)]
    TransStreamProtocol.Rtmp StreamFactory.unitFactory).1 (by rfl)
  exact ⟨⟨h.1, h.2.1⟩,
    (StreamFactory.registry_spec
      [(TransStreamProtocol.Rtmp, StreamFactory.idleFactory)]
      TransStreamProtocol.Rtmp StreamFactory.unitFactory).2.2 StreamFactory.idleFactory
      (by rfl)⟩

/-! ## Events on a closed source -/

/-- C19 (defect in the code). On the source of `rtmpWorld`, closed by a `DoClose`
that ran to its end (`closed` and `completed` are set, the maps are nil), the
closure of a later `AddSink` for sink 2 panics in `CreateTransStream` on the
assignment into the nil map `TransStreamSinks`, and the closure of a later
`RemoveSink` for sink 1 takes `sinkCount` from 1 to 0 and fires a play-done hook. -/
theorem closed_source_events_are_not_dropped :
    (∃ w, DoClose demoEnv rtmpWorld = .ok w) ∧
      closedWorld.s.closed = true ∧ closedWorld.s.completed = true ∧
      closedWorld.s.TransStreamSinks = none ∧ closedWorld.s.sinkCount = 1 ∧
      runEvent demoEnv closedWorld (Event.AddSink 2) 7 =
        .error "assignment to entry in nil map" ∧
      (runEvent demoEnv closedWorld (Event.RemoveSink 1) 7).toOption.map
          (fun w => (w.s.sinkCount, w.hooks)) =
        some (0, [HookEvent.PublishDone "live/a", HookEvent.PlayDone 1]) := by
  refine ⟨⟨_, rfl⟩, by rfl, by rfl, by rfl, by rfl, by rfl, by rfl⟩

/-! ## The ring of the playlist -/

theorem ring_mod (c x : Nat) (hx : x < 2 * c) : x % c = if x < c then x else x - c := by
  split
  · next h => exact Nat.mod_eq_of_lt h
  · next h => rw [Nat.mod_eq_sub_mod (by omega), Nat.mod_eq_of_lt (by omega)]

theorem ring_inj (c h i j : Nat) (hh : h < c) (hi : i < c) (hj : j < c)
    (e : (h + i) % c = (h + j) % c) : i = j := by
  rw [ring_mod c (h + i) (by omega), ring_mod c (h + j) (by omega)] at e
  split_ifs at e <;> omega

theorem NewQueue_holds {α : Type} (n : Nat) (hn : 0 < n) :
    (NewQueue n : Queue α).Holds [] := by
  refine ⟨hn, hn, rfl, Nat.zero_le _, ?_, ?_⟩
  · show 0 = (0 + 0) % n
    simp
  · intro i hi
    simp at hi

theorem Queue.Holds.pop {α : Type} {q : Queue α} {a : α} {l : List α}
    (h : q.Holds (a :: l)) :
    q.Pop.1 = some a ∧ q.Pop.2.Holds l ∧ q.Pop.2.cap = q.cap := by
  obtain ⟨hc, hh, hs, hle, ht, hd⟩ := h
  have hs1 : q.size = l.length + 1 := by simpa using hs
  have hsz : ¬ q.size = 0 := by omega
  simp only [Queue.Pop, if_neg hsz]
  refine ⟨?_, ⟨hc, Nat.mod_lt _ hc, ?_, ?_, ?_, ?_⟩, trivial⟩
  · have h0 := hd 0 (by simp)
    rw [Nat.add_zero, Nat.mod_eq_of_lt hh] at h0
    simpa using h0
  · show q.size - 1 = l.length
    omega
  · show q.size - 1 ≤ q.cap
    omega
  · show q.tail = ((q.head + 1) % q.cap + (q.size - 1)) % q.cap
    rw [Nat.mod_add_mod, ht]
    congr 1
    omega
  · intro i hi
    show Function.update q.data q.head none (((q.head + 1) % q.cap + i) % q.cap) = l[i]?
    rw [Nat.mod_add_mod]
    have hne : (q.head + 1 + i) % q.cap ≠ q.head := by
      intro e
      have e2 : (q.head + (1 + i)) % q.cap = (q.head + 0) % q.cap := by
        rw [Nat.add_zero, Nat.mod_eq_of_lt hh, ← e]
        congr 1
        omega
      have := ring_inj _ _ _ _ hh (by omega) hc e2
      omega
    rw [Function.update_noteq hne]
    have h1 := hd (i + 1) (by simp; omega)
    rw [show q.head + 1 + i = q.head + (i + 1) by omega]
    simpa using h1

theorem Queue.Holds.push_room {α : Type} {q : Queue α} {l : List α} (x : α)
    (h : q.Holds l) (hroom : q.size < q.cap) :
    (q.Push x).Holds (l ++ [x]) ∧ (q.Push x).cap = q.cap := by
  obtain ⟨hc, hh, hs, hle, ht, hd⟩ := h
  have hfull : q.IsFull = false := by
    simp only [Queue.IsFull, beq_eq_false_iff_ne, ne_eq]
    omega
  simp only [Queue.Push, hfull, Bool.false_eq_true, if_false]
  refine ⟨⟨hc, hh, ?_, ?_, ?_, ?_⟩, trivial⟩
  · show q.size + 1 = (l ++ [x]).length
    simp [hs]
  · show q.size + 1 ≤ q.cap
    omega
  · show (q.tail + 1) % q.cap = (q.head + (q.size + 1)) % q.cap
    rw [ht, Nat.mod_add_mod]
    congr 1
  · intro i hi
    show Function.update q.data q.tail (some x) ((q.head + i) % q.cap) = (l ++ [x])[i]?
    have hi1 : i < l.length + 1 := by simpa using hi
    by_cases hlt : i < l.length
    · have hne : (q.head + i) % q.cap ≠ q.tail := by
        intro e
        rw [ht] at e
        have := ring_inj _ _ _ _ hh (by omega) (by omega) e
        omega
      rw [Function.update_noteq hne, hd i hlt, List.getElem?_append_left hlt]
    · have hil : i = l.length := by omega
      subst hil
      rw [← hs, ← ht, Function.update_same]
      simp [hs]

theorem Queue.Holds.push {α : Type} {q : Queue α} {l : List α} (x : α) (h : q.Holds l) :
    (q.Push x).Holds ((if l.length = q.cap then l.tail else l) ++ [x]) ∧
      (q.Push x).cap = q.cap := by
  by_cases hfull : l.length = q.cap
  · rw [if_pos hfull]
    have hs : q.size = q.cap := by rw [h.2.2.1, hfull]
    cases l with
    | nil =>
      have := h.1
      simp at hfull
      omega
    | cons a l1 =>
      obtain ⟨_, hp, hcap⟩ := h.pop
      have hroom : q.Pop.2.size < q.Pop.2.cap := by
        rw [hp.2.2.1, hcap, ← hfull]
        simp
      have hpush := hp.push_room x hroom
      have hq : q.Push x = q.Pop.2.Push x := by
        have hf : q.IsFull = true := by simp [Queue.IsFull, hs]
        have hf2 : q.Pop.2.IsFull = false := by
          simp only [Queue.IsFull, beq_eq_false_iff_ne, ne_eq]
          omega
        simp only [Queue.Push, hf, hf2, if_true, Bool.false_eq_true, if_false]
      rw [hq]
      exact ⟨hpush.1, hpush.2.trans hcap⟩
  · rw [if_neg hfull]
    have hs : q.size < q.cap := by
      have := h.2.2.1
      have := h.2.2.2.1
      omega
    exact h.push_room x hs

theorem Queue.slice_length {α : Type} (q : Queue α) (a b : Nat) :
    (q.slice a b).length = b - a := by
  simp [Queue.slice]

theorem Queue.slice_getElem {α : Type} (q : Queue α) (a b i : Nat)
    (h : i < (q.slice a b).length) : (q.slice a b)[i] = q.data (a + i) := by
  simp [Queue.slice]

theorem Queue.Holds.slot {α : Type} {q : Queue α} {l : List α} (h : q.Holds l) (i : Nat)
    (hi : i < l.length) : q.data ((q.head + i) % q.cap) = some l[i] := by
  rw [h.2.2.2.2.2 i hi, List.getElem?_eq_getElem hi]

theorem Queue.Holds.exposed_eq {α : Type} {q : Queue α} {l : List α} (h : q.Holds l) :
    q.exposed = l.map some := by
  have hslot := h.slot
  obtain ⟨hc, hh, hs, hle, ht, -⟩ := h
  unfold Queue.exposed Queue.Data
  by_cases h0 : q.size = 0
  · rw [if_pos h0]
    have : l = [] := List.length_eq_zero.mp (by omega)
    subst this
    rfl
  · rw [if_neg h0]
    have htm := ring_mod q.cap (q.head + q.size) (by omega)
    rw [← ht] at htm
    by_cases hw : q.tail ≤ q.head
    · rw [if_pos hw]
      simp only [Option.getD_some]
      have hwrap : ¬ q.head + q.size < q.cap := by
        intro hlt
        rw [if_pos hlt] at htm
        omega
      rw [if_neg hwrap] at htm
      apply List.ext_getElem
      · simp [Queue.slice_length]
        omega
      · intro i h1 h2
        have hil : i < l.length := by simpa using h2
        rw [List.getElem_map]
        by_cases hi : i < q.cap - q.head
        · rw [List.getElem_append_left (by simpa [Queue.slice_length] using hi)]
          rw [Queue.slice_getElem, ← hslot i hil, Nat.mod_eq_of_lt (by omega)]
        · rw [List.getElem_append_right (by simpa [Queue.slice_length] using hi)]
          rw [Queue.slice_getElem, ← hslot i hil]
          have hm := ring_mod q.cap (q.head + i) (by omega)
          rw [if_neg (by omega)] at hm
          rw [hm]
          congr 1
          simp [Queue.slice_length]
          omega
    · rw [if_neg hw]
      simp only [Option.getD_some, Option.getD_none, List.append_nil]
      have hnowrap : q.head + q.size < q.cap := by
        by_contra hlt
        rw [if_neg hlt] at htm
        omega
      rw [if_pos hnowrap] at htm
      apply List.ext_getElem
      · simp [Queue.slice_length]
        omega
      · intro i h1 h2
        have hil : i < l.length := by simpa using h2
        rw [List.getElem_map]
        rw [Queue.slice_getElem, ← hslot i hil, Nat.mod_eq_of_lt (by omega)]
theorem Queue.Holds.data_nil {α : Type} {q : Queue α} (h : q.Holds []) :
    q.Data = (none, none) := by
  have hs : q.size = 0 := h.2.2.1
  simp [Queue.Data, hs]

theorem Queue.slice_cons {α : Type} (q : Queue α) (a b : Nat) (h : a < b) :
    q.slice a b = q.data a :: q.slice (a + 1) b := by
  unfold Queue.slice
  obtain ⟨k, hk⟩ : ∃ k, b - a = k + 1 := ⟨b - a - 1, by omega⟩
  rw [hk, show b - (a + 1) = k by omega, List.range'_succ, List.map_cons]

theorem Queue.Holds.data_head {α : Type} {q : Queue α} {a : α} {l : List α}
    (h : q.Holds (a :: l)) : ∃ rest, q.Data.1 = some (some a :: rest) := by
  have hslot := h.slot 0 (by simp)
  obtain ⟨hc, hh, hs, hle, ht, -⟩ := h
  rw [Nat.add_zero, Nat.mod_eq_of_lt hh] at hslot
  have hs1 : q.size = l.length + 1 := by simpa using hs
  have h0 : ¬ q.size = 0 := by omega
  unfold Queue.Data
  rw [if_neg h0]
  by_cases hw : q.tail ≤ q.head
  · rw [if_pos hw]
    exact ⟨_, by rw [Queue.slice_cons q _ _ hh, hslot]; rfl⟩
  · rw [if_neg hw]
    exact ⟨_, by rw [Queue.slice_cons q _ _ (by omega), hslot]; rfl⟩

theorem Hls.m3u8Writer.AddSegment_holds (m : Hls.m3u8Writer) (l : List Hls.Segment)
    (duration : ℚ) (url : String) (sequence : Int) (path : String)
    (h : m.playlist.Holds l) :
    (m.AddSegment duration url sequence path).playlist.Holds
        ((if l.length = m.playlist.cap then l.tail else l) ++ [⟨duration, url, sequence, path⟩]) ∧
      (m.AddSegment duration url sequence path).playlist.cap = m.playlist.cap := by
  have hs : m.playlist.size = l.length := h.2.2.1
  have hle : m.playlist.size ≤ m.playlist.cap := h.2.2.2.1
  by_cases hfull : l.length = m.playlist.cap
  · rw [if_pos hfull]
    have hf : m.playlist.IsFull = true := by simp [Queue.IsFull, hs, hfull]
    cases l with
    | nil =>
      have := h.1
      simp at hfull
      omega
    | cons a l1 =>
      obtain ⟨_, hp, hcap⟩ := h.pop
      have hroom : m.playlist.Pop.2.size < m.playlist.Pop.2.cap := by
        rw [hp.2.2.1, hcap, ← hfull]
        simp
      have hpush := hp.push_room (⟨duration, url, sequence, path⟩ : Hls.Segment) hroom
      simp only [Hls.m3u8Writer.AddSegment, hf, if_true]
      exact ⟨hpush.1, hpush.2.trans hcap⟩
  · rw [if_neg hfull]
    have hf : m.playlist.IsFull = false := by
      simp only [Queue.IsFull, beq_eq_false_iff_ne, ne_eq]
      omega
    simp only [Hls.m3u8Writer.AddSegment, hf, Bool.false_eq_true, if_false]
    exact h.push_room _ (by omega)

theorem Hls.m3u8Writer.addAll_holds :
    ∀ (segs : List Hls.Segment) (m : Hls.m3u8Writer) (l : List Hls.Segment),
      m.playlist.Holds l →
      (m.addAll segs).playlist.Holds
          ((l ++ segs).drop ((l ++ segs).length - m.playlist.cap)) ∧
        (m.addAll segs).playlist.cap = m.playlist.cap := by
  intro segs
  induction segs with
  | nil =>
    intro m l h
    have hs : m.playlist.size = l.length := h.2.2.1
    have hle : m.playlist.size ≤ m.playlist.cap := h.2.2.2.1
    have h0 : (l ++ []).length - m.playlist.cap = 0 := by simp; omega
    rw [h0]
    simpa [Hls.m3u8Writer.addAll] using h
  | cons s rest ih =>
    intro m l h
    have hs : m.playlist.size = l.length := h.2.2.1
    have hle : m.playlist.size ≤ m.playlist.cap := h.2.2.2.1
    obtain ⟨h1, hcap⟩ := m.AddSegment_holds l s.duration s.url s.sequence s.path h
    obtain ⟨h2, hcap2⟩ := ih _ _ h1
    rw [hcap] at h2 hcap2
    show (((m.AddSegment s.duration s.url s.sequence s.path).addAll rest).playlist.Holds _) ∧ _
    refine ⟨?_, hcap2⟩
    have hseg : (⟨s.duration, s.url, s.sequence, s.path⟩ : Hls.Segment) = s := rfl
    rw [hseg] at h2
    by_cases hfull : l.length = m.playlist.cap
    · rw [if_pos hfull] at h2
      cases l with
      | nil =>
        have := h.1
        simp at hfull
        omega
      | cons a l1 =>
        have e : ((a :: l1) ++ s :: rest).drop (((a :: l1) ++ s :: rest).length - m.playlist.cap) =
            ((a :: l1).tail ++ [s] ++ rest).drop
              (((a :: l1).tail ++ [s] ++ rest).length - m.playlist.cap) := by
          have hl : l1.length + 1 = m.playlist.cap := by simpa using hfull
          have e1 : ((a :: l1) ++ s :: rest).length - m.playlist.cap = rest.length + 1 := by
            simp; omega
          have e2 : ((a :: l1).tail ++ [s] ++ rest).length - m.playlist.cap = rest.length := by
            simp; omega
          rw [e1, e2]
          simp
        rw [e]
        exact h2
    · rw [if_neg hfull] at h2
      have e : l ++ s :: rest = l ++ [s] ++ rest := by simp
      rw [e]
      exact h2

theorem Hls.m3u8Writer.Size_eq (m : Hls.m3u8Writer) :
    m.Size = (m.playlist.exposed.length : Int) := by
  unfold Hls.m3u8Writer.Size Queue.exposed
  cases m.playlist.Data.1 <;> cases m.playlist.Data.2 <;> simp

/-- C14. A writer created with capacity `n >= 1`, after `AddSegment` has been
called for each segment of `segs` in order (`k` calls): `Size()` is `min(k, n)`;
the ring holds the last `min(k, n)` segments added, oldest first, and they are
what `Data` hands out; `Head()` is the oldest of them, the zero `Segment` when
there is none. -/
theorem Hls.playlist_is_fifo (n : Nat) (hn : 1 ≤ n) (segs : List Hls.Segment) :
    ((Hls.NewM3U8Writer n).addAll segs).Size = ((min segs.length n : Nat) : Int) ∧
      (segs.drop (segs.length - min segs.length n)).length = min segs.length n ∧
      ((Hls.NewM3U8Writer n).addAll segs).playlist.Holds
        (segs.drop (segs.length - min segs.length n)) ∧
      ((Hls.NewM3U8Writer n).addAll segs).playlist.exposed =
        (segs.drop (segs.length - min segs.length n)).map some ∧
      ((Hls.NewM3U8Writer n).addAll segs).Head =
        .ok ((segs.drop (segs.length - min segs.length n)).headD Hls.Segment.zero) := by
  have h0 : (Hls.NewM3U8Writer n).playlist.Holds [] := NewQueue_holds n hn
  obtain ⟨h, -⟩ := Hls.m3u8Writer.addAll_holds segs _ _ h0
  have hcap : (Hls.NewM3U8Writer n).playlist.cap = n := rfl
  rw [hcap, List.nil_append] at h
  have hk : segs.length - min segs.length n = segs.length - n := by omega
  rw [hk]
  have hlen : (segs.drop (segs.length - n)).length = min segs.length n := by
    rw [List.length_drop]
    omega
  refine ⟨?_, hlen, h, h.exposed_eq, ?_⟩
  · rw [Hls.m3u8Writer.Size_eq, h.exposed_eq, List.length_map, hlen]
  · unfold Hls.m3u8Writer.Head
    cases hkept : segs.drop (segs.length - n) with
    | nil =>
      rw [hkept] at h
      rw [h.data_nil]
      rfl
    | cons a l1 =>
      rw [hkept] at h
      obtain ⟨rest, hd⟩ := h.data_head
      rw [hd]
      rfl

/-- C14 at a writer of capacity 2 after three calls. -/
theorem Hls.playlist_is_fifo_witness :
    ((Hls.NewM3U8Writer 2).addAll
        [⟨2, "0.ts", 0, "/hls/0.ts"⟩, ⟨3, "1.ts", 1, "/hls/1.ts"⟩,
          ⟨2, "2.ts", 2, "/hls/2.ts"⟩]).Size = 2 ∧
      ((Hls.NewM3U8Writer 2).addAll
        [⟨2, "0.ts", 0, "/hls/0.ts"⟩, ⟨3, "1.ts", 1, "/hls/1.ts"⟩,
          ⟨2, "2.ts", 2, "/hls/2.ts"⟩]).Head = .ok ⟨3, "1.ts", 1, "/hls/1.ts"⟩ := by
  have h := Hls.playlist_is_fifo 2 (by decide)
    [⟨2, "0.ts", 0, "/hls/0.ts"⟩, ⟨3, "1.ts", 1, "/hls/1.ts"⟩, ⟨2, "2.ts", 2, "/hls/2.ts"⟩]
  exact ⟨h.1, h.2.2.2.2⟩

/-! ## The target duration -/

theorem Hls.m3u8Writer.compute_append (xs ys : List (Option Hls.Segment)) :
    ∀ td : Int, Hls.m3u8Writer.compute (xs ++ ys) td =
      match Hls.m3u8Writer.compute xs td with
      | .error e => .error e
      | .ok t => Hls.m3u8Writer.compute ys t := by
  induction xs with
  | nil => intro td; rfl
  | cons x rest ih =>
    intro td
    cases x with
    | none => rfl
    | some s => exact ih _

theorem Hls.m3u8Writer.compute_some (l : List Hls.Segment) :
    ∀ td : Int, Hls.m3u8Writer.compute (l.map some) td =
      .ok (l.foldl Hls.m3u8Writer.raise td) := by
  induction l with
  | nil => intro td; rfl
  | cons s rest ih => intro td; exact ih _

theorem Hls.m3u8Writer.targetDuration_eq (m : Hls.m3u8Writer) :
    m.targetDuration = Hls.m3u8Writer.compute m.playlist.exposed 0 := by
  unfold Hls.m3u8Writer.targetDuration Queue.exposed
  rw [Hls.m3u8Writer.compute_append]
  cases m.playlist.Data.1 <;> cases m.playlist.Data.2 <;> simp [Hls.m3u8Writer.compute]

theorem Hls.m3u8Writer.raise_fold (l : List Hls.Segment) :
    ∀ td : Int, td ≤ l.foldl Hls.m3u8Writer.raise td ∧
      (∀ s ∈ l, ⌈s.duration⌉ ≤ l.foldl Hls.m3u8Writer.raise td) ∧
      (l.foldl Hls.m3u8Writer.raise td = td ∨
        ∃ s ∈ l, l.foldl Hls.m3u8Writer.raise td = ⌈s.duration⌉) := by
  induction l with
  | nil => intro td; simp
  | cons a rest ih =>
    intro td
    obtain ⟨h1, h2, h3⟩ := ih (Hls.m3u8Writer.raise td a)
    have hr : td ≤ Hls.m3u8Writer.raise td a ∧ ⌈a.duration⌉ ≤ Hls.m3u8Writer.raise td a ∧
        (Hls.m3u8Writer.raise td a = td ∨ Hls.m3u8Writer.raise td a = ⌈a.duration⌉) := by
      unfold Hls.m3u8Writer.raise
      split
      · exact ⟨by omega, le_refl _, Or.inr rfl⟩
      · exact ⟨le_refl _, by omega, Or.inl rfl⟩
    rw [List.foldl_cons]
    refine ⟨le_trans hr.1 h1, ?_, ?_⟩
    · intro s hs
      rcases List.mem_cons.mp hs with rfl | hs
      · exact le_trans hr.2.1 h1
      · exact h2 s hs
    · rcases h3 with h3 | ⟨s, hs, h3⟩
      · rcases hr.2.2 with e | e
        · left; rw [h3, e]
        · right; exact ⟨a, List.mem_cons_self _ _, by rw [h3, e]⟩
      · right; exact ⟨s, List.mem_cons_of_mem _ hs, h3⟩

/-- C15. For a playlist that holds the segments `l` (wherever they lie in the
ring), all of non-negative duration, `targetDuration` returns an integer `n`:
0 when `l` is empty; otherwise `n` is at least the duration of every segment
of `l`, it is the ceiling of the duration of one of them, and every integer
that is at least every duration is at least `n`. -/
theorem Hls.targetDuration_is_least_bound (m : Hls.m3u8Writer) (l : List Hls.Segment)
    (h : m.playlist.Holds l) (hpos : ∀ s ∈ l, 0 ≤ s.duration) :
    ∃ n : Int, m.targetDuration = .ok n ∧ (l = [] → n = 0) ∧
      (l ≠ [] →
        (∀ s ∈ l, s.duration ≤ (n : ℚ)) ∧ (∃ s ∈ l, n = ⌈s.duration⌉) ∧
        ∀ k : Int, (∀ s ∈ l, s.duration ≤ (k : ℚ)) → n ≤ k) := by
  refine ⟨l.foldl Hls.m3u8Writer.raise 0, ?_, ?_, ?_⟩
  · rw [Hls.m3u8Writer.targetDuration_eq, h.exposed_eq, Hls.m3u8Writer.compute_some]
  · intro hl
    rw [hl]
    rfl
  · intro hl
    obtain ⟨h1, h2, h3⟩ := Hls.m3u8Writer.raise_fold l 0
    obtain ⟨a, ha⟩ := List.exists_mem_of_ne_nil l hl
    have hzero : ∀ s ∈ l, (0 : Int) ≤ ⌈s.duration⌉ := fun s hs => Int.ceil_nonneg (hpos s hs)
    refine ⟨?_, ?_, ?_⟩
    · intro s hs
      exact le_trans (Int.le_ceil _) (by exact_mod_cast h2 s hs)
    · rcases h3 with h3 | h3
      · exact ⟨a, ha, le_antisymm (by rw [h3]; exact hzero a ha) (h2 a ha)⟩
      · exact h3
    · intro k hk
      rcases h3 with h3 | ⟨s, hs, h3⟩
      · rw [h3]
        have := le_trans (hpos a ha) (hk a ha)
        exact_mod_cast this
      · rw [h3]
        exact Int.ceil_le.mpr (hk s hs)

/-- C15 on a ring of two slots after three calls: the segment of 2 s is in the
head part, the segment of 3.5 s in the tail part. -/
theorem Hls.targetDuration_is_least_bound_witness :
    ∃ n : Int,
      ((Hls.NewM3U8Writer 2).addAll
        [⟨2, "0.ts", 0, "/hls/0.ts"⟩, ⟨2, "1.ts", 1, "/hls/1.ts"⟩,
          ⟨7 / 2, "2.ts", 2, "/hls/2.ts"⟩]).targetDuration = .ok n ∧
      ∀ k : Int,
        (∀ s ∈ ([⟨2, "1.ts", 1, "/hls/1.ts"⟩, ⟨7 / 2, "2.ts", 2, "/hls/2.ts"⟩] :
            List Hls.Segment), s.duration ≤ (k : ℚ)) → n ≤ k := by
  have hh := (Hls.m3u8Writer.addAll_holds
    [⟨2, "0.ts", 0, "/hls/0.ts"⟩, ⟨2, "1.ts", 1, "/hls/1.ts"⟩, ⟨7 / 2, "2.ts", 2, "/hls/2.ts"⟩]
    (Hls.NewM3U8Writer 2) [] (NewQueue_holds 2 (by decide))).1
  obtain ⟨n, h1, -, h3⟩ := Hls.targetDuration_is_least_bound _
    [⟨2, "1.ts", 1, "/hls/1.ts"⟩, ⟨7 / 2, "2.ts", 2, "/hls/2.ts"⟩] hh
    (by
      intro s hs
      simp only [List.mem_cons, List.mem_singleton, List.not_mem_nil, or_false] at hs
      rcases hs with rfl | rfl <;> norm_num)
  exact ⟨n, h1, (h3 (by simp)).2.2⟩
/-! ## The text of the playlist -/

theorem Hls.m3u8Writer.appendSegments_append (fmt : ℚ → String)
    (xs ys : List (Option Hls.Segment)) :
    ∀ buf : String, Hls.m3u8Writer.appendSegments fmt (xs ++ ys) buf =
      match Hls.m3u8Writer.appendSegments fmt xs buf with
      | .error e => .error e
      | .ok b => Hls.m3u8Writer.appendSegments fmt ys b := by
  induction xs with
  | nil => intro buf; rfl
  | cons x rest ih =>
    intro buf
    cases x with
    | none => rfl
    | some s => exact ih _

theorem Hls.m3u8Writer.appendSegments_some (fmt : ℚ → String) (l : List Hls.Segment) :
    ∀ buf : String, Hls.m3u8Writer.appendSegments fmt (l.map some) buf =
      .ok (l.foldl (fun b s => b ++ Hls.m3u8Writer.segmentText fmt s) buf) := by
  induction l with
  | nil => intro buf; rfl
  | cons s rest ih => intro buf; exact ih _

theorem Hls.m3u8Writer.ToString_fold (fmt : ℚ → String) (m : Hls.m3u8Writer)
    (a : Hls.Segment) (rest : List Hls.Segment) (h : m.playlist.Holds (a :: rest)) :
    m.ToString fmt =
      .ok ((a :: rest).foldl (fun b s => b ++ Hls.m3u8Writer.segmentText fmt s)
        (Hls.m3u8Writer.headerText ((a :: rest).foldl Hls.m3u8Writer.raise 0) a.sequence)) := by
  have htd : m.targetDuration = .ok ((a :: rest).foldl Hls.m3u8Writer.raise 0) := by
    rw [Hls.m3u8Writer.targetDuration_eq, h.exposed_eq, Hls.m3u8Writer.compute_some]
  have hex := h.exposed_eq
  obtain ⟨hd, hhd⟩ := h.data_head
  unfold Queue.exposed at hex
  rw [hhd] at hex
  rw [← Hls.m3u8Writer.appendSegments_some, ← hex, Hls.m3u8Writer.appendSegments_append]
  unfold Hls.m3u8Writer.ToString
  rw [hhd, htd]
  simp only [Hls.asSegment, Option.getD_some]
  cases m.playlist.Data.2 with
  | none =>
    simp only [Option.getD_none]
    split <;> simp_all [Hls.m3u8Writer.appendSegments]
  | some tl => rfl

theorem Hls.crlfLines_append (pre post : List String) :
    Hls.crlfLines (pre ++ post) =
      post.foldl (fun buf line => buf ++ line ++ "\r\n") (Hls.crlfLines pre) := by
  unfold Hls.crlfLines
  rw [List.foldl_append]

theorem Hls.crlfLines_segments (fmt : ℚ → String) (l : List Hls.Segment) :
    ∀ pre : List String,
      Hls.crlfLines (pre ++
          l.flatMap (fun s => ["#EXTINF:" ++ fmt s.duration ++ ",", s.url ++ "%s"])) =
        l.foldl (fun b s => b ++ Hls.m3u8Writer.segmentText fmt s) (Hls.crlfLines pre) := by
  induction l with
  | nil => intro pre; simp
  | cons s rest ih =>
    intro pre
    have e : (",\r\n" : String) = "," ++ "\r\n" := by decide
    rw [List.flatMap_cons, ← List.append_assoc, ih, List.foldl_cons, Hls.crlfLines_append]
    congr 1
    simp only [List.foldl_cons, List.foldl_nil, Hls.m3u8Writer.segmentText, e,
      String.append_assoc]

theorem Hls.crlfLines_header (targetDuration sequence : Int) :
    Hls.crlfLines ["#EXTM3U", "#EXT-X-VERSION:3",
        "#EXT-X-TARGETDURATION:" ++ Hls.Itoa targetDuration,
        "#EXT-X-MEDIA-SEQUENCE:" ++ Hls.Itoa sequence] =
      Hls.m3u8Writer.headerText targetDuration sequence := by
  have e1 : ("#EXTM3U\r\n" : String) = "#EXTM3U" ++ "\r\n" := by decide
  have e2 : ("#EXT-X-VERSION:3\r\n" : String) = "#EXT-X-VERSION:3" ++ "\r\n" := by decide
  simp only [Hls.crlfLines, List.foldl_cons, List.foldl_nil, Hls.m3u8Writer.headerText, e1, e2,
    String.append_assoc, String.empty_append]

/-- C13, as the code has it. For a playlist that holds no segment `ToString`
returns the empty string. For a playlist that holds the segments `a :: rest`,
oldest first, it returns these lines, each followed by CR LF: `#EXTM3U`,
`#EXT-X-VERSION:3`, `#EXT-X-TARGETDURATION:` and the value of `targetDuration()`,
`#EXT-X-MEDIA-SEQUENCE:` and the sequence number of `a`, and then for each
segment, oldest first, the line `#EXTINF:<duration>,` and the line made of the
url of the segment followed by the two characters `%s`. -/
theorem Hls.ToString_lines (fmt : ℚ → String) (m : Hls.m3u8Writer) (l : List Hls.Segment)
    (h : m.playlist.Holds l) :
    (l = [] → m.ToString fmt = .ok "") ∧
      (∀ a rest, l = a :: rest →
        ∃ td : Int, m.targetDuration = .ok td ∧
          m.ToString fmt =
            .ok (Hls.crlfLines
              (["#EXTM3U", "#EXT-X-VERSION:3", "#EXT-X-TARGETDURATION:" ++ Hls.Itoa td,
                  "#EXT-X-MEDIA-SEQUENCE:" ++ Hls.Itoa a.sequence] ++
                l.flatMap (fun s => ["#EXTINF:" ++ fmt s.duration ++ ",", s.url ++ "%s"])))) := by
  constructor
  · intro hl
    subst hl
    unfold Hls.m3u8Writer.ToString
    rw [h.data_nil]
  · intro a rest hl
    subst hl
    refine ⟨(a :: rest).foldl Hls.m3u8Writer.raise 0, ?_, ?_⟩
    · rw [Hls.m3u8Writer.targetDuration_eq, h.exposed_eq, Hls.m3u8Writer.compute_some]
    · rw [Hls.m3u8Writer.ToString_fold fmt m a rest h, Hls.crlfLines_segments,
        Hls.crlfLines_header]

/-- C13 on the writer that holds the one segment `0.ts` of 2 s. -/
theorem Hls.ToString_lines_witness :
    ∃ td : Int, Hls.oneSegmentWriter.targetDuration = .ok td ∧
      Hls.oneSegmentWriter.ToString Hls.secondsText =
        .ok (Hls.crlfLines
          (["#EXTM3U", "#EXT-X-VERSION:3", "#EXT-X-TARGETDURATION:" ++ Hls.Itoa td,
              "#EXT-X-MEDIA-SEQUENCE:" ++ Hls.Itoa 0] ++
            ["#EXTINF:" ++ Hls.secondsText 2 ++ ",", "0.ts" ++ "%s"])) :=
  (Hls.ToString_lines Hls.secondsText Hls.oneSegmentWriter [⟨2, "0.ts", 0, "/hls/0.ts"⟩]
    (Hls.m3u8Writer.addAll_holds [⟨2, "0.ts", 0, "/hls/0.ts"⟩] (Hls.NewM3U8Writer 3) []
      (NewQueue_holds 3 (by decide))).1).2 ⟨2, "0.ts", 0, "/hls/0.ts"⟩ [] rfl

/-- C13 fails as stated: for the playlist that holds the one segment of url
`0.ts`, the line that `ToString` writes after `#EXTINF:2,` is `0.ts%s`, not the
url `0.ts`, and the text is not the text of the lines that the claim lists. -/
theorem Hls.ToString_url_line_is_not_the_url :
    Hls.oneSegmentWriter.ToString Hls.secondsText =
        .ok (Hls.crlfLines ["#EXTM3U", "#EXT-X-VERSION:3", "#EXT-X-TARGETDURATION:2",
          "#EXT-X-MEDIA-SEQUENCE:0", "#EXTINF:2,", "0.ts%s"]) ∧
      ("0.ts%s" : String) ≠ "0.ts" ∧
      Hls.oneSegmentWriter.ToString Hls.secondsText ≠
        .ok (Hls.crlfLines ["#EXTM3U", "#EXT-X-VERSION:3", "#EXT-X-TARGETDURATION:2",
          "#EXT-X-MEDIA-SEQUENCE:0", "#EXTINF:2,", "0.ts"]) := by
  have h1 : Hls.oneSegmentWriter.ToString Hls.secondsText =
      .ok (Hls.crlfLines ["#EXTM3U", "#EXT-X-VERSION:3", "#EXT-X-TARGETDURATION:2",
        "#EXT-X-MEDIA-SEQUENCE:0", "#EXTINF:2,", "0.ts%s"]) := by rfl
  refine ⟨h1, by decide, ?_⟩
  rw [h1]
  intro h
  exact absurd (Except.ok.inj h) (by decide)

/-! ## The playlist file and the waiting sinks of the HLS transmuxer -/

theorem Hls.File.rewrite_content (f : Hls.File) (txt : String) :
    ((f.Seek0.Truncate0).Write txt).content = txt := by
  simp [Hls.File.Write, Hls.File.Seek0, Hls.File.Truncate0]

theorem Hls.m3u8Writer.Head_ok (m : Hls.m3u8Writer) (l : List Hls.Segment)
    (h : m.playlist.Holds l) : m.Head = .ok (l.headD Hls.Segment.zero) := by
  unfold Hls.m3u8Writer.Head
  cases l with
  | nil => rw [h.data_nil]; rfl
  | cons a rest =>
    obtain ⟨tl, hd⟩ := h.data_head
    rw [hd]
    rfl

theorem Hls.m3u8Writer.ToString_ends (fmt : ℚ → String) (m : Hls.m3u8Writer)
    (l : List Hls.Segment) (s : Hls.Segment) (h : m.playlist.Holds (l ++ [s])) :
    ∃ pre, m.ToString fmt = .ok (pre ++ Hls.m3u8Writer.segmentText fmt s) := by
  cases hl : l ++ [s] with
  | nil => simp at hl
  | cons a rest =>
    rw [hl] at h
    rw [Hls.m3u8Writer.ToString_fold fmt m a rest h, ← hl, List.foldl_append]
    exact ⟨_, rfl⟩

theorem Hls.transStream.rewrite_calm (env : Hls.HlsEnv) (t : Hls.transStream) (txt : String)
    (hs : env.seekErr = none) (ht : env.truncateErr = none) (hw : env.writeErr = none)
    (htxt : t.m3u8.ToString env.fmt = .ok txt) :
    ∃ t1 : Hls.transStream, Hls.transStream.rewrite env t = .ok (t1, txt, none) ∧
      t1.m3u8 = t.m3u8 ∧ t1.m3u8File.content = txt ∧ t1.inputs = t.inputs ∧
      t1.m3u8Sinks = t.m3u8Sinks := by
  refine ⟨{ t with m3u8File := (t.m3u8File.Seek0.Truncate0).Write txt }, ?_, rfl,
    Hls.File.rewrite_content _ _, rfl, rfl⟩
  unfold Hls.transStream.rewrite
  rw [hs, ht, htxt, hw]

theorem Hls.transStream.evictHead_calm (t : Hls.transStream) (l : List Hls.Segment)
    (h : t.m3u8.playlist.Holds l) :
    ∃ removed, t.evictHead = .ok { t with removed := removed } := by
  unfold Hls.transStream.evictHead
  split
  · rw [Hls.m3u8Writer.Head_ok _ l h]
    exact ⟨_, rfl⟩
  · exact ⟨t.removed, rfl⟩

theorem Hls.transStream.flushSegment_errors (env : Hls.HlsEnv) (t t1 : Hls.transStream)
    (h : t.flushSegment env = .ok (t1, none)) :
    env.closeErr = none ∧ env.seekErr = none ∧ env.truncateErr = none ∧
      env.writeErr = none := by
  unfold Hls.transStream.flushSegment at h
  cases hc : env.closeErr with
  | some e => rw [hc] at h; simp at h
  | none =>
    rw [hc] at h
    simp only [] at h
    cases he : t.writeBack.evictHead with
    | error e => rw [he] at h; simp at h
    | ok t2 =>
      rw [he] at h
      simp only [] at h
      unfold Hls.transStream.rewrite at h
      cases hs : env.seekErr with
      | some e => rw [hs] at h; simp at h
      | none =>
        cases ht : env.truncateErr with
        | some e => rw [hs, ht] at h; simp at h
        | none =>
          cases hw : env.writeErr with
          | some e =>
            rw [hs, ht, hw] at h
            simp only [] at h
            split at h <;> first
              | (simp at h; done)
              | (rename_i heq; split at heq <;> simp at heq)
          | none => exact ⟨rfl, rfl, rfl, rfl⟩

theorem Hls.transStream.flushSegment_calm (env : Hls.HlsEnv) (t : Hls.transStream)
    (l : List Hls.Segment) (h : t.m3u8.playlist.Holds l)
    (hc : env.closeErr = none) (hs : env.seekErr = none) (ht : env.truncateErr = none)
    (hw : env.writeErr = none) :
    ∃ (txt pre : String) (t1 : Hls.transStream),
      t.flushSegment env = .ok (t1, none) ∧
      t1.m3u8 = t.m3u8.AddSegment (env.seconds t.muxerDuration) t.context.url
        t.context.segmentSeq t.context.path ∧
      t1.m3u8.ToString env.fmt = .ok txt ∧
      t1.m3u8File.content = txt ∧
      txt = pre ++ Hls.m3u8Writer.segmentText env.fmt
        ⟨env.seconds t.muxerDuration, t.context.url, t.context.segmentSeq, t.context.path⟩ ∧
      t1.inputs = t.inputs ++ t.m3u8Sinks.map (fun e => (e.2, txt)) ∧
      t1.m3u8Sinks = [] := by
  have hwb : t.writeBack.m3u8 = t.m3u8 ∧ t.writeBack.muxerDuration = t.muxerDuration ∧
      t.writeBack.context.url = t.context.url ∧
      t.writeBack.context.segmentSeq = t.context.segmentSeq ∧
      t.writeBack.context.path = t.context.path ∧ t.writeBack.inputs = t.inputs ∧
      t.writeBack.m3u8Sinks = t.m3u8Sinks := by
    unfold Hls.transStream.writeBack
    split <;> exact ⟨rfl, rfl, rfl, rfl, rfl, rfl, rfl⟩
  obtain ⟨hw1, hw2, hw3, hw4, hw5, hw6, hw7⟩ := hwb
  have h1 : t.writeBack.m3u8.playlist.Holds l := by rw [hw1]; exact h
  obtain ⟨removed, hev⟩ := t.writeBack.evictHead_calm l h1
  obtain ⟨hadd, -⟩ := Hls.m3u8Writer.AddSegment_holds t.m3u8 l (env.seconds t.muxerDuration)
    t.context.url t.context.segmentSeq t.context.path h
  obtain ⟨pre, htxt⟩ := Hls.m3u8Writer.ToString_ends env.fmt _ _ _ hadd
  have htxt1 : Hls.m3u8Writer.ToString env.fmt
      (t.writeBack.m3u8.AddSegment (env.seconds t.writeBack.muxerDuration)
        t.writeBack.context.url t.writeBack.context.segmentSeq t.writeBack.context.path) =
      .ok (pre ++ Hls.m3u8Writer.segmentText env.fmt
        ⟨env.seconds t.muxerDuration, t.context.url, t.context.segmentSeq, t.context.path⟩) := by
    rw [hw1, hw2, hw3, hw4, hw5]
    exact htxt
  obtain ⟨X, hX, hm, hfile, hin, hsinks⟩ := Hls.transStream.rewrite_calm env
    { ({ t.writeBack with removed := removed } : Hls.transStream) with
      m3u8 := t.writeBack.m3u8.AddSegment (env.seconds t.writeBack.muxerDuration)
        t.writeBack.context.url t.writeBack.context.segmentSeq t.writeBack.context.path }
    _ hs ht hw htxt1
  simp only [hw1, hw2, hw3, hw4, hw5, hw6, hw7] at hm hin hsinks
  have hflush : t.flushSegment env =
      .ok (X.notifySinks (pre ++ Hls.m3u8Writer.segmentText env.fmt
        ⟨env.seconds t.muxerDuration, t.context.url, t.context.segmentSeq, t.context.path⟩),
        none) := by
    unfold Hls.transStream.flushSegment
    rw [hc, hev]
    simp only []
    rw [hX]
  have hn : ∀ txt : String, (X.notifySinks txt).m3u8 = X.m3u8 ∧
      (X.notifySinks txt).m3u8File = X.m3u8File ∧
      (X.notifySinks txt).inputs = X.inputs ++ X.m3u8Sinks.map (fun e => (e.2, txt)) ∧
      (X.notifySinks txt).m3u8Sinks = [] := by
    intro txt
    unfold Hls.transStream.notifySinks
    split
    · exact ⟨rfl, rfl, rfl, rfl⟩
    · next hlen =>
      have hnil : X.m3u8Sinks = [] := List.length_eq_zero.mp (by omega)
      refine ⟨rfl, rfl, ?_, hnil⟩
      rw [hnil]
      simp
  obtain ⟨hn1, hn2, hn3, hn4⟩ := hn (pre ++ Hls.m3u8Writer.segmentText env.fmt
    ⟨env.seconds t.muxerDuration, t.context.url, t.context.segmentSeq, t.context.path⟩)
  refine ⟨_, pre, _, hflush, ?_, ?_, ?_, rfl, ?_, hn4⟩
  · rw [hn1, hm]
  · rw [hn1, hm]
    exact htxt
  · rw [hn2]
    exact hfile
  · rw [hn3, hin, hsinks]

/-- C16. With a playlist that holds segments `l`: when the calls on the files
succeed, `flushSegment` returns nil; and whenever it returns nil, the playlist is
the one before the call after `AddSegment` of the segment just written (its
duration, url, sequence number and path), the playlist file holds exactly the
text `ToString` gives for that playlist, and that text ends with the entry of
the segment just added. -/
theorem Hls.flushSegment_playlist_is_fresh (env : Hls.HlsEnv) (t : Hls.transStream)
    (l : List Hls.Segment) (h : t.m3u8.playlist.Holds l) :
    (env.closeErr = none → env.seekErr = none → env.truncateErr = none →
        env.writeErr = none → ∃ t1, t.flushSegment env = .ok (t1, none)) ∧
      ∀ t1, t.flushSegment env = .ok (t1, none) →
        ∃ txt pre : String,
          t1.m3u8 = t.m3u8.AddSegment (env.seconds t.muxerDuration) t.context.url
            t.context.segmentSeq t.context.path ∧
          t1.m3u8.ToString env.fmt = .ok txt ∧
          t1.m3u8File.content = txt ∧
          txt = pre ++ Hls.m3u8Writer.segmentText env.fmt
            ⟨env.seconds t.muxerDuration, t.context.url, t.context.segmentSeq,
              t.context.path⟩ := by
  constructor
  · intro hc hs ht hw
    obtain ⟨txt, pre, t1, hf, -⟩ := Hls.transStream.flushSegment_calm env t l h hc hs ht hw
    exact ⟨t1, hf⟩
  · intro t1 hf
    obtain ⟨hc, hs, ht, hw⟩ := Hls.transStream.flushSegment_errors env t t1 hf
    obtain ⟨txt, pre, t2, hf2, h1, h2, h3, h4, -⟩ :=
      Hls.transStream.flushSegment_calm env t l h hc hs ht hw
    rw [hf2] at hf
    have e : t2 = t1 := by
      have := Except.ok.inj hf
      exact (Prod.mk.inj this).1
    subst e
    exact ⟨txt, pre, h1, h2, h3, h4⟩

/-- C16 on the first segment of a stream whose playlist file held an older
text: the file holds the new playlist, which ends with the entry of `0.ts`. -/
theorem Hls.flushSegment_playlist_is_fresh_witness :
    (∃ t1, Hls.freshStream.flushSegment Hls.calmEnv = .ok (t1, none)) ∧
      ∀ t1, Hls.freshStream.flushSegment Hls.calmEnv = .ok (t1, none) →
        ∃ txt pre : String,
          t1.m3u8 = Hls.freshStream.m3u8.AddSegment 2 "0.ts" 0 "/hls/0.ts" ∧
          t1.m3u8.ToString Hls.secondsText = .ok txt ∧
          t1.m3u8File.content = txt ∧
          txt = pre ++ Hls.m3u8Writer.segmentText Hls.secondsText
            ⟨2, "0.ts", 0, "/hls/0.ts"⟩ := by
  have h := Hls.flushSegment_playlist_is_fresh Hls.calmEnv Hls.freshStream []
    (NewQueue_holds 3 (by decide))
  exact ⟨h.1 rfl rfl rfl rfl, h.2⟩
theorem Hls.m3u8Writer.Size_pos (m : Hls.m3u8Writer) (l : List Hls.Segment)
    (h : m.playlist.Holds l) : m.Size = (l.length : Int) := by
  rw [Hls.m3u8Writer.Size_eq, h.exposed_eq, List.length_map]

/-- C17. For an m3u8 sink and a playlist that holds the segments `l`: when `l`
is not empty `AddSink` calls the sink's `Input` once, with the current text of
the playlist, and leaves `m3u8Sinks` as it is; when `l` is empty it calls no
`Input` and stores the sink in `m3u8Sinks` under its id.  A `flushSegment` that
returns nil calls `Input` with the new text of the playlist once for each entry
of `m3u8Sinks`, in the order of the map, and leaves `m3u8Sinks` empty; when the
keys of the map are distinct and are the ids of the sinks, each waiting sink is
sent the text exactly once. -/
theorem Hls.m3u8_sinks_are_served (env : Hls.HlsEnv) (t : Hls.transStream)
    (l : List Hls.Segment) (h : t.m3u8.playlist.Holds l) (sink : Hls.ISink)
    (hk : sink.isM3u8 = true) :
    (l ≠ [] →
      ∃ txt, t.m3u8.ToString env.fmt = .ok txt ∧
        t.AddSink env sink =
          .ok ({ t with inputs := t.inputs ++ [(sink, txt)] }, env.inputErr sink txt)) ∧
    (l = [] →
      t.AddSink env sink =
          .ok ({ t with m3u8Sinks := GoMap.insertList t.m3u8Sinks sink.Id sink }, none) ∧
        (sink.Id, sink) ∈ GoMap.insertList t.m3u8Sinks sink.Id sink) ∧
    (∀ t1, t.flushSegment env = .ok (t1, none) →
      ∃ txt, t1.m3u8.ToString env.fmt = .ok txt ∧
        t1.inputs = t.inputs ++ t.m3u8Sinks.map (fun e => (e.2, txt)) ∧
        t1.m3u8Sinks = [] ∧
        ((∀ e ∈ t.m3u8Sinks, e.1 = e.2.Id) → (t.m3u8Sinks.map Prod.fst).Nodup →
          ∀ e ∈ t.m3u8Sinks,
            (t.m3u8Sinks.map (fun e => (e.2, txt))).countP
              (fun x => decide (x = (e.2, txt))) = 1)) := by
  have hsize := Hls.m3u8Writer.Size_pos t.m3u8 l h
  refine ⟨?_, ?_, ?_⟩
  · intro hl
    cases l with
    | nil => exact absurd rfl hl
    | cons a rest =>
      have htxt := Hls.m3u8Writer.ToString_fold env.fmt t.m3u8 a rest h
      refine ⟨_, htxt, ?_⟩
      have hpos : t.m3u8.Size > 0 := by rw [hsize]; simp
      unfold Hls.transStream.AddSink
      rw [if_pos hk, if_pos hpos, htxt]
  · intro hl
    subst hl
    have hpos : ¬ t.m3u8.Size > 0 := by rw [hsize]; simp
    constructor
    · unfold Hls.transStream.AddSink
      rw [if_pos hk, if_neg hpos]
    · exact List.mem_of_find?_eq_some (GoMap.find_insertList_same t.m3u8Sinks sink.Id sink)
  · intro t1 hf
    obtain ⟨hc, hs, ht, hw⟩ := Hls.transStream.flushSegment_errors env t t1 hf
    obtain ⟨txt, pre, t2, hf2, h1, h2, h3, h4, h5, h6⟩ :=
      Hls.transStream.flushSegment_calm env t l h hc hs ht hw
    rw [hf2] at hf
    have e : t2 = t1 := (Prod.mk.inj (Except.ok.inj hf)).1
    subst e
    refine ⟨txt, h2, h5, h6, ?_⟩
    intro hids hnodup e he
    have hinj : ∀ x ∈ t.m3u8Sinks, ∀ y ∈ t.m3u8Sinks,
        (fun e : SinkID × Hls.ISink => (e.2, txt)) x = (fun e => (e.2, txt)) y → x = y := by
      intro x hx y hy hxy
      have h2 : x.2 = y.2 := (Prod.mk.inj hxy).1
      have h1 : x.1 = y.1 := by rw [hids x hx, hids y hy, h2]
      exact Prod.ext h1 h2
    have hnd : t.m3u8Sinks.Nodup := List.Nodup.of_map _ hnodup
    have hnd2 : (t.m3u8Sinks.map (fun e => (e.2, txt))).Nodup := List.Nodup.map_on hinj hnd
    exact List.count_eq_one_of_mem hnd2 (List.mem_map.mpr ⟨e, he, rfl⟩)

/-- C17 on a stream whose playlist is empty and on which sinks 7 and 8 wait:
sink 9 is parked, and the flush sends each of them the new text once. -/
theorem Hls.m3u8_sinks_are_served_witness :
    (Hls.freshStream.AddSink Hls.calmEnv ⟨9, true⟩ =
        .ok ({ Hls.freshStream with
                m3u8Sinks := GoMap.insertList Hls.freshStream.m3u8Sinks 9 ⟨9, true⟩ }, none)) ∧
      ∀ t1, Hls.freshStream.flushSegment Hls.calmEnv = .ok (t1, none) →
        ∃ txt, t1.m3u8.ToString Hls.secondsText = .ok txt ∧
          t1.inputs = [(⟨7, true⟩, txt), (⟨8, true⟩, txt)] ∧ t1.m3u8Sinks = [] := by
  have h := Hls.m3u8_sinks_are_served Hls.calmEnv Hls.freshStream []
    (NewQueue_holds 3 (by decide)) ⟨9, true⟩ rfl
  refine ⟨(h.2.1 rfl).1, ?_⟩
  intro t1 hf
  obtain ⟨txt, h1, h2, h3, -⟩ := h.2.2 t1 hf
  exact ⟨txt, h1, h2, h3⟩

/-! ## The WebRTC transmuxer -/

theorem Rtc.transStream.deliver_eq (ice : Rtc.ICEStates) (lib : Rtc.RtcLib)
    (t : Rtc.transStream) (packet : AVPacket) (tr : AVStream)
    (htr : t.track packet.Index = .ok tr) (s : Rtc.sink) :
    t.deliver ice lib packet s = .ok (Rtc.served ice lib packet tr s) := by
  unfold Rtc.transStream.deliver Rtc.served
  rw [htr]
  by_cases hs : s.state < ice.Connected
  · rw [if_pos hs, if_pos hs]
  · rw [if_neg hs, if_neg hs]
    by_cases hk : packet.KeyFrame = true
    · simp [hk, Rtc.sink.input]
    · simp [hk, Rtc.sink.input]

theorem Rtc.transStream.deliverAll_eq (ice : Rtc.ICEStates) (lib : Rtc.RtcLib)
    (t : Rtc.transStream) (packet : AVPacket) (tr : AVStream)
    (htr : t.track packet.Index = .ok tr) :
    ∀ sinks : List Rtc.sink,
      t.deliverAll ice lib packet sinks = .ok (sinks.map (Rtc.served ice lib packet tr)) := by
  intro sinks
  induction sinks with
  | nil => rfl
  | cons s rest ih =>
    unfold Rtc.transStream.deliverAll
    rw [Rtc.transStream.deliver_eq ice lib t packet tr htr, ih]
    rfl

/-- C18, as the code has it. `Input` returns nil and calls no `input` for a
packet that is not video. For a video packet of an existing track it returns nil
and, for every sink: no `input` when the state of the sink is below `Connected`
in the numbering of the library; otherwise, for a keyframe, one `input` with the
extradata of the track and timestamp 0 followed by one `input` with the frame,
and for another packet the one `input` with the frame. -/
theorem Rtc.Input_serves_states_from_connected (ice : Rtc.ICEStates) (lib : Rtc.RtcLib)
    (t : Rtc.transStream) (packet : AVPacket) :
    (packet.MediaType ≠ AVMediaType.Video → t.Input ice lib packet = .ok (t, none)) ∧
      (packet.MediaType = AVMediaType.Video → ∀ tr, t.track packet.Index = .ok tr →
        t.Input ice lib packet =
          .ok ({ t with
                  Sinks := t.Sinks.map (fun s =>
                    if s.state < ice.Connected then s
                    else
                      { s with
                        inputs := s.inputs ++
                          (if packet.KeyFrame then [⟨packet.Index, lib.extra tr, 0⟩] else []) ++
                          [⟨packet.Index, lib.annexB packet tr, lib.duration packet⟩] }) },
               none)) := by
  constructor
  · intro hv
    unfold Rtc.transStream.Input
    split
    · rfl
    · rfl
  · intro hv tr htr
    unfold Rtc.transStream.Input
    rw [hv, if_neg (by decide), if_pos rfl, Rtc.transStream.deliverAll_eq ice lib t packet tr htr]
    rfl

/-- C18 on three sinks in the states checking, connected and disconnected, for
a keyframe: the first is sent nothing, the two others the extradata and then
the frame. -/
theorem Rtc.Input_serves_states_from_connected_witness :
    Rtc.threeSinks.Input Rtc.pionStates Rtc.demoRtcLib Rtc.keyFrame =
      .ok ({ Rtc.threeSinks with
              Sinks := [⟨2, []⟩, ⟨3, [⟨0, [1, 100], 0⟩, ⟨0, [5, 5], 40⟩]⟩,
                ⟨5, [⟨0, [1, 100], 0⟩, ⟨0, [5, 5], 40⟩]⟩] }, none) :=
  (Rtc.Input_serves_states_from_connected Rtc.pionStates Rtc.demoRtcLib Rtc.threeSinks
    Rtc.keyFrame).2 rfl ⟨0, AVMediaType.Video, 27, [1, 100]⟩ rfl

/-- C18 fails as stated: with the numbering of pion/webrtc, in which
`Disconnected` (5) is above `Connected` (3), a sink whose ICE connection state
is disconnected is sent the frame of a video packet. -/
theorem Rtc.Input_sends_to_disconnected_sink :
    Rtc.pionStates.Disconnected ≠ Rtc.pionStates.Connected ∧
      (Rtc.threeSinks.Input Rtc.pionStates Rtc.demoRtcLib Rtc.deltaFrame).toOption.map
          (fun r => r.1.Sinks.map (fun s => (s.state, s.inputs))) =
        some [(2, []), (3, [⟨0, [9, 9], 40⟩]), (5, [⟨0, [9, 9], 40⟩])] := by
  refine ⟨by decide, by rfl⟩

/-! ## The run arguments -/

theorem Main.get_insertList (l : List (List Char × List Char)) (k k1 v : List Char) :
    GoMap.get? (some (GoMap.insertList l k v)) k1 =
      if k1 = k then some v else GoMap.get? (some l) k1 := by
  have hset : GoMap.set (some l) k v = .ok (some (GoMap.insertList l k v)) := rfl
  split
  · next h => rw [h]; exact GoMap.get_set_same _ _ k v hset
  · next h => exact GoMap.get_set_other _ _ k k1 v h hset

theorem Main.get_isSome_iff (l : List (List Char × List Char)) (k : List Char) :
    (GoMap.get? (some l) k).isSome = true ↔ k ∈ l.map Prod.fst := by
  simp only [GoMap.get?, GoMap.toList, Option.getD_some, Option.isSome_map', List.find?_isSome,
    List.mem_map]
  constructor
  · rintro ⟨x, hx, hk⟩
    exact ⟨x, hx, by simpa using hk⟩
  · rintro ⟨x, hx, hk⟩
    exact ⟨x, hx, by simpa using hk⟩

theorem Main.dropOverlap_get (k : List Char) :
    ∀ (ks : List (List Char)) (d : List (List Char × List Char)),
      GoMap.get? (some (Main.dropOverlap ks d)) k =
        if k ∈ ks then none else GoMap.get? (some d) k := by
  intro ks
  induction ks with
  | nil => intro d; rfl
  | cons k0 rest ih =>
    intro d
    have hstep : GoMap.get?
        (some (if (GoMap.get? (some d) k0).isSome then (GoMap.delete (some d) k0).toList else d))
        k = if k = k0 then none else GoMap.get? (some d) k := by
      by_cases hs : (GoMap.get? (some d) k0).isSome = true
      · rw [if_pos hs]
        split
        · next h => rw [h]; exact GoMap.get_delete_same (some d) k0
        · next h => exact GoMap.get_delete_other (some d) k0 k h
      · rw [if_neg hs]
        split
        · next h =>
          rw [h]
          simpa using hs
        · rfl
    show GoMap.get? (some (Main.dropOverlap rest _)) k = _
    rw [ih, hstep]
    by_cases h1 : k = k0
    · simp [h1]
    · by_cases h2 : k ∈ rest
      · simp [h2]
      · simp [h1, h2]

theorem Main.readArg_enable (ToLower : List Char → List Char) (m : Main.Options)
    (a k v : List Char) (h : Main.parseArg ToLower a = some (true, k, v)) :
    Main.readArg ToLower m a = (m.1, GoMap.insertList m.2 k v) := by
  unfold Main.readArg
  rw [h]

theorem Main.readArg_snd (ToLower : List Char → List Char) (m : Main.Options) (a : List Char) :
    (Main.readArg ToLower m a).2 = m.2 ∨
      ∃ k v, Main.parseArg ToLower a = some (true, k, v) ∧
        (Main.readArg ToLower m a).2 = GoMap.insertList m.2 k v := by
  unfold Main.readArg
  split
  · exact Or.inl rfl
  · next k v h => exact Or.inr ⟨k, v, h, rfl⟩
  · exact Or.inl rfl

theorem Main.enable_keep (ToLower : List Char → List Char) (k : List Char) :
    ∀ (args : List (List Char)) (m : Main.Options),
      (∀ a ∈ args, ∀ v, Main.parseArg ToLower a ≠ some (true, k, v)) →
      GoMap.get? (some (args.foldl (Main.readArg ToLower) m).2) k = GoMap.get? (some m.2) k := by
  intro args
  induction args with
  | nil => intro m _; rfl
  | cons a rest ih =>
    intro m h
    rw [List.foldl_cons, ih _ (fun b hb => h b (List.mem_cons_of_mem _ hb))]
    rcases Main.readArg_snd ToLower m a with e | ⟨k1, v1, hp, e⟩
    · rw [e]
    · rw [e, Main.get_insertList, if_neg]
      intro hk
      exact h a (List.mem_cons_self _ _) v1 (by rw [hp, hk])

theorem Main.enable_mono (ToLower : List Char → List Char) (k : List Char) :
    ∀ (args : List (List Char)) (m : Main.Options),
      (GoMap.get? (some m.2) k).isSome = true →
      (GoMap.get? (some (args.foldl (Main.readArg ToLower) m).2) k).isSome = true := by
  intro args
  induction args with
  | nil => intro m h; exact h
  | cons a rest ih =>
    intro m h
    rw [List.foldl_cons]
    apply ih
    rcases Main.readArg_snd ToLower m a with e | ⟨k1, v1, _, e⟩
    · rw [e]; exact h
    · rw [e, Main.get_insertList]
      split
      · rfl
      · exact h

theorem Main.enable_last (ToLower : List Char → List Char) (pre post : List (List Char))
    (a k v : List Char) (m : Main.Options)
    (ha : Main.parseArg ToLower a = some (true, k, v))
    (hpost : ∀ b ∈ post, ∀ v1, Main.parseArg ToLower b ≠ some (true, k, v1)) :
    GoMap.get? (some ((pre ++ a :: post).foldl (Main.readArg ToLower) m).2) k = some v := by
  rw [List.foldl_append, List.foldl_cons, Main.enable_keep ToLower k post _ hpost,
    Main.readArg_enable ToLower _ a k v ha, Main.get_insertList, if_pos rfl]

theorem Main.enable_present (ToLower : List Char → List Char) (args : List (List Char))
    (a k v : List Char) (m : Main.Options) (hmem : a ∈ args)
    (ha : Main.parseArg ToLower a = some (true, k, v)) :
    (GoMap.get? (some (args.foldl (Main.readArg ToLower) m).2) k).isSome = true := by
  obtain ⟨pre, post, rfl⟩ := List.append_of_mem hmem
  rw [List.foldl_append, List.foldl_cons]
  apply Main.enable_mono
  rw [Main.readArg_enable ToLower _ a k v ha, Main.get_insertList, if_pos rfl]
  rfl
theorem Main.Split_single (s : List Char) (h : '=' ∉ s) : Main.Split s = [s] := by
  unfold Main.Split List.splitOn
  apply List.splitOnP_eq_single
  intro x hx hxe
  have : x = '=' := by simpa using hxe
  exact h (this ▸ hx)

theorem Main.Split_first (name rest : List Char) (h : '=' ∉ name) :
    Main.Split (name ++ '=' :: rest) = name :: Main.Split rest := by
  unfold Main.Split List.splitOn
  apply List.splitOnP_first
  · intro x hx hxe
    have : x = '=' := by simpa using hxe
    exact h (this ▸ hx)
  · simp

theorem Main.Split_head (s : List Char) :
    (Main.Split s).headD [] = s.takeWhile (fun c => c != '=') := by
  have hsplit := List.takeWhile_append_dropWhile (fun c => c != '=') s
  have hno : '=' ∉ s.takeWhile (fun c => c != '=') := by
    intro hmem
    have := List.mem_takeWhile_imp hmem
    simp at this
  cases hd : s.dropWhile (fun c => c != '=') with
  | nil =>
    rw [hd, List.append_nil] at hsplit
    rw [hsplit]
    rw [hsplit] at hno
    rw [Main.Split_single s hno]
    rfl
  | cons c rest =>
    have hc : c = '=' := by
      have := List.head_dropWhile_not (fun c => c != '=') s (by rw [hd]; simp)
      simp only [hd, List.head_cons] at this
      simpa using this
    rw [hd, hc] at hsplit
    rw [congrArg Main.Split hsplit.symm, Main.Split_first _ _ hno]
    rfl

theorem Main.parseArg_of_prefix (ToLower : List Char → List Char) (arg option : List Char)
    (enable : Bool)
    (h : ToLower arg = (if enable then "--enable-".toList else "--disable-".toList) ++ option) :
    Main.parseArg ToLower arg =
      some (enable, (Main.Split option).headD [],
        if (Main.Split option).length > 1 then (Main.Split option).getD 1 [] else []) := by
  unfold Main.parseArg
  simp only [h]
  cases enable with
  | true =>
    have h1 : Main.HasPrefix ("--enable-".toList ++ option) "--disable-".toList = false := by
      rfl
    have h2 : Main.HasPrefix ("--enable-".toList ++ option) "--enable-".toList = true := by
      unfold Main.HasPrefix
      rw [List.isPrefixOf_iff_prefix]
      exact List.prefix_append _ _
    have h3 : ("--enable-".toList ++ option).drop "--enable-".length = option := by
      rfl
    simp only [if_true, h1, h2, h3, Bool.false_eq_true, if_false]
  | false =>
    have h1 : Main.HasPrefix ("--disable-".toList ++ option) "--disable-".toList = true := by
      unfold Main.HasPrefix
      rw [List.isPrefixOf_iff_prefix]
      exact List.prefix_append _ _
    have h3 : ("--disable-".toList ++ option).drop "--disable-".length = option := by
      rfl
    simp only [Bool.false_eq_true, if_false, h1, h3, if_true]

theorem Main.parseArg_with_value (ToLower : List Char → List Char) (arg name rest : List Char)
    (enable : Bool) (hname : '=' ∉ name)
    (h : ToLower arg =
      (if enable then "--enable-".toList else "--disable-".toList) ++ (name ++ '=' :: rest)) :
    Main.parseArg ToLower arg =
      some (enable, name, rest.takeWhile (fun c => c != '=')) := by
  rw [Main.parseArg_of_prefix ToLower arg _ enable h, Main.Split_first name rest hname]
  have hne : Main.Split rest ≠ [] := by
    unfold Main.Split List.splitOn
    exact List.splitOnP_ne_nil _ _
  cases hs : Main.Split rest with
  | nil => exact absurd hs hne
  | cons p ps =>
    have := Main.Split_head rest
    rw [hs] at this
    simp only [List.headD_cons] at this
    simp [this]

theorem Main.parseArg_without_value (ToLower : List Char → List Char) (arg name : List Char)
    (enable : Bool) (hname : '=' ∉ name)
    (h : ToLower arg = (if enable then "--enable-".toList else "--disable-".toList) ++ name) :
    Main.parseArg ToLower arg = some (enable, name, []) := by
  rw [Main.parseArg_of_prefix ToLower arg _ enable h, Main.Split_single name hname]
  simp

theorem Main.parseArg_other (ToLower : List Char → List Char) (arg : List Char)
    (h1 : Main.HasPrefix (ToLower arg) "--disable-".toList = false)
    (h2 : Main.HasPrefix (ToLower arg) "--enable-".toList = false) :
    Main.parseArg ToLower arg = none := by
  unfold Main.parseArg
  simp only [h1, h2, Bool.false_eq_true, if_false]
/-- C20, as the code has it. For every argument list, with `ToLower` for
`strings.ToLower`: (1) no key of the disable map is a key of the enable map;
(2) a key named by an enable argument is in the enable map and not in the disable
map, whatever else the list holds; (3) the enable map gives a key the value of
the last enable argument that names it; (4) an argument that the loop skips can
be left out of the list.  What an argument names is read after lower-casing:
(5) `--enable-<name>=<rest>` and `--disable-<name>=<rest>`, with no `=` in
`<name>`, name `<name>` with the value `<rest>` up to its first `=`; (6) without
`=` they name `<name>` with the empty value; (7) an argument with neither prefix
is skipped. -/
theorem Main.readRunArgs_spec (ToLower : List Char → List Char) (args : List (List Char)) :
    (∀ k, (GoMap.get? (some (Main.readRunArgs ToLower args).1) k).isSome = true →
        GoMap.get? (some (Main.readRunArgs ToLower args).2) k = none) ∧
    (∀ a ∈ args, ∀ k v, Main.parseArg ToLower a = some (true, k, v) →
        (GoMap.get? (some (Main.readRunArgs ToLower args).2) k).isSome = true ∧
        GoMap.get? (some (Main.readRunArgs ToLower args).1) k = none) ∧
    (∀ pre a post k v, args = pre ++ a :: post →
        Main.parseArg ToLower a = some (true, k, v) →
        (∀ b ∈ post, ∀ v1, Main.parseArg ToLower b ≠ some (true, k, v1)) →
        GoMap.get? (some (Main.readRunArgs ToLower args).2) k = some v) ∧
    (∀ pre a post, args = pre ++ a :: post → Main.parseArg ToLower a = none →
        Main.readRunArgs ToLower args = Main.readRunArgs ToLower (pre ++ post)) ∧
    (∀ (arg name rest : List Char) (enable : Bool), '=' ∉ name →
        ToLower arg = (if enable then "--enable-".toList else "--disable-".toList) ++
          (name ++ '=' :: rest) →
        Main.parseArg ToLower arg = some (enable, name, rest.takeWhile (fun c => c != '='))) ∧
    (∀ (arg name : List Char) (enable : Bool), '=' ∉ name →
        ToLower arg = (if enable then "--enable-".toList else "--disable-".toList) ++ name →
        Main.parseArg ToLower arg = some (enable, name, [])) ∧
    (∀ arg : List Char, Main.HasPrefix (ToLower arg) "--disable-".toList = false →
        Main.HasPrefix (ToLower arg) "--enable-".toList = false →
        Main.parseArg ToLower arg = none) := by
  have hget : ∀ k, GoMap.get? (some (Main.readRunArgs ToLower args).1) k =
      if k ∈ (Main.readRunArgs ToLower args).2.map Prod.fst then none
      else GoMap.get? (some (args.foldl (Main.readArg ToLower) ([], [])).1) k := by
    intro k
    exact Main.dropOverlap_get k _ _
  have hpresent : ∀ a ∈ args, ∀ k v, Main.parseArg ToLower a = some (true, k, v) →
      (GoMap.get? (some (Main.readRunArgs ToLower args).2) k).isSome = true :=
    fun a ha k v hp => Main.enable_present ToLower args a k v _ ha hp
  refine ⟨?_, ?_, ?_, ?_, ?_, ?_, ?_⟩
  · intro k hk
    rw [hget k] at hk
    by_cases hmem : k ∈ (Main.readRunArgs ToLower args).2.map Prod.fst
    · rw [if_pos hmem] at hk
      simp at hk
    · cases hv : GoMap.get? (some (Main.readRunArgs ToLower args).2) k with
      | none => rfl
      | some v =>
        exact absurd ((Main.get_isSome_iff _ k).mp (by rw [hv]; rfl)) hmem
  · intro a ha k v hp
    have h1 := hpresent a ha k v hp
    refine ⟨h1, ?_⟩
    rw [hget k, if_pos ((Main.get_isSome_iff _ k).mp h1)]
  · intro pre a post k v hargs hp hpost
    subst hargs
    exact Main.enable_last ToLower pre post a k v _ hp hpost
  · intro pre a post hargs hp
    subst hargs
    have hskip : ∀ m : Main.Options, Main.readArg ToLower m a = m := by
      intro m
      unfold Main.readArg
      rw [hp]
    unfold Main.readRunArgs
    simp only [List.foldl_append, List.foldl_cons, hskip]
  · intro arg name rest enable hname h
    exact Main.parseArg_with_value ToLower arg name rest enable hname h
  · intro arg name enable hname h
    exact Main.parseArg_without_value ToLower arg name enable hname h
  · intro arg h1 h2
    exact Main.parseArg_other ToLower arg h1 h2

/-- C20 on the arguments `lkm --disable-rtmp --Enable-RTMP=11935`: the enable
map gives `rtmp` the value `11935`, and the disable map does not hold `rtmp`. -/
theorem Main.readRunArgs_spec_witness :
    GoMap.get? (some (Main.readRunArgs Main.asciiLower
        ["lkm".toList, "--disable-rtmp".toList, "--Enable-RTMP=11935".toList]).2) "rtmp".toList =
      some "11935".toList ∧
    GoMap.get? (some (Main.readRunArgs Main.asciiLower
        ["lkm".toList, "--disable-rtmp".toList, "--Enable-RTMP=11935".toList]).1) "rtmp".toList =
      none := by
  have h := Main.readRunArgs_spec Main.asciiLower
    ["lkm".toList, "--disable-rtmp".toList, "--Enable-RTMP=11935".toList]
  exact ⟨h.2.2.1 ["lkm".toList, "--disable-rtmp".toList] "--Enable-RTMP=11935".toList []
      "rtmp".toList "11935".toList rfl (by decide) (by intro b hb; cases hb),
    (h.2.1 "--Enable-RTMP=11935".toList (by decide) "rtmp".toList "11935".toList
      (by decide)).2⟩

/-- C20 fails as stated: `--enable-rtmp=ABC` gives `rtmp` the value `abc`, not
`ABC`, and `--enable-jt1078=a=b` gives `jt1078` the value `a`, not `a=b`. -/
theorem Main.readRunArgs_value_is_lowered_and_cut :
    GoMap.get? (some (Main.readRunArgs Main.asciiLower
        ["lkm".toList, "--enable-rtmp=ABC".toList]).2) "rtmp".toList = some "abc".toList ∧
      "abc".toList ≠ "ABC".toList ∧
      GoMap.get? (some (Main.readRunArgs Main.asciiLower
        ["lkm".toList, "--enable-jt1078=a=b".toList]).2) "jt1078".toList = some "a".toList ∧
      "a".toList ≠ "a=b".toList := by
  decide

/-! ## The default out-streams without a GOP buffer -/

theorem createRecord_gopBuffer (env : Env) (w w1 : World) (h : createRecord env w = .ok w1) :
    w1.s.gopBuffer = w.s.gopBuffer := by
  unfold createRecord at h
  split at h
  · split at h
    · cases h
    · split at h
      · simp only [Except.ok.injEq] at h
        rw [← h]
      · simp only [Except.ok.injEq] at h
        rw [← h]
  · simp only [Except.ok.injEq] at h
    rw [← h]

/-- With HLS enabled, `createHls` on a source without a GOP buffer never returns:
each of its paths ends in a panic. -/
theorem createHls_without_gopBuffer (env : Env) (w : World) (hhls : env.HlsEnable = true)
    (hg : w.s.gopBuffer = none) : ∃ e, createHls env w = .error e := by
  unfold createHls
  rw [if_pos hhls]
  simp only []
  split
  · exact ⟨_, rfl⟩
  · split
    · exact ⟨_, rfl⟩
    · exact ⟨_, rfl⟩
    · next w1 hlsStream hc =>
      have hatt := (CreateTransStream_attached env w w1 _ _ _ _ hc).1
      have hg1 : w1.s.gopBuffer = none := by
        rw [(PublishSource.sameButSinks_fields hatt.2.1).2.2.2.2.2.2.1, hg]
      have hd : DispatchGOPBuffer env w1 hlsStream = .error "nil pointer dereference" := by
        unfold DispatchGOPBuffer
        rw [hg1]
      rw [hd]
      exact ⟨_, rfl⟩

theorem CreateDefaultOutStreams_without_gopBuffer (env : Env) (w : World)
    (hhls : env.HlsEnable = true) (hg : w.s.gopBuffer = none) :
    ∃ e, CreateDefaultOutStreams env w = .error e := by
  unfold CreateDefaultOutStreams
  simp only []
  cases hr : createRecord env
      (if w.s.TransStreams.isNone then { w with s := { w.s with TransStreams := some [] } }
       else w) with
  | error e => exact ⟨_, rfl⟩
  | ok w1 =>
    have hg1 : w1.s.gopBuffer = none := by
      rw [createRecord_gopBuffer env _ w1 hr]
      split <;> exact hg
    exact createHls_without_gopBuffer env w1 hhls hg1

/-- With HLS enabled, `writeHeader` on a non-completed source with an origin
stream and without a GOP buffer panics. -/
theorem writeHeader_without_gopBuffer (env : Env) (w : World) (hhls : env.HlsEnable = true)
    (hc : w.s.completed = false) (ho : w.s.originStreams.length ≠ 0)
    (hg : w.s.gopBuffer = none) : ∃ e, writeHeader env w = .error e := by
  unfold writeHeader
  rw [hc]
  simp only [Bool.false_eq_true, if_false, if_neg ho]
  obtain ⟨e, he⟩ := CreateDefaultOutStreams_without_gopBuffer env
    { w with s := { w.s with
        completed := true
        probeTimer := w.s.probeTimer.map (fun tm => { tm with stopped := true }) } } hhls hg
  rw [he]
  exact ⟨_, rfl⟩

/-- C21 (the defect, evaluated). With HLS enabled, `writeHeader` on a source in
its probe phase: when the GOP buffer has been allocated (video, gop_cache on) it
returns, and the HLS transmuxer is in `hlsStream` and in `TransStreams` under its
generated id; on the audio-only source of `audioProbingWorld` with gop_cache on,
and on the source with video of `recProbingWorld` with gop_cache off, no GOP
buffer has been allocated and the call panics at `s.gopBuffer.PeekAll`. -/
theorem writeHeader_hls_needs_gopBuffer :
    (probingWorld.s.gopBuffer.isSome = true ∧
      (∃ w, writeHeader hlsEnv probingWorld = .ok w) ∧
      hlsWorld.s.hlsStream = some 0 ∧
      hlsWorld.s.TransStreams.get?
        (hlsEnv.GenerateTransStreamID TransStreamProtocol.Hls probingWorld.s.originStreams) =
          some 0) ∧
    (audioProbingWorld.s.completed = false ∧ audioProbingWorld.s.originStreams.length = 1 ∧
      audioProbingWorld.s.gopBuffer = none ∧ hlsEnv.GOPCache = true ∧
      writeHeader hlsEnv audioProbingWorld = .error "nil pointer dereference") ∧
    (recProbingWorld.s.completed = false ∧ recProbingWorld.s.existVideo = true ∧
      recProbingWorld.s.gopBuffer = none ∧ hlsOnlyEnv.GOPCache = false ∧
      writeHeader hlsOnlyEnv recProbingWorld = .error "nil pointer dereference") := by
  refine ⟨⟨by decide, ⟨_, rfl⟩, by decide, by decide⟩,
    ⟨by decide, by decide, by decide, by decide, by rfl⟩,
    ⟨by decide, by decide, by decide, by decide, by rfl⟩⟩

/-! ## The memory of a demuxed packet -/

theorem FindOrCreatePacketBuffer_pool (env : Env) (s s1 : PublishSource) (index : Int)
    (mediaType : AVMediaType) (i : Fin 8)
    (h : FindOrCreatePacketBuffer env s index mediaType = .ok (s1, i)) :
    ((i : Nat) : Int) = index ∧ s1.gopBuffer = s.gopBuffer ∧
      s1.TransStreams = s.TransStreams ∧ s1.existVideo = s.existVideo ∧
      (∀ j, freeTailsAt s1 j = freeTailsAt s j) ∧
      ∃ b, s1.pktBuffers.get i = some b ∧ b.freeTails = freeTailsAt s i := by
  unfold FindOrCreatePacketBuffer at h
  split at h
  · next hr =>
    simp only [] at h
    split at h
    · next b hb =>
      simp only [Except.ok.injEq, Prod.mk.injEq] at h
      obtain ⟨rfl, rfl⟩ := h
      refine ⟨by simp; omega, rfl, rfl, rfl, fun _ => rfl, b, hb, ?_⟩
      simp [freeTailsAt, hb]
    · next hb =>
      simp only [Except.ok.injEq, Prod.mk.injEq] at h
      obtain ⟨rfl, rfl⟩ := h
      refine ⟨by simp; omega, rfl, rfl, rfl, ?_, _, Mathlib.Vector.get_set_same _ _ _, ?_⟩
      · intro j
        unfold freeTailsAt
        by_cases hj : (⟨index.toNat, by omega⟩ : Fin 8) = j
        · subst hj
          simp only [Mathlib.Vector.get_set_same, hb]
          rfl
        · simp only [Mathlib.Vector.get_set_of_ne hj]
      · simp [freeTailsAt, hb]
  · cases h

theorem updatePool_freeTails (s : PublishSource) (i : Fin 8) (f : MemoryPool → MemoryPool)
    (hf : ∀ b, (f b).freeTails = b.freeTails) (j : Fin 8) :
    freeTailsAt (updatePool s i f) j = freeTailsAt s j := by
  unfold freeTailsAt updatePool
  by_cases hj : i = j
  · subst hj
    simp only [Mathlib.Vector.get_set_same]
    cases s.pktBuffers.get i with
    | none => rfl
    | some b => simp [hf]
  · simp only [Mathlib.Vector.get_set_of_ne hj]

theorem OnDiscardPacket_freeTails (env : Env) (s s1 : PublishSource) (packet : AVPacket)
    (h : OnDiscardPacket env s packet = .ok s1) :
    s1.gopBuffer = s.gopBuffer ∧ s1.TransStreams = s.TransStreams ∧
      s1.existVideo = s.existVideo ∧ ∀ j, freeTailsAt s1 j = freeTailsAt s j := by
  unfold OnDiscardPacket at h
  split at h
  · cases h
  · next s2 i hf =>
    simp only [Except.ok.injEq] at h
    subst h
    obtain ⟨-, h1, h2, h3, h4, -⟩ := FindOrCreatePacketBuffer_pool env s s2 _ _ i hf
    refine ⟨h1, h2, h3, fun j => ?_⟩
    exact (updatePool_freeTails s2 i (fun b => { b with freeHeads := b.freeHeads + 1 })
      (fun _ => rfl) j).trans (h4 j)

theorem discardAll_freeTails (env : Env) : ∀ (l : List AVPacket) (s s1 : PublishSource),
    discardAll env l s = .ok s1 →
    s1.gopBuffer = s.gopBuffer ∧ s1.TransStreams = s.TransStreams ∧
      s1.existVideo = s.existVideo ∧ ∀ j, freeTailsAt s1 j = freeTailsAt s j := by
  intro l
  induction l with
  | nil =>
    intro s s1 h
    simp only [discardAll, Except.ok.injEq] at h
    subst h
    exact ⟨rfl, rfl, rfl, fun _ => rfl⟩
  | cons p rest ih =>
    intro s s1 h
    unfold discardAll at h
    split at h
    · cases h
    · next s2 hd =>
      obtain ⟨a1, a2, a3, a4⟩ := OnDiscardPacket_freeTails env s s2 p hd
      obtain ⟨b1, b2, b3, b4⟩ := ih s2 s1 h
      exact ⟨b1.trans a1, b2.trans a2, b3.trans a3, fun j => (b4 j).trans (a4 j)⟩

theorem cachePacket_spec (env : Env) (w w1 : World) (packet : AVPacket)
    (h : cachePacket env w packet = .ok w1) :
    w1.tsObj = w.tsObj ∧ w1.s.TransStreams = w.s.TransStreams ∧
      w1.s.existVideo = w.s.existVideo ∧ (∀ j, freeTailsAt w1.s j = freeTailsAt w.s j) ∧
      (env.GOPCache = true ∧ w.s.existVideo = true →
        ∃ g, w.s.gopBuffer = some g ∧ w1.s.gopBuffer = some (g.AddPacket packet).1) ∧
      (¬ (env.GOPCache = true ∧ w.s.existVideo = true) → w1.s.gopBuffer = w.s.gopBuffer) := by
  unfold cachePacket at h
  split at h
  · next hc =>
    have hc1 : env.GOPCache = true ∧ w.s.existVideo = true := by simpa using hc
    split at h
    · cases h
    · next g hg =>
      simp only [] at h
      split at h
      · cases h
      · next s1 hd =>
        simp only [Except.ok.injEq] at h
        subst h
        obtain ⟨a1, a2, a3, a4⟩ := discardAll_freeTails env _ _ s1 hd
        exact ⟨rfl, a2, a3, a4, fun _ => ⟨g, hg, a1⟩, fun hn => absurd hc1 hn⟩
  · next hc =>
    have hc1 : ¬ (env.GOPCache = true ∧ w.s.existVideo = true) := by simpa using hc
    simp only [Except.ok.injEq] at h
    subst h
    exact ⟨rfl, rfl, rfl, fun _ => rfl, fun hp => absurd hp hc1, fun _ => rfl⟩

theorem releasePacket_spec (env : Env) (w w1 : World) (packet : AVPacket)
    (h : releasePacket env w packet = .ok w1) :
    w1.tsObj = w.tsObj ∧ w1.s.TransStreams = w.s.TransStreams ∧
      w1.s.gopBuffer = w.s.gopBuffer ∧
      (env.GOPCache = true ∧ w.s.existVideo = true →
        ∀ j, freeTailsAt w1.s j = freeTailsAt w.s j) ∧
      (¬ (env.GOPCache = true ∧ w.s.existVideo = true) →
        ∃ i : Fin 8, ((i : Nat) : Int) = packet.Index ∧
          freeTailsAt w1.s i = freeTailsAt w.s i + 1 ∧
          ∀ j, j ≠ i → freeTailsAt w1.s j = freeTailsAt w.s j) := by
  unfold releasePacket at h
  split at h
  · next hc =>
    have hc1 : ¬ (env.GOPCache = true ∧ w.s.existVideo = true) := by
      intro hp
      simp [hp.1, hp.2] at hc
    split at h
    · cases h
    · next s1 i hf =>
      simp only [Except.ok.injEq] at h
      subst h
      obtain ⟨a0, a1, a2, -, a4, b, hb, hbt⟩ := FindOrCreatePacketBuffer_pool env w.s s1 _ _ i hf
      refine ⟨rfl, a2, a1, fun hp => absurd hp hc1, fun _ => ⟨i, a0, ?_, ?_⟩⟩
      · show freeTailsAt (updatePool s1 i _) i = _
        unfold freeTailsAt updatePool
        simp only [Mathlib.Vector.get_set_same, hb, Option.map_some', Option.getD_some]
        rw [hbt]
        rfl
      · intro j hj
        show freeTailsAt (updatePool s1 i _) j = _
        rw [← a4 j]
        unfold freeTailsAt updatePool
        simp only [Mathlib.Vector.get_set_of_ne (Ne.symm hj)]
  · next hc =>
    have hc1 : env.GOPCache = true ∧ w.s.existVideo = true := by
      simpa using hc
    simp only [Except.ok.injEq] at h
    subst h
    exact ⟨rfl, rfl, rfl, fun _ _ => rfl, fun hn => absurd hc1 hn⟩

theorem dispatchToSink_tsObj (env : Env) (transStream : TransStream) (exist : Bool)
    (index : Int) (data : List Bytes) (timestamp : Int) (videoKey : Bool) (w w1 : World)
    (sink : SinkPtr)
    (h : dispatchToSink env transStream exist index data timestamp videoKey w sink = .ok w1) :
    w1.tsObj = w.tsObj := by
  unfold dispatchToSink at h
  split at h
  · split at h
    · simp only [Except.ok.injEq] at h
      rw [← h]
    · split at h
      · cases h
      · simp only [Except.ok.injEq] at h
        rw [← h]
        split <;> rfl
  · simp only [Except.ok.injEq] at h
    rw [← h]
    rfl

theorem dispatchLoop_tsObj (env : Env) (transStream : TransStream) (exist : Bool)
    (index : Int) (data : List Bytes) (timestamp : Int) (videoKey : Bool) :
    ∀ (l : List (SinkID × SinkPtr)) (w w1 : World),
      dispatchLoop env transStream exist index data timestamp videoKey l w = .ok w1 →
      w1.tsObj = w.tsObj := by
  intro l
  induction l with
  | nil =>
    intro w w1 h
    simp only [dispatchLoop, Except.ok.injEq] at h
    rw [← h]
  | cons e rest ih =>
    intro w w1 h
    unfold dispatchLoop at h
    split at h
    · cases h
    · next w2 hs =>
      rw [ih w2 w1 h, dispatchToSink_tsObj env _ _ _ _ _ _ _ _ _ hs]

theorem DispatchPacket_tsObj (env : Env) (w w1 : World) (transStream : TSPtr)
    (packet : AVPacket) (h : DispatchPacket env w transStream packet = .ok w1) :
    ∃ ts out, (w.tsObj transStream).Input env packet = .ok (ts, out) ∧
      w1.tsObj = Function.update w.tsObj transStream ts := by
  unfold DispatchPacket at h
  split at h
  · cases h
  · next ts out hin =>
    refine ⟨ts, out, hin, ?_⟩
    simp only [] at h
    split at h
    · simp only [Except.ok.injEq] at h
      rw [← h]
      rfl
    · unfold DispatchBuffer at h
      rw [dispatchLoop_tsObj env _ _ _ _ _ _ _ _ _ h]
      rfl

theorem dispatchToAll_inputs (env : Env) (packet : AVPacket) :
    ∀ (l : List (TransStreamID × TSPtr)) (w w1 : World),
      dispatchToAll env packet l w = .ok w1 →
      ∀ q, TransStream.inputTimes env packet ((l.map Prod.snd).count q) (w.tsObj q) =
        some (w1.tsObj q) := by
  intro l
  induction l with
  | nil =>
    intro w w1 h q
    simp only [dispatchToAll, Except.ok.injEq] at h
    rw [← h]
    rfl
  | cons e rest ih =>
    intro w w1 h q
    unfold dispatchToAll at h
    split at h
    · cases h
    · next w2 hd =>
      obtain ⟨ts, out, hin, hts⟩ := DispatchPacket_tsObj env w w2 e.2 packet hd
      have hrest := ih w2 w1 h q
      rw [List.map_cons, List.count_cons]
      by_cases hq : e.2 = q
      · subst hq
        have hw2 : w2.tsObj e.2 = ts := by rw [hts, Function.update_same]
        rw [hw2] at hrest
        simp only [beq_self_eq_true, if_true]
        unfold TransStream.inputTimes
        rw [hin]
        exact hrest
      · have hw2 : w2.tsObj q = w.tsObj q := by
          rw [hts, Function.update_noteq (Ne.symm hq)]
        rw [hw2] at hrest
        have hb : (e.2 == q) = false := by simpa using hq
        simp only [hb, Bool.false_eq_true, if_false, Nat.add_zero]
        exact hrest

/-- C22. Whenever `OnDeMuxPacket` returns: with gop_cache on and a source with
video the packet has been added to the GOP buffer and no pool has had a
`FreeTail`; in every other case the GOP buffer is what it was and the pool of
the packet's track has had exactly one `FreeTail`, no other pool any; and each
transmuxer object has had `Input(packet)` called once for each entry of
`TransStreams` that points to it, none for a transmuxer that is not in the map. -/
theorem OnDeMuxPacket_memory_and_dispatch (env : Env) (w w1 : World) (packet : AVPacket)
    (h : OnDeMuxPacket env w packet = .ok w1) :
    (env.GOPCache = true ∧ w.s.existVideo = true →
      (∃ g, w.s.gopBuffer = some g ∧ w1.s.gopBuffer = some (g.AddPacket packet).1) ∧
      ∀ j, freeTailsAt w1.s j = freeTailsAt w.s j) ∧
    (¬ (env.GOPCache = true ∧ w.s.existVideo = true) →
      w1.s.gopBuffer = w.s.gopBuffer ∧
      ∃ i : Fin 8, ((i : Nat) : Int) = packet.Index ∧
        freeTailsAt w1.s i = freeTailsAt w.s i + 1 ∧
        ∀ j, j ≠ i → freeTailsAt w1.s j = freeTailsAt w.s j) ∧
    w1.s.TransStreams = w.s.TransStreams ∧
    ∀ q, TransStream.inputTimes env packet
        ((w.s.TransStreams.toList.map Prod.snd).count q) (w.tsObj q) = some (w1.tsObj q) := by
  unfold OnDeMuxPacket at h
  split at h
  · cases h
  · next w2 hcache =>
    split at h
    · cases h
    · next w3 hdisp =>
      obtain ⟨c1, c2, c3, c4, c5, c6⟩ := cachePacket_spec env w w2 packet hcache
      have hs3 : w3.s = w2.s := World.dispatched_s (dispatchToAll_dispatched env packet _ _ _ hdisp)
      have hin := dispatchToAll_inputs env packet _ _ _ hdisp
      obtain ⟨r1, r2, r3, r4, r5⟩ := releasePacket_spec env w3 w1 packet h
      rw [hs3] at r2 r3 r4 r5
      rw [c3] at r4 r5
      refine ⟨?_, ?_, r2.trans c2, ?_⟩
      · intro hp
        obtain ⟨g, hg, hg2⟩ := c5 hp
        exact ⟨⟨g, hg, r3.trans hg2⟩, fun j => ((r4 hp) j).trans (c4 j)⟩
      · intro hn
        obtain ⟨i, hi, hi1, hi2⟩ := r5 hn
        refine ⟨r3.trans (c6 hn), i, hi, ?_, ?_⟩
        · rw [hi1, c4 i]
        · intro j hj
          rw [hi2 j hj, c4 j]
      · intro q
        have := hin q
        rw [c2, c1] at this
        rw [r1]
        exact this

/-- C22 on the source of `hlsWorld` with the GOP cache on (the packet is cached,
no `FreeTail`), and on the source of `rtmpWorld` with the cache off (one
`FreeTail` on the pool of track 0). -/
theorem OnDeMuxPacket_memory_and_dispatch_witness :
    (∀ j, freeTailsAt (worldOr hlsWorld (OnDeMuxPacket hlsEnv hlsWorld interFrame)).s j =
        freeTailsAt hlsWorld.s j) ∧
    (∃ i : Fin 8, ((i : Nat) : Int) = interFrame.Index ∧
      freeTailsAt (worldOr rtmpWorld (OnDeMuxPacket demoEnv rtmpWorld interFrame)).s i =
        freeTailsAt rtmpWorld.s i + 1 ∧
      ∀ j, j ≠ i →
        freeTailsAt (worldOr rtmpWorld (OnDeMuxPacket demoEnv rtmpWorld interFrame)).s j =
          freeTailsAt rtmpWorld.s j) :=
  ⟨((OnDeMuxPacket_memory_and_dispatch hlsEnv hlsWorld
        (worldOr hlsWorld (OnDeMuxPacket hlsEnv hlsWorld interFrame)) interFrame
        (by rfl)).1 ⟨by rfl, by rfl⟩).2,
   ((OnDeMuxPacket_memory_and_dispatch demoEnv rtmpWorld
        (worldOr rtmpWorld (OnDeMuxPacket demoEnv rtmpWorld interFrame)) interFrame
        (by rfl)).2.1 (fun h => absurd h.1 (by decide))).2⟩

/-! ## Cutting segments -/

theorem Hls.transStream.flushSegment_returns (env : Hls.HlsEnv) (t : Hls.transStream)
    (l : List Hls.Segment) (h : t.m3u8.playlist.Holds l) :
    ∃ r, t.flushSegment env = .ok r := by
  have hwb : t.writeBack.m3u8 = t.m3u8 := by
    unfold Hls.transStream.writeBack
    split <;> rfl
  unfold Hls.transStream.flushSegment
  cases env.closeErr with
  | some e => exact ⟨_, rfl⟩
  | none =>
    simp only []
    obtain ⟨removed, hev⟩ := t.writeBack.evictHead_calm l (by rw [hwb]; exact h)
    rw [hev]
    simp only []
    obtain ⟨hadd, -⟩ := Hls.m3u8Writer.AddSegment_holds t.m3u8 l
      (env.seconds t.writeBack.muxerDuration) t.writeBack.context.url
      t.writeBack.context.segmentSeq t.writeBack.context.path h
    obtain ⟨pre, htxt⟩ := Hls.m3u8Writer.ToString_ends env.fmt _ _ _ hadd
    unfold Hls.transStream.rewrite
    cases env.seekErr with
    | some e => exact ⟨_, rfl⟩
    | none =>
      cases env.truncateErr with
      | some e => exact ⟨_, rfl⟩
      | none =>
        simp only [hwb, htxt]
        cases env.writeErr with
        | some e => exact ⟨_, rfl⟩
        | none => exact ⟨_, rfl⟩

theorem Hls.transStream.closeCurrent_returns (env : Hls.HlsEnv) (t : Hls.transStream)
    (l : List Hls.Segment) (h : t.m3u8.playlist.Holds l) :
    ∃ r, t.closeCurrent env = .ok r := by
  obtain ⟨r, hr⟩ := Hls.transStream.flushSegment_returns env t l h
  unfold Hls.transStream.closeCurrent
  split
  · rw [hr]
    exact ⟨_, rfl⟩
  · exact ⟨_, rfl⟩

theorem Hls.transStream.createSegment_returns (env : Hls.HlsEnv) (io : Hls.InputEnv)
    (t : Hls.transStream) (l : List Hls.Segment) (h : t.m3u8.playlist.Holds l) :
    ∃ r, t.createSegment env io = .ok r := by
  obtain ⟨r, hr⟩ := Hls.transStream.closeCurrent_returns env t l h
  unfold Hls.transStream.createSegment
  rw [hr]
  obtain ⟨t1, err⟩ := r
  cases err with
  | some e => exact ⟨_, rfl⟩
  | none =>
    simp only []
    cases io.openErr with
    | some e => exact ⟨_, rfl⟩
    | none => exact ⟨_, rfl⟩
/-- C23, as the code has it. A packet whose index is not below the track count
of the muxer is rejected before anything else. For every other packet, on a
stream whose playlist holds a list of segments, `Input` returns, and it calls
`createSegment` if and only if (the stream has no video, or the packet is a
video keyframe) and `float32(Duration) / 90000 >= float32(duration)`; the call
comes before the muxing of the packet, and on a stream with video a packet that
is not a video keyframe is muxed without a cut. -/
theorem Hls.Input_cuts_segment (env : Hls.HlsEnv) (io : Hls.InputEnv) (t : Hls.transStream)
    (packet : AVPacket) (l : List Hls.Segment) (h : t.m3u8.playlist.Holds l) :
    (packet.Index ≥ io.TrackCount →
      t.Input env io packet = .ok (t, [], some "track not available")) ∧
    (packet.Index < io.TrackCount →
      ∃ t1 steps err, t.Input env io packet = .ok (t1, steps, err) ∧
        (Hls.InputStep.createSegment ∈ steps ↔
          (io.ExistVideo = false ∨
              (packet.MediaType = AVMediaType.Video ∧ packet.KeyFrame = true)) ∧
            env.seconds t.muxerDuration ≥ io.toFloat t.duration) ∧
        (steps = [Hls.InputStep.createSegment, Hls.InputStep.mux packet.Index] ∨
          steps = [Hls.InputStep.createSegment] ∨ steps = [Hls.InputStep.mux packet.Index]) ∧
        (io.ExistVideo = true →
          ¬ (packet.MediaType = AVMediaType.Video ∧ packet.KeyFrame = true) →
          steps = [Hls.InputStep.mux packet.Index])) := by
  constructor
  · intro hidx
    unfold Hls.transStream.Input
    rw [if_pos hidx]
  · intro hidx
    have hcut : Hls.transStream.cutsSegment env io t packet = true ↔
        (io.ExistVideo = false ∨
            (packet.MediaType = AVMediaType.Video ∧ packet.KeyFrame = true)) ∧
          env.seconds t.muxerDuration ≥ io.toFloat t.duration := by
      unfold Hls.transStream.cutsSegment
      simp
    unfold Hls.transStream.Input
    rw [if_neg (by omega)]
    by_cases hc : Hls.transStream.cutsSegment env io t packet = true
    · rw [if_pos hc]
      obtain ⟨r, hr⟩ := Hls.transStream.createSegment_returns env io t l h
      rw [hr]
      obtain ⟨t1, err⟩ := r
      have hvid : io.ExistVideo = true →
          ¬ (packet.MediaType = AVMediaType.Video ∧ packet.KeyFrame = true) → False := by
        intro hv hn
        rcases (hcut.mp hc).1 with h1 | h1
        · rw [hv] at h1
          cases h1
        · exact hn h1
      cases err with
      | some e =>
        exact ⟨t1, _, _, rfl, ⟨fun _ => hcut.mp hc, fun _ => by simp⟩, Or.inr (Or.inl rfl),
          fun hv hn => (hvid hv hn).elim⟩
      | none =>
        exact ⟨_, _, _, rfl, ⟨fun _ => hcut.mp hc, fun _ => by simp⟩, Or.inl rfl,
          fun hv hn => (hvid hv hn).elim⟩
    · rw [if_neg hc]
      refine ⟨_, _, _, rfl, ⟨fun hm => ?_, fun hp => absurd (hcut.mpr hp) hc⟩,
        Or.inr (Or.inr rfl), fun _ _ => rfl⟩
      simp at hm

/-- C23 on a stream with video whose segment is already 2 s long: a video packet
that is not a keyframe is muxed and no segment is cut. -/
theorem Hls.Input_cuts_segment_witness :
    ∃ t1 steps err, Hls.freshStream.Input Hls.calmEnv Hls.withVideo interFrame =
        .ok (t1, steps, err) ∧ steps = [Hls.InputStep.mux 0] := by
  obtain ⟨t1, steps, err, h1, -, -, h4⟩ :=
    (Hls.Input_cuts_segment Hls.calmEnv Hls.withVideo Hls.freshStream interFrame []
      (NewQueue_holds 3 (by decide))).2 (by decide)
  exact ⟨t1, steps, err, h1, h4 rfl (by decide)⟩

/-- C23 fails as stated: on an audio-only stream whose segment has reached the
configured 2 s, a packet of a track that the muxer does not have is rejected:
`createSegment` is not called although the condition of the claim holds. -/
theorem Hls.Input_rejects_before_cutting :
    (Hls.audioOnly.ExistVideo = false ∧
      Hls.calmEnv.seconds Hls.freshStream.muxerDuration ≥
        Hls.audioOnly.toFloat Hls.freshStream.duration) ∧
    (Hls.freshStream.Input Hls.calmEnv Hls.audioOnly Hls.strayPacket).toOption.map
        (fun r => (r.2.1, r.2.2)) = some ([], some "track not available") := by
  refine ⟨⟨rfl, by decide⟩, by rfl⟩

/-! ## The size of an RTMP message -/

theorem Rtmp.written_exists (a b c : Bytes) (n : Int)
    (h : (a.length : Int) + ((b.length : Int) + (c.length : Int)) = n) :
    ∃ w : Bytes, (w.length : Int) = n :=
  ⟨a ++ (b ++ c), by simp only [List.length_append, Nat.cast_add]; exact h⟩

/-- When the body of `Input` runs to its end, the bytes written into the slot
are as many as `rtmpMsgSize` gives for the payload of the packet: the slot
allocated is the one of lines 62-69. -/
theorem Rtmp.mux_allocates (env : Env) (t t1 : RtmpStream) (packet : AVPacket)
    (h : Rtmp.mux env t packet = .ok t1) :
    ∃ written : Bytes, (written.length : Int) =
      Rtmp.rtmpMsgSize (Rtmp.payloadSize env.lib packet) t.chunkSize
        (env.lib.ConvertDts packet 1000) := by
  unfold Rtmp.mux at h
  simp only [] at h
  cases hmw : t.MWBuffer with
  | none => rw [hmw] at h; cases h
  | some mw0 =>
    rw [hmw] at h
    simp only [] at h
    by_cases hc : t.chunkSize = 0
    · rw [if_pos hc] at h; cases h
    · rw [if_neg hc] at h
      by_cases hd : 16777215 ≤ env.lib.ConvertDts packet 1000 ∧
          env.lib.ConvertDts packet 1000 ≤ 4294967295
      · rcases hm : packet.MediaType with _ | _ | _
        · simp [hm] at h
          simp only [if_pos hd] at h
          split at h
          · cases h
          · split at h
            · next hlen =>
              obtain ⟨w, hw⟩ := Rtmp.written_exists _ _ _ _ hlen
              refine ⟨w, hw.trans ?_⟩
              simp only [Rtmp.rtmpMsgSize, Rtmp.payloadSize, hm, if_true, ge_iff_le]
              rw [if_pos hd]
            · cases h
        · rcases hk : packet.KeyFrame with _ | _
          · simp [hm, hk] at h
            simp only [if_pos hd] at h
            split at h
            · cases h
            · split at h
              · next hlen =>
                obtain ⟨w, hw⟩ := Rtmp.written_exists _ _ _ _ hlen
                refine ⟨w, hw.trans ?_⟩
                simp only [Rtmp.rtmpMsgSize, Rtmp.payloadSize, hm, if_true, ge_iff_le]
                rw [if_pos hd]
                simp
              · cases h

          · simp [hm, hk] at h
            simp only [if_pos hd] at h
            split at h
            · cases h
            · split at h
              · next hlen =>
                obtain ⟨w, hw⟩ := Rtmp.written_exists _ _ _ _ hlen
                refine ⟨w, hw.trans ?_⟩
                simp only [Rtmp.rtmpMsgSize, Rtmp.payloadSize, hm, if_true, ge_iff_le]
                rw [if_pos hd]
                simp
              · cases h

        · simp [hm] at h
          split_ifs at h
      · rcases hm : packet.MediaType with _ | _ | _
        · simp [hm] at h
          simp only [if_neg hd] at h
          split at h
          · cases h
          · split at h
            · next hlen =>
              obtain ⟨w, hw⟩ := Rtmp.written_exists _ _ _ _ hlen
              refine ⟨w, hw.trans ?_⟩
              simp only [Rtmp.rtmpMsgSize, Rtmp.payloadSize, hm, if_true, ge_iff_le]
              rw [if_neg hd]
              omega
            · cases h
        · rcases hk : packet.KeyFrame with _ | _
          · simp [hm, hk] at h
            simp only [if_neg hd] at h
            split at h
            · cases h
            · split at h
              · next hlen =>
                obtain ⟨w, hw⟩ := Rtmp.written_exists _ _ _ _ hlen
                refine ⟨w, hw.trans ?_⟩
                simp only [Rtmp.rtmpMsgSize, Rtmp.payloadSize, hm, if_true, ge_iff_le]
                rw [if_neg hd]
                simp
              · cases h

          · simp [hm, hk] at h
            simp only [if_neg hd] at h
            split at h
            · cases h
            · split at h
              · next hlen =>
                obtain ⟨w, hw⟩ := Rtmp.written_exists _ _ _ _ hlen
                refine ⟨w, hw.trans ?_⟩
                simp only [Rtmp.rtmpMsgSize, Rtmp.payloadSize, hm, if_true, ge_iff_le]
                rw [if_neg hd]
                simp
              · cases h

        · simp [hm] at h
          split_ifs at h

theorem Rtmp.numChunks_eq (payloadSize chunkSize : Int) (hp : 1 ≤ payloadSize)
    (hc : 1 ≤ chunkSize) :
    (payloadSize - 1).tdiv chunkSize = ⌈(payloadSize : ℚ) / chunkSize⌉ - 1 ∧
      0 ≤ (payloadSize - 1).tdiv chunkSize ∧
      (payloadSize - 1).tdiv chunkSize * chunkSize < payloadSize ∧
      payloadSize ≤ ((payloadSize - 1).tdiv chunkSize + 1) * chunkSize := by
  have hdiv : (payloadSize - 1).tdiv chunkSize = (payloadSize - 1) / chunkSize :=
    Int.tdiv_eq_ediv (by omega) (by omega)
  rw [hdiv]
  have h1 := Int.ediv_add_emod (payloadSize - 1) chunkSize
  have h2 := Int.emod_nonneg (payloadSize - 1) (by omega : chunkSize ≠ 0)
  have h3 := Int.emod_lt_of_pos (payloadSize - 1) (by omega : 0 < chunkSize)
  have h0 : 0 ≤ (payloadSize - 1) / chunkSize := Int.ediv_nonneg (by omega) (by omega)
  have hlo : (payloadSize - 1) / chunkSize * chunkSize < payloadSize := by nlinarith
  have hhi : payloadSize ≤ ((payloadSize - 1) / chunkSize + 1) * chunkSize := by nlinarith
  refine ⟨?_, h0, hlo, hhi⟩
  have hcq : (0 : ℚ) < (chunkSize : ℚ) := by exact_mod_cast (by omega : 0 < chunkSize)
  have hceil : ⌈(payloadSize : ℚ) / chunkSize⌉ = (payloadSize - 1) / chunkSize + 1 := by
    rw [Int.ceil_eq_iff]
    constructor
    · rw [lt_div_iff₀ hcq]
      have : (((payloadSize - 1) / chunkSize * chunkSize : Int) : ℚ) < (payloadSize : ℚ) := by
        exact_mod_cast hlo
      push_cast at this ⊢
      linarith
    · rw [div_le_iff₀ hcq]
      have : ((payloadSize : Int) : ℚ) ≤ ((((payloadSize - 1) / chunkSize + 1) * chunkSize : Int) : ℚ) := by
        exact_mod_cast hhi
      push_cast at this ⊢
      linarith
  rw [hceil]
  ring

/-- C24, as the code has it. For a payload of at least 1 byte and a chunk size of
at least 1, with `k = ceil(payloadSize / chunkSize) - 1` (the payload needs
`k + 1` chunks and no fewer), the size that `Input` allocates is
`12 + payloadSize + k`, plus `4 * (k + 1)` when `0xFFFFFF <= dts <= 0xFFFFFFFF`,
and nothing more for any other `dts`. -/
theorem Rtmp.rtmpMsgSize_spec (payloadSize chunkSize dts : Int) (hp : 1 ≤ payloadSize)
    (hc : 1 ≤ chunkSize) :
    ∃ k : Int, k = ⌈(payloadSize : ℚ) / chunkSize⌉ - 1 ∧ 0 ≤ k ∧
      k * chunkSize < payloadSize ∧ payloadSize ≤ (k + 1) * chunkSize ∧
      (0xFFFFFF ≤ dts ∧ dts ≤ 0xFFFFFFFF →
        Rtmp.rtmpMsgSize payloadSize chunkSize dts = 12 + payloadSize + k + 4 * (k + 1)) ∧
      (dts < 0xFFFFFF ∨ 0xFFFFFFFF < dts →
        Rtmp.rtmpMsgSize payloadSize chunkSize dts = 12 + payloadSize + k) := by
  obtain ⟨h1, h2, h3, h4⟩ := Rtmp.numChunks_eq payloadSize chunkSize hp hc
  refine ⟨(payloadSize - 1).tdiv chunkSize, h1, h2, h3, h4, ?_, ?_⟩
  · intro hd
    unfold Rtmp.rtmpMsgSize
    simp only [ge_iff_le]
    rw [if_pos hd]
    ring
  · intro hd
    unfold Rtmp.rtmpMsgSize
    simp only [ge_iff_le]
    rw [if_neg (by omega)]

/-- C24 for a payload of 300 bytes in chunks of 128 bytes: two type-3 headers,
and three extended timestamps at `dts = 0xFFFFFF`. -/
theorem Rtmp.rtmpMsgSize_spec_witness :
    ∃ k : Int, k = ⌈((300 : Int) : ℚ) / ((128 : Int) : ℚ)⌉ - 1 ∧
      Rtmp.rtmpMsgSize 300 128 0xFFFFFF = 12 + 300 + k + 4 * (k + 1) ∧
      Rtmp.rtmpMsgSize 300 128 0xFFFFFF = 326 := by
  obtain ⟨k, h1, -, -, -, h5, -⟩ :=
    Rtmp.rtmpMsgSize_spec 300 128 0xFFFFFF (by decide) (by decide)
  exact ⟨k, h1, h5 (by decide), by decide⟩

/-- C24 fails as stated: for `dts = 0x100000000`, which is at least `0xFFFFFF`,
a payload of 1 byte is given 13 bytes, with no extended timestamp, not the 17
bytes of the claim. -/
theorem Rtmp.rtmpMsgSize_without_extended_timestamp :
    (0xFFFFFF : Int) ≤ 0x100000000 ∧ Rtmp.rtmpMsgSize 1 128 0x100000000 = 13 ∧
      (⌈((1 : Int) : ℚ) / ((128 : Int) : ℚ)⌉ - 1 = 0 ∧
        (13 : Int) ≠ 12 + 1 + 0 + 4 * (0 + 1)) := by
  refine ⟨by decide, by decide, ⟨?_, by decide⟩⟩
  rw [sub_eq_zero, Int.ceil_eq_iff]
  norm_num

/-! ## The sink count under unmatched removals -/

/-- C25 (the defect, evaluated). On the completed, non-closed source of
`liveWorld`, which has no sink and `sinkCount = 0`, the closure of `RemoveSink`
for sink 1, which is not attached, runs `doRemoveSink` and leaves
`sinkCount = -1` with `sinks` still empty; the closure of `RemoveSinkWithID`
looks the sink up first and changes nothing. -/
theorem RemoveSink_of_unattached_sink_decrements :
    liveWorld.s.completed = true ∧ liveWorld.s.closed = false ∧
      liveWorld.s.sinkCount = 0 ∧ liveWorld.s.sinks = some [] ∧
      liveWorld.s.recordSink = none ∧
      (runEvent demoEnv liveWorld (Event.RemoveSink 1) 7).toOption.map
          (fun w => (w.s.sinkCount, w.s.sinks)) = some (-1, some []) ∧
      (runEvent demoEnv liveWorld (Event.RemoveSinkWithID 1) 7).toOption.map
          (fun w => (w.s.sinkCount, w.s.sinks)) = some (0, some []) := by
  refine ⟨by rfl, by rfl, by rfl, by rfl, by rfl, by rfl, by rfl⟩

/-! ## The track array of `doAddSink` -/

/-- The id of the transmuxer of a sink is generated from every origin stream, in
origin order, without the video streams when video is disabled for the sink. -/
theorem pickedID_tracks (env : Env) (s : PublishSource) (k : Sink) :
    pickedID env s k =
      env.GenerateTransStreamID k.Protocol
        (s.originStreams.filter
          (fun st => !(disableVideoFor s k && st.Type_ == AVMediaType.Video))) := rfl

/-- Once the codecs are settled, `doAddSink` panics whenever more than five
tracks are selected for the sink. -/
theorem doAddSink_more_than_five_tracks (env : Env) (w : World) (sink : SinkPtr)
    (hsel : ((FindStreamWithType w.s.originStreams AVMediaType.Audio).isNone &&
      disableVideoFor w.s (w.sinkObj sink)) = false)
    (hneg : negotiateCodecs w.s (w.sinkObj sink) = .ok ())
    (hlen : 5 < (sinkTracks w.s.originStreams (disableVideoFor w.s (w.sinkObj sink))).length) :
    doAddSink env w sink = .error "index out of range" := by
  unfold doAddSink
  simp only [hsel, hneg, if_pos hlen]
  rfl

/-- C26 (the defect, evaluated). On the source of `sixTrackWorld`, which has six
origin streams, `doAddSink` for a sink with video enabled selects all six and
panics on the write to the sixth slot of its array of five. -/
theorem doAddSink_sixth_track_out_of_range :
    sixTrackWorld.s.originStreams.length = 6 ∧
      (sinkTracks sixTrackWorld.s.originStreams
        (disableVideoFor sixTrackWorld.s (sixTrackWorld.sinkObj 1))).length = 6 ∧
      doAddSink demoEnv sixTrackWorld 1 = .error "index out of range" := by
  refine ⟨by rfl, by rfl, by rfl⟩

/-! ## Closing a GB28181 TCP session -/

/-- After `TCPSession.Close` the session is bound to no source. -/
theorem Gb28181.Close_unbinds (sourceClose : Gb28181.GBSource → Gb28181.Filter → Gb28181.Filter)
    (w : Gb28181.Server) (t : Nat) :
    ((Gb28181.TCPSession.Close sourceClose w t).sessions t).source = none := by
  unfold Gb28181.TCPSession.Close
  cases hs : (w.sessions t).source <;> cases hd : (w.sessions t).decoder <;>
    simp [hs, hd, Gb28181.Server.closeSource]

/-- The method `TCPSession.Close` makes no call of `RemoveSource`. -/
theorem Gb28181.Close_removeSourceCalls
    (sourceClose : Gb28181.GBSource → Gb28181.Filter → Gb28181.Filter)
    (w : Gb28181.Server) (t : Nat) :
    (Gb28181.TCPSession.Close sourceClose w t).removeSourceCalls = w.removeSourceCalls := by
  unfold Gb28181.TCPSession.Close
  cases hs : (w.sessions t).source <;> cases hd : (w.sessions t).decoder <;>
    simp [hs, hd, Gb28181.Server.closeSource]

/-- The method `OnCloseSession` never reaches its call of `RemoveSource`: the
session it tests has been unbound by `Close`, whatever the source was. -/
theorem Gb28181.OnCloseSession_never_calls_RemoveSource
    (sourceClose : Gb28181.GBSource → Gb28181.Filter → Gb28181.Filter) (multiPort : Bool)
    (w : Gb28181.Server) (session : Nat) :
    (Gb28181.TCPServer.OnCloseSession sourceClose multiPort w session).removeSourceCalls =
        w.removeSourceCalls ∧
      (Gb28181.TCPServer.OnCloseSession sourceClose multiPort w session).filter =
        (Gb28181.TCPSession.Close sourceClose w session).filter := by
  unfold Gb28181.TCPServer.OnCloseSession
  simp only [Gb28181.Close_unbinds]
  cases multiPort <;> simp [Gb28181.Close_removeSourceCalls]

/-- C27 (the defect, evaluated). Session 0 of `boundServer` is bound to source 0,
whose SSRC 0xAAAA is in the filter. `OnCloseSession` closes that source once and
unbinds the session, but it makes no call of `RemoveSource`, and the SSRC is
still in the filter afterwards. -/
theorem Gb28181.OnCloseSession_leaves_ssrc_in_filter :
    (Gb28181.boundServer.sessions 0).source = some 0 ∧
      Gb28181.boundServer.filter.FindSource 0xAAAA = some 0 ∧
      ((Gb28181.TCPServer.OnCloseSession Gb28181.plainClose false Gb28181.boundServer 0).sources
        0).closeCalls = 1 ∧
      ((Gb28181.TCPServer.OnCloseSession Gb28181.plainClose false Gb28181.boundServer 0).sessions
        0).source = none ∧
      (Gb28181.TCPServer.OnCloseSession Gb28181.plainClose false
        Gb28181.boundServer 0).removeSourceCalls = [] ∧
      (Gb28181.TCPServer.OnCloseSession Gb28181.plainClose false
        Gb28181.boundServer 0).filter.FindSource 0xAAAA = some 0 := by
  refine ⟨by rfl, by rfl, by rfl, by rfl, by rfl, by rfl⟩

/-! ## The jitter buffer: the scan of `emit` -/

/-- The scan finds an occupied slot when one lies within its reach. -/
theorem JitterBuffer.scan_finds {α : Type} (queue : Nat → Option α) :
    ∀ (fuel next : Nat), next < 65536 →
      (∃ k, k < fuel ∧ queue ((next + k) % 65536) ≠ none) →
      ∃ n p, JitterBuffer.scan queue fuel next = some (n, p) ∧ queue n = some p ∧ n < 65536 := by
  intro fuel
  induction fuel with
  | zero =>
    intro next _ h
    obtain ⟨k, hk, _⟩ := h
    omega
  | succ fuel ih =>
    intro next hnext h
    obtain ⟨k, hk, hq⟩ := h
    unfold JitterBuffer.scan
    cases hqn : queue next with
    | some p => exact ⟨next, p, rfl, hqn, hnext⟩
    | none =>
      simp only
      have hk0 : k ≠ 0 := by
        intro h0
        subst h0
        rw [Nat.add_zero, Nat.mod_eq_of_lt hnext] at hq
        exact hq hqn
      apply ih ((next + 1) % 65536) (Nat.mod_lt _ (by decide))
      refine ⟨k - 1, by omega, ?_⟩
      have he : ((next + 1) % 65536 + (k - 1)) % 65536 = (next + k) % 65536 := by omega
      rw [he]
      exact hq

/-- From any start below 65536 the full scan finds a slot of a non-empty queue. -/
theorem JitterBuffer.scan_nonempty {α : Type} (queue : Nat → Option α) (next i : Nat)
    (hnext : next < 65536) (hi : i < 65536) (hq : queue i ≠ none) :
    ∃ n p, JitterBuffer.scan queue 65536 next = some (n, p) ∧ queue n = some p ∧ n < 65536 := by
  apply JitterBuffer.scan_finds queue 65536 next hnext
  refine ⟨(i + 65536 - next) % 65536, Nat.mod_lt _ (by decide), ?_⟩
  have he : (next + (i + 65536 - next) % 65536) % 65536 = i := by omega
  rw [he]
  exact hq

/-- The scan stops at the first occupied slot at or after its start. -/
theorem JitterBuffer.scan_first {α : Type} (queue : Nat → Option α) (n : Nat) (p : α)
    (hn : n < 65536) (hq : queue n = some p) :
    ∀ (fuel next : Nat), next ≤ n → (∀ i, next ≤ i → i < n → queue i = none) →
      n - next < fuel → JitterBuffer.scan queue fuel next = some (n, p) := by
  intro fuel
  induction fuel with
  | zero =>
    intro next _ _ h
    omega
  | succ fuel ih =>
    intro next hle hempty hfuel
    unfold JitterBuffer.scan
    by_cases hnn : next = n
    · subst hnn
      rw [hq]
    · have hlt : next < n := by omega
      rw [hempty next (le_refl _) hlt]
      simp only
      have he : (next + 1) % 65536 = next + 1 := by omega
      rw [he]
      exact ih (next + 1) (by omega) (fun i h1 h2 => hempty i (by omega) h2) (by omega)

/-! ## The jitter buffer: the slots under an update -/

/-- The stored packets, with the slot `n` set apart. -/
theorem JitterBuffer.stored_split {α : Type} (queue : Nat → Option α) (n : Nat)
    (hn : n < 65536) :
    JitterBuffer.stored queue =
      ((queue n).toList : Multiset α) +
        ∑ i in (Finset.range 65536).erase n, ((queue i).toList : Multiset α) := by
  unfold JitterBuffer.stored
  exact (Finset.add_sum_erase (Finset.range 65536)
    (fun i => ((queue i).toList : Multiset α)) (Finset.mem_range.mpr hn)).symm

/-- The stored packets after the slot `n` is overwritten. -/
theorem JitterBuffer.stored_update {α : Type} (queue : Nat → Option α) (n : Nat) (v : Option α)
    (hn : n < 65536) :
    JitterBuffer.stored (Function.update queue n v) + ((queue n).toList : Multiset α) =
      JitterBuffer.stored queue + (v.toList : Multiset α) := by
  rw [JitterBuffer.stored_split (Function.update queue n v) n hn,
    JitterBuffer.stored_split queue n hn, Function.update_same]
  have hrest : ∑ i in (Finset.range 65536).erase n,
      (((Function.update queue n v) i).toList : Multiset α) =
      ∑ i in (Finset.range 65536).erase n, ((queue i).toList : Multiset α) := by
    apply Finset.sum_congr rfl
    intro i hi
    rw [Function.update_noteq (Finset.ne_of_mem_erase hi)]
  rw [hrest]
  abel

/-- Filling an empty slot adds one to the number of occupied slots. -/
theorem JitterBuffer.card_fill {α : Type} (queue : Nat → Option α) (n : Nat) (p : α)
    (hn : n < 65536) (hq : queue n = none) :
    ((Finset.range 65536).filter (fun i => ((Function.update queue n (some p)) i).isSome)).card =
      ((Finset.range 65536).filter (fun i => (queue i).isSome)).card + 1 := by
  have hset : (Finset.range 65536).filter (fun i => ((Function.update queue n (some p)) i).isSome) =
      insert n ((Finset.range 65536).filter (fun i => (queue i).isSome)) := by
    ext i
    by_cases hin : i = n
    · subst hin
      simp [hn]
    · simp [Function.update_noteq hin, hin]
  rw [hset, Finset.card_insert_of_not_mem]
  simp [hq]

/-- Clearing an occupied slot takes one from the number of occupied slots. -/
theorem JitterBuffer.card_clear {α : Type} (queue : Nat → Option α) (n : Nat) (p : α)
    (hn : n < 65536) (hq : queue n = some p) :
    ((Finset.range 65536).filter (fun i => ((Function.update queue n none) i).isSome)).card + 1 =
      ((Finset.range 65536).filter (fun i => (queue i).isSome)).card := by
  have hset : (Finset.range 65536).filter (fun i => ((Function.update queue n none) i).isSome) =
      ((Finset.range 65536).filter (fun i => (queue i).isSome)).erase n := by
    ext i
    by_cases hin : i = n
    · subst hin
      simp
    · simp [Function.update_noteq hin, hin]
  rw [hset, Finset.card_erase_add_one]
  simp [hq, hn]

/-- A buffer with a positive number of occupied slots has an occupied slot. -/
theorem JitterBuffer.occupied_pos {α : Type} (j : JitterBuffer α) (h : 0 < j.occupied) :
    ∃ i, i < 65536 ∧ j.queue i ≠ none := by
  unfold JitterBuffer.occupied at h
  obtain ⟨i, hi⟩ := Finset.card_pos.mp h
  rw [Finset.mem_filter, Finset.mem_range] at hi
  refine ⟨i, hi.1, ?_⟩
  intro hnone
  rw [hnone] at hi
  simp at hi

/-- A buffer without occupied slot below 65536 has every such slot empty. -/
theorem JitterBuffer.occupied_zero {α : Type} (j : JitterBuffer α) (h : j.occupied = 0)
    (i : Nat) (hi : i < 65536) : j.queue i = none := by
  unfold JitterBuffer.occupied at h
  rw [Finset.card_eq_zero] at h
  by_contra hne
  have hmem : i ∈ (Finset.range 65536).filter (fun i => (j.queue i).isSome) := by
    rw [Finset.mem_filter, Finset.mem_range]
    refine ⟨hi, ?_⟩
    cases hq : j.queue i with
    | none => exact absurd hq hne
    | some p => rfl
  rw [h] at hmem
  simp at hmem

/-! ## The jitter buffer: the invariant -/

/-- The fresh buffer satisfies the invariant. -/
theorem JitterBuffer.Inv_new {α : Type} : (NewJitterBuffer : JitterBuffer α).Inv := by
  refine ⟨?_, rfl, ?_, fun _ _ => rfl, Nat.zero_lt_succ _, Nat.zero_lt_succ _⟩
  · show (0 : Int) = ((((Finset.range 65536).filter
      (fun i => ((fun _ => none : Nat → Option α) i).isSome)).card : Nat) : Int)
    simp
  · show ((([] : List α) : Multiset α)) = (([] : List α) : Multiset α) +
      ∑ i in Finset.range 65536, ((none : Option α).toList : Multiset α)
    simp

/-- On a buffer with a packet, `emit` returns: it delivers one stored packet,
clears its slot and keeps the invariant. -/
theorem JitterBuffer.emit_inv {α : Type} (j : JitterBuffer α) (hinv : j.Inv)
    (hpos : 0 < j.count) :
    ∃ j', j.emit = some j' ∧ j'.Inv ∧ j'.count = j.count - 1 ∧
      j'.accepted = j.accepted ∧ j'.emitCalls = j.emitCalls + 1 := by
  obtain ⟨hcount, hstart, hacc, hout, hmin, hnext⟩ := hinv
  obtain ⟨i, hi, hqi⟩ := JitterBuffer.occupied_pos j (by omega)
  have hnext1 : (if (if j.first then j.minSeqNum else j.nextSeqNum) > j.maxSeqNum
      then j.minSeqNum else (if j.first then j.minSeqNum else j.nextSeqNum)) < 65536 := by
    split_ifs <;> assumption
  obtain ⟨n, p, hscan, hqn, hn⟩ := JitterBuffer.scan_nonempty j.queue _ i hnext1 hi hqi
  unfold JitterBuffer.emit
  simp only [hscan]
  refine ⟨_, rfl, ⟨?_, hstart, ?_, ?_, ?_, ?_⟩, rfl, rfl, rfl⟩
  · have hc := JitterBuffer.card_clear j.queue n p hn hqn
    unfold JitterBuffer.occupied at hcount ⊢
    simp only
    omega
  · have hs := JitterBuffer.stored_update j.queue n none hn
    rw [hqn] at hs
    simp only [Option.toList_some, Option.toList_none, Multiset.coe_nil, add_zero] at hs
    simp only
    rw [hacc, ← hs, ← Multiset.coe_add]
    abel
  · intro k hk
    simp only
    rw [Function.update_noteq (by omega)]
    exact hout k hk
  · simp only
    omega
  · simp only
    omega

/-- Lines 39-50 of `Push` keep the invariant: a packet for an empty slot is
stored and counted, a packet for an occupied slot changes neither. -/
theorem JitterBuffer.store_inv {α : Type} (j : JitterBuffer α) (seq : Nat) (packet : α)
    (hinv : j.Inv) (hseq : seq < 65536) :
    (j.store seq packet).Inv ∧ (j.store seq packet).delivered = j.delivered ∧
      (j.store seq packet).emitCalls = j.emitCalls ∧
      (j.store seq packet).minStartCount = j.minStartCount ∧
      (j.queue seq = none → (j.store seq packet).count = j.count + 1 ∧
        (j.store seq packet).accepted = j.accepted ++ [packet]) ∧
      (j.queue seq ≠ none → (j.store seq packet).count = j.count ∧
        (j.store seq packet).queue = j.queue ∧
        (j.store seq packet).accepted = j.accepted) := by
  obtain ⟨hcount, hstart, hacc, hout, hmin, hnext⟩ := hinv
  cases hq : j.queue seq with
  | none =>
    have hst : j.store seq packet =
        { (if j.count = 0 then { j with minSeqNum := seq, maxSeqNum := seq } else j) with
          queue := Function.update j.queue seq (some packet)
          count := j.count + 1
          accepted := j.accepted ++ [packet]
          minSeqNum := min (if j.count = 0 then seq else j.minSeqNum) seq
          maxSeqNum := max (if j.count = 0 then seq else j.maxSeqNum) seq } := by
      by_cases hc : j.count = 0 <;> simp [JitterBuffer.store, hc, hq]
    rw [hst]
    refine ⟨⟨?_, ?_, ?_, ?_, ?_, ?_⟩, ?_, ?_, ?_, fun _ => ⟨rfl, rfl⟩, fun h => absurd rfl h⟩
    · have hc := JitterBuffer.card_fill j.queue seq packet hseq hq
      unfold JitterBuffer.occupied at hcount ⊢
      simp only
      omega
    · split_ifs <;> exact hstart
    · have hs := JitterBuffer.stored_update j.queue seq (some packet) hseq
      rw [hq] at hs
      simp only [Option.toList_some, Option.toList_none, Multiset.coe_nil, add_zero] at hs
      simp only
      rw [hs, ← Multiset.coe_add, hacc]
      split_ifs <;> abel
    · intro k hk
      simp only
      rw [Function.update_noteq (by omega)]
      exact hout k hk
    · simp only
      split_ifs <;> omega
    · split_ifs <;> exact hnext
    · split_ifs <;> rfl
    · split_ifs <;> rfl
    · split_ifs <;> rfl
  | some p0 =>
    have hst : j.store seq packet =
        { j with
          minSeqNum := min (if j.count = 0 then seq else j.minSeqNum) seq
          maxSeqNum := max (if j.count = 0 then seq else j.maxSeqNum) seq } := by
      by_cases hc : j.count = 0 <;> simp [JitterBuffer.store, hc, hq]
    rw [hst]
    refine ⟨⟨hcount, hstart, hacc, hout, ?_, hnext⟩, rfl, rfl, rfl,
      fun h => absurd h (by simp), fun _ => ⟨rfl, rfl, rfl⟩⟩
    simp only
    split_ifs <;> omega

/-- The method `Push` returns and keeps the invariant and the bound of 50 on
`count`; a packet for an occupied slot changes neither the slot nor `count`. -/
theorem JitterBuffer.Push_inv {α : Type} (j : JitterBuffer α) (seq : Nat) (packet : α)
    (hinv : j.Inv) (hcount : j.count ≤ 50) (hseq : seq < 65536) :
    ∃ j', j.Push seq packet = some j' ∧ j'.Inv ∧ j'.count ≤ 50 ∧
      (j.queue seq ≠ none → j'.queue seq = j.queue seq ∧ j'.count = j.count) := by
  obtain ⟨hsinv, _, _, hstart, hempty, hfull⟩ := JitterBuffer.store_inv j seq packet hinv hseq
  have h50 : j.minStartCount = 50 := hinv.2.1
  unfold JitterBuffer.Push
  simp only
  by_cases hgt : (j.store seq packet).count > (j.store seq packet).minStartCount
  · rw [if_pos hgt]
    rw [hstart, h50] at hgt
    obtain ⟨j', hemit, hinv', hc', _, _⟩ :=
      JitterBuffer.emit_inv (j.store seq packet) hsinv (by omega)
    refine ⟨j', hemit, hinv', ?_, ?_⟩
    · cases hq : j.queue seq with
      | none =>
        have := (hempty hq).1
        omega
      | some p0 =>
        have := (hfull (by rw [hq]; simp)).1
        omega
    · intro hq
      have := (hfull hq).1
      omega
  · rw [if_neg hgt]
    rw [hstart, h50] at hgt
    refine ⟨_, rfl, hsinv, by omega, ?_⟩
    intro hq
    obtain ⟨hc, hqq, _⟩ := hfull hq
    exact ⟨by rw [hqq], hc⟩

/-- Every sequence of calls of `Push` returns and keeps the invariant. -/
theorem JitterBuffer.pushAll_inv {α : Type} :
    ∀ (pushes : List (Nat × α)) (j : JitterBuffer α), j.Inv → j.count ≤ 50 →
      (∀ x ∈ pushes, x.1 < 65536) →
      ∃ j', JitterBuffer.pushAll pushes j = some j' ∧ j'.Inv ∧ j'.count ≤ 50 := by
  intro pushes
  induction pushes with
  | nil =>
    intro j hinv hc _
    exact ⟨j, rfl, hinv, hc⟩
  | cons x rest ih =>
    intro j hinv hc hseq
    obtain ⟨j1, hp, hinv1, hc1, _⟩ :=
      JitterBuffer.Push_inv j x.1 x.2 hinv hc (hseq x (List.mem_cons_self _ _))
    obtain ⟨j2, hr, hinv2, hc2⟩ :=
      ih j1 hinv1 hc1 (fun y hy => hseq y (List.mem_cons_of_mem _ hy))
    refine ⟨j2, ?_, hinv2, hc2⟩
    unfold JitterBuffer.pushAll
    rw [hp]
    exact hr

/-- With as many rounds as `count`, `Flush` returns: it keeps the invariant and
the accepted packets, and leaves `count` at 0. -/
theorem JitterBuffer.Flush_inv {α : Type} :
    ∀ (fuel : Nat) (j : JitterBuffer α), j.Inv → j.count.toNat ≤ fuel →
      ∃ j', j.Flush fuel = some j' ∧ j'.Inv ∧ j'.count = 0 ∧ j'.accepted = j.accepted := by
  intro fuel
  induction fuel with
  | zero =>
    intro j hinv hf
    have hnn : 0 ≤ j.count := by rw [hinv.1]; exact Int.natCast_nonneg _
    have h0 : j.count = 0 := by omega
    refine ⟨j, ?_, hinv, h0, rfl⟩
    unfold JitterBuffer.Flush
    rw [if_neg (by omega)]
  | succ fuel ih =>
    intro j hinv hf
    have hnn : 0 ≤ j.count := by rw [hinv.1]; exact Int.natCast_nonneg _
    unfold JitterBuffer.Flush
    by_cases hpos : j.count > 0
    · rw [if_pos hpos]
      obtain ⟨j1, hemit, hinv1, hc1, hacc1, _⟩ := JitterBuffer.emit_inv j hinv hpos
      obtain ⟨j2, hfl, hinv2, hc2, hacc2⟩ := ih j1 hinv1 (by omega)
      refine ⟨j2, ?_, hinv2, hc2, by rw [hacc2, hacc1]⟩
      rw [hemit]
      exact hfl
    · rw [if_neg hpos]
      exact ⟨j, rfl, hinv, by omega, rfl⟩

/-- A buffer under the invariant whose `count` is 0 has every slot empty, and
has delivered exactly the packets it accepted. -/
theorem JitterBuffer.Inv_drained {α : Type} (j : JitterBuffer α) (hinv : j.Inv)
    (h0 : j.count = 0) :
    j.occupied = 0 ∧ (∀ i, j.queue i = none) ∧ j.delivered.Perm j.accepted := by
  obtain ⟨hcount, _, hacc, hout, _, _⟩ := hinv
  have hocc : j.occupied = 0 := by omega
  have hall : ∀ i, j.queue i = none := by
    intro i
    by_cases hi : i < 65536
    · exact JitterBuffer.occupied_zero j hocc i hi
    · exact hout i (by omega)
  refine ⟨hocc, hall, ?_⟩
  have hst : JitterBuffer.stored j.queue = 0 := by
    unfold JitterBuffer.stored
    apply Finset.sum_eq_zero
    intro i _
    rw [hall i]
    rfl
  rw [hst, add_zero] at hacc
  exact (Multiset.coe_eq_coe.mp hacc).symm

/-! ## The jitter buffer: pushes followed by `Flush` -/

/-- C28. On a fresh buffer, after every prefix of a sequence of calls of `Push`
(each of which returns, so every `emit` it makes ends) `count` is the number of
occupied slots, and a further `Push` to an occupied slot changes neither the
packet in the slot nor `count`; the `Flush` that follows returns once it is
given as many rounds as `count`, and leaves `count` at 0, every slot empty, and
the packets passed to `onPacket` a rearrangement of the packets accepted by
`Push`: each accepted packet was delivered exactly once. -/
theorem JitterBuffer.push_flush_invariants {α : Type} (pushes : List (Nat × α))
    (hseq : ∀ x ∈ pushes, x.1 < 65536) :
    (∀ pre post, pushes = pre ++ post →
      ∃ j, JitterBuffer.pushAll pre NewJitterBuffer = some j ∧ j.count = (j.occupied : Int) ∧
        ∀ seq packet, seq < 65536 → j.queue seq ≠ none →
          ∃ j', j.Push seq packet = some j' ∧ j'.queue seq = j.queue seq ∧
            j'.count = j.count ∧ j'.count = (j'.occupied : Int)) ∧
      ∃ j, JitterBuffer.pushAll pushes NewJitterBuffer = some j ∧
        ∀ fuel, j.count.toNat ≤ fuel →
          ∃ j', j.Flush fuel = some j' ∧ j'.count = 0 ∧ j'.occupied = 0 ∧
            (∀ i, j'.queue i = none) ∧ j'.accepted = j.accepted ∧
            j'.delivered.Perm j'.accepted := by
  have hnew : (NewJitterBuffer : JitterBuffer α).count ≤ 50 := by
    show (0 : Int) ≤ 50
    omega
  constructor
  · intro pre post hsplit
    obtain ⟨j, hj, hinv, hc⟩ := JitterBuffer.pushAll_inv pre NewJitterBuffer
      JitterBuffer.Inv_new hnew (fun x hx => hseq x (by rw [hsplit]; exact List.mem_append_left _ hx))
    refine ⟨j, hj, hinv.1, ?_⟩
    intro seq packet hs hq
    obtain ⟨j', hp, hinv', _, hsame⟩ := JitterBuffer.Push_inv j seq packet hinv hc hs
    exact ⟨j', hp, (hsame hq).1, (hsame hq).2, hinv'.1⟩
  · obtain ⟨j, hj, hinv, _⟩ := JitterBuffer.pushAll_inv pushes NewJitterBuffer
      JitterBuffer.Inv_new hnew hseq
    refine ⟨j, hj, ?_⟩
    intro fuel hf
    obtain ⟨j', hfl, hinv', h0, hacc⟩ := JitterBuffer.Flush_inv fuel j hinv hf
    obtain ⟨hocc, hall, hperm⟩ := JitterBuffer.Inv_drained j' hinv' h0
    exact ⟨j', hfl, h0, hocc, hall, hacc, hperm⟩

/-- C28 at the pushes of the sequence numbers 7, 3 and again 7. -/
theorem JitterBuffer.push_flush_invariants_witness :
    (∀ x ∈ [(7, 'a'), (3, 'b'), (7, 'c')], x.1 < 65536) ∧
      ((∀ pre post, [(7, 'a'), (3, 'b'), (7, 'c')] = pre ++ post →
        ∃ j, JitterBuffer.pushAll pre NewJitterBuffer = some j ∧ j.count = (j.occupied : Int) ∧
          ∀ seq packet, seq < 65536 → j.queue seq ≠ none →
            ∃ j', j.Push seq packet = some j' ∧ j'.queue seq = j.queue seq ∧
              j'.count = j.count ∧ j'.count = (j'.occupied : Int)) ∧
        ∃ j, JitterBuffer.pushAll [(7, 'a'), (3, 'b'), (7, 'c')] NewJitterBuffer = some j ∧
          ∀ fuel, j.count.toNat ≤ fuel →
            ∃ j', j.Flush fuel = some j' ∧ j'.count = 0 ∧ j'.occupied = 0 ∧
              (∀ i, j'.queue i = none) ∧ j'.accepted = j.accepted ∧
              j'.delivered.Perm j'.accepted) :=
  ⟨by decide, JitterBuffer.push_flush_invariants [(7, 'a'), (3, 'b'), (7, 'c')] (by decide)⟩

/-! ## The jitter buffer: at most 50 packets -/

/-- A packet for an empty slot of a buffer that made no `emit` yet is stored by
`Push` without a call of `emit`, as long as `count` stays at or below 50. -/
theorem JitterBuffer.Push_filled {α : Type} (j : JitterBuffer α) (acc : List (Nat × α))
    (seq : Nat) (packet : α) (hfill : j.Filled acc) (hlen : acc.length + 1 ≤ 50)
    (hnew : ∀ x ∈ acc, x.1 ≠ seq) :
    ∃ j', j.Push seq packet = some j' ∧ j'.Filled (acc ++ [(seq, packet)]) := by
  obtain ⟨hfirst, hcount, hstart, hdel, hemit, hq, hrange⟩ := hfill
  have hnone : j.queue seq = none := by
    cases hqs : j.queue seq with
    | none => rfl
    | some p => exact absurd rfl (hnew _ ((hq seq p).mp hqs))
  have hst : j.store seq packet =
      { j with
        queue := Function.update j.queue seq (some packet)
        count := j.count + 1
        accepted := j.accepted ++ [packet]
        minSeqNum := min (if j.count = 0 then seq else j.minSeqNum) seq
        maxSeqNum := max (if j.count = 0 then seq else j.maxSeqNum) seq } := by
    by_cases hc : j.count = 0 <;> simp [JitterBuffer.store, hc, hnone]
  unfold JitterBuffer.Push
  simp only
  rw [hst]
  simp only
  rw [if_neg (by omega)]
  refine ⟨_, rfl, hfirst, ?_, hstart, hdel, hemit, ?_, ?_⟩
  · simp only [List.length_append, List.length_singleton]
    push_cast
    omega
  · intro s p
    simp only [List.mem_append, List.mem_singleton, Prod.mk.injEq]
    by_cases hs : s = seq
    · subst hs
      rw [Function.update_same]
      constructor
      · intro h
        exact Or.inr ⟨rfl, (Option.some.inj h).symm⟩
      · rintro (h | ⟨_, h⟩)
        · exact absurd rfl (hnew _ h)
        · rw [h]
    · rw [Function.update_noteq hs, hq s p]
      constructor
      · exact fun h => Or.inl h
      · rintro (h | ⟨h, _⟩)
        · exact h
        · exact absurd h hs
  · intro x hx
    simp only
    rw [List.mem_append, List.mem_singleton] at hx
    rcases hx with hx | hx
    · have hne : j.count ≠ 0 := by
        have : 0 < acc.length := List.length_pos_of_mem hx
        omega
      rw [if_neg hne, if_neg hne]
      have := hrange x hx
      omega
    · subst hx
      simp only
      omega

/-- At most 50 packets with pairwise distinct sequence numbers are all stored,
and no `Push` of them calls `emit`. -/
theorem JitterBuffer.pushAll_filled {α : Type} :
    ∀ (pushes acc : List (Nat × α)) (j : JitterBuffer α), j.Filled acc →
      acc.length + pushes.length ≤ 50 → ((acc ++ pushes).map Prod.fst).Nodup →
      ∃ j', JitterBuffer.pushAll pushes j = some j' ∧ j'.Filled (acc ++ pushes) := by
  intro pushes
  induction pushes with
  | nil =>
    intro acc j hfill _ _
    exact ⟨j, rfl, by rw [List.append_nil]; exact hfill⟩
  | cons x rest ih =>
    intro acc j hfill hlen hnd
    rw [List.length_cons] at hlen
    have hnew : ∀ y ∈ acc, y.1 ≠ x.1 := by
      intro y hy heq
      rw [List.map_append, List.map_cons] at hnd
      have hdis := (List.nodup_append.mp hnd).2.2
      exact hdis (List.mem_map_of_mem Prod.fst hy) (by rw [heq]; exact List.mem_cons_self _ _)
    obtain ⟨j1, hp, hfill1⟩ := JitterBuffer.Push_filled j acc x.1 x.2 hfill (by omega) hnew
    have happ : acc ++ [(x.1, x.2)] ++ rest = acc ++ x :: rest := by simp
    obtain ⟨j2, hr, hfill2⟩ := ih (acc ++ [(x.1, x.2)]) j1 hfill1
      (by simp only [List.length_append, List.length_singleton]; omega)
      (by rw [happ]; exact hnd)
    refine ⟨j2, ?_, by rw [← happ]; exact hfill2⟩
    unfold JitterBuffer.pushAll
    rw [hp]
    exact hr

/-- While the buffer is drained, `emit` delivers the packet with the lowest
sequence number and leaves the other packets to be drained. -/
theorem JitterBuffer.emit_draining {α : Type} (j : JitterBuffer α) (s0 : Nat) (p0 : α)
    (rest : List (Nat × α)) (hd : j.Draining ((s0, p0) :: rest)) :
    ∃ j', j.emit = some j' ∧ j'.Draining rest ∧ j'.delivered = j.delivered ++ [p0] := by
  obtain ⟨hsorted, hq, hcount, hmax, hmin, hnext⟩ := hd
  have hrest : ∀ x ∈ rest, s0 < x.1 := (List.pairwise_cons.mp hsorted).1
  have hs0 := hmax (s0, p0) (List.mem_cons_self _ _)
  have hm0 := hmin (s0, p0) (List.mem_cons_self _ _)
  simp only at hs0 hm0
  have hq0 : j.queue s0 = some p0 := (hq s0 p0).mpr (List.mem_cons_self _ _)
  have hbelow : ∀ i, i < s0 → j.queue i = none := by
    intro i hi
    cases hqi : j.queue i with
    | none => rfl
    | some p =>
      rcases List.mem_cons.mp ((hq i p).mp hqi) with h | h
      · have := (Prod.mk.inj h).1
        omega
      · have := hrest _ h
        simp only at this
        omega
  have hstart : (if (if j.first then j.minSeqNum else j.nextSeqNum) > j.maxSeqNum
      then j.minSeqNum else (if j.first then j.minSeqNum else j.nextSeqNum)) ≤ s0 := by
    cases hf : j.first with
    | true =>
      simp only [if_true]
      split_ifs <;> omega
    | false =>
      have := hnext hf (s0, p0) (List.mem_cons_self _ _)
      simp only at this
      simp only [Bool.false_eq_true, if_false]
      split_ifs <;> omega
  have hscan := JitterBuffer.scan_first j.queue s0 p0 hs0.2 hq0 65536 _ hstart
    (fun i _ hi => hbelow i hi) (by omega)
  unfold JitterBuffer.emit
  simp only [hscan]
  refine ⟨_, rfl, ⟨(List.pairwise_cons.mp hsorted).2, ?_, ?_, ?_, ?_, ?_⟩, rfl⟩
  · intro s p
    simp only
    by_cases hs : s = s0
    · subst hs
      rw [Function.update_same]
      constructor
      · intro h
        exact absurd h (by simp)
      · intro h
        have := hrest _ h
        simp only at this
        omega
    · rw [Function.update_noteq hs, hq s p, List.mem_cons]
      constructor
      · rintro (h | h)
        · exact absurd (Prod.mk.inj h).1 hs
        · exact h
      · exact fun h => Or.inr h
  · simp only
    rw [hcount, List.length_cons]
    push_cast
    omega
  · intro x hx
    exact hmax x (List.mem_cons_of_mem _ hx)
  · intro x hx
    have h1 := hrest x hx
    have h2 := hmax x (List.mem_cons_of_mem _ hx)
    simp only
    omega
  · intro _ x hx
    have h1 := hrest x hx
    have h2 := hmax x (List.mem_cons_of_mem _ hx)
    simp only
    omega

/-- With as many rounds as packets, `Flush` returns and delivers the packets of
a drained buffer in the order of their sequence numbers. -/
theorem JitterBuffer.Flush_draining {α : Type} :
    ∀ (l : List (Nat × α)) (fuel : Nat) (j : JitterBuffer α), j.Draining l →
      l.length ≤ fuel →
      ∃ j', j.Flush fuel = some j' ∧ j'.delivered = j.delivered ++ l.map Prod.snd ∧
        j'.count = 0 := by
  intro l
  induction l with
  | nil =>
    intro fuel j hd _
    have h0 : j.count = 0 := hd.2.2.1
    refine ⟨j, ?_, by simp, h0⟩
    cases fuel <;> (unfold JitterBuffer.Flush; rw [if_neg (by omega)])
  | cons x rest ih =>
    intro fuel j hd hf
    rw [List.length_cons] at hf
    have hc : j.count = ((x :: rest).length : Int) := hd.2.2.1
    rw [List.length_cons] at hc
    obtain ⟨j1, hemit, hd1, hdel1⟩ := JitterBuffer.emit_draining j x.1 x.2 rest hd
    cases fuel with
    | zero => omega
    | succ fuel =>
      obtain ⟨j2, hfl, hdel2, h0⟩ := ih fuel j1 hd1 (by omega)
      refine ⟨j2, ?_, ?_, h0⟩
      · unfold JitterBuffer.Flush
        rw [if_pos (by omega), hemit]
        exact hfl
      · rw [hdel2, hdel1]
        simp

/-- Packets with pairwise distinct sequence numbers can be arranged in strictly
increasing order of their sequence numbers. -/
theorem JitterBuffer.exists_increasing {α : Type} (pushes : List (Nat × α))
    (hnd : (pushes.map Prod.fst).Nodup) :
    ∃ l : List (Nat × α), l.Perm pushes ∧ l.Pairwise (fun a b => a.1 < b.1) := by
  haveI : IsTotal (Nat × α) (fun a b => a.1 ≤ b.1) := ⟨fun a b => Nat.le_total a.1 b.1⟩
  haveI : IsTrans (Nat × α) (fun a b => a.1 ≤ b.1) := ⟨fun _ _ _ h1 h2 => Nat.le_trans h1 h2⟩
  refine ⟨pushes.insertionSort (fun a b => a.1 ≤ b.1), List.perm_insertionSort _ _, ?_⟩
  have hsorted : (pushes.insertionSort (fun a b => a.1 ≤ b.1)).Pairwise
      (fun a b => a.1 ≤ b.1) := List.sorted_insertionSort _ _
  have hnd2 : ((pushes.insertionSort (fun a b => a.1 ≤ b.1)).map Prod.fst).Nodup :=
    ((List.perm_insertionSort _ _).map Prod.fst).nodup_iff.mpr hnd
  have hne : (pushes.insertionSort (fun a b => a.1 ≤ b.1)).Pairwise
      (fun a b => a.1 ≠ b.1) := by
    unfold List.Nodup at hnd2
    rw [List.pairwise_map] at hnd2
    exact hnd2
  exact (hsorted.and hne).imp (fun h => lt_of_le_of_ne h.1 h.2)

/-! ## The jitter buffer: the order of delivery -/

/-- C29. On a fresh buffer, at most 50 pushes with pairwise distinct sequence
numbers all return without a call of `emit` and without a delivery; the `Flush`
that follows returns once it is given as many rounds as packets, and the
packets it passes to `onPacket` are, in this order, the pushed packets arranged
by strictly increasing sequence number. -/
theorem JitterBuffer.flush_in_order {α : Type} (pushes : List (Nat × α))
    (hlen : pushes.length ≤ 50) (hnd : (pushes.map Prod.fst).Nodup)
    (hseq : ∀ x ∈ pushes, x.1 < 65536) :
    ∃ j, JitterBuffer.pushAll pushes NewJitterBuffer = some j ∧ j.emitCalls = 0 ∧
      j.delivered = [] ∧
      ∃ l : List (Nat × α), l.Perm pushes ∧ l.Pairwise (fun a b => a.1 < b.1) ∧
        ∀ fuel, pushes.length ≤ fuel →
          ∃ j', j.Flush fuel = some j' ∧ j'.delivered = l.map Prod.snd ∧ j'.count = 0 := by
  have hfresh : (NewJitterBuffer : JitterBuffer α).Filled [] := by
    refine ⟨rfl, rfl, rfl, rfl, rfl, ?_, ?_⟩
    · intro s p
      constructor
      · intro h
        exact absurd h (by simp [NewJitterBuffer])
      · intro h
        exact absurd h (List.not_mem_nil _)
    · intro x hx
      exact absurd hx (List.not_mem_nil _)
  obtain ⟨j, hj, hfill⟩ := JitterBuffer.pushAll_filled pushes [] NewJitterBuffer hfresh
    (by simp only [List.length_nil]; omega) (by rw [List.nil_append]; exact hnd)
  rw [List.nil_append] at hfill
  obtain ⟨hfirst, hcount, _, hdel, hemit, hq, hrange⟩ := hfill
  obtain ⟨l, hperm, hsorted⟩ := JitterBuffer.exists_increasing pushes hnd
  refine ⟨j, hj, hemit, hdel, l, hperm, hsorted, ?_⟩
  have hdr : j.Draining l := by
    refine ⟨hsorted, ?_, ?_, ?_, ?_, ?_⟩
    · intro s p
      rw [hq s p]
      exact (hperm.mem_iff).symm
    · rw [hcount, hperm.length_eq]
    · intro x hx
      have hx' := hperm.mem_iff.mp hx
      exact ⟨(hrange x hx').2, hseq x hx'⟩
    · intro x hx
      exact (hrange x (hperm.mem_iff.mp hx)).1
    · intro hf
      rw [hfirst] at hf
      exact absurd hf (by decide)
  intro fuel hf
  obtain ⟨j', hfl, hd', h0⟩ := JitterBuffer.Flush_draining l fuel j hdr
    (by rw [hperm.length_eq]; exact hf)
  refine ⟨j', hfl, ?_, h0⟩
  rw [hd', hdel, List.nil_append]

/-- C29 at the pushes of the sequence numbers 7, 3 and 5. -/
theorem JitterBuffer.flush_in_order_witness :
    [(7, 'a'), (3, 'b'), (5, 'c')].length ≤ 50 ∧
      ([(7, 'a'), (3, 'b'), (5, 'c')].map Prod.fst).Nodup ∧
      (∀ x ∈ [(7, 'a'), (3, 'b'), (5, 'c')], x.1 < 65536) ∧
      ∃ j, JitterBuffer.pushAll [(7, 'a'), (3, 'b'), (5, 'c')] NewJitterBuffer = some j ∧
        j.emitCalls = 0 ∧ j.delivered = [] ∧
        ∃ l : List (Nat × Char), l.Perm [(7, 'a'), (3, 'b'), (5, 'c')] ∧
          l.Pairwise (fun a b => a.1 < b.1) ∧
          ∀ fuel, [(7, 'a'), (3, 'b'), (5, 'c')].length ≤ fuel →
            ∃ j', j.Flush fuel = some j' ∧ j'.delivered = l.map Prod.snd ∧ j'.count = 0 :=
  ⟨by decide, by decide, by decide,
    JitterBuffer.flush_in_order [(7, 'a'), (3, 'b'), (5, 'c')] (by decide) (by decide)
      (by decide)⟩

/-! ## The legacy RTMP transmuxer: the bytes written and the slot -/

/-- Without data left the loop of the legacy `Input` ends at once. -/
theorem Rtmp.TransStream.writeChunks_done (chunkSize : Int) (fuel : Nat) (first : Bool)
    (length n : Int) (h : length ≤ 0) :
    Rtmp.TransStream.writeChunks chunkSize fuel first length n = some n := by
  cases fuel <;> (unfold Rtmp.TransStream.writeChunks; rw [if_neg (by omega)])

/-- After the first chunk the loop of the legacy `Input` writes the data left
and one byte between successive chunks of `chunkSize` bytes. -/
theorem Rtmp.TransStream.writeChunks_later (chunkSize : Int) (hc : 0 < chunkSize) :
    ∀ (fuel : Nat) (length n : Int), 0 < length → length.toNat ≤ fuel →
      Rtmp.TransStream.writeChunks chunkSize fuel false length n =
        some (n + length + (length - 1) / chunkSize) := by
  intro fuel
  induction fuel with
  | zero =>
    intro length n hpos hf
    omega
  | succ fuel ih =>
    intro length n hpos hf
    unfold Rtmp.TransStream.writeChunks
    rw [if_pos hpos]
    simp only [Bool.false_eq_true, if_false]
    by_cases hle : length ≤ chunkSize
    · rw [min_eq_left hle]
      have hz : (length - 1) / chunkSize = 0 := Int.ediv_eq_zero_of_lt (by omega) (by omega)
      rw [hz, Rtmp.TransStream.writeChunks_done _ _ _ _ _ (by omega)]
      simp
    · have hlt : chunkSize < length := by omega
      rw [min_eq_right (le_of_lt hlt), if_pos (by omega),
        ih (length - chunkSize) (n + chunkSize + 1) (by omega) (by omega)]
      have hd : (length - chunkSize - 1) / chunkSize = (length - 1) / chunkSize - 1 := by
        have h := Int.add_mul_ediv_right (length - 1) (-1) (ne_of_gt hc)
        have he : length - 1 + -1 * chunkSize = length - chunkSize - 1 := by ring
        rw [he] at h
        rw [h]
        ring
      rw [hd]
      congr 1
      ring

/-- For a video packet the bytes written by the legacy `Input` fit the slot
allocated for them. -/
theorem Rtmp.TransStream.video_fits (chunkSize length : Int) (fuel : Nat)
    (hc : 5 < chunkSize) (hl : 0 ≤ length) (hf : length.toNat ≤ fuel) :
    ∃ n, Rtmp.TransStream.written chunkSize true length fuel = some n ∧
      n ≤ Rtmp.TransStream.allocateSize chunkSize
        (Rtmp.TransStream.payloadSize true length) := by
  unfold Rtmp.TransStream.written Rtmp.TransStream.allocateSize Rtmp.TransStream.payloadSize
  simp only [if_true]
  rw [Int.tdiv_eq_ediv (by omega) (by omega)]
  have hdiv : 0 ≤ (5 + length) / chunkSize := Int.ediv_nonneg (by omega) (by omega)
  by_cases hpos : 0 < length
  · cases fuel with
    | zero => omega
    | succ fuel =>
      unfold Rtmp.TransStream.writeChunks
      rw [if_pos hpos]
      simp only [if_true]
      by_cases hle : length ≤ chunkSize - 5
      · rw [min_eq_left hle, Rtmp.TransStream.writeChunks_done _ _ _ _ _ (by omega)]
        refine ⟨_, rfl, ?_⟩
        simp only [sub_self, lt_self_iff_false, if_false]
        omega
      · have hlt : chunkSize - 5 < length := by omega
        rw [min_eq_right (le_of_lt hlt), if_pos (by omega),
          Rtmp.TransStream.writeChunks_later chunkSize (by omega) fuel _ _ (by omega) (by omega)]
        refine ⟨_, rfl, ?_⟩
        have hd : (length - (chunkSize - 5) - 1) / chunkSize = (length + 4) / chunkSize - 1 := by
          have h := Int.add_mul_ediv_right (length + 4) (-1) (ne_of_gt (by omega : 0 < chunkSize))
          have he : length + 4 + -1 * chunkSize = length - (chunkSize - 5) - 1 := by ring
          rw [he] at h
          rw [h]
          ring
        have hmono : (length + 4) / chunkSize ≤ (5 + length) / chunkSize :=
          Int.ediv_le_ediv (by omega) (by omega)
        rw [hd]
        omega
  · rw [Rtmp.TransStream.writeChunks_done _ _ _ _ _ (by omega)]
    exact ⟨_, rfl, by omega⟩

/-- C30 (the defect, evaluated). For an audio packet of 125 bytes and a chunk
size of 128 the legacy `Input` allocates 12 + 127 + 0 = 139 bytes; its first
chunk takes 128 - 5 = 123 bytes of the data, so that a byte of chunk type 3 and
two more bytes follow, and the bytes written number 140. -/
theorem Rtmp.TransStream.audio_exceeds_slot :
    Rtmp.TransStream.allocateSize 128 (Rtmp.TransStream.payloadSize false 125) = 139 ∧
      Rtmp.TransStream.written 128 false 125 125 = some 140 ∧
      12 + 2 + 125 + 1 = (140 : Int) := by
  refine ⟨by decide, by rfl, by decide⟩

end Lkm
